import Mathlib

/-!
Weather-app-Maker-Lab: sensor API and analytics

A shallow embedding of

* `backend/config/config.js`, `backend/middleware/auth.js`,
  `backend/models/SenseHatData.js`, `backend/routes/senseHat.js` and the error
  handler of `backend/server.js` (the REST API over the readings store), and
* `src/utils/weatherAnalytics.js` (trend, pressure, humidity, correlation and
  anomaly analysis),

followed by theorems about them.

Numbers.  JavaScript numbers are modelled by `JsNum`: a rational, the two
infinities, or NaN.  Arithmetic follows IEEE-754 for the non-finite cases
(`0/0 = NaN`, `x/0 = ±Infinity`, `Infinity - Infinity = NaN`, comparisons with
NaN are false).

The analytics are embedded twice.  In `Binary64` every number is a double: a
value read from the data is rounded to the nearest double (ties to even,
overflow to an infinity, subnormal numbers included), and every `+`, `-`, `*`,
`/` and `Math.sqrt` is rounded likewise; `Math.pow(x, 2)` is taken as the
rounded product `x * x`, `toFixed` rounds the exact value of the double half
up, and the sign of zero is not modelled.  The theorems about the numbers the
analytics compute are stated on this embedding.  Outside `Binary64` the same
functions are embedded in exact arithmetic: finite results are not rounded,
and a result of `Math.sqrt` is kept as its radicand (`JsSqrt`, `JsSurd`) and
compared or rounded exactly.  That embedding carries the theorems about
guards, case tables and pairing, and the least-squares reference the double
computation is compared with.

The store.  The MongoDB collection is a list of documents in insertion order;
the clock and the generated document id are supplied by the environment.  The
`$group` stage of the statistics pipeline folds the matching documents into
one set of accumulators per device.
-/

namespace WeatherLab

/-! ## JavaScript numbers -/

/-- A JavaScript number: finite (exact rational), `Infinity`, `-Infinity` or `NaN`. -/
inductive JsNum where
  | fin (q : ℚ)
  | posInf
  | negInf
  | nan
  deriving DecidableEq, Repr

namespace JsNum

instance : Coe ℚ JsNum := ⟨JsNum.fin⟩

instance : Inhabited JsNum := ⟨JsNum.fin 0⟩

/-- Unary minus. -/
def neg : JsNum → JsNum
  | fin q => fin (-q)
  | posInf => negInf
  | negInf => posInf
  | nan => nan

/-- Addition (`+` on numbers). -/
def add : JsNum → JsNum → JsNum
  | fin a, fin b => fin (a + b)
  | nan, _ => nan
  | _, nan => nan
  | posInf, negInf => nan
  | negInf, posInf => nan
  | posInf, _ => posInf
  | negInf, _ => negInf
  | fin _, posInf => posInf
  | fin _, negInf => negInf

/-- Subtraction. -/
def sub (x y : JsNum) : JsNum := add x (neg y)

/-- An infinity of the given sign (`true` is positive). -/
def infOf (positive : Bool) : JsNum := if positive then posInf else negInf

/-- Multiplication: `0 * Infinity = NaN`. -/
def mul : JsNum → JsNum → JsNum
  | fin a, fin b => fin (a * b)
  | nan, _ => nan
  | _, nan => nan
  | posInf, posInf => posInf
  | negInf, negInf => posInf
  | posInf, negInf => negInf
  | negInf, posInf => negInf
  | posInf, fin b => if b = 0 then nan else infOf (decide (0 < b))
  | negInf, fin b => if b = 0 then nan else infOf (decide (b < 0))
  | fin a, posInf => if a = 0 then nan else infOf (decide (0 < a))
  | fin a, negInf => if a = 0 then nan else infOf (decide (a < 0))

/-- Division: `0/0 = NaN`, `x/0 = ±Infinity`, `Infinity/Infinity = NaN`. -/
def div : JsNum → JsNum → JsNum
  | fin a, fin b =>
      if b = 0 then (if a = 0 then nan else infOf (decide (0 < a))) else fin (a / b)
  | nan, _ => nan
  | _, nan => nan
  | fin _, posInf => fin 0
  | fin _, negInf => fin 0
  | posInf, fin b => infOf (decide (0 ≤ b))
  | negInf, fin b => infOf (decide (b < 0))
  | _, _ => nan

instance : Neg JsNum := ⟨neg⟩
instance : Add JsNum := ⟨add⟩
instance : Sub JsNum := ⟨sub⟩
instance : Mul JsNum := ⟨mul⟩
instance : Div JsNum := ⟨div⟩

/-- The relational operator `<`; false whenever an operand is NaN. -/
def lt : JsNum → JsNum → Bool
  | fin a, fin b => decide (a < b)
  | nan, _ => false
  | _, nan => false
  | posInf, _ => false
  | _, negInf => false
  | negInf, _ => true
  | fin _, posInf => true

/-- The relational operator `>`. -/
def gt (x y : JsNum) : Bool := lt y x

/-- `Math.abs`. -/
def abs : JsNum → JsNum
  | fin q => fin |q|
  | posInf => posInf
  | negInf => posInf
  | nan => nan

/-- `Math.min` of two arguments: NaN when either is NaN. -/
def min : JsNum → JsNum → JsNum
  | nan, _ => nan
  | _, nan => nan
  | x, y => if lt y x then y else x

/-- `Math.max` of two arguments: NaN when either is NaN. -/
def max : JsNum → JsNum → JsNum
  | nan, _ => nan
  | _, nan => nan
  | x, y => if lt x y then y else x

/-- `Math.pow(x, 2)`. -/
def sq (x : JsNum) : JsNum := mul x x

/-- `Math.ceil`. -/
def ceil : JsNum → JsNum
  | fin q => fin (⌈q⌉ : ℤ)
  | x => x

/-- Truthiness of a number: `0` and `NaN` are falsy. -/
def truthy : JsNum → Bool
  | fin q => decide (q ≠ 0)
  | nan => false
  | _ => true

/-- Rounds a non-negative rational to the nearest multiple of `10^-digits`,
ties to the larger. -/
def roundHalfUp (digits : Nat) (q : ℚ) : ℚ :=
  (⌊q * 10 ^ digits + 1 / 2⌋ : ℤ) / 10 ^ digits

/-- The number denoted by the string `x.toFixed(digits)`: the sign is split
off and the magnitude rounded to `digits` decimals, ties away from zero;
`NaN` and the infinities render as themselves. -/
def toFixed (digits : Nat) : JsNum → JsNum
  | fin q => if q < 0 then fin (-(roundHalfUp digits (-q))) else fin (roundHalfUp digits q)
  | x => x

end JsNum

/-! ## Backend: configuration and access guard -/

/-- The exported object of `config/config.js` (the fields the API uses). -/
structure Config where
  apiKey : String
  environment : String
  deriving DecidableEq, Repr

/-- The operator `||` on an optional string: the right operand replaces an
absent or empty left operand. -/
def orElseStr (x : Option String) (dflt : String) : String :=
  match x with
  | some s => if s = "" then dflt else s
  | none => dflt

/-- Builds the configuration of `config/config.js` from the two environment
variables `API_KEY` and `NODE_ENV`. -/
def loadConfig (envApiKey envNodeEnv : Option String) : Config :=
  { apiKey := orElseStr envApiKey "default_api_key_please_change"
    environment := orElseStr envNodeEnv "development" }

/-- The category, message and optional details of an error response, or a
data payload. -/
inductive Body (α : Type) where
  | error (error : String) (message : String) (details : Option (List String))
  | data (value : α)
  deriving DecidableEq, Repr

/-- An HTTP response: status code and JSON body. -/
structure Response (α : Type) where
  status : Nat
  body : Body α
  deriving DecidableEq, Repr

/-- What a middleware does with a request: hand over to the next handler
(one call of `next`, nothing written) or write a response (no call of `next`). -/
inductive Guard where
  | next
  | respond (status : Nat) (error : String) (message : String)
  deriving DecidableEq, Repr

/-- Middleware `apiKeyAuth` of `middleware/auth.js`; `apiKey` is the value
of `req.header('X-API-Key')`, absent when the header is not sent. -/
def apiKeyAuth (config : Config) (method : String) (apiKey : Option String) : Guard :=
  if config.environment = "development" ∧ method = "GET" then
    Guard.next
  else
    match apiKey with
    | none => Guard.respond 401 "Authentication failed" "No API key provided"
    | some key =>
      if key = "" then
        Guard.respond 401 "Authentication failed" "No API key provided"
      else if key ≠ config.apiKey then
        Guard.respond 403 "Authentication failed" "Invalid API key"
      else
        Guard.next

/-! ## Backend: the reading model -/

/-- The `device` sub-document of a stored reading. -/
structure Device where
  id : String
  name : String
  location : String
  deriving DecidableEq, Repr

/-- A stored reading (a document of the `SenseHatData` collection);
timestamps are milliseconds since the epoch. -/
structure Reading where
  _id : Nat
  temperature : ℚ
  humidity : ℚ
  pressure : ℚ
  timestamp : Int
  device : Device
  createdAt : Int
  updatedAt : Int
  deriving DecidableEq, Repr

/-- The collection, in insertion order. -/
abbrev Store := List Reading

/-- The argument of `new SenseHatData(...)` as the route builds it. -/
structure Candidate where
  temperature : ℚ
  humidity : ℚ
  pressure : ℚ
  device : Device
  deriving DecidableEq, Repr

/-- A JavaScript error object as the error handler inspects it: `errors`
holds the messages of the field errors of a validation error. -/
structure JsError where
  name : String
  message : String
  code : Option Nat := none
  status : Option Nat := none
  errors : List String := []
  deriving DecidableEq, Repr

/-- The schema validators `min`/`max` of a numeric path: the message of the
violated bound, if any. The text stands for the message of the validation
library, which also quotes the offending value. -/
def checkRange (path : String) (lo hi : Int) (v : ℚ) : List String :=
  if v < lo then
    ["Path " ++ path ++ " is less than minimum allowed value (" ++ toString lo ++ ")."]
  else if (hi : ℚ) < v then
    ["Path " ++ path ++ " is more than maximum allowed value (" ++ toString hi ++ ")."]
  else []

/-- The schema validator `required: true` of the string path `device.id`. -/
def checkRequiredString (path : String) (v : String) : List String :=
  if v = "" then ["Path " ++ path ++ " is required."] else []

/-- Field errors of `senseHatDataSchema` for a candidate document, in schema
order: temperature in [-40, 120], humidity in [0, 100], pressure in
[300, 1100], `device.id` required. -/
def validate (doc : Candidate) : List String :=
  checkRange "temperature" (-40) 120 doc.temperature ++
  checkRange "humidity" 0 100 doc.humidity ++
  checkRange "pressure" 300 1100 doc.pressure ++
  checkRequiredString "device.id" doc.device.id

/-- The hook `senseHatDataSchema.pre('save', ...)`: the first range that is
violated gives the error passed to `next`. -/
def preSave (doc : Candidate) : Except JsError Unit :=
  if doc.temperature < -40 ∨ doc.temperature > 120 then
    .error { name := "Error", message := "Temperature reading out of reasonable range" }
  else if doc.humidity < 0 ∨ doc.humidity > 100 then
    .error { name := "Error", message := "Humidity reading out of reasonable range" }
  else if doc.pressure < 300 ∨ doc.pressure > 1100 then
    .error { name := "Error", message := "Pressure reading out of reasonable range" }
  else
    .ok ()

/-- What the environment supplies to a request: the clock (`Date.now()`) and
the id generated for a new document. -/
structure Env where
  now : Int
  newId : Nat
  deriving DecidableEq, Repr

/-- The method `save()` of a new document: schema validation first, then the
`pre('save')` hook, then the insert; `timestamp` defaults to `Date.now` and
the `timestamps` option records `createdAt` and `updatedAt`. -/
def save (env : Env) (doc : Candidate) (store : Store) : Except JsError (Reading × Store) :=
  match validate doc with
  | [] =>
    match preSave doc with
    | .error e => .error e
    | .ok () =>
      let saved : Reading :=
        { _id := env.newId
          temperature := doc.temperature
          humidity := doc.humidity
          pressure := doc.pressure
          timestamp := env.now
          device := doc.device
          createdAt := env.now
          updatedAt := env.now }
      .ok (saved, store ++ [saved])
  | errs =>
    .error { name := "ValidationError", message := "SenseHatData validation failed",
             errors := errs }

/-- The error-handling middleware of `server.js`. -/
def errorHandler {α : Type} (config : Config) (err : JsError) : Response α :=
  if err.name = "ValidationError" then
    { status := 400, body := .error "Validation Error" err.message (some err.errors) }
  else if err.code = some 11000 then
    { status := 409, body := .error "Conflict" "Duplicate entry found" none }
  else
    { status := (match err.status with
        | some s => if s = 0 then 500 else s
        | none => 500)
      body := .error "Internal Server Error"
        (if config.environment = "development" then err.message else "Something went wrong")
        none }

/-! ## Backend: routes -/

/-- The `device` object of a request body; a field is `none` when absent. -/
structure DevicePayload where
  id : Option String := none
  name : Option String := none
  location : Option String := none
  deriving DecidableEq, Repr

/-- The JSON body of `POST /api/data`: numeric fields and a device object,
each `none` when absent (or `null`). -/
structure Payload where
  temperature : Option ℚ := none
  humidity : Option ℚ := none
  pressure : Option ℚ := none
  device : Option DevicePayload := none
  deriving DecidableEq, Repr

/-- A number the operator `!` does not negate to true: present and non-zero. -/
def truthyNum : Option ℚ → Option ℚ
  | some v => if v = 0 then none else some v
  | none => none

/-- The value of `device?.id` when it is truthy: present and non-empty. -/
def truthyId : Option DevicePayload → Option (DevicePayload × String)
  | some d =>
    match d.id with
    | some i => if i = "" then none else some (d, i)
    | none => none
  | none => none

/-- Handler of `router.post('/data', apiKeyAuth, ...)`: the guard, the check
of the required fields, the construction of the document and `save()`; an
error thrown by `save()` goes to the error handler. -/
def postData (config : Config) (env : Env) (apiKey : Option String) (body : Payload)
    (store : Store) : Response Reading × Store :=
  match apiKeyAuth config "POST" apiKey with
  | .respond status error message => ({ status := status, body := .error error message none }, store)
  | .next =>
    match truthyNum body.temperature, truthyNum body.humidity, truthyNum body.pressure,
        truthyId body.device with
    | some temperature, some humidity, some pressure, some (device, id) =>
      let senseHatData : Candidate :=
        { temperature := temperature
          humidity := humidity
          pressure := pressure
          device :=
            { id := id
              name := orElseStr device.name "Raspberry Pi SenseHat"
              location := orElseStr device.location "Unknown" } }
      match save env senseHatData store with
      | .ok (savedData, store1) => ({ status := 201, body := .data savedData }, store1)
      | .error err => (errorHandler config err, store)
    | _, _, _, _ =>
      ({ status := 400, body := .error "Bad Request" "Missing required fields" none }, store)

/-- The order of the sort `{ timestamp: -1 }`: `a` may come before `b`. -/
def newerFirst (a b : Reading) : Prop := b.timestamp ≤ a.timestamp

instance : DecidableRel newerFirst :=
  fun a b => inferInstanceAs (Decidable (b.timestamp ≤ a.timestamp))

/-- The sort `{ timestamp: -1 }`: newest first. -/
def sortByTimestampDesc (rs : List Reading) : List Reading :=
  rs.insertionSort newerFirst

instance : IsTotal Reading newerFirst := ⟨fun a b => le_total b.timestamp a.timestamp⟩

instance : IsTrans Reading newerFirst := ⟨fun _ _ _ hab hbc => le_trans hbc hab⟩

/-- Handler of `router.get('/data', ...)`: the newest reading or 404. -/
def getData (store : Store) : Response Reading × Store :=
  match (sortByTimestampDesc store).head? with
  | none => ({ status := 404, body := .error "Not Found" "No sensor data available" none }, store)
  | some data => ({ status := 200, body := .data data }, store)

/-- The query string of `GET /api/data/history`; a parameter is `none` when
absent. Numeric parameters are integers. -/
structure HistoryQuery where
  hours : Option Int := none
  limit : Option Int := none
  page : Option Int := none
  deviceId : Option String := none
  deriving DecidableEq, Repr

/-- The `pagination` object of a history response. -/
structure Pagination where
  total : Nat
  page : Int
  pages : JsNum
  deriving DecidableEq, Repr

/-- The body of a history response. -/
structure HistoryPage where
  data : List Reading
  pagination : Pagination
  deriving DecidableEq, Repr

/-- The filter `{ timestamp: { $gte: since } }`, with `device.id` added when
`deviceId` is truthy (present and non-empty). -/
def matchesQuery (since : Int) (deviceId : Option String) (r : Reading) : Bool :=
  decide (since ≤ r.timestamp) &&
    (match deviceId with
     | some d => if d = "" then true else decide (r.device.id = d)
     | none => true)

/-- The cursor modifiers `.skip(k).limit(l)` of MongoDB on a result list: a
negative skip is rejected by the server, a limit of `0` is no limit and a
negative limit counts as its absolute value. -/
def skipLimit (k l : Int) (rs : List Reading) : Except JsError (List Reading) :=
  if k < 0 then
    .error { name := "MongoServerError", message := "Skip value must be non-negative",
             code := some 2 }
  else if l = 0 then
    .ok (rs.drop k.toNat)
  else
    .ok ((rs.drop k.toNat).take l.natAbs)

/-- Handler of `router.get('/data/history', ...)`. -/
def getHistory (config : Config) (env : Env) (q : HistoryQuery) (store : Store) :
    Response HistoryPage × Store :=
  let hours := q.hours.getD 24
  let limit := q.limit.getD 100
  let page := q.page.getD 1
  let since := env.now - hours * 60 * 60 * 1000
  let found := sortByTimestampDesc (store.filter (matchesQuery since q.deviceId))
  let total := (store.filter (matchesQuery since q.deviceId)).length
  match skipLimit ((page - 1) * limit) limit found with
  | .error err => (errorHandler config err, store)
  | .ok data =>
    ({ status := 200
       body := .data
         { data := data
           pagination :=
             { total := total
               page := page
               pages := JsNum.ceil (JsNum.div (JsNum.fin total) (JsNum.fin limit)) } } },
     store)

/-- The query string of a request to `GET /api/data`. The handler reads no
parameter of it. -/
structure LatestQuery where
  deviceId : Option String := none
  deriving DecidableEq, Repr

/-- Route `GET /api/data` on a request carrying a query string: the handler
calls `findOne()` with no filter, so the query is not consulted. -/
def getDataRequest (_query : LatestQuery) (store : Store) : Response Reading × Store :=
  getData store

/-- The query string of `GET /api/stats`; a parameter is `none` when absent. -/
structure StatsQuery where
  deviceId : Option String := none
  days : Option Int := none
  deriving DecidableEq, Repr

/-- The state of the accumulators of one group of the `$group` stage: the
`$first` values, the running sums behind the `$avg` fields, the running
`$min` and `$max`, and the count of `$sum: 1`. -/
structure GroupAcc where
  _id : String
  deviceName : String
  location : String
  sumTemperature : ℚ
  minTemperature : ℚ
  maxTemperature : ℚ
  sumHumidity : ℚ
  sumPressure : ℚ
  readingCount : Nat
  lastReading : Int
  deriving DecidableEq, Repr

/-- The accumulators of a group after its first document. -/
def GroupAcc.init (r : Reading) : GroupAcc :=
  { _id := r.device.id
    deviceName := r.device.name
    location := r.device.location
    sumTemperature := r.temperature
    minTemperature := r.temperature
    maxTemperature := r.temperature
    sumHumidity := r.humidity
    sumPressure := r.pressure
    readingCount := 1
    lastReading := r.timestamp }

/-- The accumulators of a group after one more document of the group. -/
def GroupAcc.step (g : GroupAcc) (r : Reading) : GroupAcc :=
  { g with
    sumTemperature := g.sumTemperature + r.temperature
    minTemperature := min g.minTemperature r.temperature
    maxTemperature := max g.maxTemperature r.temperature
    sumHumidity := g.sumHumidity + r.humidity
    sumPressure := g.sumPressure + r.pressure
    readingCount := g.readingCount + 1
    lastReading := max g.lastReading r.timestamp }

/-- One document entering the `$group` stage with `_id: '$device.id'`: it
updates the group of its device, or opens a new group. -/
def groupStep (groups : List GroupAcc) (r : Reading) : List GroupAcc :=
  if groups.any (fun g => decide (g._id = r.device.id)) then
    groups.map fun g => if g._id = r.device.id then g.step r else g
  else
    groups ++ [GroupAcc.init r]

/-- An element of the array `GET /api/stats` returns. -/
structure DeviceStats where
  _id : String
  deviceName : String
  location : String
  avgTemperature : ℚ
  minTemperature : ℚ
  maxTemperature : ℚ
  avgHumidity : ℚ
  avgPressure : ℚ
  readingCount : Nat
  lastReading : Int
  deriving DecidableEq, Repr

/-- The document a group yields: each `$avg` is its sum over the count. -/
def GroupAcc.result (g : GroupAcc) : DeviceStats :=
  { _id := g._id
    deviceName := g.deviceName
    location := g.location
    avgTemperature := g.sumTemperature / g.readingCount
    minTemperature := g.minTemperature
    maxTemperature := g.maxTemperature
    avgHumidity := g.sumHumidity / g.readingCount
    avgPressure := g.sumPressure / g.readingCount
    readingCount := g.readingCount
    lastReading := g.lastReading }

/-- The pipeline `[{ $match: query }, { $group: ... }]` on the collection;
the groups come in the order their devices are first met. -/
def aggregateByDevice (since : Int) (deviceId : Option String) (store : Store) :
    List DeviceStats :=
  ((store.filter (matchesQuery since deviceId)).foldl groupStep []).map GroupAcc.result

/-- Handler of `router.get('/stats', ...)`. -/
def getStats (env : Env) (q : StatsQuery) (store : Store) : Response (List DeviceStats) × Store :=
  let days := q.days.getD 7
  let since := env.now - days * 24 * 60 * 60 * 1000
  ({ status := 200, body := .data (aggregateByDevice since q.deviceId store) }, store)

/-! ## Analytics: `weatherAnalytics.js` -/

/-- A data point as the analyzers read it. -/
structure DataPoint where
  temperature : ℚ
  humidity : ℚ
  pressure : ℚ
  deriving DecidableEq, Repr

/-- The four accumulators of the regression loop. -/
structure Sums where
  sumX : ℚ
  sumY : ℚ
  sumXY : ℚ
  sumX2 : ℚ
  deriving DecidableEq, Repr

/-- The first loop of `analyzeTempTrend` and of `analyzeTrend` (the same
text in both): `for (i = 0; i < n; i++)` accumulating `i`, `values[i]`,
`i * values[i]` and `i * i`. -/
def regressionSums (values : List ℚ) : Sums :=
  (List.range values.length).foldl
    (fun (s : Sums) (i : Nat) =>
      { sumX := s.sumX + i
        sumY := s.sumY + values.getD i 0
        sumXY := s.sumXY + i * values.getD i 0
        sumX2 := s.sumX2 + i * i })
    { sumX := 0, sumY := 0, sumXY := 0, sumX2 := 0 }

/-- The expression `(n * sumXY - sumX * sumY) / (n * sumX2 - sumX * sumX)`. -/
def regressionSlope (n : Nat) (s : Sums) : JsNum :=
  JsNum.div (JsNum.fin (n * s.sumXY - s.sumX * s.sumY))
    (JsNum.fin (n * s.sumX2 - s.sumX * s.sumX))

/-- The second loop of `analyzeTempTrend` and of `analyzeTrend`: the pair
`(totalVariation, explainedVariation)`. -/
def variations (values : List ℚ) (s : Sums) (slope avgY : JsNum) : JsNum × JsNum :=
  (List.range values.length).foldl
    (fun (acc : JsNum × JsNum) (i : Nat) =>
      let prediction : JsNum :=
        slope * JsNum.fin i + (JsNum.fin s.sumY - slope * JsNum.fin s.sumX) / JsNum.fin values.length
      (acc.1 + JsNum.sq (JsNum.fin (values.getD i 0) - avgY),
       acc.2 + JsNum.sq (prediction - avgY)))
    (JsNum.fin 0, JsNum.fin 0)

/-- The method `slice(start)` of an array. -/
def jsSlice {α : Type} (start : Int) (xs : List α) : List α :=
  if start < 0 then xs.drop ((xs.length : Int) + start).toNat else xs.drop start.toNat

/-- The result of `analyzeTempTrend`; `magnitude` and `confidence` hold the
numbers their `toFixed` strings denote, `slope` is absent from the
insufficient-data result. -/
structure TempTrend where
  trend : String
  magnitude : JsNum
  confidence : JsNum
  slope : Option JsNum
  deriving DecidableEq, Repr

/-- Function `analyzeTempTrend(data, timeWindow = null)`; `data` is `none`
for `null`. -/
def analyzeTempTrend (data : Option (List DataPoint)) (timeWindow : Option Int := none) :
    TempTrend :=
  match data with
  | none => { trend := "unknown", magnitude := JsNum.fin 0, confidence := JsNum.fin 0, slope := none }
  | some data =>
    if data.length < 2 then
      { trend := "unknown", magnitude := JsNum.fin 0, confidence := JsNum.fin 0, slope := none }
    else
      let relevantData :=
        match timeWindow with
        | some w => if w = 0 then data else jsSlice (-w) data
        | none => data
      let n := relevantData.length
      let temps := relevantData.map (fun d => d.temperature)
      let s := regressionSums temps
      let slope := regressionSlope n s
      let avgY := JsNum.div (JsNum.fin s.sumY) (JsNum.fin n)
      let v := variations temps s slope avgY
      let rSquared := v.2 / v.1
      let confidence := JsNum.min (JsNum.abs (rSquared * JsNum.fin 100)) (JsNum.fin 100)
      let trend :=
        if JsNum.gt slope (JsNum.fin (1 / 10)) then "rising"
        else if JsNum.lt slope (JsNum.fin (-(1 / 10))) then "falling"
        else "stable"
      let percentChange : JsNum :=
        match temps.head?, temps.getLast? with
        | some firstTemp, some lastTemp =>
          if firstTemp ≠ 0 then
            (JsNum.fin (lastTemp - firstTemp) / JsNum.abs (JsNum.fin firstTemp)) * JsNum.fin 100
          else JsNum.fin 0
        | _, _ => JsNum.fin 0
      { trend := trend
        magnitude := JsNum.toFixed 1 (JsNum.abs percentChange)
        confidence := JsNum.toFixed 0 confidence
        slope := some slope }

/-- The result of the helper `analyzeTrend`. -/
structure Trend where
  trend : String
  slope : JsNum
  confidence : JsNum
  deriving DecidableEq, Repr

/-- Helper `analyzeTrend(values)`. -/
def analyzeTrend (values : List ℚ) : Trend :=
  let n := values.length
  let s := regressionSums values
  let slope := regressionSlope n s
  let avgY := JsNum.div (JsNum.fin s.sumY) (JsNum.fin n)
  let v := variations values s slope avgY
  let rSquared := JsNum.min (JsNum.abs (v.2 / v.1)) (JsNum.fin 1)
  let confidence := JsNum.min (rSquared * JsNum.fin 100) (JsNum.fin 100)
  let trend :=
    if JsNum.gt slope (JsNum.fin (1 / 20)) then "rising"
    else if JsNum.lt slope (JsNum.fin (-(1 / 20))) then "falling"
    else "stable"
  { trend := trend, slope := slope, confidence := JsNum.toFixed 0 confidence }

/-- The result of `analyzePressure`; `trend` and `currentPressure` are absent
from the insufficient-data result. -/
structure PressureInsight where
  prediction : String
  confidence : JsNum
  trend : Option String
  currentPressure : Option ℚ
  deriving DecidableEq, Repr

/-- Function `analyzePressure(data)`. -/
def analyzePressure (data : Option (List DataPoint)) : PressureInsight :=
  match data with
  | none => { prediction := "unknown", confidence := JsNum.fin 0, trend := none, currentPressure := none }
  | some data =>
    if data.length < 3 then
      { prediction := "unknown", confidence := JsNum.fin 0, trend := none, currentPressure := none }
    else
      let pressures := data.map (fun d => d.pressure)
      let latestPressure := pressures.getD (pressures.length - 1) 0
      let trend := analyzeTrend pressures
      let confidence := trend.confidence
      let r : String × JsNum :=
        if trend.trend = "rising" then
          (if latestPressure > 1022 then "clear and fair weather approaching"
           else "improving weather conditions", confidence)
        else if trend.trend = "falling" then
          (if latestPressure < 1000 then
            ("rain or storms may be approaching",
              JsNum.min (confidence + JsNum.fin 15) (JsNum.fin 100))
           else ("changing weather conditions", confidence))
        else if latestPressure < 995 then
          ("potential stormy conditions", JsNum.min (confidence + JsNum.fin 10) (JsNum.fin 100))
        else if latestPressure > 1025 then
          ("continued fair weather", JsNum.min (confidence + JsNum.fin 10) (JsNum.fin 100))
        else ("stable weather", confidence)
      { prediction := r.1
        confidence := JsNum.toFixed 0 r.2
        trend := some trend.trend
        currentPressure := some latestPressure }

/-- Helper `calculateFluctuation(values)`: the mean absolute step. -/
def calculateFluctuation (values : List ℚ) : JsNum :=
  if values.length < 2 then JsNum.fin 0
  else
    let totalChange : ℚ :=
      (List.range' 1 (values.length - 1)).foldl
        (fun (acc : ℚ) (i : Nat) => acc + |values.getD i 0 - values.getD (i - 1) 0|) 0
    JsNum.div (JsNum.fin totalChange) (JsNum.fin ((values.length : ℚ) - 1))

/-- The result of `analyzeHumidity`; `currentHumidity` is absent from the
insufficient-data result. -/
structure HumidityInsight where
  pattern : String
  comfort : String
  confidence : JsNum
  currentHumidity : Option ℚ
  deriving DecidableEq, Repr

/-- Function `analyzeHumidity(data)`. -/
def analyzeHumidity (data : Option (List DataPoint)) : HumidityInsight :=
  match data with
  | none => { pattern := "unknown", comfort := "unknown", confidence := JsNum.fin 0, currentHumidity := none }
  | some data =>
    if data.length < 2 then
      { pattern := "unknown", comfort := "unknown", confidence := JsNum.fin 0, currentHumidity := none }
    else
      let humidities := data.map (fun d => d.humidity)
      let latestHumidity := humidities.getD (humidities.length - 1) 0
      let trend := analyzeTrend humidities
      let comfort :=
        if latestHumidity < 30 then "dry"
        else if latestHumidity > 70 then "humid"
        else "comfortable"
      let pattern :=
        if trend.trend = "rising" then "increasing humidity"
        else if trend.trend = "falling" then "decreasing humidity"
        else "stable humidity"
      let fluctuation := calculateFluctuation humidities
      let pattern :=
        if JsNum.gt fluctuation (JsNum.fin 15) then pattern ++ " with significant fluctuations"
        else pattern
      { pattern := pattern
        comfort := comfort
        confidence := trend.confidence
        currentHumidity := some latestHumidity }

/-- The value of `Math.sqrt(radicand)`, kept exact through its radicand: NaN
when the radicand is NaN or negative, `Infinity` when it is `Infinity`. -/
structure JsSqrt where
  radicand : JsNum
  deriving DecidableEq, Repr

/-- The test `x > r * 2` for a square root `r`, decided on the squares. -/
def JsSqrt.doubleLt (r : JsSqrt) (x : JsNum) : Bool :=
  match r.radicand, x with
  | JsNum.fin v, JsNum.fin a => decide (0 ≤ v) && decide (0 < a) && decide (4 * v < a * a)
  | JsNum.fin v, JsNum.posInf => decide (0 ≤ v)
  | _, _ => false

/-- The result of the helper `calculateStats`. -/
structure Stats where
  mean : JsNum
  median : JsNum
  stdDev : JsSqrt
  min : JsNum
  max : JsNum
  deriving DecidableEq, Repr

/-- Helper `calculateMedian(values)`. -/
def calculateMedian (values : List ℚ) : JsNum :=
  let sorted := values.insertionSort (fun a b => a ≤ b)
  let middle := sorted.length / 2
  if sorted.length % 2 = 0 then
    match sorted[middle - 1]?, sorted[middle]? with
    | some a, some b => if middle = 0 then JsNum.nan else JsNum.fin ((a + b) / 2)
    | _, _ => JsNum.nan
  else
    match sorted[middle]? with
    | some a => JsNum.fin a
    | none => JsNum.nan

/-- Helper `calculateStats(values)`. -/
def calculateStats (values : List ℚ) : Stats :=
  let n := values.length
  let mean := JsNum.div (JsNum.fin (values.foldl (fun (sum val : ℚ) => sum + val) 0)) (JsNum.fin n)
  let sumSquaredDiffs : JsNum :=
    (List.range n).foldl
      (fun (acc : JsNum) (i : Nat) => acc + JsNum.sq (JsNum.fin (values.getD i 0) - mean))
      (JsNum.fin 0)
  let variance := JsNum.div sumSquaredDiffs (JsNum.fin n)
  { mean := mean
    median := calculateMedian values
    stdDev := { radicand := variance }
    min := values.foldl (fun (m : JsNum) (v : ℚ) => JsNum.min m (JsNum.fin v)) JsNum.posInf
    max := values.foldl (fun (m : JsNum) (v : ℚ) => JsNum.max m (JsNum.fin v)) JsNum.negInf }

/-- The integer nearest to the square root of `w`, for `0 ≤ w`, capped at
95: the least `k` with `w < (k + 1/2)^2`. -/
def roundSqrtCap95 (w : ℚ) : ℚ :=
  match (List.range 95).find? (fun (k : ℕ) => decide (w < ((k : ℚ) + 1 / 2) ^ 2)) with
  | some k => (k : ℚ)
  | none => 95

/-- Helper `calculateAnomalyConfidence(value, stats)`:
`Math.min((Math.abs(value - mean) / stdDev) * 25, 95).toFixed(0)`, computed
on the squares. -/
def calculateAnomalyConfidence (value : ℚ) (stats : Stats) : JsNum :=
  match JsNum.abs (JsNum.fin value - stats.mean), stats.stdDev.radicand with
  | JsNum.fin a, JsNum.fin v =>
    if v < 0 then JsNum.nan
    else if v = 0 then (if a = 0 then JsNum.nan else JsNum.fin 95)
    else JsNum.fin (roundSqrtCap95 (625 * (a * a) / v))
  | JsNum.posInf, JsNum.fin v => if v < 0 then JsNum.nan else JsNum.fin 95
  | JsNum.fin _, JsNum.posInf => JsNum.fin 0
  | _, _ => JsNum.nan

/-- The template text of an anomaly description; a number shown is the one
its `toFixed(1)` string denotes. -/
inductive Description where
  | unusualTemperature (reading : JsNum)
  | rapidPressure (direction : String) (amount : JsNum)
  | text (s : String)
  deriving DecidableEq, Repr

/-- An entry of the list `detectAnomalies` returns. -/
structure Anomaly where
  type : String
  description : Description
  confidence : JsNum
  deriving DecidableEq, Repr

/-- Function `detectAnomalies(data)`; the statistics of the humidities and
of the pressures, which the function computes and never reads, are left out. -/
def detectAnomalies (data : Option (List DataPoint)) : List Anomaly :=
  match data with
  | none => []
  | some data =>
    if data.length < 5 then []
    else
      let temps := data.map (fun d => d.temperature)
      let humidities := data.map (fun d => d.humidity)
      let pressures := data.map (fun d => d.pressure)
      let tempStats := calculateStats temps
      let latestTemp := temps.getD (temps.length - 1) 0
      let temperatureAnomalies : List Anomaly :=
        if tempStats.stdDev.doubleLt (JsNum.abs (JsNum.fin latestTemp - tempStats.mean)) then
          [{ type := "temperature"
             description := .unusualTemperature (JsNum.toFixed 1 (JsNum.fin latestTemp))
             confidence := calculateAnomalyConfidence latestTemp tempStats }]
        else []
      let pressureAnomalies : List Anomaly :=
        if data.length > 3 then
          let pressureChange :=
            pressures.getD (pressures.length - 1) 0 - pressures.getD (pressures.length - 3) 0
          if |pressureChange| > 6 then
            [{ type := "pressure"
               description :=
                 .rapidPressure (if pressureChange > 0 then "increase" else "decrease")
                   (JsNum.toFixed 1 (JsNum.fin |pressureChange|))
               confidence := JsNum.min (JsNum.fin (|pressureChange| * 5)) (JsNum.fin 95) }]
          else []
        else []
      let latestHumidity := humidities.getD (humidities.length - 1) 0
      let humidityAnomalies : List Anomaly :=
        if latestHumidity > 95 then
          [{ type := "humidity"
             description := .text "Very high humidity, precipitation likely"
             confidence := JsNum.fin 85 }]
        else if latestHumidity < 20 then
          [{ type := "humidity"
             description := .text "Extremely dry conditions"
             confidence := JsNum.fin 90 }]
        else []
      temperatureAnomalies ++ pressureAnomalies ++ humidityAnomalies

/-- A number of the form `± sqrt(q)` with `q ≥ 0` rational, the form of every
finite value `a / Math.sqrt(b)`, kept exact through its sign and its square;
or an infinity, or NaN. Zero is `root false 0`. -/
inductive JsSurd where
  | root (negative : Bool) (square : ℚ)
  | posInf
  | negInf
  | nan
  deriving DecidableEq, Repr

namespace JsSurd

/-- A rational as a number of this form. -/
def ofRat (q : ℚ) : JsSurd := root (decide (q < 0)) (q * q)

/-- The quotient `a / Math.sqrt(b)`. -/
def divSqrt : JsNum → JsNum → JsSurd
  | JsNum.fin a, JsNum.fin b =>
    if b < 0 then nan
    else if b = 0 then (if a = 0 then nan else if 0 < a then posInf else negInf)
    else root (decide (a < 0)) (a * a / b)
  | JsNum.fin _, JsNum.posInf => root false 0
  | JsNum.posInf, JsNum.fin b => if b < 0 then nan else posInf
  | JsNum.negInf, JsNum.fin b => if b < 0 then nan else negInf
  | _, _ => nan

/-- `Math.abs`. -/
def abs : JsSurd → JsSurd
  | root _ sq => root false sq
  | posInf => posInf
  | negInf => posInf
  | nan => nan

/-- The test `x > c` against a rational, decided on the squares. -/
def gtRat : JsSurd → ℚ → Bool
  | root false sq, c => decide (c < 0) || decide (c * c < sq)
  | root true sq, c => decide (c < 0) && decide (sq < c * c)
  | posInf, _ => true
  | _, _ => false

/-- Linear search, from `k` on and for at most `fuel` steps, of the least
`k` with `w < (k + 1/2)^2`. -/
def roundSqrtFrom (w : ℚ) : ℕ → ℕ → ℕ
  | 0, k => k
  | fuel + 1, k => if w < ((k : ℚ) + 1 / 2) ^ 2 then k else roundSqrtFrom w fuel (k + 1)

/-- The integer nearest to the square root of `w ≥ 0`, ties upwards: the
least `k` with `w < (k + 1/2)^2`, which is at most the ceiling of `w`. -/
def roundSqrt (w : ℚ) : ℕ := roundSqrtFrom w (⌈w⌉.toNat + 1) 0

/-- The number denoted by the string `x.toFixed(digits)`. -/
def toFixed (digits : Nat) : JsSurd → JsNum
  | root negative sq =>
    let magnitude : ℚ := (roundSqrt (sq * 100 ^ digits) : ℚ) / 10 ^ digits
    JsNum.fin (if negative then -magnitude else magnitude)
  | posInf => JsNum.posInf
  | negInf => JsNum.negInf
  | nan => JsNum.nan

end JsSurd

deriving instance DecidableEq for Except

/-- The accumulators of the loop of `calculateCorrelation`. -/
structure CorrelationSums where
  numerator : JsNum
  denom1 : JsNum
  denom2 : JsNum
  deriving DecidableEq, Repr

/-- The means and the loop of `calculateCorrelation`, for `n` the length of
the first series. -/
def correlationSums (series1 series2 : List ℚ) : CorrelationSums :=
  let n := series1.length
  let mean1 := JsNum.div (JsNum.fin (series1.foldl (fun (sum val : ℚ) => sum + val) 0)) (JsNum.fin n)
  let mean2 := JsNum.div (JsNum.fin (series2.foldl (fun (sum val : ℚ) => sum + val) 0)) (JsNum.fin n)
  (List.range n).foldl
    (fun (acc : CorrelationSums) (i : Nat) =>
      let diff1 := JsNum.fin (series1.getD i 0) - mean1
      let diff2 := JsNum.fin (series2.getD i 0) - mean2
      { numerator := acc.numerator + diff1 * diff2
        denom1 := acc.denom1 + diff1 * diff1
        denom2 := acc.denom2 + diff2 * diff2 })
    { numerator := JsNum.fin 0, denom1 := JsNum.fin 0, denom2 := JsNum.fin 0 }

/-- Helper `calculateCorrelation(series1, series2)`; the thrown error is the
`error` result. -/
def calculateCorrelation (series1 series2 : List ℚ) : Except String JsSurd :=
  if series1.length ≠ series2.length then
    .error "Data series must have the same length"
  else
    let s := correlationSums series1 series2
    if s.denom1 = JsNum.fin 0 ∨ s.denom2 = JsNum.fin 0 then .ok (JsSurd.ofRat 0)
    else .ok (JsSurd.divSqrt s.numerator (s.denom1 * s.denom2))

/-- A data point of the external weather service. -/
structure ExternalPoint where
  temperature : ℚ
  humidity : ℚ
  deriving DecidableEq, Repr

/-- Helper `matchDataPoints(senseHatData, externalData)`: the pairs
`(senseHatData[i], externalData[i])` for `i` below the smaller length. -/
def matchDataPoints (senseHatData : List DataPoint) (externalData : List ExternalPoint) :
    List (DataPoint × ExternalPoint) :=
  let minLength := Nat.min senseHatData.length externalData.length
  (List.range minLength).filterMap fun i =>
    match senseHatData[i]?, externalData[i]? with
    | some senseHat, some external => some (senseHat, external)
    | _, _ => none

/-- Helper `getCorrelationDescription(correlation, metric)`. -/
def getCorrelationDescription (correlation : JsSurd) (metric : String) : String :=
  let absCorrelation := JsSurd.abs correlation
  if absCorrelation.gtRat (4 / 5) then
    "SenseHat " ++ metric ++ " readings closely match external data"
  else if absCorrelation.gtRat (1 / 2) then
    "SenseHat " ++ metric ++ " shows moderate agreement with external data"
  else if absCorrelation.gtRat (3 / 10) then
    "SenseHat " ++ metric ++ " shows some agreement with external data"
  else
    "SenseHat " ++ metric ++ " differs significantly from external data"

/-- Helper `calculateAverageDifference(series1, series2)`. -/
def calculateAverageDifference (series1 series2 : List ℚ) : Except String JsNum :=
  if series1.length ≠ series2.length then
    .error "Data series must have the same length"
  else
    let totalDiff : ℚ :=
      (List.range series1.length).foldl
        (fun (acc : ℚ) (i : Nat) => acc + |series1.getD i 0 - series2.getD i 0|) 0
    .ok (JsNum.div (JsNum.fin totalDiff) (JsNum.fin series1.length))

/-- The entry of one metric in the result of `analyzeCorrelation`;
`difference` is absent from the insufficient-data result. -/
structure MetricCorrelation where
  correlation : JsNum
  description : String
  difference : Option JsNum
  deriving DecidableEq, Repr

/-- The result of `analyzeCorrelation`. -/
structure CorrelationResult where
  temperature : MetricCorrelation
  humidity : MetricCorrelation
  deriving DecidableEq, Repr

/-- Function `analyzeCorrelation(senseHatData, externalData)`; an argument is
`none` for `null`, and an error thrown by a helper is the `error` result. -/
def analyzeCorrelation (senseHatData : Option (List DataPoint))
    (externalData : Option (List ExternalPoint)) : Except String CorrelationResult :=
  match senseHatData, externalData with
  | some senseHatData, some externalData =>
    if senseHatData.length < 2 ∨ externalData.length < 2 then
      .ok { temperature := { correlation := JsNum.fin 0, description := "insufficient data", difference := none }
            humidity := { correlation := JsNum.fin 0, description := "insufficient data", difference := none } }
    else do
      let matchedData := matchDataPoints senseHatData externalData
      let tempCorrelation ← calculateCorrelation
        (matchedData.map fun d => d.1.temperature) (matchedData.map fun d => d.2.temperature)
      let humidityCorrelation ← calculateCorrelation
        (matchedData.map fun d => d.1.humidity) (matchedData.map fun d => d.2.humidity)
      let tempDescription := getCorrelationDescription tempCorrelation "temperature"
      let humidityDescription := getCorrelationDescription humidityCorrelation "humidity"
      let tempDiff ← calculateAverageDifference
        (matchedData.map fun d => d.1.temperature) (matchedData.map fun d => d.2.temperature)
      let humidityDiff ← calculateAverageDifference
        (matchedData.map fun d => d.1.humidity) (matchedData.map fun d => d.2.humidity)
      pure
        { temperature :=
            { correlation := JsSurd.toFixed 2 (JsSurd.abs tempCorrelation)
              description := tempDescription
              difference := some (JsNum.toFixed 1 tempDiff) }
          humidity :=
            { correlation := JsSurd.toFixed 2 (JsSurd.abs humidityCorrelation)
              description := humidityDescription
              difference := some (JsNum.toFixed 1 humidityDiff) } }
  | _, _ =>
    .ok { temperature := { correlation := JsNum.fin 0, description := "insufficient data", difference := none }
          humidity := { correlation := JsNum.fin 0, description := "insufficient data", difference := none } }

/-! ## Double-precision arithmetic -/

namespace Binary64

/-- The power `2^e` for an integer exponent. -/
def pow2 (e : ℤ) : ℚ :=
  if 0 ≤ e then ((2 ^ e.toNat : ℕ) : ℚ) else 1 / ((2 ^ (-e).toNat : ℕ) : ℚ)

/-- The base-2 logarithm of a natural number, rounded down (0 for 0), by
halving at most `fuel` times. -/
def log2Fuel : ℕ → ℕ → ℕ
  | 0, _ => 0
  | fuel + 1, n => if n < 2 then 0 else log2Fuel fuel (n / 2) + 1

/-- The base-2 logarithm of a natural number, rounded down. -/
def log2 (n : ℕ) : ℕ := log2Fuel n n

/-- The binary exponent of a positive rational: the `e` with
`2^e ≤ q < 2^(e+1)`. -/
def exponent (q : ℚ) : ℤ :=
  if q < pow2 ((log2 q.num.natAbs : ℤ) - (log2 q.den : ℤ)) then
    (log2 q.num.natAbs : ℤ) - (log2 q.den : ℤ) - 1
  else (log2 q.num.natAbs : ℤ) - (log2 q.den : ℤ)

/-- The integer nearest to `x`, a tie going to the even one. -/
def roundHalfEven (x : ℚ) : ℤ :=
  if x - ⌊x⌋ < 1 / 2 then ⌊x⌋
  else if 1 / 2 < x - ⌊x⌋ then ⌊x⌋ + 1
  else if ⌊x⌋ % 2 = 0 then ⌊x⌋ else ⌊x⌋ + 1

/-- The unit in the last place of the doubles around a positive `q`:
`2^(e - 52)` for the exponent `e` of `q`, not below that of the subnormal
numbers. -/
def ulp (q : ℚ) : ℚ := pow2 (max (exponent q) (-1022) - 52)

/-- The double nearest to a positive rational, ties to even, as a rational;
it may reach `2^1024`. -/
def nearest (q : ℚ) : ℚ := (roundHalfEven (q / ulp q) : ℚ) * ulp q

/-- Rounding of an exact result to binary64: round to nearest, ties to even;
a result of magnitude `2^1024` or more is an infinity. -/
def round (q : ℚ) : JsNum :=
  if q = 0 then JsNum.fin 0
  else if 0 < q then
    (if pow2 1024 ≤ nearest q then JsNum.posInf else JsNum.fin (nearest q))
  else
    (if pow2 1024 ≤ nearest (-q) then JsNum.negInf else JsNum.fin (-nearest (-q)))

/-- The double a number written in decimal denotes (a literal of the program
or a number of the data); a double denotes itself. -/
def num (q : ℚ) : JsNum := round q

/-- Rounding of the exact result of an operation; the infinities and NaN are
results as they are. -/
def rnd : JsNum → JsNum
  | JsNum.fin q => round q
  | x => x

/-- The operator `+` on doubles. -/
def add (x y : JsNum) : JsNum := rnd (x + y)

/-- The operator `-` on doubles. -/
def sub (x y : JsNum) : JsNum := rnd (x - y)

/-- The operator `*` on doubles. -/
def mul (x y : JsNum) : JsNum := rnd (x * y)

/-- The operator `/` on doubles. -/
def div (x y : JsNum) : JsNum := rnd (x / y)

/-- `Math.pow(x, 2)`, the rounded square. -/
def sq (x : JsNum) : JsNum := mul x x

/-- The largest `n` below `2^bits` above `acc` with `n^2 ≤ t`, found bit by
bit from the highest. -/
def sqrtBits (t : ℚ) : ℕ → ℕ → ℕ
  | 0, acc => acc
  | k + 1, acc =>
    if ((acc + 2 ^ k : ℕ) : ℚ) ^ 2 ≤ t then sqrtBits t k (acc + 2 ^ k) else sqrtBits t k acc

/-- `Math.sqrt`, correctly rounded: with `2^e ≤ sqrt q < 2^(e+1)` and `u`
the unit in the last place there, the multiple of `u` nearest to the root. -/
def sqrt : JsNum → JsNum
  | JsNum.fin q =>
    if q < 0 then JsNum.nan
    else if q = 0 then JsNum.fin 0
    else
      let u := pow2 (exponent q / 2 - 52)
      let t := q / (u * u)
      let n := sqrtBits t 54 0
      let m : ℕ :=
        if t < ((n : ℚ) + 1 / 2) ^ 2 then n
        else if ((n : ℚ) + 1 / 2) ^ 2 < t then n + 1
        else if n % 2 = 0 then n else n + 1
      JsNum.fin ((m : ℚ) * u)
  | JsNum.posInf => JsNum.posInf
  | _ => JsNum.nan

end Binary64

namespace Binary64

/-- The four accumulators of the regression loop, as doubles. -/
structure Sums where
  sumX : JsNum
  sumY : JsNum
  sumXY : JsNum
  sumX2 : JsNum
  deriving DecidableEq, Repr

/-- The first loop of `analyzeTempTrend` and of `analyzeTrend`, every `+=`
and `*` rounded; an index is a double as it is. -/
def regressionSums (values : List ℚ) : Sums :=
  (List.range values.length).foldl
    (fun (s : Sums) (i : Nat) =>
      { sumX := add s.sumX (JsNum.fin i)
        sumY := add s.sumY (num (values.getD i 0))
        sumXY := add s.sumXY (mul (JsNum.fin i) (num (values.getD i 0)))
        sumX2 := add s.sumX2 (mul (JsNum.fin i) (JsNum.fin i)) })
    { sumX := JsNum.fin 0, sumY := JsNum.fin 0, sumXY := JsNum.fin 0, sumX2 := JsNum.fin 0 }

/-- The expression `(n * sumXY - sumX * sumY) / (n * sumX2 - sumX * sumX)`. -/
def regressionSlope (n : Nat) (s : Sums) : JsNum :=
  div (sub (mul (JsNum.fin n) s.sumXY) (mul s.sumX s.sumY))
    (sub (mul (JsNum.fin n) s.sumX2) (mul s.sumX s.sumX))

/-- The second loop: the pair `(totalVariation, explainedVariation)`. -/
def variations (values : List ℚ) (s : Sums) (slope avgY : JsNum) : JsNum × JsNum :=
  (List.range values.length).foldl
    (fun (acc : JsNum × JsNum) (i : Nat) =>
      let prediction : JsNum :=
        add (mul slope (JsNum.fin i))
          (div (sub s.sumY (mul slope s.sumX)) (JsNum.fin values.length))
      (add acc.1 (sq (sub (num (values.getD i 0)) avgY)),
       add acc.2 (sq (sub prediction avgY))))
    (JsNum.fin 0, JsNum.fin 0)

/-- Function `analyzeTempTrend(data, timeWindow = null)` in double
arithmetic. -/
def analyzeTempTrend (data : Option (List DataPoint)) (timeWindow : Option Int := none) :
    TempTrend :=
  match data with
  | none => { trend := "unknown", magnitude := JsNum.fin 0, confidence := JsNum.fin 0, slope := none }
  | some data =>
    if data.length < 2 then
      { trend := "unknown", magnitude := JsNum.fin 0, confidence := JsNum.fin 0, slope := none }
    else
      let relevantData :=
        match timeWindow with
        | some w => if w = 0 then data else jsSlice (-w) data
        | none => data
      let n := relevantData.length
      let temps := relevantData.map (fun d => d.temperature)
      let s := regressionSums temps
      let slope := regressionSlope n s
      let avgY := div s.sumY (JsNum.fin n)
      let v := variations temps s slope avgY
      let rSquared := div v.2 v.1
      let confidence := JsNum.min (JsNum.abs (mul rSquared (JsNum.fin 100))) (JsNum.fin 100)
      let trend :=
        if JsNum.gt slope (num (1 / 10)) then "rising"
        else if JsNum.lt slope (JsNum.neg (num (1 / 10))) then "falling"
        else "stable"
      let percentChange : JsNum :=
        match temps.head?, temps.getLast? with
        | some firstTemp, some lastTemp =>
          if JsNum.truthy (num firstTemp) then
            mul (div (sub (num lastTemp) (num firstTemp)) (JsNum.abs (num firstTemp)))
              (JsNum.fin 100)
          else JsNum.fin 0
        | _, _ => JsNum.fin 0
      { trend := trend
        magnitude := JsNum.toFixed 1 (JsNum.abs percentChange)
        confidence := JsNum.toFixed 0 confidence
        slope := some slope }

/-- Helper `analyzeTrend(values)` in double arithmetic. -/
def analyzeTrend (values : List ℚ) : Trend :=
  let n := values.length
  let s := regressionSums values
  let slope := regressionSlope n s
  let avgY := div s.sumY (JsNum.fin n)
  let v := variations values s slope avgY
  let rSquared := JsNum.min (JsNum.abs (div v.2 v.1)) (JsNum.fin 1)
  let confidence := JsNum.min (mul rSquared (JsNum.fin 100)) (JsNum.fin 100)
  let trend :=
    if JsNum.gt slope (num (1 / 20)) then "rising"
    else if JsNum.lt slope (JsNum.neg (num (1 / 20))) then "falling"
    else "stable"
  { trend := trend, slope := slope, confidence := JsNum.toFixed 0 confidence }

end Binary64

namespace Binary64

/-- The fold `values.reduce((sum, val) => sum + val, 0)`, every addition
rounded. -/
def sumOf (values : List ℚ) : JsNum :=
  values.foldl (fun (sum : JsNum) (val : ℚ) => add sum (num val)) (JsNum.fin 0)

/-- Helper `calculateFluctuation(values)` in double arithmetic. -/
def calculateFluctuation (values : List ℚ) : JsNum :=
  if values.length < 2 then JsNum.fin 0
  else
    let totalChange : JsNum :=
      (List.range' 1 (values.length - 1)).foldl
        (fun (acc : JsNum) (i : Nat) =>
          add acc (JsNum.abs (sub (num (values.getD i 0)) (num (values.getD (i - 1) 0)))))
        (JsNum.fin 0)
    div totalChange (JsNum.fin ((values.length : ℚ) - 1))

/-- The result of `analyzeHumidity`, the current humidity being the double
read. -/
structure HumidityInsight where
  pattern : String
  comfort : String
  confidence : JsNum
  currentHumidity : Option JsNum
  deriving DecidableEq, Repr

/-- Function `analyzeHumidity(data)` in double arithmetic. -/
def analyzeHumidity (data : Option (List DataPoint)) : HumidityInsight :=
  match data with
  | none => { pattern := "unknown", comfort := "unknown", confidence := JsNum.fin 0, currentHumidity := none }
  | some data =>
    if data.length < 2 then
      { pattern := "unknown", comfort := "unknown", confidence := JsNum.fin 0, currentHumidity := none }
    else
      let humidities := data.map (fun d => d.humidity)
      let latestHumidity := num (humidities.getD (humidities.length - 1) 0)
      let trend := analyzeTrend humidities
      let comfort :=
        if JsNum.lt latestHumidity (JsNum.fin 30) then "dry"
        else if JsNum.gt latestHumidity (JsNum.fin 70) then "humid"
        else "comfortable"
      let pattern :=
        if trend.trend = "rising" then "increasing humidity"
        else if trend.trend = "falling" then "decreasing humidity"
        else "stable humidity"
      let fluctuation := calculateFluctuation humidities
      let pattern :=
        if JsNum.gt fluctuation (JsNum.fin 15) then pattern ++ " with significant fluctuations"
        else pattern
      { pattern := pattern
        comfort := comfort
        confidence := trend.confidence
        currentHumidity := some latestHumidity }

/-- The mean and the standard deviation of the result of `calculateStats`;
the median, the minimum and the maximum, which involve no rounded operation
that a caller reads, are left out. -/
structure Stats where
  mean : JsNum
  stdDev : JsNum
  deriving DecidableEq, Repr

/-- Helper `calculateStats(values)` in double arithmetic. -/
def calculateStats (values : List ℚ) : Stats :=
  let n := values.length
  let mean := div (sumOf values) (JsNum.fin n)
  let sumSquaredDiffs : JsNum :=
    (List.range n).foldl
      (fun (acc : JsNum) (i : Nat) => add acc (sq (sub (num (values.getD i 0)) mean)))
      (JsNum.fin 0)
  let variance := div sumSquaredDiffs (JsNum.fin n)
  { mean := mean, stdDev := sqrt variance }

/-- Helper `calculateAnomalyConfidence(value, stats)` in double arithmetic:
`Math.min((Math.abs(value - mean) / stdDev) * 25, 95).toFixed(0)`. -/
def calculateAnomalyConfidence (value : JsNum) (stats : Stats) : JsNum :=
  JsNum.toFixed 0
    (JsNum.min (mul (div (JsNum.abs (sub value stats.mean)) stats.stdDev) (JsNum.fin 25))
      (JsNum.fin 95))

/-- Function `detectAnomalies(data)` in double arithmetic; the statistics of
the humidities and of the pressures, computed and never read, are left out. -/
def detectAnomalies (data : Option (List DataPoint)) : List Anomaly :=
  match data with
  | none => []
  | some data =>
    if data.length < 5 then []
    else
      let temps := data.map (fun d => d.temperature)
      let humidities := data.map (fun d => d.humidity)
      let pressures := data.map (fun d => d.pressure)
      let tempStats := calculateStats temps
      let latestTemp := num (temps.getD (temps.length - 1) 0)
      let temperatureAnomalies : List Anomaly :=
        if JsNum.gt (JsNum.abs (sub latestTemp tempStats.mean)) (mul tempStats.stdDev (JsNum.fin 2))
        then
          [{ type := "temperature"
             description := .unusualTemperature (JsNum.toFixed 1 latestTemp)
             confidence := calculateAnomalyConfidence latestTemp tempStats }]
        else []
      let pressureAnomalies : List Anomaly :=
        if data.length > 3 then
          let pressureChange :=
            sub (num (pressures.getD (pressures.length - 1) 0))
              (num (pressures.getD (pressures.length - 3) 0))
          if JsNum.gt (JsNum.abs pressureChange) (JsNum.fin 6) then
            [{ type := "pressure"
               description :=
                 .rapidPressure (if JsNum.gt pressureChange (JsNum.fin 0) then "increase" else "decrease")
                   (JsNum.toFixed 1 (JsNum.abs pressureChange))
               confidence := JsNum.min (mul (JsNum.abs pressureChange) (JsNum.fin 5)) (JsNum.fin 95) }]
          else []
        else []
      let latestHumidity := num (humidities.getD (humidities.length - 1) 0)
      let humidityAnomalies : List Anomaly :=
        if JsNum.gt latestHumidity (JsNum.fin 95) then
          [{ type := "humidity"
             description := .text "Very high humidity, precipitation likely"
             confidence := JsNum.fin 85 }]
        else if JsNum.lt latestHumidity (JsNum.fin 20) then
          [{ type := "humidity"
             description := .text "Extremely dry conditions"
             confidence := JsNum.fin 90 }]
        else []
      temperatureAnomalies ++ pressureAnomalies ++ humidityAnomalies

/-- The accumulators of the loop of `calculateCorrelation`. -/
def correlationSums (series1 series2 : List ℚ) : CorrelationSums :=
  let n := series1.length
  let mean1 := div (sumOf series1) (JsNum.fin n)
  let mean2 := div (sumOf series2) (JsNum.fin n)
  (List.range n).foldl
    (fun (acc : CorrelationSums) (i : Nat) =>
      let diff1 := sub (num (series1.getD i 0)) mean1
      let diff2 := sub (num (series2.getD i 0)) mean2
      { numerator := add acc.numerator (mul diff1 diff2)
        denom1 := add acc.denom1 (mul diff1 diff1)
        denom2 := add acc.denom2 (mul diff2 diff2) })
    { numerator := JsNum.fin 0, denom1 := JsNum.fin 0, denom2 := JsNum.fin 0 }

/-- Helper `calculateCorrelation(series1, series2)` in double arithmetic. -/
def calculateCorrelation (series1 series2 : List ℚ) : Except String JsNum :=
  if series1.length ≠ series2.length then
    .error "Data series must have the same length"
  else
    let s := correlationSums series1 series2
    if s.denom1 = JsNum.fin 0 ∨ s.denom2 = JsNum.fin 0 then .ok (JsNum.fin 0)
    else .ok (div s.numerator (sqrt (mul s.denom1 s.denom2)))

/-- Helper `getCorrelationDescription(correlation, metric)` on a double. -/
def getCorrelationDescription (correlation : JsNum) (metric : String) : String :=
  let absCorrelation := JsNum.abs correlation
  if JsNum.gt absCorrelation (num (4 / 5)) then
    "SenseHat " ++ metric ++ " readings closely match external data"
  else if JsNum.gt absCorrelation (num (1 / 2)) then
    "SenseHat " ++ metric ++ " shows moderate agreement with external data"
  else if JsNum.gt absCorrelation (num (3 / 10)) then
    "SenseHat " ++ metric ++ " shows some agreement with external data"
  else
    "SenseHat " ++ metric ++ " differs significantly from external data"

/-- Helper `calculateAverageDifference(series1, series2)` in double
arithmetic. -/
def calculateAverageDifference (series1 series2 : List ℚ) : Except String JsNum :=
  if series1.length ≠ series2.length then
    .error "Data series must have the same length"
  else
    let totalDiff : JsNum :=
      (List.range series1.length).foldl
        (fun (acc : JsNum) (i : Nat) =>
          add acc (JsNum.abs (sub (num (series1.getD i 0)) (num (series2.getD i 0)))))
        (JsNum.fin 0)
    .ok (div totalDiff (JsNum.fin series1.length))

/-- Function `analyzeCorrelation(senseHatData, externalData)` in double
arithmetic. -/
def analyzeCorrelation (senseHatData : Option (List DataPoint))
    (externalData : Option (List ExternalPoint)) : Except String CorrelationResult :=
  match senseHatData, externalData with
  | some senseHatData, some externalData =>
    if senseHatData.length < 2 ∨ externalData.length < 2 then
      .ok { temperature := { correlation := JsNum.fin 0, description := "insufficient data", difference := none }
            humidity := { correlation := JsNum.fin 0, description := "insufficient data", difference := none } }
    else do
      let matchedData := matchDataPoints senseHatData externalData
      let tempCorrelation ← calculateCorrelation
        (matchedData.map fun d => d.1.temperature) (matchedData.map fun d => d.2.temperature)
      let humidityCorrelation ← calculateCorrelation
        (matchedData.map fun d => d.1.humidity) (matchedData.map fun d => d.2.humidity)
      let tempDescription := getCorrelationDescription tempCorrelation "temperature"
      let humidityDescription := getCorrelationDescription humidityCorrelation "humidity"
      let tempDiff ← calculateAverageDifference
        (matchedData.map fun d => d.1.temperature) (matchedData.map fun d => d.2.temperature)
      let humidityDiff ← calculateAverageDifference
        (matchedData.map fun d => d.1.humidity) (matchedData.map fun d => d.2.humidity)
      pure
        { temperature :=
            { correlation := JsNum.toFixed 2 (JsNum.abs tempCorrelation)
              description := tempDescription
              difference := some (JsNum.toFixed 1 tempDiff) }
          humidity :=
            { correlation := JsNum.toFixed 2 (JsNum.abs humidityCorrelation)
              description := humidityDescription
              difference := some (JsNum.toFixed 1 humidityDiff) } }
  | _, _ =>
    .ok { temperature := { correlation := JsNum.fin 0, description := "insufficient data", difference := none }
          humidity := { correlation := JsNum.fin 0, description := "insufficient data", difference := none } }

end Binary64

/-! ## Reference definitions for the regression -/

/-- The ordinary-least-squares slope of a series over its index, as the
specification words it: `sum((i - mean_i)(y_i - mean_y)) / sum((i - mean_i)^2)`. -/
def olsSlope (ys : List ℚ) : ℚ :=
  let meanI : ℚ := (∑ i ∈ Finset.range ys.length, (i : ℚ)) / ys.length
  let meanY : ℚ := (∑ i ∈ Finset.range ys.length, ys.getD i 0) / ys.length
  (∑ i ∈ Finset.range ys.length, ((i : ℚ) - meanI) * (ys.getD i 0 - meanY)) /
    (∑ i ∈ Finset.range ys.length, ((i : ℚ) - meanI) ^ 2)

/-- The series of a list as a function of the index. -/
def seriesOf (ys : List ℚ) : ℕ → ℚ := fun i => ys.getD i 0

/-- The numerator `m * sumXY - sumX * sumY` of the slope for the first `m`
points of the series `f`. -/
def slopeNum (f : ℕ → ℚ) (m : ℕ) : ℚ :=
  (m : ℚ) * (∑ i ∈ Finset.range m, (i : ℚ) * f i)
    - (∑ i ∈ Finset.range m, (i : ℚ)) * (∑ i ∈ Finset.range m, f i)

/-- The denominator `m * sumX2 - sumX * sumX` of the slope for `m` points. -/
def slopeDen (m : ℕ) : ℚ :=
  (m : ℚ) * (∑ i ∈ Finset.range m, (i : ℚ) * i)
    - (∑ i ∈ Finset.range m, (i : ℚ)) * (∑ i ∈ Finset.range m, (i : ℚ))

/-! ## Reference definitions for the statistics -/

/-- The mean of a series. -/
def meanOf (a : List ℚ) : ℚ := (∑ i ∈ Finset.range a.length, a.getD i 0) / a.length

/-- The sum over the index of the products of the deviations from the mean,
`sum((a_i - mean_a)(b_i - mean_b))`; `covSum a a` is the sum of the squared
deviations of `a`. -/
def covSum (a b : List ℚ) : ℚ :=
  ∑ i ∈ Finset.range a.length, (a.getD i 0 - meanOf a) * (b.getD i 0 - meanOf b)

/-- The population variance of a series: the mean squared deviation. -/
def variance (a : List ℚ) : ℚ := covSum a a / a.length

/-- The mean of `|h[i] - h[i-1]|` over the consecutive points of a series. -/
def meanAbsStep (h : List ℚ) : ℚ :=
  (∑ i ∈ Finset.range (h.length - 1), |h.getD (i + 1) 0 - h.getD i 0|) / ((h.length : ℚ) - 1)

/-- The mean of `|a[i] - b[i]|` over the index of `a`. -/
def meanAbsDiff (a b : List ℚ) : ℚ :=
  (∑ i ∈ Finset.range a.length, |a.getD i 0 - b.getD i 0|) / a.length

/-- The number `x` is finite and is the real number `r`: `x` is
`root negative square` with `r = ± sqrt(square)`. -/
def JsSurd.Denotes (x : JsSurd) (r : ℝ) : Prop :=
  ∃ (negative : Bool) (square : ℚ), x = JsSurd.root negative square ∧ 0 ≤ square ∧
    r = (if negative then -1 else 1) * Real.sqrt square

/-- The latest (last) value of a series. -/
def latestOf (l : List ℚ) : ℚ := l.getD (l.length - 1) 0

/-- A series is constant: all its values are equal. -/
def IsConstant (a : List ℚ) : Prop := ∀ x ∈ a, ∀ y ∈ a, x = y

/-- The real number `r` is the Pearson coefficient of the index-paired
series `a` and `b`, `sum((a_i - mean_a)(b_i - mean_b)) /
sqrt(sum((a_i - mean_a)^2) * sum((b_i - mean_b)^2))`, taken as 0 when one of
the series has zero variance. -/
def IsPearson (a b : List ℚ) (r : ℝ) : Prop :=
  (IsConstant a ∨ IsConstant b → r = 0) ∧
  (¬ IsConstant a → ¬ IsConstant b →
    r = (covSum a b : ℝ) / Real.sqrt ((covSum a a : ℝ) * (covSum b b : ℝ)))

/-- A confidence in whole percent: NaN or an integer from 0 to 100. -/
def IsPercent (x : JsNum) : Prop := x = JsNum.nan ∨ ∃ k : ℕ, k ≤ 100 ∧ x = JsNum.fin k

/-- The window `analyzeTempTrend` analyses: `data.slice(-timeWindow)` when a
non-zero time window is given, all the data otherwise. -/
def analysedWindow (data : List DataPoint) (timeWindow : Option Int) : List DataPoint :=
  match timeWindow with
  | some w => if w = 0 then data else jsSlice (-w) data
  | none => data

/-- The last `k` points of a sequence (all of them when it has fewer). -/
def lastPoints {α : Type} (k : Nat) (xs : List α) : List α := xs.drop (xs.length - k)

/-! ## Reference definitions for the queries -/

/-- The readings of one device among `docs`, in their order. -/
def readingsOf (deviceId : String) (docs : List Reading) : List Reading :=
  docs.filter fun r => decide (r.device.id = deviceId)

/-- The answer the latest-reading query would give if it were restricted to
the readings of one device. -/
def latestOfDevice (deviceId : String) (store : Store) : Response Reading :=
  (getData (readingsOf deviceId store)).1

/-- The accumulators of a group whose documents are `r :: rs`. -/
def GroupAcc.ofDocs (r : Reading) (rs : List Reading) : GroupAcc :=
  rs.foldl GroupAcc.step (GroupAcc.init r)

/-- The groups `G` are the state of the `$group` stage after the documents
`docs`: one group per device met, holding the accumulators of the documents
of that device, the counts adding up to the number of documents. -/
def GroupsOf (G : List GroupAcc) (docs : List Reading) : Prop :=
  (G.map fun g => g._id).Nodup ∧
  (∀ g ∈ G, ∃ r rs, readingsOf g._id docs = r :: rs ∧ g = GroupAcc.ofDocs r rs) ∧
  (∀ r ∈ docs, ∃ g ∈ G, g._id = r.device.id) ∧
  (G.map fun g => g.readingCount).sum = docs.length

/-- The aggregate of a group of readings as the specification words it: the
count, the mean, minimum and maximum temperature, the mean humidity and
pressure, the greatest timestamp, and the display name and location of the
first reading of the group. -/
def IsAggregateOf (s : DeviceStats) (group : List Reading) : Prop :=
  s.readingCount = group.length ∧
  s.avgTemperature = (group.map fun r => r.temperature).sum / group.length ∧
  ((∃ r ∈ group, s.minTemperature = r.temperature) ∧
    ∀ r ∈ group, s.minTemperature ≤ r.temperature) ∧
  ((∃ r ∈ group, s.maxTemperature = r.temperature) ∧
    ∀ r ∈ group, r.temperature ≤ s.maxTemperature) ∧
  s.avgHumidity = (group.map fun r => r.humidity).sum / group.length ∧
  s.avgPressure = (group.map fun r => r.pressure).sum / group.length ∧
  ((∃ r ∈ group, s.lastReading = r.timestamp) ∧ ∀ r ∈ group, r.timestamp ≤ s.lastReading) ∧
  ∃ r, group.head? = some r ∧ s.deviceName = r.device.name ∧ s.location = r.device.location

/-! ## Sample data -/

/-- Fifteen readings of device `pi-1`, one per second from time 1000 on. -/
def fifteenReadings : Store :=
  (List.range 15).map fun i =>
    { _id := i, temperature := 20, humidity := 45, pressure := 1013,
      timestamp := 1000 * ((i : Int) + 1),
      device := { id := "pi-1", name := "Raspberry Pi SenseHat", location := "Unknown" },
      createdAt := 1000 * ((i : Int) + 1), updatedAt := 1000 * ((i : Int) + 1) }

/-- The environment of the sample requests. -/
def sampleEnv : Env := { now := 20000, newId := 15 }

/-- The body of scenario 1. -/
def samplePayload : Payload :=
  { temperature := some (45 / 2), humidity := some 45, pressure := some 1013,
    device := some { id := some "pi-1" } }

/-- A data point with the given temperature. -/
def atTemperature (t : ℚ) : DataPoint := { temperature := t, humidity := 45, pressure := 1013 }

/-- Five points at a constant 20 degrees. -/
def constantPoints : List DataPoint := List.replicate 5 (atTemperature 20)

/-- Six points, the first five at temperature 0, humidity 50 and pressure
1013; the last has temperature 6 when `t` (a temperature anomaly), pressure
1000 when `p` (a pressure drop of 13) and humidity 99 when `h`. -/
def anomalySample (t p h : Bool) : List DataPoint :=
  List.replicate 5 { temperature := 0, humidity := 50, pressure := 1013 } ++
    [{ temperature := if t then 6 else 0
       humidity := if h then 99 else 50
       pressure := if p then 1000 else 1013 }]

/-- Three SenseHat points for the correlation examples. -/
def senseSample : List DataPoint := [⟨20, 40, 1013⟩, ⟨21, 50, 1013⟩, ⟨23, 45, 1013⟩]

/-- Three external points for the correlation examples. -/
def externalSample : List ExternalPoint := [⟨20, 40⟩, ⟨22, 40⟩, ⟨23, 40⟩]

/-- Three points with humidities 30, 70, 30. -/
def humiditySample : List DataPoint := [⟨20, 30, 1013⟩, ⟨20, 70, 1013⟩, ⟨20, 30, 1013⟩]

/-- The pressure series of scenario 4. -/
def fallingPressures : List ℚ := [1025, 1024, 1023, 1022, 1021]

/-- Five data points with the pressures of scenario 4. -/
def fallingPressurePoints : List DataPoint :=
  fallingPressures.map fun p => { temperature := 20, humidity := 45, pressure := p }

/-- A reading of the given device, temperature and time. -/
def readingOf (n : Nat) (deviceId : String) (temperature : ℚ) (time : Int) : Reading :=
  { _id := n, temperature := temperature, humidity := 45, pressure := 1013, timestamp := time,
    device := { id := deviceId, name := "Raspberry Pi SenseHat", location := "Unknown" },
    createdAt := time, updatedAt := time }

/-- Three readings of two devices: `pi-1` at times 1000 and 3000, `pi-2` at
time 4000. -/
def twoDevices : Store :=
  [readingOf 0 "pi-1" 20 1000, readingOf 1 "pi-1" 22 3000, readingOf 2 "pi-2" 30 4000]

/-- The error of the JSON body parser on a malformed body: a `SyntaxError`
carrying status 400. -/
def malformedBodyError : JsError :=
  { name := "SyntaxError", message := "Unexpected end of JSON input", status := some 400 }

/-- Five SenseHat points, to be paired with the three external points. -/
def fivePoints : List DataPoint :=
  [⟨20, 40, 1013⟩, ⟨21, 50, 1013⟩, ⟨23, 45, 1013⟩, ⟨24, 47, 1012⟩, ⟨25, 48, 1011⟩]

/-- Five points with temperatures 0, 0, 0, 0, 5: the latest lies exactly
two standard deviations from the mean. -/
def boundaryPoints : List DataPoint :=
  List.replicate 4 (atTemperature 0) ++ [atTemperature 5]

/-- The rational value of the double a decimal denotes (0 when it is beyond
the range of the doubles). -/
def Binary64.value (q : ℚ) : ℚ :=
  match Binary64.num q with
  | JsNum.fin r => r
  | _ => 0

/-- A data point with the given pressure. -/
def atPressure (p : ℚ) : DataPoint := { temperature := 20, humidity := 45, pressure := p }

/-- A data point with the given humidity. -/
def atHumidity (h : ℚ) : DataPoint := { temperature := 20, humidity := h, pressure := 1013 }

/-- Five readings with temperatures 15, 15, 15, 15, 16. -/
def fiveReadings : List DataPoint :=
  [atTemperature 15, atTemperature 15, atTemperature 15, atTemperature 15, atTemperature 16]

/-! ## Theorems: access guard and ingestion -/

theorem orElseStr_ne_empty (x : Option String) (d : String) (hd : d ≠ "") :
    orElseStr x d ≠ "" := by
  unfold orElseStr
  split
  · split <;> assumption
  · exact hd

theorem loadConfig_apiKey_ne_empty (k e : Option String) : (loadConfig k e).apiKey ≠ "" :=
  orElseStr_ne_empty k _ (by decide)

theorem apiKeyAuth_post_secret (k e : Option String) :
    apiKeyAuth (loadConfig k e) "POST" (some (loadConfig k e).apiKey) = Guard.next := by
  have h := loadConfig_apiKey_ne_empty k e
  simp [apiKeyAuth, h]

theorem apiKeyAuth_status (config : Config) (method : String) (apiKey : Option String)
    (s : Nat) (e m : String) (h : apiKeyAuth config method apiKey = Guard.respond s e m) :
    s = 401 ∨ s = 403 := by
  unfold apiKeyAuth at h
  split at h
  · cases h
  · split at h
    · cases h; exact Or.inl rfl
    · split at h
      · cases h; exact Or.inl rfl
      · split at h
        · cases h; exact Or.inr rfl
        · cases h

theorem save_error_status {α : Type} (config : Config) (env : Env) (doc : Candidate)
    (store : Store) (err : JsError) (h : save env doc store = .error err) :
    (errorHandler config err : Response α).status = 400 ∨
      (errorHandler config err : Response α).status = 500 := by
  unfold save at h
  split at h
  · split at h
    · rename_i e he
      cases h
      unfold preSave at he
      right
      split at he
      · cases he; simp [errorHandler]
      · split at he
        · cases he; simp [errorHandler]
        · split at he
          · cases he; simp [errorHandler]
          · cases he
    · cases h
  · cases h
    left
    simp [errorHandler]

theorem truthyNum_eq_some {x : Option ℚ} {v : ℚ} (h : truthyNum x = some v) :
    x = some v ∧ v ≠ 0 := by
  unfold truthyNum at h
  split at h
  · split at h
    · cases h
    · cases h; exact ⟨rfl, by assumption⟩
  · cases h

theorem truthyId_eq_some {x : Option DevicePayload} {d : DevicePayload} {i : String}
    (h : truthyId x = some (d, i)) : x = some d ∧ d.id = some i ∧ i ≠ "" := by
  unfold truthyId at h
  split at h
  · split at h
    · split at h
      · cases h
      · cases h; exact ⟨rfl, by assumption, by assumption⟩
    · cases h
  · cases h

theorem save_ok {env : Env} {doc : Candidate} {store : Store} {r : Reading} {store1 : Store}
    (h : save env doc store = .ok (r, store1)) :
    store1 = store ++ [r] ∧ r.temperature = doc.temperature ∧ r.humidity = doc.humidity ∧
      r.pressure = doc.pressure ∧ r.device = doc.device ∧ r.timestamp = env.now ∧
      validate doc = [] := by
  unfold save at h
  split at h
  · split at h
    · cases h
    · cases h
      refine ⟨rfl, rfl, rfl, rfl, rfl, rfl, by assumption⟩
  · cases h

/-- C1, where the code departs from the claim: with the correct API key, a
payload whose temperature is 0 (humidity 45, pressure 1013, device id
`pi-1`), although every value lies in its range and the id is non-empty, is
answered 400 `Missing required fields` and nothing is stored; the same
happens for a humidity of 0. -/
theorem postData_zero_rejected (k e : Option String) (env : Env) (store : Store) :
    ((-40 : ℚ) ≤ 0 ∧ (0 : ℚ) ≤ 120 ∧ (0 : ℚ) ≤ 45 ∧ (45 : ℚ) ≤ 100 ∧
      (300 : ℚ) ≤ 1013 ∧ (1013 : ℚ) ≤ 1100 ∧ "pi-1" ≠ "") ∧
    postData (loadConfig k e) env (some (loadConfig k e).apiKey)
        { temperature := some 0, humidity := some 45, pressure := some 1013,
          device := some { id := some "pi-1" } } store
      = ({ status := 400, body := .error "Bad Request" "Missing required fields" none }, store) ∧
    postData (loadConfig k e) env (some (loadConfig k e).apiKey)
        { temperature := some 20, humidity := some 0, pressure := some 1013,
          device := some { id := some "pi-1" } } store
      = ({ status := 400, body := .error "Bad Request" "Missing required fields" none }, store) := by
  refine ⟨⟨by norm_num, by norm_num, by norm_num, by norm_num, by norm_num, by norm_num,
    by decide⟩, ?_, ?_⟩
  · simp [postData, apiKeyAuth_post_secret, truthyNum]
  · simp [postData, apiKeyAuth_post_secret, truthyNum]

/-- C2: for every method other than GET and every environment, `apiKeyAuth`
answers 401 when no key is supplied (the header is absent or empty), answers
403 when a key is supplied and differs from the configured secret, and hands
over to the next handler, writing nothing, when the key is the secret. -/
theorem apiKeyAuth_non_get (k e : Option String) (method : String) (hm : method ≠ "GET") :
    (∀ apiKey, (apiKey = none ∨ apiKey = some "") →
      apiKeyAuth (loadConfig k e) method apiKey
        = Guard.respond 401 "Authentication failed" "No API key provided") ∧
    (∀ key, key ≠ "" → key ≠ (loadConfig k e).apiKey →
      apiKeyAuth (loadConfig k e) method (some key)
        = Guard.respond 403 "Authentication failed" "Invalid API key") ∧
    apiKeyAuth (loadConfig k e) method (some (loadConfig k e).apiKey) = Guard.next := by
  have h := loadConfig_apiKey_ne_empty k e
  refine ⟨?_, ?_, ?_⟩
  · rintro apiKey (rfl | rfl) <;> simp [apiKeyAuth, hm]
  · intro key h1 h2
    simp [apiKeyAuth, hm, h1, h2]
  · simp [apiKeyAuth, hm, h]

/-- Witness of C2: a POST in production with the secret `s3cret`. -/
theorem apiKeyAuth_non_get_witness :
    "POST" ≠ "GET" ∧
    apiKeyAuth (loadConfig (some "s3cret") (some "production")) "POST" none
      = Guard.respond 401 "Authentication failed" "No API key provided" ∧
    apiKeyAuth (loadConfig (some "s3cret") (some "production")) "POST" (some "guess")
      = Guard.respond 403 "Authentication failed" "Invalid API key" ∧
    apiKeyAuth (loadConfig (some "s3cret") (some "production")) "POST"
      (some (loadConfig (some "s3cret") (some "production")).apiKey) = Guard.next :=
  ⟨by decide,
   (apiKeyAuth_non_get (some "s3cret") (some "production") "POST" (by decide)).1 none
     (Or.inl rfl),
   (apiKeyAuth_non_get (some "s3cret") (some "production") "POST" (by decide)).2.1 "guess"
     (by decide) (by decide),
   (apiKeyAuth_non_get (some "s3cret") (some "production") "POST" (by decide)).2.2⟩

/-- C3: an authenticated POST whose payload lacks temperature, humidity,
pressure, the device or the device id is answered 400 `Bad Request` /
`Missing required fields` and the store is left as it was, whatever the
fields that are present hold. -/
theorem postData_missing_field (config : Config) (env : Env) (apiKey : Option String)
    (body : Payload) (store : Store)
    (hauth : apiKeyAuth config "POST" apiKey = Guard.next)
    (habsent : body.temperature = none ∨ body.humidity = none ∨ body.pressure = none ∨
      body.device = none ∨ ∃ d, body.device = some d ∧ d.id = none) :
    postData config env apiKey body store
      = ({ status := 400, body := .error "Bad Request" "Missing required fields" none },
         store) := by
  unfold postData
  rw [hauth]
  simp only
  rcases habsent with h | h | h | h | ⟨d, h, hd⟩
  · rw [h]; simp [truthyNum]
  · rw [h]; simp [truthyNum]
  · rw [h]; simp [truthyNum]
  · rw [h]; simp [truthyId]
  · rw [h]; simp [truthyId, hd]

/-- Witness of C3: a payload without pressure whose temperature is out of
range. -/
theorem postData_missing_field_witness :
    apiKeyAuth (loadConfig none none) "POST" (some "default_api_key_please_change")
      = Guard.next ∧
    (some (150 : ℚ) = none ∨ some (45 : ℚ) = none ∨ (none : Option ℚ) = none ∨
      some ({ id := some "pi-1" } : DevicePayload) = none ∨
      ∃ d, some ({ id := some "pi-1" } : DevicePayload) = some d ∧ d.id = none) ∧
    postData (loadConfig none none) sampleEnv (some "default_api_key_please_change")
        { temperature := some 150, humidity := some 45, pressure := none,
          device := some { id := some "pi-1" } } fifteenReadings
      = ({ status := 400, body := .error "Bad Request" "Missing required fields" none },
         fifteenReadings) :=
  ⟨by decide, Or.inr (Or.inr (Or.inl rfl)),
   postData_missing_field (loadConfig none none) sampleEnv
     (some "default_api_key_please_change")
     { temperature := some 150, humidity := some 45, pressure := none,
       device := some { id := some "pi-1" } } fifteenReadings (by decide)
     (Or.inr (Or.inr (Or.inl rfl)))⟩

/-- C4: a call answered 201 leaves the store as the store before followed by
exactly one new reading, carried by the response, whose temperature,
humidity, pressure and device id are the payload's, whose device name is the
payload's name, or `Raspberry Pi SenseHat` when the payload gives none (no
name or an empty one), and whose location is the payload's, or `Unknown` when
it gives none; a call not answered 201 (so every call answered 400, 401 or
403) leaves the store unchanged. -/
theorem postData_store_effect (config : Config) (env : Env) (apiKey : Option String)
    (body : Payload) (store : Store) :
    ((postData config env apiKey body store).1.status = 201 →
      ∃ (t h p : ℚ) (d : DevicePayload) (i : String) (r : Reading),
        body.temperature = some t ∧ body.humidity = some h ∧ body.pressure = some p ∧
        body.device = some d ∧ d.id = some i ∧
        (postData config env apiKey body store).2 = store ++ [r] ∧
        (postData config env apiKey body store).1.body = Body.data r ∧
        r.temperature = t ∧ r.humidity = h ∧ r.pressure = p ∧ r.device.id = i ∧
        (∀ nm, d.name = some nm → nm ≠ "" → r.device.name = nm) ∧
        (d.name = none ∨ d.name = some "" → r.device.name = "Raspberry Pi SenseHat") ∧
        (∀ loc, d.location = some loc → loc ≠ "" → r.device.location = loc) ∧
        (d.location = none ∨ d.location = some "" → r.device.location = "Unknown")) ∧
    ((postData config env apiKey body store).1.status ≠ 201 →
      (postData config env apiKey body store).2 = store) := by
  unfold postData
  split
  · rename_i s e m hg
    have := apiKeyAuth_status _ _ _ _ _ _ hg
    refine ⟨fun h => ?_, fun _ => rfl⟩
    simp only at h
    omega
  · split
    · rename_i t h p d i ht hh hp hd
      obtain ⟨ht1, -⟩ := truthyNum_eq_some ht
      obtain ⟨hh1, -⟩ := truthyNum_eq_some hh
      obtain ⟨hp1, -⟩ := truthyNum_eq_some hp
      obtain ⟨hd1, hd2, -⟩ := truthyId_eq_some hd
      dsimp only
      split
      · rename_i r store1 hs
        obtain ⟨e1, e2, e3, e4, e5, -, -⟩ := save_ok hs
        refine ⟨fun _ => ⟨t, h, p, d, i, r, ht1, hh1, hp1, hd1, hd2, e1, rfl, e2, e3, e4,
          ?_, ?_, ?_, ?_, ?_⟩, fun hne => absurd rfl hne⟩
        · rw [e5]
        · intro nm h1 h2; rw [e5]; simp [orElseStr, h1, h2]
        · rintro (h1 | h1) <;> rw [e5] <;> simp [orElseStr, h1]
        · intro nm h1 h2; rw [e5]; simp [orElseStr, h1, h2]
        · rintro (h1 | h1) <;> rw [e5] <;> simp [orElseStr, h1]
      · rename_i err hs
        refine ⟨fun h => ?_, fun _ => rfl⟩
        simp only at h
        rcases save_error_status (α := Reading) config _ _ _ _ hs with h1 | h1 <;> omega
    · refine ⟨fun h => ?_, fun _ => rfl⟩
      simp at h

/-- Witness of C4: scenario 1 is stored behind the fifteen readings, with
the default name and location; a temperature of 150 is answered 400 and
leaves the store unchanged. -/
theorem postData_store_effect_witness :
    postData (loadConfig none none) sampleEnv (some "default_api_key_please_change")
        samplePayload fifteenReadings
      = ({ status := 201
           body := .data
             { _id := 15, temperature := 45 / 2, humidity := 45, pressure := 1013,
               timestamp := 20000,
               device := { id := "pi-1", name := "Raspberry Pi SenseHat", location := "Unknown" },
               createdAt := 20000, updatedAt := 20000 } },
         fifteenReadings ++
           [{ _id := 15, temperature := 45 / 2, humidity := 45, pressure := 1013,
              timestamp := 20000,
              device := { id := "pi-1", name := "Raspberry Pi SenseHat", location := "Unknown" },
              createdAt := 20000, updatedAt := 20000 }]) ∧
    (postData (loadConfig none none) sampleEnv (some "default_api_key_please_change")
        { samplePayload with temperature := some 150 } fifteenReadings).1.status = 400 ∧
    (postData (loadConfig none none) sampleEnv (some "default_api_key_please_change")
        { samplePayload with temperature := some 150 } fifteenReadings).2 = fifteenReadings :=
  ⟨by decide!, by decide!,
   (postData_store_effect (loadConfig none none) sampleEnv
     (some "default_api_key_please_change")
     { samplePayload with temperature := some 150 } fifteenReadings).2 (by decide!)⟩

/-! ## Theorems: queries -/

theorem sortByTimestampDesc_perm (rs : List Reading) : (sortByTimestampDesc rs).Perm rs :=
  List.perm_insertionSort _ rs

theorem sortByTimestampDesc_sorted (rs : List Reading) :
    (sortByTimestampDesc rs).Pairwise (fun a b => b.timestamp ≤ a.timestamp) :=
  List.sorted_insertionSort newerFirst rs

theorem matchesQuery_iff (since : Int) (deviceId : Option String) (r : Reading) :
    matchesQuery since deviceId r = true ↔
      since ≤ r.timestamp ∧ ∀ d, deviceId = some d → d ≠ "" → r.device.id = d := by
  unfold matchesQuery
  cases deviceId with
  | none => simp
  | some d =>
    by_cases hd : d = ""
    · simp [hd]
    · simp [hd]

/-- C5, as amended: for every page >= 1 and every limit >= 1 (absent
parameters count as page 1 and limit 100), `GET /api/data/history` answers
200 and leaves the store unchanged; with `full` the readings that match the
query (timestamp >= now - hours, and the device id when a non-empty one is
given), newest first, position `i` of `data` is position `(page-1)*limit + i`
of `full` for `i < limit` and `data` has no position from `limit` on, `total`
is the length of `full`, and `pages` is the ceiling of `total / limit`. -/
theorem getHistory_page (config : Config) (env : Env) (q : HistoryQuery) (store : Store)
    (hpage : 1 ≤ q.page.getD 1) (hlimit : 1 ≤ q.limit.getD 100) :
    ∃ full data : List Reading,
      full.Perm
        (store.filter (matchesQuery (env.now - q.hours.getD 24 * 60 * 60 * 1000) q.deviceId)) ∧
      (∀ r, matchesQuery (env.now - q.hours.getD 24 * 60 * 60 * 1000) q.deviceId r = true ↔
        env.now - q.hours.getD 24 * 60 * 60 * 1000 ≤ r.timestamp ∧
          ∀ d, q.deviceId = some d → d ≠ "" → r.device.id = d) ∧
      full.Pairwise (fun a b => b.timestamp ≤ a.timestamp) ∧
      getHistory config env q store =
        ({ status := 200
           body := .data
             { data := data
               pagination :=
                 { total := full.length
                   page := q.page.getD 1
                   pages := JsNum.fin
                     ((⌈(full.length : ℚ) / ((q.limit.getD 100 : ℤ) : ℚ)⌉ : ℤ) : ℚ) } } },
         store) ∧
      ∀ i : ℕ, data[i]? =
        if (i : ℤ) < q.limit.getD 100 then
          full[((q.page.getD 1 - 1) * q.limit.getD 100).toNat + i]?
        else none := by
  set limit := q.limit.getD 100 with hl
  set page := q.page.getD 1 with hp
  set found :=
    store.filter (matchesQuery (env.now - q.hours.getD 24 * 60 * 60 * 1000) q.deviceId) with hf
  refine ⟨sortByTimestampDesc found,
    ((sortByTimestampDesc found).drop ((page - 1) * limit).toNat).take limit.natAbs,
    sortByTimestampDesc_perm _, fun r => matchesQuery_iff _ _ r,
    sortByTimestampDesc_sorted _, ?_, ?_⟩
  · have h1 : ¬ (page - 1) * limit < 0 := by
      have : 0 ≤ (page - 1) * limit := mul_nonneg (by omega) (by omega)
      omega
    have h2 : limit ≠ 0 := by omega
    have h3 : ((limit : ℤ) : ℚ) ≠ 0 := by exact_mod_cast h2
    have h4 : (sortByTimestampDesc found).length = found.length :=
      (sortByTimestampDesc_perm _).length_eq
    simp only [getHistory, skipLimit, ← hl, ← hp, ← hf, h1, h2, if_false, JsNum.div, h3,
      JsNum.ceil, h4]
  · intro i
    by_cases hi : (i : ℤ) < limit
    · have : i < limit.natAbs := by omega
      simp [hi, List.getElem?_take, this]
    · have : ¬ i < limit.natAbs := by omega
      simp [hi, List.getElem?_take, this]

/-- Witness of C5 (scenario 3): fifteen matching readings, page 2 with limit
10, give the five oldest readings, newest first, and
`{total: 15, page: 2, pages: 2}`. -/
theorem getHistory_page_witness :
    (1 : ℤ) ≤ (some (2 : ℤ)).getD 1 ∧ (1 : ℤ) ≤ (some (10 : ℤ)).getD 100 ∧
    (∃ full data : List Reading,
      full.Perm
        (fifteenReadings.filter
          (matchesQuery (sampleEnv.now - (some (24 : ℤ)).getD 24 * 60 * 60 * 1000) none)) ∧
      (∀ r, matchesQuery (sampleEnv.now - (some (24 : ℤ)).getD 24 * 60 * 60 * 1000) none r = true ↔
        sampleEnv.now - (some (24 : ℤ)).getD 24 * 60 * 60 * 1000 ≤ r.timestamp ∧
          ∀ d, (none : Option String) = some d → d ≠ "" → r.device.id = d) ∧
      full.Pairwise (fun a b => b.timestamp ≤ a.timestamp) ∧
      getHistory (loadConfig none none) sampleEnv
          { hours := some 24, limit := some 10, page := some 2 } fifteenReadings =
        ({ status := 200
           body := .data
             { data := data
               pagination :=
                 { total := full.length
                   page := (some (2 : ℤ)).getD 1
                   pages := JsNum.fin
                     ((⌈(full.length : ℚ) / (((some (10 : ℤ)).getD 100 : ℤ) : ℚ)⌉ : ℤ) : ℚ) } } },
         fifteenReadings) ∧
      ∀ i : ℕ, data[i]? =
        if (i : ℤ) < (some (10 : ℤ)).getD 100 then
          full[(((some (2 : ℤ)).getD 1 - 1) * (some (10 : ℤ)).getD 100).toNat + i]?
        else none) ∧
    (getHistory (loadConfig none none) sampleEnv
        { hours := some 24, limit := some 10, page := some 2 } fifteenReadings).1
      = { status := 200
          body := .data
            { data := (fifteenReadings.take 5).reverse
              pagination := { total := 15, page := 2, pages := JsNum.fin 2 } } } ∧
    ((fifteenReadings.take 5).reverse).length = 5 :=
  ⟨by decide, by decide,
   getHistory_page (loadConfig none none) sampleEnv
     { hours := some 24, limit := some 10, page := some 2 } fifteenReadings
     (by decide) (by decide),
   by decide!, by decide⟩

/-- Counterexample to C5 as stated (any page and page size): with fifteen
matching readings, limit 0 and page 1 return all fifteen readings, not the
empty slice `[0, 0)`, with `pages` infinite; and limit 10 with page 0 is
answered 500. -/
theorem getHistory_any_page_size_fails :
    (getHistory (loadConfig none none) sampleEnv
        { hours := some 24, limit := some 0, page := some 1 } fifteenReadings).1
      = { status := 200
          body := .data
            { data := fifteenReadings.reverse
              pagination := { total := 15, page := 1, pages := JsNum.posInf } } } ∧
    fifteenReadings.reverse.length = 15 ∧
    ((sortByTimestampDesc fifteenReadings).drop ((1 - 1) * 0)).take (1 * 0 - (1 - 1) * 0) = [] ∧
    (getHistory (loadConfig none none) sampleEnv
        { hours := some 24, limit := some 10, page := some 0 } fifteenReadings).1.status = 500 :=
  ⟨by decide!, by decide, by decide!, by decide!⟩

/-- C6: `GET /api/data` answers 404 `Not Found` exactly when the store is
empty; otherwise it answers 200 with a stored reading whose timestamp is at
least that of every stored reading; the store is left unchanged and a second
call gives the same result. -/
theorem getData_latest (store : Store) :
    ((getData store).1.status = 404 ↔ store = []) ∧
    (store = [] →
      (getData store).1
        = { status := 404, body := .error "Not Found" "No sensor data available" none }) ∧
    (store ≠ [] → ∃ r ∈ store, (getData store).1 = { status := 200, body := .data r } ∧
      ∀ r1 ∈ store, r1.timestamp ≤ r.timestamp) ∧
    (getData store).2 = store ∧
    getData (getData store).2 = getData store := by
  have hperm := sortByTimestampDesc_perm store
  have hsorted := sortByTimestampDesc_sorted store
  unfold getData
  cases hs : sortByTimestampDesc store with
  | nil =>
    rw [hs] at hperm
    have h0 : store = [] := hperm.symm.eq_nil
    subst h0
    simp [hs]
  | cons r rest =>
    rw [hs] at hperm hsorted
    have hne : store ≠ [] := by
      rintro rfl
      simpa using hperm.length_eq
    have hmem : r ∈ store := hperm.subset (List.mem_cons_self _ _)
    have hmax : ∀ r1 ∈ store, r1.timestamp ≤ r.timestamp := by
      intro r1 h1
      have : r1 ∈ r :: rest := hperm.symm.subset h1
      rcases List.mem_cons.1 this with rfl | h2
      · exact le_rfl
      · exact List.rel_of_pairwise_cons hsorted h2
    simp [hs, hne]
    exact ⟨r, hmem, rfl, hmax⟩

/-- Witness of C6: on the fifteen readings the answer is the newest one (id
14, time 15000), and on the empty store it is 404. -/
theorem getData_latest_witness :
    (getData fifteenReadings).1.status = 200 ∧
    (∃ r ∈ fifteenReadings, (getData fifteenReadings).1 = { status := 200, body := .data r } ∧
      ∀ r1 ∈ fifteenReadings, r1.timestamp ≤ r.timestamp) ∧
    (getData []).1.status = 404 :=
  ⟨by decide!, (getData_latest fifteenReadings).2.2.1 (by decide), by decide⟩

/-! ## Theorems: the regression -/

namespace JsNum

theorem fin_add_fin (a b : ℚ) : (fin a + fin b : JsNum) = fin (a + b) := rfl

theorem fin_sub_fin (a b : ℚ) : (fin a - fin b : JsNum) = fin (a - b) := by
  show JsNum.add (fin a) (JsNum.neg (fin b)) = fin (a - b)
  simp only [JsNum.neg, JsNum.add, sub_eq_add_neg]

theorem fin_mul_fin (a b : ℚ) : (fin a * fin b : JsNum) = fin (a * b) := rfl

theorem fin_div_fin (a b : ℚ) (hb : b ≠ 0) : (fin a / fin b : JsNum) = fin (a / b) := by
  show JsNum.div (fin a) (fin b) = fin (a / b)
  simp only [JsNum.div, if_neg hb]

theorem sq_fin (a : ℚ) : JsNum.sq (fin a) = fin (a ^ 2) := by
  simp only [JsNum.sq, JsNum.mul, pow_two]

end JsNum

theorem regressionSums_fold (values : List ℚ) (m : ℕ) :
    (List.range m).foldl
      (fun (s : Sums) (i : Nat) =>
        { sumX := s.sumX + i
          sumY := s.sumY + values.getD i 0
          sumXY := s.sumXY + i * values.getD i 0
          sumX2 := s.sumX2 + i * i })
      { sumX := 0, sumY := 0, sumXY := 0, sumX2 := 0 }
    = { sumX := ∑ i ∈ Finset.range m, (i : ℚ)
        sumY := ∑ i ∈ Finset.range m, values.getD i 0
        sumXY := ∑ i ∈ Finset.range m, (i : ℚ) * values.getD i 0
        sumX2 := ∑ i ∈ Finset.range m, (i : ℚ) * i } := by
  induction m with
  | zero => simp
  | succ m ih =>
    rw [List.range_succ, List.foldl_append, ih]
    simp [Finset.sum_range_succ]

theorem regressionSums_eq (values : List ℚ) :
    regressionSums values
    = { sumX := ∑ i ∈ Finset.range values.length, (i : ℚ)
        sumY := ∑ i ∈ Finset.range values.length, values.getD i 0
        sumXY := ∑ i ∈ Finset.range values.length, (i : ℚ) * values.getD i 0
        sumX2 := ∑ i ∈ Finset.range values.length, (i : ℚ) * i } :=
  regressionSums_fold values values.length

theorem sum_centered (f : ℕ → ℚ) (a b : ℚ) (m : ℕ) :
    ∑ i ∈ Finset.range m, ((i : ℚ) - a) * (f i - b)
      = ∑ i ∈ Finset.range m, (i : ℚ) * f i - b * ∑ i ∈ Finset.range m, (i : ℚ)
        - a * ∑ i ∈ Finset.range m, f i + m * a * b := by
  induction m with
  | zero => simp
  | succ m ih =>
    simp only [Finset.sum_range_succ, ih]
    push_cast
    ring

theorem sum_index (m : ℕ) : ∑ i ∈ Finset.range m, (i : ℚ) = (m : ℚ) * (m - 1) / 2 := by
  induction m with
  | zero => simp
  | succ m ih =>
    rw [Finset.sum_range_succ, ih]
    push_cast
    ring

theorem sum_index_sq (m : ℕ) :
    ∑ i ∈ Finset.range m, (i : ℚ) * i = (m : ℚ) * (m - 1) * (2 * m - 1) / 6 := by
  induction m with
  | zero => simp
  | succ m ih =>
    rw [Finset.sum_range_succ, ih]
    push_cast
    ring

/-- The denominator of the slope in closed form: `n^2 (n^2 - 1) / 12`. -/
theorem slopeDen_closed (n : ℕ) : slopeDen n = (n : ℚ) ^ 2 * ((n : ℚ) ^ 2 - 1) / 12 := by
  rw [slopeDen, sum_index, sum_index_sq]
  ring

/-- From two points on, the denominator of the slope is positive: the
division that computes the slope is never by zero. -/
theorem slopeDen_pos (n : ℕ) (hn : 2 ≤ n) : 0 < slopeDen n := by
  rw [slopeDen_closed]
  have h2 : (2 : ℚ) ≤ n := by exact_mod_cast hn
  have : (0 : ℚ) < (n : ℚ) ^ 2 - 1 := by nlinarith
  positivity

theorem slopeNum_succ (f : ℕ → ℚ) (m : ℕ) :
    slopeNum f (m + 1)
      = slopeNum f m + ∑ i ∈ Finset.range m, ((i : ℚ) - m) * (f i - f m) := by
  rw [sum_centered]
  simp only [slopeNum, Finset.sum_range_succ]
  push_cast
  ring

theorem slopeNum_nonneg (f : ℕ → ℚ) (n : ℕ) (hmono : ∀ i j, i < j → j < n → f i < f j) :
    ∀ m, m ≤ n → 0 ≤ slopeNum f m ∧ (2 ≤ m → 0 < slopeNum f m) := by
  intro m
  induction m with
  | zero => intro _; simp [slopeNum]
  | succ m ih =>
    intro hm
    obtain ⟨h0, -⟩ := ih (by omega)
    have hterm : ∀ i ∈ Finset.range m, 0 < ((i : ℚ) - m) * (f i - f m) := by
      intro i hi
      have hi1 : i < m := Finset.mem_range.1 hi
      have h1 : (i : ℚ) - m < 0 := by
        have : (i : ℚ) < m := by exact_mod_cast hi1
        linarith
      have h2 : f i - f m < 0 := by
        have := hmono i m hi1 (by omega)
        linarith
      exact mul_pos_of_neg_of_neg h1 h2
    rw [slopeNum_succ]
    constructor
    · have := Finset.sum_nonneg (fun i hi => (hterm i hi).le)
      linarith
    · intro h2
      have : 0 < ∑ i ∈ Finset.range m, ((i : ℚ) - m) * (f i - f m) :=
        Finset.sum_pos hterm ⟨0, Finset.mem_range.2 (by omega)⟩
      linarith

theorem slopeNum_pos (f : ℕ → ℚ) (n : ℕ) (hn : 2 ≤ n)
    (hmono : ∀ i j, i < j → j < n → f i < f j) : 0 < slopeNum f n :=
  (slopeNum_nonneg f n hmono n le_rfl).2 hn

theorem slopeNum_shift (f : ℕ → ℚ) (c : ℚ) (n : ℕ) :
    slopeNum (fun i => f i - c * i) n = slopeNum f n - c * slopeDen n := by
  simp only [slopeNum, slopeDen, mul_sub, Finset.sum_sub_distrib, ← Finset.mul_sum]
  have : ∀ i : ℕ, (i : ℚ) * (c * i) = c * ((i : ℚ) * i) := fun i => by ring
  simp only [this, ← Finset.mul_sum]
  ring

theorem slopeNum_neg (f : ℕ → ℚ) (n : ℕ) : slopeNum (fun i => -f i) n = -slopeNum f n := by
  simp only [slopeNum, mul_neg, Finset.sum_neg_distrib]
  ring

theorem lt_of_steps (g : ℕ → ℚ) (n : ℕ) (h : ∀ i, i + 1 < n → g i < g (i + 1)) :
    ∀ i j, i < j → j < n → g i < g j := by
  intro i j hij
  induction j with
  | zero => omega
  | succ j ih =>
    intro hj
    rcases Nat.lt_succ_iff_lt_or_eq.1 hij with h1 | rfl
    · exact lt_trans (ih h1 (by omega)) (h j hj)
    · exact h i hj

theorem slopeNum_gt_of_steps (f : ℕ → ℚ) (c : ℚ) (n : ℕ) (hn : 2 ≤ n)
    (hstep : ∀ i, i + 1 < n → f i + c < f (i + 1)) : c * slopeDen n < slopeNum f n := by
  have hmono := lt_of_steps (fun i => f i - c * i) n (by
    intro i hi
    have := hstep i hi
    push_cast
    linarith)
  have := slopeNum_pos _ n hn hmono
  rw [slopeNum_shift] at this
  linarith

/-- The slope in the words of the specification is the quotient the code
computes. -/
theorem olsSlope_eq (ys : List ℚ) (hn : 2 ≤ ys.length) :
    olsSlope ys = slopeNum (seriesOf ys) ys.length / slopeDen ys.length := by
  have hpos := slopeDen_pos ys.length hn
  unfold slopeDen at hpos ⊢
  have hn0 : (ys.length : ℚ) ≠ 0 := by
    have : (2 : ℚ) ≤ ys.length := by exact_mod_cast hn
    linarith
  have hsq : ∀ a : ℚ, ∑ i ∈ Finset.range ys.length, ((i : ℚ) - a) ^ 2
      = ∑ i ∈ Finset.range ys.length, ((i : ℚ) - a) * ((fun j : ℕ => (j : ℚ)) i - a) := by
    intro a
    exact Finset.sum_congr rfl fun i _ => by ring
  unfold olsSlope
  simp only [hsq]
  have hnum := sum_centered (seriesOf ys)
    ((∑ i ∈ Finset.range ys.length, (i : ℚ)) / ys.length)
    ((∑ i ∈ Finset.range ys.length, ys.getD i 0) / ys.length) ys.length
  simp only [seriesOf] at hnum
  rw [hnum, sum_centered]
  simp only [slopeNum, seriesOf]
  rw [div_eq_div_iff _ hpos.ne']
  · field_simp
    ring
  · intro h0
    apply hpos.ne'
    have : (ys.length : ℚ) * (∑ i ∈ Finset.range ys.length, (i : ℚ) * i)
        - (∑ i ∈ Finset.range ys.length, (i : ℚ)) * (∑ i ∈ Finset.range ys.length, (i : ℚ))
        = ys.length * (∑ i ∈ Finset.range ys.length, (i : ℚ) * (fun j : ℕ => (j : ℚ)) i
          - (∑ i ∈ Finset.range ys.length, (i : ℚ)) / ys.length
            * ∑ i ∈ Finset.range ys.length, (i : ℚ)
          - (∑ i ∈ Finset.range ys.length, (i : ℚ)) / ys.length
            * ∑ i ∈ Finset.range ys.length, (fun j : ℕ => (j : ℚ)) i
          + ys.length * ((∑ i ∈ Finset.range ys.length, (i : ℚ)) / ys.length)
            * ((∑ i ∈ Finset.range ys.length, (i : ℚ)) / ys.length)) := by
      field_simp
      ring
    rw [this, h0, mul_zero]

theorem regressionSlope_eq (ys : List ℚ) (hn : 2 ≤ ys.length) :
    regressionSlope ys.length (regressionSums ys) = JsNum.fin (olsSlope ys) := by
  have hpos := slopeDen_pos ys.length hn
  rw [olsSlope_eq ys hn, regressionSums_eq]
  unfold slopeDen at hpos
  simp only [regressionSlope, JsNum.div, if_neg hpos.ne', slopeNum, slopeDen, seriesOf]

theorem variations_fold (values : List ℚ) (s : Sums) (m a : ℚ) (n : ℕ) (hn : (n : ℚ) ≠ 0)
    (k : ℕ) :
    (List.range k).foldl
      (fun (acc : JsNum × JsNum) (i : Nat) =>
        let prediction : JsNum :=
          JsNum.fin m * JsNum.fin i
            + (JsNum.fin s.sumY - JsNum.fin m * JsNum.fin s.sumX) / JsNum.fin n
        (acc.1 + JsNum.sq (JsNum.fin (values.getD i 0) - JsNum.fin a),
         acc.2 + JsNum.sq (prediction - JsNum.fin a)))
      (JsNum.fin 0, JsNum.fin 0)
    = (JsNum.fin (∑ i ∈ Finset.range k, (values.getD i 0 - a) ^ 2),
       JsNum.fin (∑ i ∈ Finset.range k, (m * i + (s.sumY - m * s.sumX) / n - a) ^ 2)) := by
  induction k with
  | zero => simp
  | succ k ih =>
    rw [List.range_succ, List.foldl_append, ih]
    simp only [List.foldl_cons, List.foldl_nil, JsNum.fin_add_fin, JsNum.fin_sub_fin,
      JsNum.fin_mul_fin, JsNum.fin_div_fin _ _ hn, JsNum.sq_fin, Finset.sum_range_succ]

/-- With a finite slope and mean, the second loop returns the total and the
explained variation as finite sums. -/
theorem variations_fin (values : List ℚ) (s : Sums) (m a : ℚ) (hn : values.length ≠ 0) :
    variations values s (JsNum.fin m) (JsNum.fin a)
    = (JsNum.fin (∑ i ∈ Finset.range values.length, (values.getD i 0 - a) ^ 2),
       JsNum.fin (∑ i ∈ Finset.range values.length,
         (m * i + (s.sumY - m * s.sumX) / values.length - a) ^ 2)) :=
  variations_fold values s m a values.length (by exact_mod_cast hn) values.length

/-! ## Theorems: trend analysis -/

theorem analyzeTempTrend_slope (data : List DataPoint) (hn : 2 ≤ data.length) :
    (analyzeTempTrend (some data)).slope
      = some (JsNum.fin (olsSlope (data.map (fun d => d.temperature)))) := by
  have h : ¬ data.length < 2 := by omega
  have hl : 2 ≤ (data.map (fun d => d.temperature)).length := by simpa using hn
  have := regressionSlope_eq _ hl
  simp only [List.length_map] at this
  simp only [analyzeTempTrend, if_neg h, this]

theorem analyzeTempTrend_trend (data : List DataPoint) (hn : 2 ≤ data.length) :
    (analyzeTempTrend (some data)).trend
      = if 1 / 10 < olsSlope (data.map (fun d => d.temperature)) then "rising"
        else if olsSlope (data.map (fun d => d.temperature)) < -(1 / 10) then "falling"
        else "stable" := by
  have h : ¬ data.length < 2 := by omega
  have hl : 2 ≤ (data.map (fun d => d.temperature)).length := by simpa using hn
  have := regressionSlope_eq _ hl
  simp only [List.length_map] at this
  simp only [analyzeTempTrend, if_neg h, this, JsNum.gt, JsNum.lt, decide_eq_true_eq]

theorem analyzeTrend_slope (values : List ℚ) (hn : 2 ≤ values.length) :
    (analyzeTrend values).slope = JsNum.fin (olsSlope values) := by
  simp only [analyzeTrend, regressionSlope_eq values hn]

theorem analyzeTrend_trend (values : List ℚ) (hn : 2 ≤ values.length) :
    (analyzeTrend values).trend
      = if 1 / 20 < olsSlope values then "rising"
        else if olsSlope values < -(1 / 20) then "falling"
        else "stable" := by
  simp only [analyzeTrend, regressionSlope_eq values hn, JsNum.gt, JsNum.lt,
    decide_eq_true_eq]

theorem direction_iff (s c : ℚ) (hc : 0 < c) (t : String)
    (ht : t = if c < s then "rising" else if s < -c then "falling" else "stable") :
    (t = "rising" ↔ c < s) ∧ (t = "falling" ↔ s < -c) ∧
      (t = "stable" ↔ ¬ c < s ∧ ¬ s < -c) := by
  subst ht
  by_cases h1 : c < s
  · have h2 : ¬ s < -c := by linarith
    simp [h1, h2]
  · by_cases h2 : s < -c
    · simp [h1, h2]
    · simp [h1, h2]

theorem chain_steps (ys : List ℚ) (R : ℚ → ℚ → Prop) (h : ys.Chain' R) :
    ∀ i, i + 1 < ys.length → R (seriesOf ys i) (seriesOf ys (i + 1)) := by
  intro i hi
  have h1 := List.chain'_iff_get.1 h i (by omega)
  simp only [seriesOf, List.getD_eq_getElem ys 0 hi,
    List.getD_eq_getElem ys 0 (show i < ys.length by omega)]
  simpa using h1

/-- When every value exceeds its predecessor by more than `c`, the slope
exceeds `c`. -/
theorem olsSlope_gt_of_steps (ys : List ℚ) (c : ℚ) (hn : 2 ≤ ys.length)
    (h : ys.Chain' (fun a b => a + c < b)) : c < olsSlope ys := by
  rw [olsSlope_eq ys hn, lt_div_iff₀ (slopeDen_pos ys.length hn)]
  exact slopeNum_gt_of_steps (seriesOf ys) c ys.length hn (chain_steps ys _ h)

/-- When every value is below its predecessor by more than `c`, the slope is
below `-c`. -/
theorem olsSlope_lt_of_steps (ys : List ℚ) (c : ℚ) (hn : 2 ≤ ys.length)
    (h : ys.Chain' (fun a b => b + c < a)) : olsSlope ys < -c := by
  rw [olsSlope_eq ys hn, div_lt_iff₀ (slopeDen_pos ys.length hn)]
  have hs := chain_steps ys _ h
  have := slopeNum_gt_of_steps (fun i => -seriesOf ys i) c ys.length hn (by
    intro i hi
    have := hs i hi
    show -seriesOf ys i + c < -seriesOf ys (i + 1)
    linarith)
  rw [slopeNum_neg] at this
  linarith

theorem olsSlope_pos_of_increasing (ys : List ℚ) (hn : 2 ≤ ys.length)
    (h : ys.Sorted (· < ·)) : 0 < olsSlope ys :=
  olsSlope_gt_of_steps ys 0 hn
    ((List.Pairwise.chain' h).imp fun a b hab => by simpa using hab)

theorem olsSlope_neg_of_decreasing (ys : List ℚ) (hn : 2 ≤ ys.length)
    (h : ys.Sorted (· > ·)) : olsSlope ys < 0 := by
  have := olsSlope_lt_of_steps ys 0 hn
    ((List.Pairwise.chain' h).imp fun a b hab => by simpa using hab)
  simpa using this

theorem getD_of_constant (values : List ℚ) (c : ℚ) (hc : ∀ v ∈ values, v = c) (i : ℕ)
    (hi : i < values.length) : values.getD i 0 = c := by
  rw [List.getD_eq_getElem values 0 hi]
  exact hc _ (List.getElem_mem _)

/-- On a constant series of at least 2 values the slope is 0, the mean is the
constant, and the total and the explained variation are both 0. -/
theorem constant_series_regression (values : List ℚ) (c : ℚ) (hn : 2 ≤ values.length)
    (hc : ∀ v ∈ values, v = c) :
    regressionSlope values.length (regressionSums values) = JsNum.fin 0 ∧
    JsNum.div (JsNum.fin (regressionSums values).sumY) (JsNum.fin values.length)
      = JsNum.fin c ∧
    variations values (regressionSums values) (JsNum.fin 0) (JsNum.fin c)
      = (JsNum.fin 0, JsNum.fin 0) := by
  have hn0 : (values.length : ℚ) ≠ 0 := by
    have : (2 : ℚ) ≤ values.length := by exact_mod_cast hn
    linarith
  have hY : ∑ i ∈ Finset.range values.length, values.getD i 0 = values.length * c := by
    rw [Finset.sum_congr rfl fun i hi =>
      getD_of_constant values c hc i (Finset.mem_range.1 hi)]
    simp
  have hXY : ∑ i ∈ Finset.range values.length, (i : ℚ) * values.getD i 0
      = (∑ i ∈ Finset.range values.length, (i : ℚ)) * c := by
    rw [Finset.sum_congr rfl fun i hi => by
      rw [getD_of_constant values c hc i (Finset.mem_range.1 hi)], Finset.sum_mul]
  refine ⟨?_, ?_, ?_⟩
  · rw [regressionSlope_eq values hn, olsSlope_eq values hn]
    simp only [slopeNum, seriesOf, hY, hXY]
    congr 1
    rw [div_eq_zero_iff]
    left
    ring
  · rw [regressionSums_eq]
    simp only [hY, JsNum.div, if_neg hn0]
    congr 1
    field_simp
  · rw [variations_fin values _ 0 c (by omega), regressionSums_eq]
    simp only [hY]
    have h1 : ∑ i ∈ Finset.range values.length, (values.getD i 0 - c) ^ 2 = 0 := by
      apply Finset.sum_eq_zero
      intro i hi
      rw [getD_of_constant values c hc i (Finset.mem_range.1 hi)]
      ring
    have h2 : ∑ i ∈ Finset.range values.length,
        ((0 : ℚ) * i + (values.length * c - 0 * ∑ i ∈ Finset.range values.length, (i : ℚ))
          / values.length - c) ^ 2 = 0 := by
      apply Finset.sum_eq_zero
      intro i _
      field_simp
    rw [h1, h2]

/-- In exact arithmetic, on every constant series of at least 2 points both
analyzers return `stable` and the confidence NaN: the ratio of the
variations is `0 / 0`.  (In double arithmetic this is so when the mean is
computed exactly, as on whole numbers.) -/
theorem constant_series_confidence (data : List DataPoint) (values : List ℚ) (c : ℚ)
    (hd : 2 ≤ data.length) (hv : 2 ≤ values.length)
    (hdc : ∀ d ∈ data, d.temperature = c) (hvc : ∀ v ∈ values, v = c) :
    (analyzeTempTrend (some data)).trend = "stable" ∧
    (analyzeTempTrend (some data)).confidence = JsNum.nan ∧
    (analyzeTrend values).trend = "stable" ∧
    (analyzeTrend values).confidence = JsNum.nan := by
  have hl : 2 ≤ (data.map (fun d => d.temperature)).length := by simpa using hd
  have hlc : ∀ v ∈ data.map (fun d => d.temperature), v = c := by
    intro v hv
    obtain ⟨d, hd1, rfl⟩ := List.mem_map.1 hv
    exact hdc d hd1
  obtain ⟨a1, a2, a3⟩ := constant_series_regression _ c hl hlc
  obtain ⟨b1, b2, b3⟩ := constant_series_regression values c hv hvc
  simp only [List.length_map] at a1 a2
  have h : ¬ data.length < 2 := by omega
  refine ⟨?_, ?_, ?_, ?_⟩
  · simp only [analyzeTempTrend, if_neg h, a1]
    decide!
  · simp only [analyzeTempTrend, if_neg h, a1, a2, a3]
    decide
  · simp only [analyzeTrend, b1]
    decide!
  · simp only [analyzeTrend, b1, b2, b3]
    decide

/-- C9, where the code departs from the claim: on five points at a constant
20 the trend is `stable`, but the total variation is 0, the ratio of the
variations is `0 / 0`, and the confidence returned by `analyzeTempTrend` and
by `analyzeTrend` is NaN, not 0. -/
theorem constant_series_confidence_nan :
    (analyzeTempTrend (some constantPoints)).trend = "stable" ∧
    (analyzeTempTrend (some constantPoints)).confidence = JsNum.nan ∧
    (analyzeTrend [20, 20, 20, 20, 20]).trend = "stable" ∧
    (analyzeTrend [20, 20, 20, 20, 20]).confidence = JsNum.nan ∧
    variations [20, 20, 20, 20, 20] (regressionSums [20, 20, 20, 20, 20]) (JsNum.fin 0)
      (JsNum.fin 20) = (JsNum.fin 0, JsNum.fin 0) ∧
    JsNum.div (JsNum.fin 0) (JsNum.fin 0) = JsNum.nan ∧
    JsNum.nan ≠ JsNum.fin 0 := by
  obtain ⟨h1, h2, h3, h4⟩ := constant_series_confidence constantPoints [20, 20, 20, 20, 20] 20
    (by decide) (by decide) (by decide) (by simp)
  exact ⟨h1, h2, h3, h4, by decide!, by decide, by decide⟩

/-! ## Theorems: insufficient data -/

/-- C10: on `null`, on the empty list and on every list below the minimum,
`analyzeTempTrend` (fewer than 2 points, whatever the time window) returns
`{trend: 'unknown', magnitude: 0, confidence: 0}`, `analyzePressure` (fewer
than 3) returns `{prediction: 'unknown', confidence: 0}`, `analyzeHumidity`
(fewer than 2) returns `{pattern: 'unknown', comfort: 'unknown',
confidence: 0}` and `detectAnomalies` (fewer than 5) returns the empty list.
The functions are total, so a result is always returned. -/
theorem insufficient_data (data : Option (List DataPoint)) (timeWindow : Option Int) :
    ((data = none ∨ ∃ ds, data = some ds ∧ ds.length < 2) →
      analyzeTempTrend data timeWindow
        = { trend := "unknown", magnitude := JsNum.fin 0, confidence := JsNum.fin 0,
            slope := none }) ∧
    ((data = none ∨ ∃ ds, data = some ds ∧ ds.length < 3) →
      analyzePressure data
        = { prediction := "unknown", confidence := JsNum.fin 0, trend := none,
            currentPressure := none }) ∧
    ((data = none ∨ ∃ ds, data = some ds ∧ ds.length < 2) →
      analyzeHumidity data
        = { pattern := "unknown", comfort := "unknown", confidence := JsNum.fin 0,
            currentHumidity := none }) ∧
    ((data = none ∨ ∃ ds, data = some ds ∧ ds.length < 5) → detectAnomalies data = []) := by
  refine ⟨?_, ?_, ?_, ?_⟩
  · rintro (rfl | ⟨ds, rfl, h⟩)
    · rfl
    · simp only [analyzeTempTrend, if_pos h]
  · rintro (rfl | ⟨ds, rfl, h⟩)
    · rfl
    · simp only [analyzePressure, if_pos h]
  · rintro (rfl | ⟨ds, rfl, h⟩)
    · rfl
    · simp only [analyzeHumidity, if_pos h]
  · rintro (rfl | ⟨ds, rfl, h⟩)
    · rfl
    · simp only [detectAnomalies, if_pos h]

/-- Witness of C10: four points, the last of them extreme in every metric,
give no anomaly; one point gives the `unknown` trend, also under a time
window; `null` gives the `unknown` pressure insight. -/
theorem insufficient_data_witness :
    detectAnomalies (some [⟨20, 50, 1013⟩, ⟨21, 50, 1013⟩, ⟨22, 50, 1013⟩, ⟨90, 99, 900⟩]) = [] ∧
    analyzeTempTrend (some [⟨20, 50, 1013⟩]) (some 3)
      = { trend := "unknown", magnitude := JsNum.fin 0, confidence := JsNum.fin 0,
          slope := none } ∧
    analyzePressure none
      = { prediction := "unknown", confidence := JsNum.fin 0, trend := none,
          currentPressure := none } ∧
    analyzeHumidity (some [])
      = { pattern := "unknown", comfort := "unknown", confidence := JsNum.fin 0,
          currentHumidity := none } :=
  ⟨(insufficient_data
      (some [⟨20, 50, 1013⟩, ⟨21, 50, 1013⟩, ⟨22, 50, 1013⟩, ⟨90, 99, 900⟩]) none).2.2.2
      (Or.inr ⟨_, rfl, by decide⟩),
   (insufficient_data (some [⟨20, 50, 1013⟩]) (some 3)).1 (Or.inr ⟨_, rfl, by decide⟩),
   (insufficient_data none none).2.1 (Or.inl rfl),
   (insufficient_data (some []) none).2.2.1 (Or.inr ⟨_, rfl, by decide⟩)⟩

/-! ## Theorems: sums and the covariance -/

theorem foldl_add_eq_sum (l : List ℚ) (a : ℚ) :
    l.foldl (fun (sum val : ℚ) => sum + val) a = a + ∑ i ∈ Finset.range l.length, l.getD i 0 := by
  induction l generalizing a with
  | nil => simp
  | cons x l ih =>
    rw [List.foldl_cons, ih, List.length_cons, Finset.sum_range_succ']
    simp only [List.getD_cons_succ, List.getD_cons_zero]
    ring

theorem mean_eq (l : List ℚ) (hn : l.length ≠ 0) :
    JsNum.div (JsNum.fin (l.foldl (fun (sum val : ℚ) => sum + val) 0)) (JsNum.fin l.length)
      = JsNum.fin (meanOf l) := by
  have h0 : (l.length : ℚ) ≠ 0 := by exact_mod_cast hn
  rw [foldl_add_eq_sum, zero_add]
  simp only [JsNum.div, if_neg h0, meanOf]

theorem correlationSums_fold (a b : List ℚ) (m1 m2 : ℚ) (k : ℕ) :
    (List.range k).foldl
      (fun (acc : CorrelationSums) (i : Nat) =>
        let diff1 := JsNum.fin (a.getD i 0) - JsNum.fin m1
        let diff2 := JsNum.fin (b.getD i 0) - JsNum.fin m2
        { numerator := acc.numerator + diff1 * diff2
          denom1 := acc.denom1 + diff1 * diff1
          denom2 := acc.denom2 + diff2 * diff2 })
      { numerator := JsNum.fin 0, denom1 := JsNum.fin 0, denom2 := JsNum.fin 0 }
    = { numerator := JsNum.fin (∑ i ∈ Finset.range k, (a.getD i 0 - m1) * (b.getD i 0 - m2))
        denom1 := JsNum.fin (∑ i ∈ Finset.range k, (a.getD i 0 - m1) * (a.getD i 0 - m1))
        denom2 := JsNum.fin (∑ i ∈ Finset.range k, (b.getD i 0 - m2) * (b.getD i 0 - m2)) } := by
  induction k with
  | zero => simp
  | succ k ih =>
    rw [List.range_succ, List.foldl_append, ih]
    simp only [List.foldl_cons, List.foldl_nil, JsNum.fin_add_fin, JsNum.fin_sub_fin,
      JsNum.fin_mul_fin, Finset.sum_range_succ]

theorem correlationSums_eq (a b : List ℚ) (hn : a.length ≠ 0) (hab : a.length = b.length) :
    correlationSums a b
      = { numerator := JsNum.fin (covSum a b)
          denom1 := JsNum.fin (covSum a a)
          denom2 := JsNum.fin (covSum b b) } := by
  have hb : b.length ≠ 0 := hab ▸ hn
  have h2 := mean_eq b hb
  rw [← hab] at h2
  unfold correlationSums
  simp only [mean_eq a hn, h2, correlationSums_fold]
  simp only [covSum, ← hab]

theorem correlationSums_nil (b : List ℚ) :
    correlationSums [] b
      = { numerator := JsNum.fin 0, denom1 := JsNum.fin 0, denom2 := JsNum.fin 0 } := by
  simp [correlationSums]

theorem covSum_comm (a b : List ℚ) (hab : a.length = b.length) : covSum a b = covSum b a := by
  unfold covSum
  rw [hab]
  exact Finset.sum_congr rfl fun i _ => mul_comm _ _

theorem covSum_self_nonneg (a : List ℚ) : 0 ≤ covSum a a :=
  Finset.sum_nonneg fun _ _ => mul_self_nonneg _

theorem meanOf_of_constant (a : List ℚ) (c : ℚ) (hn : a.length ≠ 0) (hc : ∀ v ∈ a, v = c) :
    meanOf a = c := by
  have h0 : (a.length : ℚ) ≠ 0 := by exact_mod_cast hn
  unfold meanOf
  rw [Finset.sum_congr rfl fun i hi => getD_of_constant a c hc i (Finset.mem_range.1 hi)]
  simp only [Finset.sum_const, Finset.card_range, nsmul_eq_mul]
  field_simp

theorem covSum_of_constant (a b : List ℚ) (ha : IsConstant a) : covSum a b = 0 := by
  rcases Nat.eq_zero_or_pos a.length with h0 | hpos
  · simp [covSum, h0]
  · have hc : ∀ v ∈ a, v = a.getD 0 0 := by
      intro v hv
      exact ha v hv _ (by rw [List.getD_eq_getElem a 0 hpos]; exact List.getElem_mem _)
    have hm := meanOf_of_constant a _ (by omega) hc
    unfold covSum
    apply Finset.sum_eq_zero
    intro i hi
    rw [getD_of_constant a _ hc i (Finset.mem_range.1 hi), hm, sub_self, zero_mul]

theorem isConstant_of_covSum_self (a : List ℚ) (h : covSum a a = 0) : IsConstant a := by
  have hz := (Finset.sum_eq_zero_iff_of_nonneg (fun _ _ => mul_self_nonneg _)).1 h
  have key : ∀ x ∈ a, x = meanOf a := by
    intro x hx
    obtain ⟨i, hi, rfl⟩ := List.getElem_of_mem hx
    have := hz i (Finset.mem_range.2 hi)
    rw [List.getD_eq_getElem a 0 hi] at this
    have h2 := mul_self_eq_zero.1 this
    linarith
  intro x hx y hy
  rw [key x hx, key y hy]

theorem covSum_self_pos (a : List ℚ) (h : ¬ IsConstant a) : 0 < covSum a a :=
  lt_of_le_of_ne (covSum_self_nonneg a) fun h0 => h (isConstant_of_covSum_self a h0.symm)

theorem covSum_self_eq_zero_iff (a : List ℚ) : covSum a a = 0 ↔ IsConstant a :=
  ⟨isConstant_of_covSum_self a, fun h => covSum_of_constant a a h⟩

theorem length_ne_zero_of_not_constant (a : List ℚ) (h : ¬ IsConstant a) : a.length ≠ 0 := by
  intro h0
  apply h
  rw [List.length_eq_zero.1 h0]
  intro x hx
  simp at hx

/-- The value `calculateCorrelation` returns on series of equal length. -/
theorem calculateCorrelation_eq (a b : List ℚ) (hab : a.length = b.length) :
    calculateCorrelation a b
      = .ok (if covSum a a = 0 ∨ covSum b b = 0 then JsSurd.ofRat 0
             else JsSurd.divSqrt (JsNum.fin (covSum a b)) (JsNum.fin (covSum a a * covSum b b))) := by
  have hne : ¬ a.length ≠ b.length := by simpa using hab
  rcases Nat.eq_zero_or_pos a.length with h0 | hpos
  · have ha : a = [] := List.length_eq_zero.1 h0
    subst ha
    simp [calculateCorrelation, correlationSums_nil, covSum, ← hab]
  · simp only [calculateCorrelation, if_neg hne, correlationSums_eq a b (by omega) hab,
      JsNum.fin.injEq, JsNum.fin_mul_fin]
    split_ifs <;> rfl

/-! ## Theorems: square roots -/

namespace JsSurd

theorem ofRat_denotes (q : ℚ) : (ofRat q).Denotes q := by
  refine ⟨decide (q < 0), q * q, rfl, mul_self_nonneg q, ?_⟩
  push_cast
  rw [Real.sqrt_mul_self_eq_abs]
  by_cases h : q < 0
  · have : (q : ℝ) < 0 := by exact_mod_cast h
    simp [h, abs_of_neg this]
  · have : (0 : ℝ) ≤ q := by exact_mod_cast not_lt.1 h
    simp [h, abs_of_nonneg this]

theorem divSqrt_denotes (a b : ℚ) (hb : 0 < b) :
    (divSqrt (JsNum.fin a) (JsNum.fin b)).Denotes ((a : ℝ) / Real.sqrt b) := by
  have hb' : (0 : ℝ) < b := by exact_mod_cast hb
  refine ⟨decide (a < 0), a * a / b, ?_, div_nonneg (mul_self_nonneg a) hb.le, ?_⟩
  · simp only [divSqrt, if_neg (not_lt.2 hb.le), if_neg hb.ne']
  · push_cast
    rw [Real.sqrt_div (mul_self_nonneg _), Real.sqrt_mul_self_eq_abs]
    by_cases h : a < 0
    · have : (a : ℝ) < 0 := by exact_mod_cast h
      simp only [h, decide_True, if_true, abs_of_neg this]
      ring
    · have : (0 : ℝ) ≤ a := by exact_mod_cast not_lt.1 h
      simp only [h, decide_False, Bool.false_eq_true, if_false, abs_of_nonneg this]
      ring

theorem abs_denotes {x : JsSurd} {r : ℝ} (h : x.Denotes r) : (abs x).Denotes |r| := by
  obtain ⟨neg, sq, rfl, hsq, rfl⟩ := h
  refine ⟨false, sq, rfl, hsq, ?_⟩
  cases neg <;> simp [abs_of_nonneg (Real.sqrt_nonneg _)]

theorem denotes_unique {x : JsSurd} {r s : ℝ} (h1 : x.Denotes r) (h2 : x.Denotes s) : r = s := by
  obtain ⟨n1, q1, e1, -, rfl⟩ := h1
  obtain ⟨n2, q2, e2, -, rfl⟩ := h2
  rw [e1] at e2
  cases e2
  rfl

/-- The comparison on the squares is the comparison of the numbers. -/
theorem gtRat_iff {x : JsSurd} {r : ℝ} (h : x.Denotes r) (c : ℚ) :
    x.gtRat c = true ↔ (c : ℝ) < r := by
  obtain ⟨neg, sq, rfl, hsq, rfl⟩ := h
  have hsq' : (0 : ℝ) ≤ sq := by exact_mod_cast hsq
  cases neg
  · simp only [gtRat, Bool.or_eq_true, decide_eq_true_eq, Bool.false_eq_true, if_false, one_mul]
    by_cases hc : c < 0
    · have : (c : ℝ) < 0 := by exact_mod_cast hc
      simp only [hc, true_or, true_iff]
      exact lt_of_lt_of_le this (Real.sqrt_nonneg _)
    · have hc' : (0 : ℝ) ≤ c := by exact_mod_cast not_lt.1 hc
      simp only [hc, false_or]
      rw [Real.lt_sqrt hc', ← Rat.cast_lt (K := ℝ)]
      push_cast
      rw [pow_two]
  · simp only [gtRat, Bool.and_eq_true, decide_eq_true_eq, if_true, neg_mul, one_mul]
    constructor
    · rintro ⟨hc, h2⟩
      have hc' : (c : ℝ) < 0 := by exact_mod_cast hc
      have h3 : Real.sqrt sq < -c := by
        rw [Real.sqrt_lt' (by linarith)]
        have : (sq : ℝ) < c * c := by exact_mod_cast h2
        nlinarith
      linarith
    · intro h1
      have h0 := Real.sqrt_nonneg (sq : ℝ)
      have hc' : (c : ℝ) < 0 := by linarith
      refine ⟨by exact_mod_cast hc', ?_⟩
      have h3 : Real.sqrt sq < -c := by linarith
      rw [Real.sqrt_lt' (by linarith)] at h3
      have : (sq : ℝ) < c * c := by nlinarith
      exact_mod_cast this

end JsSurd

/-- The rounding decided on the squares is the rounding of the square root:
when `w < (k + 1/2)^2` and `(j + 1/2)^2 ≤ w` for every `j < k`, the integer
nearest to `sqrt w` (ties upwards) is `k`. -/
theorem floor_sqrt_add_half (w : ℚ) (hw : 0 ≤ w) (k : ℕ)
    (hlt : w < ((k : ℚ) + 1 / 2) ^ 2) (hle : ∀ j < k, ((j : ℚ) + 1 / 2) ^ 2 ≤ w) :
    ⌊Real.sqrt w + 1 / 2⌋ = (k : ℤ) := by
  have hw' : (0 : ℝ) ≤ w := by exact_mod_cast hw
  rw [Int.floor_eq_iff]
  constructor
  · rcases Nat.eq_zero_or_pos k with rfl | hk
    · have := Real.sqrt_nonneg (w : ℝ)
      push_cast
      linarith
    · have h1 := hle (k - 1) (by omega)
      have h2 : (((k - 1 : ℕ) : ℚ)) = (k : ℚ) - 1 := by
        rw [Nat.cast_sub hk]; simp
      rw [h2] at h1
      have h3 : ((k : ℝ) - 1 / 2) ^ 2 ≤ w := by
        have : (((k : ℚ) - 1 + 1 / 2) ^ 2 : ℚ) ≤ w := h1
        have h4 : ((((k : ℚ) - 1 + 1 / 2) ^ 2 : ℚ) : ℝ) ≤ (w : ℝ) := by exact_mod_cast this
        push_cast at h4
        linarith [h4, show ((k : ℝ) - 1 + 1 / 2) ^ 2 = ((k : ℝ) - 1 / 2) ^ 2 by ring]
      have hk1 : (1 : ℝ) ≤ k := by exact_mod_cast hk
      have h5 : (k : ℝ) - 1 / 2 ≤ Real.sqrt w := (Real.le_sqrt' (by linarith)).2 h3
      push_cast
      linarith
  · have h1 : (w : ℝ) < ((k : ℝ) + 1 / 2) ^ 2 := by
      have : ((w : ℚ) : ℝ) < ((((k : ℚ) + 1 / 2) ^ 2 : ℚ) : ℝ) := by exact_mod_cast hlt
      push_cast at this
      exact this
    have hk0 : (0 : ℝ) ≤ k := by positivity
    have h2 : Real.sqrt w < (k : ℝ) + 1 / 2 := (Real.sqrt_lt' (by linarith)).2 h1
    push_cast
    linarith

namespace JsSurd

theorem roundSqrtFrom_spec (w : ℚ) :
    ∀ (fuel k : ℕ), (∀ j < k, ((j : ℚ) + 1 / 2) ^ 2 ≤ w) →
      w < (((k + fuel : ℕ) : ℚ) + 1 / 2) ^ 2 →
      w < ((roundSqrtFrom w fuel k : ℚ) + 1 / 2) ^ 2 ∧
        ∀ j < roundSqrtFrom w fuel k, ((j : ℚ) + 1 / 2) ^ 2 ≤ w := by
  intro fuel
  induction fuel with
  | zero =>
    intro k hle hlt
    unfold roundSqrtFrom
    exact ⟨hlt, hle⟩
  | succ fuel ih =>
    intro k hle hlt
    unfold roundSqrtFrom
    by_cases h : w < ((k : ℚ) + 1 / 2) ^ 2
    · rw [if_pos h]
      exact ⟨h, hle⟩
    · rw [if_neg h]
      apply ih (k + 1)
      · intro j hj
        rcases Nat.lt_succ_iff_lt_or_eq.1 hj with h1 | rfl
        · exact hle j h1
        · exact not_lt.1 h
      · have : k + 1 + fuel = k + (fuel + 1) := by omega
        rw [this]
        exact hlt

/-- The search of `roundSqrt` ends within its fuel: its result is the least
`k` with `w < (k + 1/2)^2`. -/
theorem roundSqrt_spec (w : ℚ) :
    w < ((roundSqrt w : ℚ) + 1 / 2) ^ 2 ∧ ∀ j < roundSqrt w, ((j : ℚ) + 1 / 2) ^ 2 ≤ w := by
  apply roundSqrtFrom_spec w _ 0 (fun j hj => absurd hj (Nat.not_lt_zero j))
  have h1 : w ≤ (⌈w⌉.toNat : ℚ) := by
    have h2 : (⌈w⌉ : ℤ) ≤ ((⌈w⌉.toNat : ℕ) : ℤ) := Int.self_le_toNat _
    have h3 : ((⌈w⌉ : ℤ) : ℚ) ≤ ((⌈w⌉.toNat : ℕ) : ℚ) := by exact_mod_cast h2
    exact le_trans (Int.le_ceil w) h3
  have h0 : (0 : ℚ) ≤ (⌈w⌉.toNat : ℚ) := by positivity
  push_cast
  nlinarith

theorem roundSqrt_eq_floor (w : ℚ) (hw : 0 ≤ w) :
    ((roundSqrt w : ℕ) : ℤ) = ⌊Real.sqrt w + 1 / 2⌋ :=
  (floor_sqrt_add_half w hw _ (roundSqrt_spec w).1 (roundSqrt_spec w).2).symm

/-- On a non-negative number, `toFixed(d)` gives the number rounded to `d`
decimals, ties upwards. -/
theorem toFixed_denotes {x : JsSurd} {r : ℝ} (h : x.Denotes r) (hr : 0 ≤ r) (d : ℕ) :
    toFixed d x = JsNum.fin (((⌊r * 10 ^ d + 1 / 2⌋ : ℤ) : ℚ) / 10 ^ d) := by
  obtain ⟨neg, sq, rfl, hsq, rfl⟩ := h
  have hsq' : (0 : ℝ) ≤ sq := by exact_mod_cast hsq
  have hroot : Real.sqrt ((sq * 100 ^ d : ℚ) : ℝ) = Real.sqrt sq * 10 ^ d := by
    push_cast
    rw [Real.sqrt_mul hsq']
    congr 1
    rw [show (100 : ℝ) ^ d = (10 ^ d) ^ 2 by rw [← pow_mul, mul_comm, pow_mul]; norm_num]
    exact Real.sqrt_sq (by positivity)
  have hfl := roundSqrt_eq_floor (sq * 100 ^ d) (by positivity)
  rw [hroot] at hfl
  cases neg
  · simp only [toFixed, Bool.false_eq_true, if_false, one_mul]
    congr 2
    exact_mod_cast hfl
  · simp only [if_true, neg_mul, one_mul] at hr
    have h0 : Real.sqrt (sq : ℝ) = 0 := le_antisymm (by linarith) (Real.sqrt_nonneg _)
    have hsq0 : sq = 0 := by
      have := (Real.sqrt_eq_zero hsq').1 h0
      exact_mod_cast this
    subst hsq0
    have hz : roundSqrt 0 = 0 := by decide!
    have h2 : ⌊(2⁻¹ : ℝ)⌋ = 0 := by
      rw [Int.floor_eq_iff]
      norm_num
    simp [toFixed, hz, h2]

end JsSurd

/-! ## Theorems: the correlation coefficient -/

/-- C11: for series of equal length `calculateCorrelation(A, B)` and
`calculateCorrelation(B, A)` return the same number (a finite one, so the
two are equal as numbers), and for every non-constant series
`calculateCorrelation(A, A)` returns 1. Arithmetic is exact. -/
theorem calculateCorrelation_symm_self (a b : List ℚ) (hab : a.length = b.length) :
    calculateCorrelation a b = calculateCorrelation b a ∧
    (∃ neg sq, calculateCorrelation a b = .ok (JsSurd.root neg sq)) ∧
    (¬ IsConstant a →
      calculateCorrelation a a = .ok (JsSurd.ofRat 1) ∧ (JsSurd.ofRat 1).Denotes 1) := by
  refine ⟨?_, ?_, ?_⟩
  · rw [calculateCorrelation_eq a b hab, calculateCorrelation_eq b a hab.symm,
      covSum_comm a b hab, mul_comm (covSum a a)]
    simp only [or_comm]
  · rw [calculateCorrelation_eq a b hab]
    by_cases h : covSum a a = 0 ∨ covSum b b = 0
    · exact ⟨false, 0, by rw [if_pos h]; simp [JsSurd.ofRat]⟩
    · rw [if_neg h]
      push_neg at h
      have h1 := lt_of_le_of_ne (covSum_self_nonneg a) (Ne.symm h.1)
      have h2 := lt_of_le_of_ne (covSum_self_nonneg b) (Ne.symm h.2)
      have h3 : 0 < covSum a a * covSum b b := mul_pos h1 h2
      refine ⟨decide (covSum a b < 0),
        covSum a b * covSum a b / (covSum a a * covSum b b), ?_⟩
      simp only [JsSurd.divSqrt, if_neg (not_lt.2 h3.le), if_neg h3.ne']
  · intro hc
    have hpos := covSum_self_pos a hc
    have h3 : 0 < covSum a a * covSum a a := mul_pos hpos hpos
    refine ⟨?_, by simpa using JsSurd.ofRat_denotes 1⟩
    rw [calculateCorrelation_eq a a rfl]
    simp only [or_self, if_neg hpos.ne', JsSurd.divSqrt, if_neg (not_lt.2 h3.le), if_neg h3.ne',
      JsSurd.ofRat]
    rw [div_self h3.ne']
    simp [not_lt.2 hpos.le]

/-- Witness of C11: the series 1, 2, 3 and 3, 5, 4 have coefficient 1/2 in
both orders, and 1, 2, 3 has coefficient 1 with itself. -/
theorem calculateCorrelation_symm_self_witness :
    [(1 : ℚ), 2, 3].length = [(3 : ℚ), 5, 4].length ∧ ¬ IsConstant [1, 2, 3] ∧
    calculateCorrelation [1, 2, 3] [3, 5, 4] = calculateCorrelation [3, 5, 4] [1, 2, 3] ∧
    calculateCorrelation [1, 2, 3] [1, 2, 3] = .ok (JsSurd.ofRat 1) ∧
    calculateCorrelation [1, 2, 3] [3, 5, 4] = .ok (JsSurd.root false (1 / 4)) :=
  ⟨rfl, by unfold IsConstant; decide!,
   (calculateCorrelation_symm_self [1, 2, 3] [3, 5, 4] rfl).1,
   ((calculateCorrelation_symm_self [1, 2, 3] [3, 5, 4] rfl).2.2
     (by unfold IsConstant; decide!)).1,
   by decide!⟩

/-! ## Theorems: the correlation report -/

theorem matchDataPoints_eq_zip (senseHatData : List DataPoint) (externalData : List ExternalPoint) :
    matchDataPoints senseHatData externalData = senseHatData.zip externalData := by
  induction senseHatData generalizing externalData with
  | nil => simp [matchDataPoints, Nat.min_def]
  | cons x xs ih =>
    cases externalData with
    | nil => simp [matchDataPoints, Nat.min_def]
    | cons y ys =>
      have h := ih ys
      unfold matchDataPoints at h ⊢
      simp only [List.length_cons, List.zip_cons_cons]
      rw [show Nat.min (xs.length + 1) (ys.length + 1) = Nat.min xs.length ys.length + 1 from
        Nat.succ_min_succ _ _, List.range_succ_eq_map, List.filterMap_cons]
      simp only [List.getElem?_cons_zero, List.filterMap_map]
      rw [← h]
      congr 1
      apply List.filterMap_congr
      intro i _
      simp only [Function.comp, Nat.succ_eq_add_one, List.getElem?_cons_succ]

/-- The value `calculateCorrelation` returns on series of equal length is the
Pearson coefficient, 0 on zero variance. -/
theorem calculateCorrelation_pearson (a b : List ℚ) (hab : a.length = b.length) :
    ∃ (x : JsSurd) (r : ℝ), calculateCorrelation a b = .ok x ∧ x.Denotes r ∧ IsPearson a b r := by
  rw [calculateCorrelation_eq a b hab]
  by_cases h : covSum a a = 0 ∨ covSum b b = 0
  · refine ⟨_, 0, by rw [if_pos h], ?_, fun _ => rfl, fun ha hb => ?_⟩
    · have := JsSurd.ofRat_denotes 0
      simpa using this
    · rcases h with h | h
      · exact absurd ((covSum_self_eq_zero_iff a).1 h) ha
      · exact absurd ((covSum_self_eq_zero_iff b).1 h) hb
  · have h' := h
    push_neg at h'
    have h1 := lt_of_le_of_ne (covSum_self_nonneg a) (Ne.symm h'.1)
    have h2 := lt_of_le_of_ne (covSum_self_nonneg b) (Ne.symm h'.2)
    have h3 : 0 < covSum a a * covSum b b := mul_pos h1 h2
    refine ⟨_, _, by rw [if_neg h], JsSurd.divSqrt_denotes _ _ h3, fun hc => ?_, fun _ _ => ?_⟩
    · rcases hc with hc | hc
      · exact absurd ((covSum_self_eq_zero_iff a).2 hc) h'.1
      · exact absurd ((covSum_self_eq_zero_iff b).2 hc) h'.2
    · push_cast
      rfl

theorem averageDifference_fold (a b : List ℚ) (k : ℕ) :
    (List.range k).foldl (fun (acc : ℚ) (i : Nat) => acc + |a.getD i 0 - b.getD i 0|) 0
      = ∑ i ∈ Finset.range k, |a.getD i 0 - b.getD i 0| := by
  induction k with
  | zero => simp
  | succ k ih =>
    rw [List.range_succ, List.foldl_append, ih]
    simp [Finset.sum_range_succ]

theorem calculateAverageDifference_eq (a b : List ℚ) (hab : a.length = b.length)
    (hn : a.length ≠ 0) :
    calculateAverageDifference a b = .ok (JsNum.fin (meanAbsDiff a b)) := by
  have hne : ¬ a.length ≠ b.length := by simpa using hab
  have h0 : (a.length : ℚ) ≠ 0 := by exact_mod_cast hn
  simp only [calculateAverageDifference, if_neg hne, averageDifference_fold, JsNum.div,
    if_neg h0, meanAbsDiff]

theorem meanAbsDiff_nonneg (a b : List ℚ) : 0 ≤ meanAbsDiff a b :=
  div_nonneg (Finset.sum_nonneg fun _ _ => abs_nonneg _) (Nat.cast_nonneg _)

theorem toFixed_fin_nonneg (d : ℕ) (q : ℚ) (hq : 0 ≤ q) :
    JsNum.toFixed d (JsNum.fin q) = JsNum.fin (((⌊q * 10 ^ d + 1 / 2⌋ : ℤ) : ℚ) / 10 ^ d) := by
  simp only [JsNum.toFixed, if_neg (not_lt.2 hq), JsNum.roundHalfUp]

/-- The label of `getCorrelationDescription` as a function of the magnitude
of the coefficient. -/
theorem getCorrelationDescription_cases (x : JsSurd) (r : ℝ) (h : x.Denotes r) (metric : String) :
    (4 / 5 < |r| → getCorrelationDescription x metric
      = "SenseHat " ++ metric ++ " readings closely match external data") ∧
    (1 / 2 < |r| → |r| ≤ 4 / 5 → getCorrelationDescription x metric
      = "SenseHat " ++ metric ++ " shows moderate agreement with external data") ∧
    (3 / 10 < |r| → |r| ≤ 1 / 2 → getCorrelationDescription x metric
      = "SenseHat " ++ metric ++ " shows some agreement with external data") ∧
    (|r| ≤ 3 / 10 → getCorrelationDescription x metric
      = "SenseHat " ++ metric ++ " differs significantly from external data") := by
  have ha := JsSurd.abs_denotes h
  have g1 := JsSurd.gtRat_iff ha (4 / 5)
  have g2 := JsSurd.gtRat_iff ha (1 / 2)
  have g3 := JsSurd.gtRat_iff ha (3 / 10)
  push_cast at g1 g2 g3
  unfold getCorrelationDescription
  simp only [g1, g2, g3]
  refine ⟨fun h1 => ?_, fun h1 h2 => ?_, fun h1 h2 => ?_, fun h1 => ?_⟩
  · rw [if_pos h1]
  · rw [if_neg (not_lt.2 h2), if_pos h1]
  · rw [if_neg (by linarith), if_neg (not_lt.2 h2), if_pos h1]
  · rw [if_neg (by linarith), if_neg (by linarith), if_neg (not_lt.2 h1)]

theorem label_iffs (desc s1 s2 s3 s4 : String) (t : ℝ)
    (d12 : s1 ≠ s2) (d13 : s1 ≠ s3) (d14 : s1 ≠ s4) (d23 : s2 ≠ s3) (d24 : s2 ≠ s4)
    (d34 : s3 ≠ s4)
    (h1 : 4 / 5 < t → desc = s1) (h2 : 1 / 2 < t → t ≤ 4 / 5 → desc = s2)
    (h3 : 3 / 10 < t → t ≤ 1 / 2 → desc = s3) (h4 : t ≤ 3 / 10 → desc = s4) :
    (desc = s1 ↔ 4 / 5 < t) ∧ (desc = s2 ↔ 1 / 2 < t ∧ t ≤ 4 / 5) ∧
    (desc = s3 ↔ 3 / 10 < t ∧ t ≤ 1 / 2) ∧ (desc = s4 ↔ t ≤ 3 / 10) := by
  by_cases c1 : 4 / 5 < t
  · have e := h1 c1
    subst e
    refine ⟨⟨fun _ => c1, fun _ => rfl⟩, ⟨fun h => absurd h d12, fun h => ?_⟩,
      ⟨fun h => absurd h d13, fun h => ?_⟩, ⟨fun h => absurd h d14, fun h => ?_⟩⟩
    · exfalso; linarith [h.2]
    · exfalso; linarith [h.2]
    · exfalso; linarith
  · have c1' := not_lt.1 c1
    by_cases c2 : 1 / 2 < t
    · have e := h2 c2 c1'
      subst e
      refine ⟨⟨fun h => absurd h.symm d12, fun h => absurd h c1⟩, ⟨fun _ => ⟨c2, c1'⟩, fun _ => rfl⟩,
        ⟨fun h => absurd h d23, fun h => ?_⟩, ⟨fun h => absurd h d24, fun h => ?_⟩⟩
      · exfalso; linarith [h.2]
      · exfalso; linarith
    · have c2' := not_lt.1 c2
      by_cases c3 : 3 / 10 < t
      · have e := h3 c3 c2'
        subst e
        refine ⟨⟨fun h => absurd h.symm d13, fun h => absurd h c1⟩,
          ⟨fun h => absurd h.symm d23, fun h => absurd h.1 c2⟩,
          ⟨fun _ => ⟨c3, c2'⟩, fun _ => rfl⟩, ⟨fun h => absurd h d34, fun h => ?_⟩⟩
        exfalso; linarith
      · have c3' := not_lt.1 c3
        have e := h4 c3'
        subst e
        exact ⟨⟨fun h => absurd h.symm d14, fun h => absurd h c1⟩,
          ⟨fun h => absurd h.symm d24, fun h => absurd h.1 c2⟩,
          ⟨fun h => absurd h.symm d34, fun h => absurd h.1 c3⟩, ⟨fun _ => c3', fun _ => rfl⟩⟩

theorem analyzeCorrelation_eq (sh : List DataPoint) (ext : List ExternalPoint)
    (hs : 2 ≤ sh.length) (he : 2 ≤ ext.length) (xT xH : JsSurd)
    (hT : calculateCorrelation ((sh.zip ext).map fun d => d.1.temperature)
      ((sh.zip ext).map fun d => d.2.temperature) = .ok xT)
    (hH : calculateCorrelation ((sh.zip ext).map fun d => d.1.humidity)
      ((sh.zip ext).map fun d => d.2.humidity) = .ok xH) :
    analyzeCorrelation (some sh) (some ext)
      = .ok
        { temperature :=
            { correlation := JsSurd.toFixed 2 (JsSurd.abs xT)
              description := getCorrelationDescription xT "temperature"
              difference := some (JsNum.toFixed 1 (JsNum.fin
                (meanAbsDiff ((sh.zip ext).map fun d => d.1.temperature)
                  ((sh.zip ext).map fun d => d.2.temperature)))) }
          humidity :=
            { correlation := JsSurd.toFixed 2 (JsSurd.abs xH)
              description := getCorrelationDescription xH "humidity"
              difference := some (JsNum.toFixed 1 (JsNum.fin
                (meanAbsDiff ((sh.zip ext).map fun d => d.1.humidity)
                  ((sh.zip ext).map fun d => d.2.humidity)))) } } := by
  have hg : ¬ (sh.length < 2 ∨ ext.length < 2) := by omega
  have hlen : (sh.zip ext).length ≠ 0 := by
    rw [List.length_zip]
    omega
  have dT := calculateAverageDifference_eq ((sh.zip ext).map fun d => d.1.temperature)
    ((sh.zip ext).map fun d => d.2.temperature) (by simp) (by simpa using hlen)
  have dH := calculateAverageDifference_eq ((sh.zip ext).map fun d => d.1.humidity)
    ((sh.zip ext).map fun d => d.2.humidity) (by simp) (by simpa using hlen)
  simp only [analyzeCorrelation, if_neg hg, matchDataPoints_eq_zip, hT, hH, dT, dH]
  rfl

/-- What `analyzeCorrelation` reports for one metric, from the paired values
`a` and `b`: the magnitude of the coefficient to two decimals, its label and
the mean absolute difference to one decimal. -/
theorem metric_report (a b : List ℚ) (hab : a.length = b.length) (metric : String) :
    ∃ (x : JsSurd) (r : ℝ), calculateCorrelation a b = .ok x ∧ IsPearson a b r ∧
      JsSurd.toFixed 2 (JsSurd.abs x)
        = JsNum.fin (((⌊|r| * 10 ^ 2 + 1 / 2⌋ : ℤ) : ℚ) / 10 ^ 2) ∧
      (4 / 5 < |r| → getCorrelationDescription x metric
        = "SenseHat " ++ metric ++ " readings closely match external data") ∧
      (1 / 2 < |r| → |r| ≤ 4 / 5 → getCorrelationDescription x metric
        = "SenseHat " ++ metric ++ " shows moderate agreement with external data") ∧
      (3 / 10 < |r| → |r| ≤ 1 / 2 → getCorrelationDescription x metric
        = "SenseHat " ++ metric ++ " shows some agreement with external data") ∧
      (|r| ≤ 3 / 10 → getCorrelationDescription x metric
        = "SenseHat " ++ metric ++ " differs significantly from external data") := by
  obtain ⟨x, r, hx, hd, hp⟩ := calculateCorrelation_pearson a b hab
  exact ⟨x, r, hx, hp, JsSurd.toFixed_denotes (JsSurd.abs_denotes hd) (abs_nonneg r) 2,
    getCorrelationDescription_cases x r hd metric⟩

/-! ## Theorems: statistics and anomalies -/

theorem squaredDiffs_fold (l : List ℚ) (m : ℚ) (k : ℕ) :
    (List.range k).foldl
      (fun (acc : JsNum) (i : Nat) => acc + JsNum.sq (JsNum.fin (l.getD i 0) - JsNum.fin m))
      (JsNum.fin 0)
    = JsNum.fin (∑ i ∈ Finset.range k, (l.getD i 0 - m) * (l.getD i 0 - m)) := by
  induction k with
  | zero => simp
  | succ k ih =>
    rw [List.range_succ, List.foldl_append, ih]
    simp only [List.foldl_cons, List.foldl_nil, JsNum.fin_add_fin, JsNum.fin_sub_fin,
      JsNum.sq_fin, Finset.sum_range_succ, pow_two]

/-- The mean and the standard deviation of `calculateStats` are the mean and
the square root of the population variance. -/
theorem calculateStats_eq (l : List ℚ) (hn : l.length ≠ 0) :
    (calculateStats l).mean = JsNum.fin (meanOf l) ∧
    (calculateStats l).stdDev = { radicand := JsNum.fin (variance l) } := by
  have h0 : (l.length : ℚ) ≠ 0 := by exact_mod_cast hn
  constructor
  · simp only [calculateStats, mean_eq l hn]
  · simp only [calculateStats, mean_eq l hn, squaredDiffs_fold]
    simp only [JsNum.div, if_neg h0, variance, covSum]

theorem variance_nonneg (l : List ℚ) : 0 ≤ variance l :=
  div_nonneg (covSum_self_nonneg l) (Nat.cast_nonneg _)

theorem variance_eq_zero_iff (l : List ℚ) (hn : l.length ≠ 0) : variance l = 0 ↔ IsConstant l := by
  have h0 : (l.length : ℚ) ≠ 0 := by exact_mod_cast hn
  rw [variance, div_eq_zero_iff, ← covSum_self_eq_zero_iff]
  simp [h0]

/-- The test of `doubleLt` on the squares is the test `2 * sqrt v < a`. -/
theorem doubleLt_iff (v a : ℚ) (hv : 0 ≤ v) :
    JsSqrt.doubleLt { radicand := JsNum.fin v } (JsNum.fin a) = true
      ↔ 2 * Real.sqrt v < a := by
  have hv' : (0 : ℝ) ≤ v := by exact_mod_cast hv
  simp only [JsSqrt.doubleLt, Bool.and_eq_true, decide_eq_true_eq, hv, true_and]
  constructor
  · rintro ⟨ha, h4⟩
    have ha' : (0 : ℝ) < a := by exact_mod_cast ha
    have h4' : (4 : ℝ) * v < a * a := by exact_mod_cast h4
    have : Real.sqrt v < a / 2 := by
      rw [Real.sqrt_lt' (by linarith)]
      nlinarith
    linarith
  · intro h
    have h0 := Real.sqrt_nonneg (v : ℝ)
    have ha' : (0 : ℝ) < a := by linarith
    have h1 : Real.sqrt v < a / 2 := by linarith
    rw [Real.sqrt_lt' (by linarith)] at h1
    refine ⟨by exact_mod_cast ha', ?_⟩
    have : (4 : ℝ) * v < a * a := by nlinarith
    exact_mod_cast this

theorem find_range_spec (p : ℕ → Bool) (n : ℕ) :
    (∃ k, (List.range n).find? p = some k ∧ k < n ∧ p k = true ∧ ∀ j < k, p j = false) ∨
    ((List.range n).find? p = none ∧ ∀ j < n, p j = false) := by
  induction n with
  | zero => right; simp
  | succ n ih =>
    rw [List.range_succ, List.find?_append]
    rcases ih with ⟨k, hk, hkn, hpk, hlt⟩ | ⟨hnone, hall⟩
    · left
      exact ⟨k, by simp [hk], by omega, hpk, hlt⟩
    · by_cases hp : p n = true
      · left
        exact ⟨n, by simp [hnone, hp], by omega, hp, hall⟩
      · right
        refine ⟨by simp [hnone, hp], fun j hj => ?_⟩
        rcases Nat.lt_succ_iff_lt_or_eq.1 hj with h1 | rfl
        · exact hall j h1
        · simpa using hp

/-- The rounding of `roundSqrtCap95` is `min(sqrt w, 95)` rounded to the
nearest integer. -/
theorem roundSqrtCap95_eq (w : ℚ) (hw : 0 ≤ w) :
    roundSqrtCap95 w = ((⌊min (Real.sqrt w) 95 + 1 / 2⌋ : ℤ) : ℚ) := by
  have hw' : (0 : ℝ) ≤ w := by exact_mod_cast hw
  unfold roundSqrtCap95
  rcases find_range_spec (fun k => decide (w < ((k : ℚ) + 1 / 2) ^ 2)) 95 with
    ⟨k, hk, hk95, hpk, hlt⟩ | ⟨hnone, hall⟩
  · rw [hk]
    simp only [decide_eq_true_eq, decide_eq_false_iff_not, not_lt] at hpk hlt
    have hfl := floor_sqrt_add_half w hw k hpk hlt
    have hlt' : Real.sqrt w < (k : ℝ) + 1 / 2 := by
      have h1 : (w : ℝ) < ((k : ℝ) + 1 / 2) ^ 2 := by
        have : ((w : ℚ) : ℝ) < ((((k : ℚ) + 1 / 2) ^ 2 : ℚ) : ℝ) := by exact_mod_cast hpk
        push_cast at this
        exact this
      have hk0 : (0 : ℝ) ≤ k := by positivity
      exact (Real.sqrt_lt' (by linarith)).2 h1
    have hk' : (k : ℝ) ≤ 94 := by exact_mod_cast (show k ≤ 94 by omega)
    rw [min_eq_left (by linarith), hfl]
    simp
  · rw [hnone]
    simp only [decide_eq_false_iff_not, not_lt] at hall
    have h94 := hall 94 (by norm_num)
    have h1 : ((94 : ℝ) + 1 / 2) ^ 2 ≤ w := by
      have : ((((94 : ℕ) : ℚ) + 1 / 2) ^ 2 : ℚ) ≤ w := h94
      have h2 : (((((94 : ℕ) : ℚ) + 1 / 2) ^ 2 : ℚ) : ℝ) ≤ (w : ℝ) := by exact_mod_cast this
      push_cast at h2
      exact h2
    have h2 : (94 : ℝ) + 1 / 2 ≤ Real.sqrt w := (Real.le_sqrt' (by norm_num)).2 h1
    have h3 : (94 : ℝ) + 1 / 2 ≤ min (Real.sqrt w) 95 := le_min h2 (by norm_num)
    have h4 : min (Real.sqrt w) 95 ≤ 95 := min_le_right _ _
    have : ⌊min (Real.sqrt w) 95 + 1 / 2⌋ = 95 := by
      rw [Int.floor_eq_iff]
      constructor
      · push_cast; linarith
      · push_cast; linarith
    rw [this]
    simp

/-- The list `detectAnomalies` returns on 5 readings or more: the temperature
entry, the pressure entry and the humidity entry, each present or not. -/
theorem detectAnomalies_eq (data : List DataPoint) (hn : 5 ≤ data.length) :
    detectAnomalies (some data) =
      (if JsSqrt.doubleLt { radicand := JsNum.fin (variance (data.map fun d => d.temperature)) }
          (JsNum.fin |latestOf (data.map fun d => d.temperature)
            - meanOf (data.map fun d => d.temperature)|) then
        [{ type := "temperature"
           description := .unusualTemperature
             (JsNum.toFixed 1 (JsNum.fin (latestOf (data.map fun d => d.temperature))))
           confidence := calculateAnomalyConfidence (latestOf (data.map fun d => d.temperature))
             (calculateStats (data.map fun d => d.temperature)) }]
       else []) ++
      (if 6 < |latestOf (data.map fun d => d.pressure)
          - (data.map fun d => d.pressure).getD (data.length - 3) 0| then
        [{ type := "pressure"
           description := .rapidPressure
             (if 0 < latestOf (data.map fun d => d.pressure)
                - (data.map fun d => d.pressure).getD (data.length - 3) 0
              then "increase" else "decrease")
             (JsNum.toFixed 1 (JsNum.fin |latestOf (data.map fun d => d.pressure)
               - (data.map fun d => d.pressure).getD (data.length - 3) 0|))
           confidence := JsNum.min (JsNum.fin (|latestOf (data.map fun d => d.pressure)
             - (data.map fun d => d.pressure).getD (data.length - 3) 0| * 5)) (JsNum.fin 95) }]
       else []) ++
      (if 95 < latestOf (data.map fun d => d.humidity) then
        [{ type := "humidity"
           description := .text "Very high humidity, precipitation likely"
           confidence := JsNum.fin 85 }]
       else if latestOf (data.map fun d => d.humidity) < 20 then
        [{ type := "humidity"
           description := .text "Extremely dry conditions"
           confidence := JsNum.fin 90 }]
       else []) := by
  have h5 : ¬ data.length < 5 := by omega
  have h3 : data.length > 3 := by omega
  have hl : (data.map fun d => d.temperature).length ≠ 0 := by
    rw [List.length_map]; omega
  obtain ⟨hm, hs⟩ := calculateStats_eq _ hl
  simp only [detectAnomalies, if_neg h5, if_pos h3, hm, hs, JsNum.fin_sub_fin, JsNum.abs,
    latestOf, List.length_map, gt_iff_lt, List.append_assoc]

theorem calculateAnomalyConfidence_eq (value : ℚ) (l : List ℚ) (hn : l.length ≠ 0)
    (hv : 0 < variance l) :
    calculateAnomalyConfidence value (calculateStats l)
      = JsNum.fin ((⌊min (|((value - meanOf l : ℚ) : ℝ)| / Real.sqrt (variance l) * 25) 95
          + 1 / 2⌋ : ℤ) : ℚ) := by
  obtain ⟨hm, hs⟩ := calculateStats_eq l hn
  have hv' : (0 : ℝ) < variance l := by exact_mod_cast hv
  simp only [calculateAnomalyConfidence, hm, hs, JsNum.fin_sub_fin, JsNum.abs,
    if_neg (not_lt.2 hv.le), if_neg hv.ne']
  rw [roundSqrtCap95_eq _ (by positivity)]
  have hroot : Real.sqrt ((625 * (|value - meanOf l| * |value - meanOf l|) / variance l : ℚ) : ℝ)
      = |((value - meanOf l : ℚ) : ℝ)| / Real.sqrt (variance l) * 25 := by
    push_cast
    rw [Real.sqrt_div (by positivity), show (625 : ℝ) * (|(value : ℝ) - meanOf l| * |(value : ℝ) - meanOf l|)
      = (25 * |(value : ℝ) - meanOf l|) ^ 2 by ring, Real.sqrt_sq (by positivity)]
    ring
  rw [hroot]

theorem latestOf_eq_meanOf_of_constant (l : List ℚ) (hn : l.length ≠ 0) (hc : IsConstant l) :
    latestOf l = meanOf l := by
  have hpos : 0 < l.length := Nat.pos_of_ne_zero hn
  have hmem : latestOf l ∈ l := by
    unfold latestOf
    rw [List.getD_eq_getElem l 0 (by omega)]
    exact List.getElem_mem _
  have hall : ∀ v ∈ l, v = latestOf l := fun v hv => hc v hv _ hmem
  exact (meanOf_of_constant l _ hn hall).symm

theorem mem_ite_singleton {α : Type} {c : Prop} [Decidable c] {a x : α} :
    x ∈ (if c then [a] else []) ↔ c ∧ x = a := by
  by_cases h : c <;> simp [h]

/-! ## Theorems: the pressure insight -/

theorem toFixed_zero_nat (k : ℕ) : JsNum.toFixed 0 (JsNum.fin k) = JsNum.fin k := by
  have h0 : ¬ ((k : ℚ) < 0) := not_lt.2 (Nat.cast_nonneg k)
  simp only [JsNum.toFixed, if_neg h0, JsNum.roundHalfUp, pow_zero, mul_one, div_one]
  congr 1
  have : ⌊(k : ℚ) + 1 / 2⌋ = (k : ℤ) := by
    rw [Int.floor_eq_iff]
    constructor
    · push_cast; linarith
    · push_cast; linarith
  rw [this]
  simp

theorem toFixed_zero_percent {x : JsNum} (hx : IsPercent x) : JsNum.toFixed 0 x = x := by
  rcases hx with rfl | ⟨k, -, rfl⟩
  · rfl
  · exact toFixed_zero_nat k

theorem min_fin_fin (a b : ℚ) : JsNum.min (JsNum.fin a) (JsNum.fin b) = JsNum.fin (min a b) := by
  simp only [JsNum.min, JsNum.lt, decide_eq_true_eq]
  by_cases h : b < a
  · rw [if_pos h, min_eq_right h.le]
  · rw [if_neg h, min_eq_left (not_lt.1 h)]

theorem toFixed_zero_range (y : ℚ) (h0 : 0 ≤ y) (h1 : y ≤ 100) :
    IsPercent (JsNum.toFixed 0 (JsNum.fin y)) := by
  right
  simp only [JsNum.toFixed, if_neg (not_lt.2 h0), JsNum.roundHalfUp, pow_zero, mul_one, div_one]
  have hf0 : 0 ≤ ⌊y + 1 / 2⌋ := Int.floor_nonneg.2 (by linarith)
  have hf1 : ⌊y + 1 / 2⌋ ≤ 100 := by
    have : ⌊y + 1 / 2⌋ < 101 := by
      rw [Int.floor_lt]
      push_cast
      linarith
    omega
  refine ⟨⌊y + 1 / 2⌋.toNat, by omega, ?_⟩
  congr 1
  have : ((⌊y + 1 / 2⌋.toNat : ℕ) : ℤ) = ⌊y + 1 / 2⌋ := Int.toNat_of_nonneg hf0
  exact_mod_cast this.symm

/-- The confidence of `analyzeTrend` is NaN or a whole number from 0 to 100. -/
theorem analyzeTrend_confidence_percent (values : List ℚ) :
    IsPercent (analyzeTrend values).confidence := by
  have key : ∀ x : JsNum, IsPercent (JsNum.toFixed 0
      (JsNum.min (JsNum.min (JsNum.abs x) (JsNum.fin 1) * JsNum.fin 100) (JsNum.fin 100))) := by
    intro x
    cases x with
    | fin q =>
      simp only [JsNum.abs, min_fin_fin, JsNum.fin_mul_fin]
      apply toFixed_zero_range
      · have : 0 ≤ min |q| 1 := le_min (abs_nonneg q) (by norm_num)
        exact le_min (by positivity) (by norm_num)
      · exact min_le_right _ _
    | posInf => exact Or.inr ⟨100, le_rfl, by decide!⟩
    | negInf => exact Or.inr ⟨100, le_rfl, by decide!⟩
    | nan => exact Or.inl rfl
  exact key _

theorem min_add_percent {c : JsNum} (hc : IsPercent c) (b : ℕ) :
    IsPercent (JsNum.min (c + JsNum.fin b) (JsNum.fin 100)) ∧
      JsNum.gt (JsNum.min (c + JsNum.fin b) (JsNum.fin 100)) (JsNum.fin 100) = false := by
  rcases hc with rfl | ⟨k, hk, rfl⟩
  · exact ⟨Or.inl rfl, rfl⟩
  · rw [JsNum.fin_add_fin, min_fin_fin]
    have hmin : min ((k : ℚ) + b) 100 = ((min (k + b) 100 : ℕ) : ℚ) := by
      push_cast
      rfl
    rw [hmin]
    refine ⟨Or.inr ⟨min (k + b) 100, min_le_right _ _, rfl⟩, ?_⟩
    simp only [JsNum.gt, JsNum.lt, decide_eq_false_iff_not, not_lt]
    have : min (k + b) 100 ≤ 100 := min_le_right _ _
    exact_mod_cast this

theorem percent_not_gt {c : JsNum} (hc : IsPercent c) : JsNum.gt c (JsNum.fin 100) = false := by
  rcases hc with rfl | ⟨k, hk, rfl⟩
  · rfl
  · simp only [JsNum.gt, JsNum.lt, decide_eq_false_iff_not, not_lt]
    exact_mod_cast hk

theorem percent_add_zero {c : JsNum} (hc : IsPercent c) :
    JsNum.min (c + JsNum.fin 0) (JsNum.fin 100) = c := by
  rcases hc with rfl | ⟨k, hk, rfl⟩
  · rfl
  · rw [JsNum.fin_add_fin, min_fin_fin, add_zero, min_eq_left]
    exact_mod_cast hk

theorem analyzeTrend_trend_cases (values : List ℚ) (hn : 2 ≤ values.length) :
    (analyzeTrend values).trend = "rising" ∨ (analyzeTrend values).trend = "falling" ∨
      (analyzeTrend values).trend = "stable" := by
  rw [analyzeTrend_trend values hn]
  split_ifs
  · exact Or.inl rfl
  · exact Or.inr (Or.inl rfl)
  · exact Or.inr (Or.inr rfl)

/-- C14: on at least 3 points, with `t` the direction `analyzeTrend` gives
the pressures (`rising` iff slope > 0.05, `falling` iff slope < -0.05,
`stable` otherwise) and `p` the latest pressure, `analyzePressure` returns
`clear and fair weather approaching` if `t` is rising and `p > 1022`,
`improving weather conditions` if rising and `p <= 1022`, `rain or storms
may be approaching` if falling and `p < 1000`, `changing weather conditions`
if falling and `p >= 1000`, `potential stormy conditions` if stable and
`p < 995`, `continued fair weather` if stable and `p > 1025`, and `stable
weather` if stable and `995 <= p <= 1025`. -/
theorem analyzePressure_prediction (data : List DataPoint) (hn : 3 ≤ data.length) :
    ((analyzePressure (some data)).trend = some (analyzeTrend (data.map fun d => d.pressure)).trend ∧
      (analyzePressure (some data)).currentPressure = some (latestOf (data.map fun d => d.pressure))) ∧
    (((analyzeTrend (data.map fun d => d.pressure)).trend = "rising"
        ↔ 1 / 20 < olsSlope (data.map fun d => d.pressure)) ∧
      ((analyzeTrend (data.map fun d => d.pressure)).trend = "falling"
        ↔ olsSlope (data.map fun d => d.pressure) < -(1 / 20)) ∧
      ((analyzeTrend (data.map fun d => d.pressure)).trend = "stable"
        ↔ ¬ 1 / 20 < olsSlope (data.map fun d => d.pressure) ∧
          ¬ olsSlope (data.map fun d => d.pressure) < -(1 / 20))) ∧
    ((analyzeTrend (data.map fun d => d.pressure)).trend = "rising" →
      (1022 < latestOf (data.map fun d => d.pressure) →
        (analyzePressure (some data)).prediction = "clear and fair weather approaching") ∧
      (latestOf (data.map fun d => d.pressure) ≤ 1022 →
        (analyzePressure (some data)).prediction = "improving weather conditions")) ∧
    ((analyzeTrend (data.map fun d => d.pressure)).trend = "falling" →
      (latestOf (data.map fun d => d.pressure) < 1000 →
        (analyzePressure (some data)).prediction = "rain or storms may be approaching") ∧
      (1000 ≤ latestOf (data.map fun d => d.pressure) →
        (analyzePressure (some data)).prediction = "changing weather conditions")) ∧
    ((analyzeTrend (data.map fun d => d.pressure)).trend = "stable" →
      (latestOf (data.map fun d => d.pressure) < 995 →
        (analyzePressure (some data)).prediction = "potential stormy conditions") ∧
      (1025 < latestOf (data.map fun d => d.pressure) →
        (analyzePressure (some data)).prediction = "continued fair weather") ∧
      (995 ≤ latestOf (data.map fun d => d.pressure) →
        latestOf (data.map fun d => d.pressure) ≤ 1025 →
        (analyzePressure (some data)).prediction = "stable weather")) := by
  have hg : ¬ data.length < 3 := by omega
  have hl : 2 ≤ (data.map fun d => d.pressure).length := by rw [List.length_map]; omega
  refine ⟨⟨?_, ?_⟩, direction_iff _ _ (by norm_num) _ (analyzeTrend_trend _ hl), fun ht => ⟨?_, ?_⟩,
    fun ht => ⟨?_, ?_⟩, fun ht => ⟨?_, ?_, ?_⟩⟩
  · simp only [analyzePressure, if_neg hg]
  · simp only [analyzePressure, if_neg hg, latestOf]
  · intro hp
    simp only [analyzePressure, if_neg hg, ht, if_true, gt_iff_lt]
    rw [if_pos (by simpa [latestOf] using hp)]
  · intro hp
    simp only [analyzePressure, if_neg hg, ht, if_true, gt_iff_lt]
    rw [if_neg (by simpa [latestOf] using hp)]
  · intro hp
    have h1 : ("falling" : String) ≠ "rising" := by decide
    simp only [analyzePressure, if_neg hg, ht, h1, if_false, if_true]
    rw [if_pos (by simpa [latestOf] using hp)]
  · intro hp
    have h1 : ("falling" : String) ≠ "rising" := by decide
    simp only [analyzePressure, if_neg hg, ht, h1, if_false, if_true]
    rw [if_neg (by simpa [latestOf] using hp)]
  · intro hp
    have h1 : ("stable" : String) ≠ "rising" := by decide
    have h2 : ("stable" : String) ≠ "falling" := by decide
    simp only [analyzePressure, if_neg hg, ht, h1, h2, if_false]
    rw [if_pos (by simpa [latestOf] using hp)]
  · intro hp
    have h1 : ("stable" : String) ≠ "rising" := by decide
    have h2 : ("stable" : String) ≠ "falling" := by decide
    have h3 : ¬ latestOf (data.map fun d => d.pressure) < 995 := by linarith
    simp only [analyzePressure, if_neg hg, ht, h1, h2, if_false, gt_iff_lt]
    rw [if_neg (by simpa [latestOf] using h3), if_pos (by simpa [latestOf] using hp)]
  · intro hp1 hp2
    have h1 : ("stable" : String) ≠ "rising" := by decide
    have h2 : ("stable" : String) ≠ "falling" := by decide
    simp only [analyzePressure, if_neg hg, ht, h1, h2, if_false, gt_iff_lt]
    rw [if_neg (by simpa [latestOf] using hp1), if_neg (by simpa [latestOf] using hp2)]

/-- Witness of C14 (scenario 4): the pressures 1025, 1024, 1023, 1022, 1021
are falling with latest pressure 1021, and the prediction is `changing
weather conditions`. -/
theorem analyzePressure_prediction_witness :
    3 ≤ fallingPressurePoints.length ∧
    (analyzeTrend (fallingPressurePoints.map fun d => d.pressure)).trend = "falling" ∧
    1000 ≤ latestOf (fallingPressurePoints.map fun d => d.pressure) ∧
    (analyzePressure (some fallingPressurePoints)).prediction = "changing weather conditions" :=
  ⟨by decide, by decide!, by decide!,
   ((analyzePressure_prediction fallingPressurePoints (by decide)).2.2.2.1 (by decide!)).2
     (by decide!)⟩

/-- C15: on at least 3 points, with `c` the confidence of `analyzeTrend` on
the pressures (NaN or a whole number from 0 to 100), the confidence of
`analyzePressure` is `min(c + 15, 100)` when the trend is falling and the
latest pressure is < 1000, `min(c + 10, 100)` when the trend is stable and
the latest pressure is < 995 or > 1025, and `min(c + 0, 100)`, which is `c`,
in every other case; it never exceeds 100. -/
theorem analyzePressure_confidence (data : List DataPoint) (hn : 3 ≤ data.length) :
    IsPercent (analyzeTrend (data.map fun d => d.pressure)).confidence ∧
    ((analyzeTrend (data.map fun d => d.pressure)).trend = "falling" ∧
        latestOf (data.map fun d => d.pressure) < 1000 →
      (analyzePressure (some data)).confidence
        = JsNum.min ((analyzeTrend (data.map fun d => d.pressure)).confidence + JsNum.fin 15)
            (JsNum.fin 100)) ∧
    ((analyzeTrend (data.map fun d => d.pressure)).trend = "stable" ∧
        (latestOf (data.map fun d => d.pressure) < 995 ∨
          1025 < latestOf (data.map fun d => d.pressure)) →
      (analyzePressure (some data)).confidence
        = JsNum.min ((analyzeTrend (data.map fun d => d.pressure)).confidence + JsNum.fin 10)
            (JsNum.fin 100)) ∧
    (¬ ((analyzeTrend (data.map fun d => d.pressure)).trend = "falling" ∧
          latestOf (data.map fun d => d.pressure) < 1000) →
      ¬ ((analyzeTrend (data.map fun d => d.pressure)).trend = "stable" ∧
          (latestOf (data.map fun d => d.pressure) < 995 ∨
            1025 < latestOf (data.map fun d => d.pressure))) →
      (analyzePressure (some data)).confidence
          = JsNum.min ((analyzeTrend (data.map fun d => d.pressure)).confidence + JsNum.fin 0)
              (JsNum.fin 100) ∧
        (analyzePressure (some data)).confidence
          = (analyzeTrend (data.map fun d => d.pressure)).confidence) ∧
    IsPercent (analyzePressure (some data)).confidence ∧
    JsNum.gt (analyzePressure (some data)).confidence (JsNum.fin 100) = false := by
  have hg : ¬ data.length < 3 := by omega
  have hl : 2 ≤ (data.map fun d => d.pressure).length := by rw [List.length_map]; omega
  have hc := analyzeTrend_confidence_percent (data.map fun d => d.pressure)
  have h15 := min_add_percent hc 15
  have h10 := min_add_percent hc 10
  have hfr : ("falling" : String) ≠ "rising" := by decide
  have hsr : ("stable" : String) ≠ "rising" := by decide
  have hsf : ("stable" : String) ≠ "falling" := by decide
  have e15 : (analyzeTrend (data.map fun d => d.pressure)).trend = "falling" ∧
        latestOf (data.map fun d => d.pressure) < 1000 →
      (analyzePressure (some data)).confidence
        = JsNum.min ((analyzeTrend (data.map fun d => d.pressure)).confidence + JsNum.fin 15)
            (JsNum.fin 100) := by
    rintro ⟨ht, hp⟩
    simp only [analyzePressure, if_neg hg, ht, hfr, if_false, if_true]
    rw [if_pos (by simpa [latestOf] using hp)]
    exact toFixed_zero_percent (by exact_mod_cast h15.1)
  have e10 : (analyzeTrend (data.map fun d => d.pressure)).trend = "stable" ∧
        (latestOf (data.map fun d => d.pressure) < 995 ∨
          1025 < latestOf (data.map fun d => d.pressure)) →
      (analyzePressure (some data)).confidence
        = JsNum.min ((analyzeTrend (data.map fun d => d.pressure)).confidence + JsNum.fin 10)
            (JsNum.fin 100) := by
    rintro ⟨ht, hp⟩
    simp only [analyzePressure, if_neg hg, ht, hsr, hsf, if_false, gt_iff_lt]
    by_cases h995 : latestOf (data.map fun d => d.pressure) < 995
    · rw [if_pos (by simpa [latestOf] using h995)]
      exact toFixed_zero_percent (by exact_mod_cast h10.1)
    · have h1025 := hp.resolve_left h995
      rw [if_neg (by simpa [latestOf] using h995), if_pos (by simpa [latestOf] using h1025)]
      exact toFixed_zero_percent (by exact_mod_cast h10.1)
  have e0 : ¬ ((analyzeTrend (data.map fun d => d.pressure)).trend = "falling" ∧
          latestOf (data.map fun d => d.pressure) < 1000) →
      ¬ ((analyzeTrend (data.map fun d => d.pressure)).trend = "stable" ∧
          (latestOf (data.map fun d => d.pressure) < 995 ∨
            1025 < latestOf (data.map fun d => d.pressure))) →
      (analyzePressure (some data)).confidence
          = (analyzeTrend (data.map fun d => d.pressure)).confidence := by
    intro n1 n2
    rcases analyzeTrend_trend_cases _ hl with ht | ht | ht
    · simp only [analyzePressure, if_neg hg, ht, if_true]
      exact toFixed_zero_percent hc
    · have hp : ¬ latestOf (data.map fun d => d.pressure) < 1000 := fun h => n1 ⟨ht, h⟩
      simp only [analyzePressure, if_neg hg, ht, hfr, if_false, if_true]
      rw [if_neg (by simpa [latestOf] using hp)]
      exact toFixed_zero_percent hc
    · have hp1 : ¬ latestOf (data.map fun d => d.pressure) < 995 := fun h => n2 ⟨ht, Or.inl h⟩
      have hp2 : ¬ 1025 < latestOf (data.map fun d => d.pressure) := fun h => n2 ⟨ht, Or.inr h⟩
      simp only [analyzePressure, if_neg hg, ht, hsr, hsf, if_false, gt_iff_lt]
      rw [if_neg (by simpa [latestOf] using hp1), if_neg (by simpa [latestOf] using hp2)]
      exact toFixed_zero_percent hc
  have hall : IsPercent (analyzePressure (some data)).confidence := by
    by_cases c1 : (analyzeTrend (data.map fun d => d.pressure)).trend = "falling" ∧
        latestOf (data.map fun d => d.pressure) < 1000
    · rw [e15 c1]; exact_mod_cast h15.1
    · by_cases c2 : (analyzeTrend (data.map fun d => d.pressure)).trend = "stable" ∧
          (latestOf (data.map fun d => d.pressure) < 995 ∨
            1025 < latestOf (data.map fun d => d.pressure))
      · rw [e10 c2]; exact_mod_cast h10.1
      · rw [e0 c1 c2]; exact hc
  exact ⟨hc, e15, e10, fun n1 n2 => ⟨by rw [e0 n1 n2, percent_add_zero hc], e0 n1 n2⟩, hall,
    percent_not_gt hall⟩

/-- Witness of C15 (scenario 4): the falling series ending at 1021 gets the
trend confidence, 100, with no bonus. -/
theorem analyzePressure_confidence_witness :
    3 ≤ fallingPressurePoints.length ∧
    (analyzePressure (some fallingPressurePoints)).confidence
      = (analyzeTrend (fallingPressurePoints.map fun d => d.pressure)).confidence ∧
    (analyzeTrend (fallingPressurePoints.map fun d => d.pressure)).confidence = JsNum.fin 100 ∧
    (analyzePressure (some fallingPressurePoints)).confidence = JsNum.fin 100 :=
  ⟨by decide,
   ((analyzePressure_confidence fallingPressurePoints (by decide)).2.2.2.1
     (by decide!) (by decide!)).2,
   by decide!, by decide!⟩

/-! ## Theorems: the humidity insight -/

theorem fluctuation_fold (l : List ℚ) (k : ℕ) :
    (List.range' 1 k).foldl
      (fun (acc : ℚ) (i : Nat) => acc + |l.getD i 0 - l.getD (i - 1) 0|) 0
    = ∑ i ∈ Finset.range k, |l.getD (i + 1) 0 - l.getD i 0| := by
  induction k with
  | zero => simp
  | succ k ih =>
    rw [List.range'_1_concat, List.foldl_append, ih]
    simp [Finset.sum_range_succ, Nat.add_comm 1 k]

/-- From two points on, `calculateFluctuation` is the mean absolute step. -/
theorem calculateFluctuation_eq (l : List ℚ) (hn : 2 ≤ l.length) :
    calculateFluctuation l = JsNum.fin (meanAbsStep l) := by
  have hg : ¬ l.length < 2 := by omega
  have h0 : ((l.length : ℚ) - 1) ≠ 0 := by
    have : (2 : ℚ) ≤ l.length := by exact_mod_cast hn
    linarith
  simp only [calculateFluctuation, if_neg hg, fluctuation_fold, JsNum.div, if_neg h0, meanAbsStep]

/-! ## Theorems: magnitude and the time window -/

theorem jsSlice_neg {α : Type} (k : Int) (hk : 1 ≤ k) (xs : List α) :
    jsSlice (-k) xs = lastPoints k.toNat xs := by
  have h : -k < 0 := by omega
  simp only [jsSlice, if_pos h, lastPoints]
  congr 1
  omega

/-- With a time window `k ≥ 1` the analysed window is the last `k` points;
with none it is all the data. -/
theorem analysedWindow_eq (data : List DataPoint) :
    analysedWindow data none = data ∧
    ∀ k : Int, 1 ≤ k → analysedWindow data (some k) = lastPoints k.toNat data := by
  refine ⟨rfl, fun k hk => ?_⟩
  have h0 : k ≠ 0 := by omega
  simp only [analysedWindow, if_neg h0, jsSlice_neg k hk]

theorem lastPoints_length {α : Type} (k : Nat) (xs : List α) :
    (lastPoints k xs).length = min k xs.length := by
  simp only [lastPoints, List.length_drop]
  omega

theorem lastPoints_min {α : Type} (k : Nat) (xs : List α) :
    lastPoints (min k xs.length) xs = lastPoints k xs := by
  simp only [lastPoints]
  congr 1
  omega

/-- From a time window of 2 on, `analyzeTempTrend(data, k)` is
`analyzeTempTrend` on the last `min(k, n)` points. -/
theorem analyzeTempTrend_window (data : List DataPoint) (hn : 2 ≤ data.length) (k : Int)
    (hk : 2 ≤ k) :
    analyzeTempTrend (some data) (some k)
      = analyzeTempTrend (some (lastPoints (min k.toNat data.length) data)) none := by
  have hg : ¬ data.length < 2 := by omega
  have h0 : k ≠ 0 := by omega
  have hlen : ¬ (lastPoints k.toNat data).length < 2 := by
    rw [lastPoints_length]
    omega
  rw [lastPoints_min]
  simp only [analyzeTempTrend, if_neg hg, if_neg h0, jsSlice_neg k (by omega), if_neg hlen]

/-- C20, where the code departs from the claim: on the two points 20, 21
with a time window of 1, `analyzeTempTrend` analyses the single last point
and returns trend `stable`, magnitude 0, confidence NaN and slope NaN, while
`analyzeTempTrend` on that last point alone returns the `unknown` result. -/
theorem analyzeTempTrend_window_one :
    lastPoints (min 1 [atTemperature 20, atTemperature 21].length)
        [atTemperature 20, atTemperature 21] = [atTemperature 21] ∧
    analyzeTempTrend (some [atTemperature 20, atTemperature 21]) (some 1)
      = { trend := "stable", magnitude := JsNum.fin 0, confidence := JsNum.nan,
          slope := some JsNum.nan } ∧
    analyzeTempTrend (some [atTemperature 21]) none
      = { trend := "unknown", magnitude := JsNum.fin 0, confidence := JsNum.fin 0,
          slope := none } ∧
    analyzeTempTrend (some [atTemperature 20, atTemperature 21]) (some 1)
      ≠ analyzeTempTrend (some [atTemperature 21]) none := by
  refine ⟨by decide!, by decide!, by decide!, by decide!⟩

/-! ## Theorems: the latest reading, the guard and the error handler -/

theorem getData_cases (store : Store) :
    (store = [] ∧
      getData store
        = ({ status := 404, body := .error "Not Found" "No sensor data available" none }, store)) ∨
    (store ≠ [] ∧ ∃ r ∈ store, getData store = ({ status := 200, body := .data r }, store) ∧
      ∀ r1 ∈ store, r1.timestamp ≤ r.timestamp) := by
  have hperm := sortByTimestampDesc_perm store
  have hsorted := sortByTimestampDesc_sorted store
  unfold getData
  cases hs : sortByTimestampDesc store with
  | nil =>
    rw [hs] at hperm
    have h0 : store = [] := hperm.symm.eq_nil
    subst h0
    exact Or.inl ⟨rfl, rfl⟩
  | cons r rest =>
    rw [hs] at hperm hsorted
    have hne : store ≠ [] := by
      rintro rfl
      simpa using hperm.length_eq
    have hmem : r ∈ store := hperm.subset (List.mem_cons_self _ _)
    refine Or.inr ⟨hne, r, hmem, rfl, fun r1 h1 => ?_⟩
    have : r1 ∈ r :: rest := hperm.symm.subset h1
    rcases List.mem_cons.1 this with rfl | h2
    · exact le_rfl
    · exact List.rel_of_pairwise_cons hsorted h2

/-- C21, as amended: `GET /api/data` does not read the query string, so its
answer with a `deviceId` is its answer without one: 404 `Not Found` exactly
when the store is empty, otherwise 200 with a stored reading whose timestamp
is at least that of every stored reading, of whatever device. -/
theorem getDataRequest_latest_overall (q : LatestQuery) (store : Store) :
    getDataRequest q store = getDataRequest { deviceId := none } store ∧
    ((getDataRequest q store).1.status = 404 ↔ store = []) ∧
    (store ≠ [] → ∃ r ∈ store,
      (getDataRequest q store).1 = { status := 200, body := .data r } ∧
      ∀ r1 ∈ store, r1.timestamp ≤ r.timestamp) := by
  refine ⟨rfl, ?_, ?_⟩
  · unfold getDataRequest
    rcases getData_cases store with ⟨h0, h⟩ | ⟨hne, r, -, h, -⟩
    · rw [h]
      simp [h0]
    · rw [h]
      simp [hne]
  · intro hne
    unfold getDataRequest
    rcases getData_cases store with ⟨h0, -⟩ | ⟨-, r, hmem, h, hmax⟩
    · exact absurd h0 hne
    · exact ⟨r, hmem, by rw [h], hmax⟩

/-- Witness of C21: with readings of `pi-1` and `pi-2` in the store, the
query for `pi-1` is answered 200 with a newest reading of the store. -/
theorem getDataRequest_latest_overall_witness :
    twoDevices ≠ [] ∧
    ∃ r ∈ twoDevices,
      (getDataRequest { deviceId := some "pi-1" } twoDevices).1
        = { status := 200, body := .data r } ∧
      ∀ r1 ∈ twoDevices, r1.timestamp ≤ r.timestamp :=
  ⟨by decide,
   (getDataRequest_latest_overall { deviceId := some "pi-1" } twoDevices).2.2 (by decide)⟩

/-- Counterexample to C21 as stated: the store holds readings of `pi-1` at
times 1000 and 3000 and one of `pi-2` at time 4000. Asked for `pi-1`, the
route returns the reading of `pi-2`, not the reading of `pi-1` at time 3000;
asked for `pi-3`, which has no reading, it answers 200, not 404. -/
theorem latest_ignores_deviceId :
    (getDataRequest { deviceId := some "pi-1" } twoDevices).1
      = { status := 200, body := .data (readingOf 2 "pi-2" 30 4000) } ∧
    (readingOf 2 "pi-2" 30 4000).device.id ≠ "pi-1" ∧
    latestOfDevice "pi-1" twoDevices
      = { status := 200, body := .data (readingOf 1 "pi-1" 22 3000) } ∧
    (getDataRequest { deviceId := some "pi-1" } twoDevices).1 ≠ latestOfDevice "pi-1" twoDevices ∧
    (getDataRequest { deviceId := some "pi-3" } twoDevices).1.status = 200 ∧
    (latestOfDevice "pi-3" twoDevices).status = 404 :=
  ⟨by decide!, by decide, by decide!, by decide!, by decide!, by decide!⟩

/-- C23: in development mode `apiKeyAuth` hands every GET request over to
the next handler, whatever the key (absent, wrong or right); for every other
method its outcome does not depend on the mode: it is the same under any two
configurations with the same secret. -/
theorem apiKeyAuth_development_get (config : Config) (hdev : config.environment = "development") :
    (∀ apiKey : Option String, apiKeyAuth config "GET" apiKey = Guard.next) ∧
    (∀ (environment method : String) (apiKey : Option String), method ≠ "GET" →
      apiKeyAuth config method apiKey
        = apiKeyAuth { config with environment := environment } method apiKey) := by
  refine ⟨fun apiKey => by simp [apiKeyAuth, hdev], fun environment method apiKey hm => ?_⟩
  simp [apiKeyAuth, hm]

/-- Witness of C23: with the secret `s3cret`, a GET in development mode
passes without a key and with a wrong key, and a POST with a wrong key is
answered 403 in development as in production. -/
theorem apiKeyAuth_development_get_witness :
    (loadConfig (some "s3cret") none).environment = "development" ∧
    apiKeyAuth (loadConfig (some "s3cret") none) "GET" none = Guard.next ∧
    apiKeyAuth (loadConfig (some "s3cret") none) "GET" (some "guess") = Guard.next ∧
    apiKeyAuth (loadConfig (some "s3cret") none) "POST" (some "guess")
      = apiKeyAuth { loadConfig (some "s3cret") none with environment := "production" } "POST"
          (some "guess") ∧
    apiKeyAuth (loadConfig (some "s3cret") none) "POST" (some "guess")
      = Guard.respond 403 "Authentication failed" "Invalid API key" :=
  ⟨by decide,
   (apiKeyAuth_development_get (loadConfig (some "s3cret") none) (by decide)).1 none,
   (apiKeyAuth_development_get (loadConfig (some "s3cret") none) (by decide)).1 (some "guess"),
   (apiKeyAuth_development_get (loadConfig (some "s3cret") none) (by decide)).2
     "production" "POST" (some "guess") (by decide),
   by decide⟩

/-- C24, as amended: in the error handler an error named `ValidationError`
yields status 400 with the messages of its field errors as details;
otherwise an error with code 11000 yields status 409; otherwise the status
is the status the error carries, and 500 when it carries none (or 0), and
the message is the error's own message in development mode and `Something
went wrong` in every other mode. Every response carries an error category
and a message. -/
theorem errorHandler_cases {α : Type} (config : Config) (err : JsError) :
    (err.name = "ValidationError" →
      (errorHandler config err : Response α)
        = { status := 400, body := .error "Validation Error" err.message (some err.errors) }) ∧
    (err.name ≠ "ValidationError" → err.code = some 11000 →
      (errorHandler config err : Response α)
        = { status := 409, body := .error "Conflict" "Duplicate entry found" none }) ∧
    (err.name ≠ "ValidationError" → err.code ≠ some 11000 →
      (err.status = none ∨ err.status = some 0 →
        (errorHandler config err : Response α).status = 500) ∧
      (∀ s, err.status = some s → s ≠ 0 →
        (errorHandler config err : Response α).status = s) ∧
      (config.environment = "development" →
        (errorHandler config err : Response α).body
          = .error "Internal Server Error" err.message none) ∧
      (config.environment ≠ "development" →
        (errorHandler config err : Response α).body
          = .error "Internal Server Error" "Something went wrong" none)) ∧
    ∃ category message details,
      (errorHandler config err : Response α).body = .error category message details := by
  refine ⟨fun h => by simp [errorHandler, h], fun h1 h2 => by simp [errorHandler, h1, h2],
    fun h1 h2 => ⟨?_, ?_, ?_, ?_⟩, ?_⟩
  · rintro (h | h) <;> simp [errorHandler, h1, h2, h]
  · intro s hs h0
    simp [errorHandler, h1, h2, hs, h0]
  · intro h
    simp [errorHandler, h1, h2, h]
  · intro h
    simp [errorHandler, h1, h2, h]
  · unfold errorHandler
    split_ifs <;> exact ⟨_, _, _, rfl⟩

/-- Witness of C24 (scenario 2): the validation error of a temperature of
150 is answered 400 with the message of the temperature range as details,
and in production an error with no status is answered 500 with the fixed
message. -/
theorem errorHandler_cases_witness :
    (errorHandler (loadConfig none (some "production"))
        { name := "ValidationError", message := "SenseHatData validation failed"
          errors := validate
            { temperature := 150, humidity := 45, pressure := 1013
              device := { id := "pi-1", name := "", location := "" } } } : Response Reading)
      = { status := 400
          body := .error "Validation Error" "SenseHatData validation failed"
            (some ["Path temperature is more than maximum allowed value (120)."]) } ∧
    (errorHandler (loadConfig none (some "production"))
        { name := "Error", message := "connection lost" } : Response Reading)
      = { status := 500, body := .error "Internal Server Error" "Something went wrong" none } :=
  ⟨((errorHandler_cases (loadConfig none (some "production"))
      { name := "ValidationError", message := "SenseHatData validation failed"
        errors := validate
          { temperature := 150, humidity := 45, pressure := 1013
            device := { id := "pi-1", name := "", location := "" } } }).1 rfl).trans
      (by decide!),
   by decide⟩

/-- Counterexample to C24 as stated: the error of a malformed JSON body is
not a validation error and has no code 11000, it carries status 400, and the
handler answers 400, not 500. -/
theorem errorHandler_keeps_error_status :
    malformedBodyError.name ≠ "ValidationError" ∧
    malformedBodyError.code ≠ some 11000 ∧
    (errorHandler (loadConfig none (some "production")) malformedBodyError : Response Reading)
      = { status := 400, body := .error "Internal Server Error" "Something went wrong" none } ∧
    (errorHandler (loadConfig none (some "production")) malformedBodyError :
      Response Reading).status ≠ 500 :=
  ⟨by decide, by decide, by decide, by decide⟩

/-! ## Theorems: pages past the end -/

theorem getHistory_eq (config : Config) (env : Env) (q : HistoryQuery) (store : Store)
    (hpage : 1 ≤ q.page.getD 1) (hlimit : 1 ≤ q.limit.getD 100) :
    getHistory config env q store =
      ({ status := 200
         body := .data
           { data :=
               ((sortByTimestampDesc (store.filter
                   (matchesQuery (env.now - q.hours.getD 24 * 60 * 60 * 1000) q.deviceId))).drop
                 ((q.page.getD 1 - 1) * q.limit.getD 100).toNat).take (q.limit.getD 100).natAbs
             pagination :=
               { total := (store.filter
                   (matchesQuery (env.now - q.hours.getD 24 * 60 * 60 * 1000) q.deviceId)).length
                 page := q.page.getD 1
                 pages := JsNum.fin
                   ((⌈(((store.filter (matchesQuery (env.now - q.hours.getD 24 * 60 * 60 * 1000)
                     q.deviceId)).length : ℕ) : ℚ) / ((q.limit.getD 100 : ℤ) : ℚ)⌉ : ℤ) : ℚ) } } },
       store) := by
  set limit := q.limit.getD 100 with hl
  set page := q.page.getD 1 with hp
  have h1 : ¬ (page - 1) * limit < 0 := by
    have : 0 ≤ (page - 1) * limit := mul_nonneg (by omega) (by omega)
    omega
  have h2 : limit ≠ 0 := by omega
  have h3 : ((limit : ℤ) : ℚ) ≠ 0 := by exact_mod_cast h2
  simp only [getHistory, skipLimit, ← hl, ← hp, h1, h2, if_false, JsNum.div, h3, JsNum.ceil]

/-- C25, as amended: for `page >= 1` and `limit >= 1`, when the page starts
at or beyond the end of the matching readings, `(page - 1) * limit >= total`,
`GET /api/data/history` answers 200 with an empty `data` array and the usual
pagination object `{total, page, pages: ceil(total / limit)}`, and the store
is unchanged; `data` is empty in no other case. -/
theorem getHistory_past_the_end (config : Config) (env : Env) (q : HistoryQuery) (store : Store)
    (hpage : 1 ≤ q.page.getD 1) (hlimit : 1 ≤ q.limit.getD 100) :
    ∃ data : List Reading,
      getHistory config env q store =
        ({ status := 200
           body := .data
             { data := data
               pagination :=
                 { total := (store.filter
                     (matchesQuery (env.now - q.hours.getD 24 * 60 * 60 * 1000) q.deviceId)).length
                   page := q.page.getD 1
                   pages := JsNum.fin
                     ((⌈(((store.filter (matchesQuery (env.now - q.hours.getD 24 * 60 * 60 * 1000)
                       q.deviceId)).length : ℕ) : ℚ) / ((q.limit.getD 100 : ℤ) : ℚ)⌉ : ℤ) : ℚ) } } },
         store) ∧
      (data = [] ↔
        ((store.filter (matchesQuery (env.now - q.hours.getD 24 * 60 * 60 * 1000)
            q.deviceId)).length : ℤ) ≤ (q.page.getD 1 - 1) * q.limit.getD 100) := by
  refine ⟨_, getHistory_eq config env q store hpage hlimit, ?_⟩
  have hlen := (sortByTimestampDesc_perm (store.filter
    (matchesQuery (env.now - q.hours.getD 24 * 60 * 60 * 1000) q.deviceId))).length_eq
  set limit := q.limit.getD 100 with hl
  set page := q.page.getD 1 with hp
  have h0 : 0 ≤ (page - 1) * limit := mul_nonneg (by omega) (by omega)
  have hl0 : limit.natAbs ≠ 0 := by omega
  rw [List.take_eq_nil_iff, List.drop_eq_nil_iff]
  constructor
  · rintro (h | h)
    · exact absurd h hl0
    · omega
  · intro h
    right
    omega

/-- Witness of C25: with fifteen matching readings and limit 10, page 3
starts at 20, beyond the total, and is answered 200 with no data and
`{total: 15, page: 3, pages: 2}`. -/
theorem getHistory_past_the_end_witness :
    (1 : ℤ) ≤ (some (3 : ℤ)).getD 1 ∧ (1 : ℤ) ≤ (some (10 : ℤ)).getD 100 ∧
    (∃ data : List Reading,
      getHistory (loadConfig none none) sampleEnv
          { hours := some 24, limit := some 10, page := some 3 } fifteenReadings =
        ({ status := 200
           body := .data
             { data := data
               pagination :=
                 { total := (fifteenReadings.filter
                     (matchesQuery (sampleEnv.now - (some (24 : ℤ)).getD 24 * 60 * 60 * 1000)
                       none)).length
                   page := (some (3 : ℤ)).getD 1
                   pages := JsNum.fin
                     ((⌈(((fifteenReadings.filter (matchesQuery
                       (sampleEnv.now - (some (24 : ℤ)).getD 24 * 60 * 60 * 1000)
                       none)).length : ℕ) : ℚ) / (((some (10 : ℤ)).getD 100 : ℤ) : ℚ)⌉ : ℤ) : ℚ) } } },
         fifteenReadings) ∧
      (data = [] ↔
        ((fifteenReadings.filter (matchesQuery
            (sampleEnv.now - (some (24 : ℤ)).getD 24 * 60 * 60 * 1000) none)).length : ℤ)
          ≤ ((some (3 : ℤ)).getD 1 - 1) * (some (10 : ℤ)).getD 100)) ∧
    (getHistory (loadConfig none none) sampleEnv
        { hours := some 24, limit := some 10, page := some 3 } fifteenReadings).1
      = { status := 200
          body := .data
            { data := [], pagination := { total := 15, page := 3, pages := JsNum.fin 2 } } } :=
  ⟨by decide, by decide,
   getHistory_past_the_end (loadConfig none none) sampleEnv
     { hours := some 24, limit := some 10, page := some 3 } fifteenReadings
     (by decide) (by decide),
   by decide!⟩

/-- Counterexample to C25 as stated: with fifteen matching readings, page 2
and limit 10, `page * limit = 20` is beyond the total of 15, and the answer
holds the five oldest readings, not an empty array. -/
theorem history_last_page_not_empty :
    (15 : ℤ) < 2 * 10 ∧
    (getHistory (loadConfig none none) sampleEnv
        { hours := some 24, limit := some 10, page := some 2 } fifteenReadings).1
      = { status := 200
          body := .data
            { data := (fifteenReadings.take 5).reverse
              pagination := { total := 15, page := 2, pages := JsNum.fin 2 } } } ∧
    (fifteenReadings.take 5).reverse ≠ [] :=
  ⟨by decide, by decide!, by decide⟩

/-! ## Theorems: device statistics -/

theorem foldl_step_fields (rs : List Reading) (g : GroupAcc) :
    (rs.foldl GroupAcc.step g)._id = g._id ∧
    (rs.foldl GroupAcc.step g).deviceName = g.deviceName ∧
    (rs.foldl GroupAcc.step g).location = g.location ∧
    (rs.foldl GroupAcc.step g).readingCount = g.readingCount + rs.length ∧
    (rs.foldl GroupAcc.step g).sumTemperature
      = g.sumTemperature + (rs.map fun r => r.temperature).sum ∧
    (rs.foldl GroupAcc.step g).sumHumidity = g.sumHumidity + (rs.map fun r => r.humidity).sum ∧
    (rs.foldl GroupAcc.step g).sumPressure = g.sumPressure + (rs.map fun r => r.pressure).sum := by
  induction rs generalizing g with
  | nil => simp
  | cons r rs ih =>
    obtain ⟨h1, h2, h3, h4, h5, h6, h7⟩ := ih (g.step r)
    simp only [List.foldl_cons, List.map_cons, List.sum_cons, List.length_cons]
    refine ⟨h1, h2, h3, ?_, ?_, ?_, ?_⟩
    · rw [h4]; simp only [GroupAcc.step]; omega
    · rw [h5]; simp only [GroupAcc.step]; ring
    · rw [h6]; simp only [GroupAcc.step]; ring
    · rw [h7]; simp only [GroupAcc.step]; ring

theorem foldl_step_min (rs : List Reading) (g : GroupAcc) :
    (rs.foldl GroupAcc.step g).minTemperature ≤ g.minTemperature ∧
    (∀ r ∈ rs, (rs.foldl GroupAcc.step g).minTemperature ≤ r.temperature) ∧
    ((rs.foldl GroupAcc.step g).minTemperature = g.minTemperature ∨
      ∃ r ∈ rs, (rs.foldl GroupAcc.step g).minTemperature = r.temperature) := by
  induction rs generalizing g with
  | nil => simp
  | cons r rs ih =>
    obtain ⟨h1, h2, h3⟩ := ih (g.step r)
    have hs : (g.step r).minTemperature = min g.minTemperature r.temperature := rfl
    rw [hs] at h1 h3
    simp only [List.foldl_cons, List.mem_cons, forall_eq_or_imp, exists_eq_or_imp]
    refine ⟨h1.trans (min_le_left _ _), ⟨h1.trans (min_le_right _ _), h2⟩, ?_⟩
    rcases h3 with h3 | h3
    · rcases min_choice g.minTemperature r.temperature with h | h
      · exact Or.inl (h3.trans h)
      · exact Or.inr (Or.inl (h3.trans h))
    · exact Or.inr (Or.inr h3)

theorem foldl_step_max (rs : List Reading) (g : GroupAcc) :
    g.maxTemperature ≤ (rs.foldl GroupAcc.step g).maxTemperature ∧
    (∀ r ∈ rs, r.temperature ≤ (rs.foldl GroupAcc.step g).maxTemperature) ∧
    ((rs.foldl GroupAcc.step g).maxTemperature = g.maxTemperature ∨
      ∃ r ∈ rs, (rs.foldl GroupAcc.step g).maxTemperature = r.temperature) := by
  induction rs generalizing g with
  | nil => simp
  | cons r rs ih =>
    obtain ⟨h1, h2, h3⟩ := ih (g.step r)
    have hs : (g.step r).maxTemperature = max g.maxTemperature r.temperature := rfl
    rw [hs] at h1 h3
    simp only [List.foldl_cons, List.mem_cons, forall_eq_or_imp, exists_eq_or_imp]
    refine ⟨(le_max_left _ _).trans h1, ⟨(le_max_right _ _).trans h1, h2⟩, ?_⟩
    rcases h3 with h3 | h3
    · rcases max_choice g.maxTemperature r.temperature with h | h
      · exact Or.inl (h3.trans h)
      · exact Or.inr (Or.inl (h3.trans h))
    · exact Or.inr (Or.inr h3)

theorem foldl_step_last (rs : List Reading) (g : GroupAcc) :
    g.lastReading ≤ (rs.foldl GroupAcc.step g).lastReading ∧
    (∀ r ∈ rs, r.timestamp ≤ (rs.foldl GroupAcc.step g).lastReading) ∧
    ((rs.foldl GroupAcc.step g).lastReading = g.lastReading ∨
      ∃ r ∈ rs, (rs.foldl GroupAcc.step g).lastReading = r.timestamp) := by
  induction rs generalizing g with
  | nil => simp
  | cons r rs ih =>
    obtain ⟨h1, h2, h3⟩ := ih (g.step r)
    have hs : (g.step r).lastReading = max g.lastReading r.timestamp := rfl
    rw [hs] at h1 h3
    simp only [List.foldl_cons, List.mem_cons, forall_eq_or_imp, exists_eq_or_imp]
    refine ⟨(le_max_left _ _).trans h1, ⟨(le_max_right _ _).trans h1, h2⟩, ?_⟩
    rcases h3 with h3 | h3
    · rcases max_choice g.lastReading r.timestamp with h | h
      · exact Or.inl (h3.trans h)
      · exact Or.inr (Or.inl (h3.trans h))
    · exact Or.inr (Or.inr h3)

/-- What the accumulators of a group hold after its documents `r :: rs`. -/
theorem ofDocs_spec (r : Reading) (rs : List Reading) :
    (GroupAcc.ofDocs r rs)._id = r.device.id ∧
    (GroupAcc.ofDocs r rs).deviceName = r.device.name ∧
    (GroupAcc.ofDocs r rs).location = r.device.location ∧
    (GroupAcc.ofDocs r rs).readingCount = (r :: rs).length ∧
    (GroupAcc.ofDocs r rs).sumTemperature = ((r :: rs).map fun x => x.temperature).sum ∧
    (GroupAcc.ofDocs r rs).sumHumidity = ((r :: rs).map fun x => x.humidity).sum ∧
    (GroupAcc.ofDocs r rs).sumPressure = ((r :: rs).map fun x => x.pressure).sum ∧
    ((∃ x ∈ r :: rs, (GroupAcc.ofDocs r rs).minTemperature = x.temperature) ∧
      ∀ x ∈ r :: rs, (GroupAcc.ofDocs r rs).minTemperature ≤ x.temperature) ∧
    ((∃ x ∈ r :: rs, (GroupAcc.ofDocs r rs).maxTemperature = x.temperature) ∧
      ∀ x ∈ r :: rs, x.temperature ≤ (GroupAcc.ofDocs r rs).maxTemperature) ∧
    ((∃ x ∈ r :: rs, (GroupAcc.ofDocs r rs).lastReading = x.timestamp) ∧
      ∀ x ∈ r :: rs, x.timestamp ≤ (GroupAcc.ofDocs r rs).lastReading) := by
  obtain ⟨h1, h2, h3, h4, h5, h6, h7⟩ := foldl_step_fields rs (GroupAcc.init r)
  obtain ⟨a1, a2, a3⟩ := foldl_step_min rs (GroupAcc.init r)
  obtain ⟨b1, b2, b3⟩ := foldl_step_max rs (GroupAcc.init r)
  obtain ⟨c1, c2, c3⟩ := foldl_step_last rs (GroupAcc.init r)
  simp only [GroupAcc.ofDocs, List.mem_cons, forall_eq_or_imp, exists_eq_or_imp, List.map_cons,
    List.sum_cons, List.length_cons]
  refine ⟨h1, h2, h3, ?_, h5, h6, h7, ⟨a3, a1, a2⟩, ⟨b3, b1, b2⟩, ⟨c3, c1, c2⟩⟩
  rw [h4]; simp only [GroupAcc.init]; omega

theorem readingsOf_concat (k : String) (docs : List Reading) (r : Reading) :
    readingsOf k (docs ++ [r]) = readingsOf k docs ++ (if r.device.id = k then [r] else []) := by
  unfold readingsOf
  rw [List.filter_append]
  by_cases h : r.device.id = k <;> simp [List.filter_cons, h]

theorem map_update_of_absent (G : List GroupAcc) (k : String) (r : Reading)
    (h : ∀ g ∈ G, g._id ≠ k) :
    G.map (fun g => if g._id = k then g.step r else g) = G := by
  induction G with
  | nil => rfl
  | cons g G ih =>
    rw [List.map_cons, if_neg (h g (List.mem_cons_self _ _)),
      ih fun x hx => h x (List.mem_cons_of_mem _ hx)]

theorem sum_count_update (G : List GroupAcc) (k : String) (r : Reading)
    (hnd : (G.map fun g => g._id).Nodup) (hk : ∃ g ∈ G, g._id = k) :
    ((G.map fun g => if g._id = k then g.step r else g).map fun g => g.readingCount).sum
      = (G.map fun g => g.readingCount).sum + 1 := by
  induction G with
  | nil => simp at hk
  | cons g G ih =>
    rw [List.map_cons, List.nodup_cons] at hnd
    by_cases hg : g._id = k
    · have habs : ∀ x ∈ G, x._id ≠ k := by
        intro x hx hxk
        exact hnd.1 (List.mem_map.2 ⟨x, hx, hxk.trans hg.symm⟩)
      rw [List.map_cons, if_pos hg, map_update_of_absent G k r habs]
      simp only [List.map_cons, List.sum_cons, GroupAcc.step]
      omega
    · obtain ⟨x, hx, hxk⟩ := hk
      have hxG : x ∈ G := by
        rcases List.mem_cons.1 hx with rfl | h
        · exact absurd hxk hg
        · exact h
      have := ih hnd.2 ⟨x, hxG, hxk⟩
      rw [List.map_cons, if_neg hg]
      simp only [List.map_cons, List.sum_cons, this]
      omega

theorem groupStep_invariant (G : List GroupAcc) (docs : List Reading) (r : Reading)
    (h : GroupsOf G docs) : GroupsOf (groupStep G r) (docs ++ [r]) := by
  obtain ⟨hnd, hent, hcov, hsum⟩ := h
  unfold groupStep
  by_cases hany : G.any (fun g => decide (g._id = r.device.id)) = true
  · rw [if_pos hany]
    have hex : ∃ g ∈ G, g._id = r.device.id := by
      obtain ⟨g, hg, hd⟩ := List.any_eq_true.1 hany
      exact ⟨g, hg, of_decide_eq_true hd⟩
    have hid : ∀ g : GroupAcc, (if g._id = r.device.id then g.step r else g)._id = g._id := by
      intro g
      split_ifs <;> rfl
    have hids : ((G.map fun g => if g._id = r.device.id then g.step r else g).map
        fun g => g._id) = G.map fun g => g._id := by
      rw [List.map_map]
      exact List.map_congr_left fun g _ => hid g
    refine ⟨by rw [hids]; exact hnd, ?_, ?_, ?_⟩
    · intro g' hg'
      obtain ⟨g, hg, rfl⟩ := List.mem_map.1 hg'
      obtain ⟨r0, rs, hr, hg0⟩ := hent g hg
      rw [hid g, readingsOf_concat, hr]
      by_cases hk : g._id = r.device.id
      · rw [if_pos hk, if_pos hk.symm]
        refine ⟨r0, rs ++ [r], rfl, ?_⟩
        rw [GroupAcc.ofDocs, List.foldl_append, ← GroupAcc.ofDocs, ← hg0]
        rfl
      · rw [if_neg hk, if_neg (Ne.symm hk)]
        exact ⟨r0, rs, by simp, hg0⟩
    · intro x hx
      rcases List.mem_append.1 hx with hx | hx
      · obtain ⟨g, hg, hgx⟩ := hcov x hx
        exact ⟨_, List.mem_map.2 ⟨g, hg, rfl⟩, (hid g).trans hgx⟩
      · rw [List.mem_singleton] at hx
        subst hx
        obtain ⟨g, hg, hgx⟩ := hex
        exact ⟨_, List.mem_map.2 ⟨g, hg, rfl⟩, (hid g).trans hgx⟩
    · rw [sum_count_update G _ r hnd hex, hsum]
      simp
  · rw [if_neg hany]
    have habs : ∀ g ∈ G, g._id ≠ r.device.id := by
      intro g hg hk
      exact hany (List.any_eq_true.2 ⟨g, hg, decide_eq_true hk⟩)
    have hnone : readingsOf r.device.id docs = [] := by
      unfold readingsOf
      rw [List.filter_eq_nil_iff]
      intro x hx hxk
      obtain ⟨g, hg, hgx⟩ := hcov x hx
      exact habs g hg (hgx.trans (of_decide_eq_true hxk))
    refine ⟨?_, ?_, ?_, ?_⟩
    · rw [List.map_append, List.map_singleton]
      refine List.Nodup.append hnd (List.nodup_singleton _) ?_
      rw [List.disjoint_singleton]
      intro hmem
      obtain ⟨g, hg, hk⟩ := List.mem_map.1 hmem
      exact habs g hg hk
    · intro g hg
      rcases List.mem_append.1 hg with hg | hg
      · obtain ⟨r0, rs, hr, hg0⟩ := hent g hg
        rw [readingsOf_concat, hr, if_neg (Ne.symm (habs g hg))]
        exact ⟨r0, rs, by simp, hg0⟩
      · rw [List.mem_singleton] at hg
        subst hg
        refine ⟨r, [], ?_, rfl⟩
        show readingsOf r.device.id (docs ++ [r]) = [r]
        rw [readingsOf_concat, hnone, if_pos rfl]
        rfl
    · intro x hx
      rcases List.mem_append.1 hx with hx | hx
      · obtain ⟨g, hg, hgx⟩ := hcov x hx
        exact ⟨g, List.mem_append_left _ hg, hgx⟩
      · rw [List.mem_singleton] at hx
        subst hx
        exact ⟨_, List.mem_append_right _ (List.mem_singleton_self _), rfl⟩
    · rw [List.map_append, List.sum_append, hsum]
      simp [GroupAcc.init]

/-- The `$group` stage yields one group per device of the documents. -/
theorem groups_invariant (docs : List Reading) : GroupsOf (docs.foldl groupStep []) docs := by
  induction docs using List.reverseRecOn with
  | nil => exact ⟨List.nodup_nil, by simp, by simp, rfl⟩
  | append_singleton docs r ih =>
    rw [List.foldl_append]
    exact groupStep_invariant _ docs r ih

theorem mean_between (l : List ℚ) (lo hi : ℚ) (hn : l ≠ [])
    (hlo : ∀ x ∈ l, lo ≤ x) (hhi : ∀ x ∈ l, x ≤ hi) :
    lo ≤ l.sum / l.length ∧ l.sum / l.length ≤ hi := by
  have hpos : (0 : ℚ) < l.length := by
    have : 0 < l.length := List.length_pos.2 hn
    exact_mod_cast this
  have h1 := List.card_nsmul_le_sum l lo hlo
  have h2 := List.sum_le_card_nsmul l hi hhi
  rw [nsmul_eq_mul] at h1 h2
  constructor
  · rw [le_div_iff₀ hpos]; linarith
  · rw [div_le_iff₀ hpos]; linarith

theorem result_of_group (g : GroupAcc) (docs : List Reading) (r : Reading) (rs : List Reading)
    (hr : readingsOf g._id docs = r :: rs) (hg : g = GroupAcc.ofDocs r rs) :
    IsAggregateOf g.result (readingsOf g.result._id docs) ∧
    g.result.minTemperature ≤ g.result.avgTemperature ∧
    g.result.avgTemperature ≤ g.result.maxTemperature := by
  obtain ⟨-, h2, h3, h4, h5, h6, h7, h8, h9, h10⟩ := ofDocs_spec r rs
  rw [← hg] at h2 h3 h4 h5 h6 h7 h8 h9 h10
  have hid : g.result._id = g._id := rfl
  rw [hid, hr]
  have hagg : IsAggregateOf g.result (r :: rs) := by
    refine ⟨h4, ?_, h8, h9, ?_, ?_, h10, r, rfl, h2, h3⟩
    · show g.sumTemperature / g.readingCount = _
      rw [h5, h4]
    · show g.sumHumidity / g.readingCount = _
      rw [h6, h4]
    · show g.sumPressure / g.readingCount = _
      rw [h7, h4]
  refine ⟨hagg, ?_⟩
  have hb := mean_between ((r :: rs).map fun x => x.temperature) g.minTemperature g.maxTemperature
    (by simp)
    (fun x hx => by
      obtain ⟨y, hy, rfl⟩ := List.mem_map.1 hx
      exact h8.2 y hy)
    (fun x hx => by
      obtain ⟨y, hy, rfl⟩ := List.mem_map.1 hx
      exact h9.2 y hy)
  rw [List.length_map] at hb
  rw [hagg.2.1]
  exact hb

/-- C22: `GET /api/stats` answers 200 with one aggregate per distinct
`device.id` among the readings with `timestamp >= now - days` (of device
`deviceId` when one is given): no two aggregates share an id and the ids are
those of the matching readings. Each aggregate holds, for the matching
readings of its device, their number, the mean, the minimum and the maximum
of their temperatures, with `min <= avg <= max`, the means of their
humidities and pressures, their greatest timestamp, and the name and
location of the first of them; the counts add up to the number of matching
readings, and the array is empty exactly when no reading matches. -/
theorem getStats_aggregates (env : Env) (q : StatsQuery) (store : Store) :
    ∃ stats : List DeviceStats,
      getStats env q store = ({ status := 200, body := .data stats }, store) ∧
      (∀ r, matchesQuery (env.now - q.days.getD 7 * 24 * 60 * 60 * 1000) q.deviceId r = true ↔
        env.now - q.days.getD 7 * 24 * 60 * 60 * 1000 ≤ r.timestamp ∧
          ∀ d, q.deviceId = some d → d ≠ "" → r.device.id = d) ∧
      (stats.map fun s => s._id).Nodup ∧
      (∀ k, k ∈ (stats.map fun s => s._id) ↔
        ∃ r ∈ store.filter
            (matchesQuery (env.now - q.days.getD 7 * 24 * 60 * 60 * 1000) q.deviceId),
          r.device.id = k) ∧
      (stats.map fun s => s.readingCount).sum
        = (store.filter
            (matchesQuery (env.now - q.days.getD 7 * 24 * 60 * 60 * 1000) q.deviceId)).length ∧
      (stats = [] ↔
        store.filter (matchesQuery (env.now - q.days.getD 7 * 24 * 60 * 60 * 1000) q.deviceId)
          = []) ∧
      ∀ s ∈ stats,
        IsAggregateOf s (readingsOf s._id (store.filter
          (matchesQuery (env.now - q.days.getD 7 * 24 * 60 * 60 * 1000) q.deviceId))) ∧
        s.minTemperature ≤ s.avgTemperature ∧ s.avgTemperature ≤ s.maxTemperature := by
  set matched := store.filter
    (matchesQuery (env.now - q.days.getD 7 * 24 * 60 * 60 * 1000) q.deviceId) with hm
  obtain ⟨hnd, hent, hcov, hsum⟩ := groups_invariant matched
  have hids : ((matched.foldl groupStep []).map GroupAcc.result).map (fun s => s._id)
      = (matched.foldl groupStep []).map fun g => g._id := by
    rw [List.map_map]
    rfl
  have hcounts : ((matched.foldl groupStep []).map GroupAcc.result).map (fun s => s.readingCount)
      = (matched.foldl groupStep []).map fun g => g.readingCount := by
    rw [List.map_map]
    rfl
  refine ⟨(matched.foldl groupStep []).map GroupAcc.result, rfl,
    fun r => matchesQuery_iff _ _ r, by rw [hids]; exact hnd, ?_, by rw [hcounts]; exact hsum,
    ?_, ?_⟩
  · intro k
    rw [hids]
    constructor
    · intro hk
      obtain ⟨g, hg, rfl⟩ := List.mem_map.1 hk
      obtain ⟨r, rs, hr, -⟩ := hent g hg
      have hmem : r ∈ readingsOf g._id matched := by rw [hr]; exact List.mem_cons_self _ _
      rw [readingsOf, List.mem_filter] at hmem
      exact ⟨r, hmem.1, of_decide_eq_true hmem.2⟩
    · rintro ⟨r, hr, rfl⟩
      obtain ⟨g, hg, hgr⟩ := hcov r hr
      exact List.mem_map.2 ⟨g, hg, hgr⟩
  · constructor
    · intro h
      by_contra hne
      obtain ⟨r, hr⟩ := List.exists_mem_of_ne_nil _ hne
      obtain ⟨g, hg, -⟩ := hcov r hr
      rw [List.map_eq_nil_iff] at h
      rw [h] at hg
      simp at hg
    · intro h
      rw [h]
      rfl
  · intro s hs
    obtain ⟨g, hg, rfl⟩ := List.mem_map.1 hs
    obtain ⟨r, rs, hr, hg0⟩ := hent g hg
    exact result_of_group g matched r rs hr hg0

/-- Witness of C22: on the readings of `pi-1` (temperatures 20 and 22, times
1000 and 3000) and of `pi-2` (temperature 30, time 4000) the answer holds
the aggregate of each device. -/
theorem getStats_aggregates_witness :
    (getStats sampleEnv {} twoDevices).1
      = { status := 200
          body := .data
            [{ _id := "pi-1", deviceName := "Raspberry Pi SenseHat", location := "Unknown"
               avgTemperature := 21, minTemperature := 20, maxTemperature := 22
               avgHumidity := 45, avgPressure := 1013, readingCount := 2, lastReading := 3000 },
             { _id := "pi-2", deviceName := "Raspberry Pi SenseHat", location := "Unknown"
               avgTemperature := 30, minTemperature := 30, maxTemperature := 30
               avgHumidity := 45, avgPressure := 1013, readingCount := 1, lastReading := 4000 }] } ∧
    (getStats sampleEnv { deviceId := some "pi-3" } twoDevices).1
      = { status := 200, body := .data [] } ∧
    ∃ stats : List DeviceStats,
      getStats sampleEnv {} twoDevices = ({ status := 200, body := .data stats }, twoDevices) ∧
      (stats.map fun s => s.readingCount).sum = 3 := by
  obtain ⟨stats, h, -, -, -, hsum, -⟩ := getStats_aggregates sampleEnv {} twoDevices
  exact ⟨by decide!, by decide!, stats, h, hsum.trans (by decide!)⟩

/-! ## Theorems: range of the correlation -/

theorem covSum_sq_le (a b : List ℚ) (hab : a.length = b.length) :
    covSum a b ^ 2 ≤ covSum a a * covSum b b := by
  have h := Finset.sum_mul_sq_le_sq_mul_sq (Finset.range a.length)
    (fun i => a.getD i 0 - meanOf a) (fun i => b.getD i 0 - meanOf b)
  have hb : covSum b b = ∑ i ∈ Finset.range a.length, (b.getD i 0 - meanOf b) ^ 2 := by
    unfold covSum
    rw [hab]
    exact Finset.sum_congr rfl fun i _ => by ring
  have ha : covSum a a = ∑ i ∈ Finset.range a.length, (a.getD i 0 - meanOf a) ^ 2 := by
    unfold covSum
    exact Finset.sum_congr rfl fun i _ => by ring
  rw [ha, hb]
  exact h

theorem pearson_abs_le_one (a b : List ℚ) (hab : a.length = b.length) (r : ℝ)
    (h : IsPearson a b r) : |r| ≤ 1 := by
  by_cases hc : IsConstant a ∨ IsConstant b
  · rw [h.1 hc]
    simp
  · push_neg at hc
    rw [h.2 hc.1 hc.2]
    have ha := covSum_self_pos a hc.1
    have hb := covSum_self_pos b hc.2
    have hpos : (0 : ℝ) < (covSum a a : ℝ) * (covSum b b : ℝ) := by
      have : (0 : ℚ) < covSum a a * covSum b b := mul_pos ha hb
      exact_mod_cast this
    have hcs : (covSum a b : ℝ) ^ 2 ≤ (covSum a a : ℝ) * (covSum b b : ℝ) := by
      exact_mod_cast covSum_sq_le a b hab
    rw [abs_div, abs_of_pos (Real.sqrt_pos.2 hpos), div_le_one (Real.sqrt_pos.2 hpos)]
    exact Real.abs_le_sqrt hcs

theorem rounded_unit_range (t : ℝ) (h0 : 0 ≤ t) (h1 : t ≤ 1) :
    (0 : ℚ) ≤ ((⌊t * 10 ^ 2 + 1 / 2⌋ : ℤ) : ℚ) / 10 ^ 2 ∧
    ((⌊t * 10 ^ 2 + 1 / 2⌋ : ℤ) : ℚ) / 10 ^ 2 ≤ 1 := by
  have hf0 : (0 : ℤ) ≤ ⌊t * 10 ^ 2 + 1 / 2⌋ := Int.floor_nonneg.2 (by positivity)
  have hf1 : ⌊t * 10 ^ 2 + 1 / 2⌋ ≤ (100 : ℤ) := by
    have : ⌊t * 10 ^ 2 + 1 / 2⌋ < (100 : ℤ) + 1 := by
      rw [Int.floor_lt]
      push_cast
      nlinarith
    omega
  have g0 : (0 : ℚ) ≤ ((⌊t * 10 ^ 2 + 1 / 2⌋ : ℤ) : ℚ) := by exact_mod_cast hf0
  have g1 : ((⌊t * 10 ^ 2 + 1 / 2⌋ : ℤ) : ℚ) ≤ 100 := by exact_mod_cast hf1
  constructor
  · positivity
  · rw [div_le_one (by norm_num)]
    exact le_trans g1 (by norm_num)

/-! ## Theorems: anomalies on five readings -/

theorem sum_deviation_eq_zero (l : List ℚ) :
    ∑ i ∈ Finset.range l.length, (l.getD i 0 - meanOf l) = 0 := by
  by_cases hn : l.length = 0
  · simp [hn]
  · have h0 : (l.length : ℚ) ≠ 0 := by exact_mod_cast hn
    rw [Finset.sum_sub_distrib]
    simp only [Finset.sum_const, Finset.card_range, nsmul_eq_mul, meanOf]
    field_simp

theorem covSum_self_eq_sum_sq (l : List ℚ) :
    covSum l l = ∑ i ∈ Finset.range l.length, (l.getD i 0 - meanOf l) ^ 2 :=
  Finset.sum_congr rfl fun i _ => by ring

/-- Samuelson's inequality in squared form: a point lies within
`sqrt(n - 1)` population standard deviations of the mean. -/
theorem sq_deviation_le (l : List ℚ) (i : ℕ) (hi : i < l.length) :
    (l.getD i 0 - meanOf l) ^ 2 ≤ ((l.length : ℚ) - 1) * variance l := by
  have hmem : i ∈ Finset.range l.length := Finset.mem_range.2 hi
  have hn : (0 : ℚ) < l.length := by exact_mod_cast (Nat.zero_lt_of_lt hi)
  have hsum := Finset.add_sum_erase (Finset.range l.length)
    (fun j => l.getD j 0 - meanOf l) hmem
  rw [sum_deviation_eq_zero] at hsum
  have hsq := Finset.add_sum_erase (Finset.range l.length)
    (fun j => (l.getD j 0 - meanOf l) ^ 2) hmem
  rw [← covSum_self_eq_sum_sq] at hsq
  have hcs := sq_sum_le_card_mul_sum_sq (s := (Finset.range l.length).erase i)
    (f := fun j => l.getD j 0 - meanOf l)
  rw [Finset.card_erase_of_mem hmem, Finset.card_range] at hcs
  have hcard : (((l.length - 1 : ℕ) : ℚ)) = (l.length : ℚ) - 1 := by
    rw [Nat.cast_sub (Nat.one_le_of_lt hi)]
    simp
  rw [hcard] at hcs
  simp only at hsum hsq hcs
  have hrest : ∑ j ∈ (Finset.range l.length).erase i, (l.getD j 0 - meanOf l)
      = -(l.getD i 0 - meanOf l) := by linarith
  rw [hrest] at hcs
  unfold variance
  rw [mul_div_assoc', le_div_iff₀ hn]
  nlinarith

theorem latest_sq_deviation_le (l : List ℚ) (hn : l.length ≠ 0) :
    (latestOf l - meanOf l) ^ 2 ≤ ((l.length : ℚ) - 1) * variance l :=
  sq_deviation_le l (l.length - 1) (by omega)

theorem temperature_entry_test (data : List DataPoint) (hn : 5 ≤ data.length) (x : Anomaly)
    (hx : x ∈ detectAnomalies (some data)) (ht : x.type = "temperature") :
    JsSqrt.doubleLt { radicand := JsNum.fin (variance (data.map fun d => d.temperature)) }
      (JsNum.fin |latestOf (data.map fun d => d.temperature)
        - meanOf (data.map fun d => d.temperature)|) = true := by
  rw [detectAnomalies_eq data hn] at hx
  rcases List.mem_append.1 hx with hx | hx
  · rcases List.mem_append.1 hx with hx | hx
    · exact (mem_ite_singleton.1 hx).1
    · obtain ⟨-, rfl⟩ := mem_ite_singleton.1 hx
      have : ("pressure" : String) = "temperature" := ht
      exact absurd this (by decide)
  · by_cases h95 : 95 < latestOf (data.map fun d => d.humidity)
    · rw [if_pos h95, List.mem_singleton] at hx
      subst hx
      have : ("humidity" : String) = "temperature" := ht
      exact absurd this (by decide)
    · rw [if_neg h95] at hx
      obtain ⟨-, rfl⟩ := mem_ite_singleton.1 hx
      have : ("humidity" : String) = "temperature" := ht
      exact absurd this (by decide)

/-! ## Theorems: agreement of the trend functions -/

/-- The two variations the regression loop computes on a non-constant
series: the total is positive and the explained one lies between 0 and the
total. -/
theorem variation_bounds (values : List ℚ) (hn : 2 ≤ values.length) (hnc : ¬ IsConstant values) :
    ∃ t e : ℚ,
      variations values (regressionSums values)
          (regressionSlope values.length (regressionSums values))
          (JsNum.div (JsNum.fin (regressionSums values).sumY) (JsNum.fin values.length))
        = (JsNum.fin t, JsNum.fin e) ∧
      0 < t ∧ 0 ≤ e ∧ e ≤ t := by
  have hn0 : (values.length : ℚ) ≠ 0 := by
    have : (2 : ℚ) ≤ values.length := by exact_mod_cast hn
    linarith
  have havg : JsNum.div (JsNum.fin (regressionSums values).sumY) (JsNum.fin values.length)
      = JsNum.fin (meanOf values) := by
    rw [regressionSums_eq]
    simp only [JsNum.div, if_neg hn0, meanOf]
  rw [regressionSlope_eq values hn, havg, variations_fin values _ _ _ (by omega)]
  refine ⟨_, _, rfl, ?_, Finset.sum_nonneg fun i _ => sq_nonneg _, ?_⟩
  · rw [← covSum_self_eq_sum_sq]
    exact covSum_self_pos values hnc
  · rw [regressionSums_eq]
    simp only
    set meanI : ℚ := (∑ i ∈ Finset.range values.length, (i : ℚ)) / values.length with hI
    have hpred : ∀ i : ℕ,
        olsSlope values * i
          + (∑ i ∈ Finset.range values.length, values.getD i 0
              - olsSlope values * ∑ i ∈ Finset.range values.length, (i : ℚ)) / values.length
          - meanOf values
        = olsSlope values * ((i : ℚ) - meanI) := by
      intro i
      rw [hI, meanOf]
      field_simp
      ring
    rw [Finset.sum_congr rfl fun i _ => by rw [hpred i, mul_pow]]
    rw [← Finset.mul_sum]
    have hcs := Finset.sum_mul_sq_le_sq_mul_sq (Finset.range values.length)
      (fun i => (i : ℚ) - meanI) (fun i => values.getD i 0 - meanOf values)
    have hslope : olsSlope values
        = (∑ i ∈ Finset.range values.length, ((i : ℚ) - meanI) * (values.getD i 0 - meanOf values))
          / ∑ i ∈ Finset.range values.length, ((i : ℚ) - meanI) ^ 2 := rfl
    have hxx : 0 ≤ ∑ i ∈ Finset.range values.length, ((i : ℚ) - meanI) ^ 2 :=
      Finset.sum_nonneg fun i _ => sq_nonneg _
    rcases hxx.lt_or_eq with hpos | hzero
    · rw [hslope, div_pow, div_mul_eq_mul_div, div_le_iff₀ (by positivity)]
      calc _ = (∑ i ∈ Finset.range values.length,
                ((i : ℚ) - meanI) * (values.getD i 0 - meanOf values)) ^ 2
              * ∑ i ∈ Finset.range values.length, ((i : ℚ) - meanI) ^ 2 := by ring
        _ ≤ ((∑ i ∈ Finset.range values.length, ((i : ℚ) - meanI) ^ 2)
              * ∑ i ∈ Finset.range values.length, (values.getD i 0 - meanOf values) ^ 2)
              * ∑ i ∈ Finset.range values.length, ((i : ℚ) - meanI) ^ 2 :=
            mul_le_mul_of_nonneg_right hcs hxx
        _ = _ := by ring
    · rw [← hzero, mul_zero]
      exact Finset.sum_nonneg fun i _ => sq_nonneg _

theorem toFixed_zero_unit (r : ℚ) (h0 : 0 ≤ r) (h1 : r ≤ 1) :
    ∃ k : ℕ, k ≤ 100 ∧ JsNum.toFixed 0 (JsNum.fin (r * 100)) = JsNum.fin k := by
  rcases toFixed_zero_range (r * 100) (by positivity) (by linarith) with h | h
  · exfalso
    simp only [JsNum.toFixed] at h
    split_ifs at h
  · exact h

/-! ## Theorems: monotone series and pairing -/

/-- C29: for a strictly increasing series of at least 2 values the slope
computed by `analyzeTempTrend` and by `analyzeTrend` is a positive number
and the trend reported is not `falling`; for a strictly decreasing series
the slope is a negative number and the trend reported is not `rising`. -/
theorem monotone_series_slope_sign (data : List DataPoint) (values : List ℚ)
    (hd : 2 ≤ data.length) (hv : 2 ≤ values.length) :
    ((data.map fun d => d.temperature).Sorted (· < ·) →
      (∃ m : ℚ, 0 < m ∧ (analyzeTempTrend (some data)).slope = some (JsNum.fin m)) ∧
      (analyzeTempTrend (some data)).trend ≠ "falling") ∧
    ((data.map fun d => d.temperature).Sorted (· > ·) →
      (∃ m : ℚ, m < 0 ∧ (analyzeTempTrend (some data)).slope = some (JsNum.fin m)) ∧
      (analyzeTempTrend (some data)).trend ≠ "rising") ∧
    (values.Sorted (· < ·) →
      (∃ m : ℚ, 0 < m ∧ (analyzeTrend values).slope = JsNum.fin m) ∧
      (analyzeTrend values).trend ≠ "falling") ∧
    (values.Sorted (· > ·) →
      (∃ m : ℚ, m < 0 ∧ (analyzeTrend values).slope = JsNum.fin m) ∧
      (analyzeTrend values).trend ≠ "rising") := by
  have hl : 2 ≤ (data.map fun d => d.temperature).length := by simpa using hd
  obtain ⟨hr, hf, -⟩ := direction_iff _ _ (by norm_num : (0 : ℚ) < 1 / 10) _
    (analyzeTempTrend_trend data hd)
  obtain ⟨hr2, hf2, -⟩ := direction_iff _ _ (by norm_num : (0 : ℚ) < 1 / 20) _
    (analyzeTrend_trend values hv)
  refine ⟨fun h => ?_, fun h => ?_, fun h => ?_, fun h => ?_⟩
  · have hpos := olsSlope_pos_of_increasing _ hl h
    refine ⟨⟨_, hpos, analyzeTempTrend_slope data hd⟩, ?_⟩
    rw [Ne, hf]; linarith
  · have hneg := olsSlope_neg_of_decreasing _ hl h
    refine ⟨⟨_, hneg, analyzeTempTrend_slope data hd⟩, ?_⟩
    rw [Ne, hr]; linarith
  · have hpos := olsSlope_pos_of_increasing _ hv h
    refine ⟨⟨_, hpos, analyzeTrend_slope values hv⟩, ?_⟩
    rw [Ne, hf2]; linarith
  · have hneg := olsSlope_neg_of_decreasing _ hv h
    refine ⟨⟨_, hneg, analyzeTrend_slope values hv⟩, ?_⟩
    rw [Ne, hr2]; linarith

/-- Witness of C29: the increasing series 20, 20.05 has slope 0.05 in both
functions and is not `falling`; the decreasing series 23, 21, 20 has a
negative slope and is not `rising`. -/
theorem monotone_series_slope_sign_witness :
    2 ≤ [atTemperature 20, atTemperature (401 / 20)].length ∧ 2 ≤ [(23 : ℚ), 21, 20].length ∧
    ([atTemperature 20, atTemperature (401 / 20)].map fun d => d.temperature).Sorted (· < ·) ∧
    [(23 : ℚ), 21, 20].Sorted (· > ·) ∧
    ((∃ m : ℚ, 0 < m ∧
        (analyzeTempTrend (some [atTemperature 20, atTemperature (401 / 20)])).slope
          = some (JsNum.fin m)) ∧
      (analyzeTempTrend (some [atTemperature 20, atTemperature (401 / 20)])).trend ≠ "falling") ∧
    ((∃ m : ℚ, m < 0 ∧ (analyzeTrend [23, 21, 20]).slope = JsNum.fin m) ∧
      (analyzeTrend [23, 21, 20]).trend ≠ "rising") ∧
    (analyzeTempTrend (some [atTemperature 20, atTemperature (401 / 20)])).slope
      = some (JsNum.fin (1 / 20)) ∧
    (analyzeTrend [23, 21, 20]).slope = JsNum.fin (-(3 / 2)) :=
  ⟨by decide, by decide, by norm_num [atTemperature], by norm_num,
   (monotone_series_slope_sign [atTemperature 20, atTemperature (401 / 20)] [23, 21, 20]
     (by decide) (by decide)).1 (by norm_num [atTemperature]),
   (monotone_series_slope_sign [atTemperature 20, atTemperature (401 / 20)] [23, 21, 20]
     (by decide) (by decide)).2.2.2 (by norm_num),
   by decide!, by decide!⟩

/-- C30: for sequences of at least 2 points each, of equal lengths or not,
`matchDataPoints` pairs exactly the first `min(len1, len2)` points by index;
the two series handed to `calculateCorrelation` and to
`calculateAverageDifference` have that same length, at least 2, so neither
raises its length error, the mean difference is a quotient by that length,
and `analyzeCorrelation` returns a result. -/
theorem analyzeCorrelation_pairs (sh : List DataPoint) (ext : List ExternalPoint)
    (hs : 2 ≤ sh.length) (he : 2 ≤ ext.length) :
    (matchDataPoints sh ext).length = min sh.length ext.length ∧
    (∀ (i : ℕ) (a : DataPoint) (b : ExternalPoint),
      (matchDataPoints sh ext)[i]? = some (a, b) ↔ sh[i]? = some a ∧ ext[i]? = some b) ∧
    2 ≤ ((matchDataPoints sh ext).map fun d => d.1.temperature).length ∧
    2 ≤ ((matchDataPoints sh ext).map fun d => d.1.humidity).length ∧
    (∃ x, calculateCorrelation ((matchDataPoints sh ext).map fun d => d.1.temperature)
      ((matchDataPoints sh ext).map fun d => d.2.temperature) = .ok x) ∧
    (∃ x, calculateCorrelation ((matchDataPoints sh ext).map fun d => d.1.humidity)
      ((matchDataPoints sh ext).map fun d => d.2.humidity) = .ok x) ∧
    calculateAverageDifference ((matchDataPoints sh ext).map fun d => d.1.temperature)
        ((matchDataPoints sh ext).map fun d => d.2.temperature)
      = .ok (JsNum.fin
          ((∑ i ∈ Finset.range (min sh.length ext.length),
              |((matchDataPoints sh ext).map fun d => d.1.temperature).getD i 0
                - ((matchDataPoints sh ext).map fun d => d.2.temperature).getD i 0|)
            / ((min sh.length ext.length : ℕ) : ℚ))) ∧
    calculateAverageDifference ((matchDataPoints sh ext).map fun d => d.1.humidity)
        ((matchDataPoints sh ext).map fun d => d.2.humidity)
      = .ok (JsNum.fin
          ((∑ i ∈ Finset.range (min sh.length ext.length),
              |((matchDataPoints sh ext).map fun d => d.1.humidity).getD i 0
                - ((matchDataPoints sh ext).map fun d => d.2.humidity).getD i 0|)
            / ((min sh.length ext.length : ℕ) : ℚ))) ∧
    ∃ result, analyzeCorrelation (some sh) (some ext) = .ok result := by
  have hz := matchDataPoints_eq_zip sh ext
  have hlen : (sh.zip ext).length = min sh.length ext.length := List.length_zip _ _
  have h2 : 2 ≤ (sh.zip ext).length := by rw [hlen]; exact le_min hs he
  have h0 : (sh.zip ext).length ≠ 0 := by omega
  obtain ⟨xT, hT⟩ : ∃ x, calculateCorrelation ((sh.zip ext).map fun d => d.1.temperature)
      ((sh.zip ext).map fun d => d.2.temperature) = .ok x :=
    ⟨_, calculateCorrelation_eq _ _ (by simp)⟩
  obtain ⟨xH, hH⟩ : ∃ x, calculateCorrelation ((sh.zip ext).map fun d => d.1.humidity)
      ((sh.zip ext).map fun d => d.2.humidity) = .ok x :=
    ⟨_, calculateCorrelation_eq _ _ (by simp)⟩
  rw [hz]
  refine ⟨hlen, fun i a b => List.getElem?_zip_eq_some, by simpa using h2, by simpa using h2,
    ⟨xT, hT⟩, ⟨xH, hH⟩, ?_, ?_, ⟨_, analyzeCorrelation_eq sh ext hs he xT xH hT hH⟩⟩
  · rw [calculateAverageDifference_eq _ _ (by simp) (by simpa using h0)]
    simp only [meanAbsDiff, List.length_map, hlen]
  · rw [calculateAverageDifference_eq _ _ (by simp) (by simpa using h0)]
    simp only [meanAbsDiff, List.length_map, hlen]

/-- Witness of C30: five SenseHat points against three external points give
three pairs and a result. -/
theorem analyzeCorrelation_pairs_witness :
    2 ≤ fivePoints.length ∧ 2 ≤ externalSample.length ∧
    fivePoints.length ≠ externalSample.length ∧
    (matchDataPoints fivePoints externalSample).length = 3 ∧
    ∃ result, analyzeCorrelation (some fivePoints) (some externalSample) = .ok result :=
  ⟨by decide, by decide, by decide, by decide,
   (analyzeCorrelation_pairs fivePoints externalSample (by decide) (by decide)).2.2.2.2.2.2.2.2⟩

/-! ## Theorems: rounding to a double -/

namespace Binary64

theorem pow2_eq (e : ℤ) : pow2 e = (2 : ℚ) ^ e := by
  unfold pow2
  split_ifs with h
  · obtain ⟨n, rfl⟩ := Int.eq_ofNat_of_zero_le h
    simp
  · obtain ⟨n, hn⟩ := Int.eq_ofNat_of_zero_le (by omega : 0 ≤ -e)
    have he : e = -(n : ℤ) := by omega
    subst he
    simp

theorem pow2_pos (e : ℤ) : 0 < pow2 e := by
  rw [pow2_eq]; positivity

theorem pow2_add (a b : ℤ) : pow2 (a + b) = pow2 a * pow2 b := by
  simp only [pow2_eq]
  exact zpow_add₀ (by norm_num) a b

theorem pow2_le {a b : ℤ} (h : a ≤ b) : pow2 a ≤ pow2 b := by
  simp only [pow2_eq]
  exact zpow_le_zpow_right₀ (by norm_num) h

theorem pow2_lt {a b : ℤ} (h : a < b) : pow2 a < pow2 b := by
  simp only [pow2_eq]
  exact zpow_lt_zpow_right₀ (by norm_num) h

theorem log2Fuel_spec : ∀ (fuel n : ℕ), n ≤ fuel → n ≠ 0 →
    2 ^ log2Fuel fuel n ≤ n ∧ n < 2 ^ (log2Fuel fuel n + 1)
  | 0, n, h, h0 => absurd (Nat.le_zero.1 h) h0
  | fuel + 1, n, h, h0 => by
    unfold log2Fuel
    split_ifs with h2
    · have : n = 1 := by omega
      subst this
      simp
    · obtain ⟨a, b⟩ := log2Fuel_spec fuel (n / 2) (by omega) (by omega)
      rw [pow_succ, pow_succ, pow_succ]
      constructor <;> omega

theorem log2_spec (n : ℕ) (h0 : n ≠ 0) : 2 ^ log2 n ≤ n ∧ n < 2 ^ (log2 n + 1) :=
  log2Fuel_spec n n le_rfl h0

end Binary64

namespace Binary64

theorem exponent_spec (q : ℚ) (hq : 0 < q) :
    pow2 (exponent q) ≤ q ∧ q < pow2 (exponent q + 1) := by
  have hnum : 0 < q.num := Rat.num_pos.2 hq
  have ha0 : q.num.natAbs ≠ 0 := by omega
  have hb0 : q.den ≠ 0 := q.den_nz
  obtain ⟨a1, a2⟩ := log2_spec _ ha0
  obtain ⟨b1, b2⟩ := log2_spec _ hb0
  have hqa : q = (q.num.natAbs : ℚ) / (q.den : ℚ) := by
    have h1 : ((q.num.natAbs : ℕ) : ℚ) = (q.num : ℚ) := by
      rw [← Int.cast_natCast, Int.natAbs_of_nonneg hnum.le]
    rw [h1]
    exact (Rat.num_div_den q).symm
  set a := q.num.natAbs with ha
  set b := q.den with hb
  set la := log2 a with hla
  set lb := log2 b with hlb
  have A1 : ((2 : ℚ) ^ la) ≤ a := by exact_mod_cast a1
  have A2 : (a : ℚ) < (2 : ℚ) ^ (la + 1) := by exact_mod_cast a2
  have B1 : ((2 : ℚ) ^ lb) ≤ b := by exact_mod_cast b1
  have B2 : (b : ℚ) < (2 : ℚ) ^ (lb + 1) := by exact_mod_cast b2
  have hbpos : (0 : ℚ) < b := lt_of_lt_of_le (by positivity) B1
  have e0 : (2 : ℚ) ^ ((la : ℤ) - (lb : ℤ)) = (2 : ℚ) ^ la / (2 : ℚ) ^ lb := by
    rw [zpow_sub₀ (by norm_num), zpow_natCast, zpow_natCast]
  have em : (2 : ℚ) ^ ((la : ℤ) - (lb : ℤ) - 1) = (2 : ℚ) ^ la / (2 : ℚ) ^ (lb + 1) := by
    rw [show (la : ℤ) - (lb : ℤ) - 1 = (la : ℤ) - ((lb + 1 : ℕ) : ℤ) by push_cast; ring,
      zpow_sub₀ (by norm_num), zpow_natCast, zpow_natCast]
  have ep : (2 : ℚ) ^ ((la : ℤ) - (lb : ℤ) + 1) = (2 : ℚ) ^ (la + 1) / (2 : ℚ) ^ lb := by
    rw [show (la : ℤ) - (lb : ℤ) + 1 = ((la + 1 : ℕ) : ℤ) - (lb : ℤ) by push_cast; ring,
      zpow_sub₀ (by norm_num), zpow_natCast, zpow_natCast]
  have lower : (2 : ℚ) ^ ((la : ℤ) - (lb : ℤ) - 1) ≤ q := by
    rw [em, hqa, div_le_div_iff₀ (by positivity) hbpos]
    calc (2 : ℚ) ^ la * b ≤ a * b := mul_le_mul_of_nonneg_right A1 hbpos.le
      _ ≤ a * (2 : ℚ) ^ (lb + 1) := mul_le_mul_of_nonneg_left B2.le (by positivity)
  have upper : q < (2 : ℚ) ^ ((la : ℤ) - (lb : ℤ) + 1) := by
    rw [ep, hqa, div_lt_div_iff₀ hbpos (by positivity)]
    calc (a : ℚ) * (2 : ℚ) ^ lb ≤ a * b := mul_le_mul_of_nonneg_left B1 (by positivity)
      _ < (2 : ℚ) ^ (la + 1) * b := mul_lt_mul_of_pos_right A2 hbpos
  unfold exponent
  simp only [← ha, ← hb, ← hla, ← hlb, pow2_eq]
  split_ifs with h
  · refine ⟨lower, ?_⟩
    rw [show (la : ℤ) - (lb : ℤ) - 1 + 1 = (la : ℤ) - (lb : ℤ) by ring]
    simpa [pow2_eq] using h
  · refine ⟨?_, upper⟩
    simpa [pow2_eq] using h

theorem exponent_mono {x q : ℚ} (hx : 0 < x) (h : x ≤ q) : exponent x ≤ exponent q := by
  by_contra hc
  push_neg at hc
  have h1 := (exponent_spec q (lt_of_lt_of_le hx h)).2
  have h2 := (exponent_spec x hx).1
  have h3 : pow2 (exponent q + 1) ≤ pow2 (exponent x) := pow2_le (by omega)
  linarith

theorem exponent_lt {q : ℚ} {e : ℤ} (hq : 0 < q) (h : q < pow2 e) : exponent q < e := by
  by_contra hc
  push_neg at hc
  have h1 := (exponent_spec q hq).1
  have h2 : pow2 e ≤ pow2 (exponent q) := pow2_le hc
  linarith

theorem exponent_ge {q : ℚ} {e : ℤ} (h : pow2 e ≤ q) : e ≤ exponent q := by
  by_contra hc
  push_neg at hc
  have hq : 0 < q := lt_of_lt_of_le (pow2_pos e) h
  have h1 := (exponent_spec q hq).2
  have h2 : pow2 (exponent q + 1) ≤ pow2 e := pow2_le (by omega)
  linarith

end Binary64

namespace Binary64

theorem roundHalfEven_mem (x : ℚ) : roundHalfEven x = ⌊x⌋ ∨
    (roundHalfEven x = ⌊x⌋ + 1 ∧ 1 / 2 ≤ x - ⌊x⌋) := by
  unfold roundHalfEven
  split_ifs with h1 h2 h3
  · exact Or.inl rfl
  · exact Or.inr ⟨rfl, h2.le⟩
  · exact Or.inl rfl
  · exact Or.inr ⟨rfl, not_lt.1 h1⟩

theorem roundHalfEven_int (k : ℤ) : roundHalfEven (k : ℚ) = k := by
  unfold roundHalfEven
  simp

theorem roundHalfEven_ge {k : ℤ} {x : ℚ} (h : (k : ℚ) ≤ x) : k ≤ roundHalfEven x := by
  have hk : k ≤ ⌊x⌋ := Int.le_floor.2 h
  rcases roundHalfEven_mem x with h1 | ⟨h1, -⟩ <;> omega

theorem roundHalfEven_le {k : ℤ} {x : ℚ} (h : x ≤ (k : ℚ)) : roundHalfEven x ≤ k := by
  rcases roundHalfEven_mem x with h1 | ⟨h1, h2⟩
  · rw [h1]
    have hlt : (⌊x⌋ : ℚ) ≤ k := (Int.floor_le x).trans h
    exact_mod_cast hlt
  · rw [h1]
    have hlt : (⌊x⌋ : ℚ) < k := by linarith
    have : ⌊x⌋ < k := by exact_mod_cast hlt
    omega

theorem ulp_pos (q : ℚ) : 0 < ulp q := pow2_pos _

theorem nearest_ge_of_multiple {q : ℚ} {K : ℤ} (h : (K : ℚ) * ulp q ≤ q) :
    (K : ℚ) * ulp q ≤ nearest q := by
  unfold nearest
  have hk : (K : ℚ) ≤ q / ulp q := (le_div_iff₀ (ulp_pos q)).2 h
  have := roundHalfEven_ge hk
  exact mul_le_mul_of_nonneg_right (by exact_mod_cast this) (ulp_pos q).le

theorem nearest_le_of_multiple {q : ℚ} {K : ℤ} (h : q ≤ (K : ℚ) * ulp q) :
    nearest q ≤ (K : ℚ) * ulp q := by
  unfold nearest
  have hk : q / ulp q ≤ (K : ℚ) := (div_le_iff₀ (ulp_pos q)).2 h
  have := roundHalfEven_le hk
  exact mul_le_mul_of_nonneg_right (by exact_mod_cast this) (ulp_pos q).le

theorem nearest_eq_of_multiple {q : ℚ} {K : ℤ} (h : q = (K : ℚ) * ulp q) : nearest q = q :=
  le_antisymm ((nearest_le_of_multiple h.le).trans_eq h.symm)
    (h.le.trans (nearest_ge_of_multiple h.ge))

end Binary64

namespace Binary64

theorem pow2_nonneg_int (d : ℤ) (hd : 0 ≤ d) : pow2 d = ((2 ^ d.toNat : ℤ) : ℚ) := by
  unfold pow2
  rw [if_pos hd]
  push_cast
  rfl

theorem dyadic_multiple_of_ulp (K j : ℤ) (hK0 : 0 < K) (hK : K < 2 ^ 53) (hj : -1074 ≤ j) :
    ∃ K1 : ℤ, (K : ℚ) * pow2 j = (K1 : ℚ) * ulp ((K : ℚ) * pow2 j) := by
  have hx : (0 : ℚ) < (K : ℚ) * pow2 j := mul_pos (by exact_mod_cast hK0) (pow2_pos j)
  have hlt : (K : ℚ) * pow2 j < pow2 (53 + j) := by
    rw [pow2_add]
    have h53 : pow2 53 = (2 : ℚ) ^ 53 := by rw [pow2_eq]; norm_cast
    rw [h53]
    have : (K : ℚ) < (2 : ℚ) ^ 53 := by exact_mod_cast hK
    exact mul_lt_mul_of_pos_right this (pow2_pos j)
  have he := exponent_lt hx hlt
  have hd : 0 ≤ j - (max (exponent ((K : ℚ) * pow2 j)) (-1022) - 52) := by
    rcases max_cases (exponent ((K : ℚ) * pow2 j)) (-1022) with ⟨h, -⟩ | ⟨h, -⟩ <;> rw [h] <;> omega
  refine ⟨K * 2 ^ (j - (max (exponent ((K : ℚ) * pow2 j)) (-1022) - 52)).toNat, ?_⟩
  unfold ulp
  push_cast
  rw [mul_assoc]
  congr 1
  have := pow2_nonneg_int _ hd
  push_cast at this
  rw [← this, ← pow2_add]
  congr 1
  ring

/-- A number `K * 2^j` with `|K| < 2^53` and `-1074 ≤ j ≤ 971` is a double:
rounding leaves it as it is. -/
theorem round_dyadic (K j : ℤ) (hK : |K| < 2 ^ 53) (hj : -1074 ≤ j) (hj2 : j ≤ 971) :
    round ((K : ℚ) * pow2 j) = JsNum.fin ((K : ℚ) * pow2 j) := by
  have key : ∀ K : ℤ, 0 < K → K < 2 ^ 53 →
      nearest ((K : ℚ) * pow2 j) = (K : ℚ) * pow2 j ∧ ¬ pow2 1024 ≤ (K : ℚ) * pow2 j := by
    intro K hK0 hK
    obtain ⟨K1, h1⟩ := dyadic_multiple_of_ulp K j hK0 hK hj
    refine ⟨nearest_eq_of_multiple h1, ?_⟩
    have hlt : (K : ℚ) * pow2 j < pow2 (53 + j) := by
      rw [pow2_add]
      have h53 : pow2 53 = (2 : ℚ) ^ 53 := by rw [pow2_eq]; norm_cast
      rw [h53]
      have : (K : ℚ) < (2 : ℚ) ^ 53 := by exact_mod_cast hK
      exact mul_lt_mul_of_pos_right this (pow2_pos j)
    have : pow2 (53 + j) ≤ pow2 1024 := pow2_le (by omega)
    linarith
  rcases lt_trichotomy K 0 with hneg | rfl | hpos
  · have hq : (K : ℚ) * pow2 j < 0 := mul_neg_of_neg_of_pos (by exact_mod_cast hneg) (pow2_pos j)
    obtain ⟨h1, h2⟩ := key (-K) (by omega) (by rw [abs_of_neg hneg] at hK; exact hK)
    have hn : -((K : ℚ) * pow2 j) = ((-K : ℤ) : ℚ) * pow2 j := by push_cast; ring
    unfold round
    rw [if_neg hq.ne, if_neg (not_lt.2 hq.le), hn, h1, if_neg h2]
    congr 1
    push_cast
    ring
  · simp [round]
  · have hq : (0 : ℚ) < (K : ℚ) * pow2 j := mul_pos (by exact_mod_cast hpos) (pow2_pos j)
    obtain ⟨h1, h2⟩ := key K hpos (by rw [abs_of_pos hpos] at hK; exact hK)
    unfold round
    rw [if_neg hq.ne', if_pos hq, h1, if_neg h2]

/-- An integer of magnitude below `2^53` is a double. -/
theorem round_int (z : ℤ) (hz : |z| < 2 ^ 53) : round (z : ℚ) = JsNum.fin (z : ℚ) := by
  have := round_dyadic z 0 hz (by norm_num) (by norm_num)
  have h0 : pow2 0 = 1 := by decide!
  rwa [h0, mul_one] at this

end Binary64

namespace Binary64

/-- Rounding does not cross a double: a result at or above the double
`K * 2^j` is rounded to a number at or above it. -/
theorem round_ge (K j : ℤ) (hK0 : 0 < K) (hK : K < 2 ^ 53) (hj : -1074 ≤ j) {q : ℚ}
    (h : (K : ℚ) * pow2 j ≤ q) : JsNum.lt (round q) (JsNum.fin ((K : ℚ) * pow2 j)) = false := by
  set x := (K : ℚ) * pow2 j with hxdef
  have hx : (0 : ℚ) < x := mul_pos (by exact_mod_cast hK0) (pow2_pos j)
  have hq : 0 < q := lt_of_lt_of_le hx h
  unfold round
  rw [if_neg hq.ne', if_pos hq]
  split_ifs with hov
  · rfl
  · simp only [JsNum.lt, decide_eq_false_iff_not, not_lt]
    obtain ⟨K1, h1⟩ := dyadic_multiple_of_ulp K j hK0 hK hj
    rw [← hxdef] at h1
    have hmono := exponent_mono hx h
    rcases (max_le_max hmono (le_refl (-1022 : ℤ))).lt_or_eq with hlt | heq
    · -- the result lies in a higher binade
      have hqe : max (exponent q) (-1022) = exponent q := by
        rcases max_cases (exponent q) (-1022) with ⟨h2, -⟩ | ⟨h2, h3⟩
        · exact h2
        · rw [h2] at hlt
          have := le_max_right (exponent x) (-1022)
          omega
      have hbin : pow2 (exponent q) = ((2 ^ 52 : ℤ) : ℚ) * ulp q := by
        unfold ulp
        rw [hqe]
        have h52 : ((2 ^ 52 : ℤ) : ℚ) = pow2 52 := by rw [pow2_eq]; norm_cast
        rw [h52, ← pow2_add]
        congr 1
        ring
      have h3 : pow2 (exponent q) ≤ nearest q :=
        hbin ▸ nearest_ge_of_multiple (hbin ▸ (exponent_spec q hq).1)
      have h4 : x < pow2 (exponent x + 1) := (exponent_spec x hx).2
      have h5 : pow2 (exponent x + 1) ≤ pow2 (exponent q) := by
        apply pow2_le
        have := le_max_left (exponent x) (-1022)
        rw [hqe] at hlt
        omega
      linarith
    · have hu : ulp x = ulp q := by unfold ulp; rw [heq]
      rw [hu] at h1
      rw [h1]
      exact nearest_ge_of_multiple (h1 ▸ h)

end Binary64

namespace Binary64

theorem nearest_nonneg {q : ℚ} (hq : 0 < q) : 0 ≤ nearest q := by
  unfold nearest
  have h0 : ((0 : ℤ) : ℚ) ≤ q / ulp q := by
    simpa using (div_pos hq (ulp_pos q)).le
  have := roundHalfEven_ge h0
  exact mul_nonneg (by exact_mod_cast this) (ulp_pos q).le

theorem round_neg (q : ℚ) : round (-q) = JsNum.neg (round q) := by
  rcases lt_trichotomy q 0 with h | rfl | h
  · have h1 : 0 < -q := by linarith
    unfold round
    rw [if_neg h1.ne', if_pos h1, if_neg h.ne, if_neg (not_lt.2 h.le)]
    split_ifs <;> simp [JsNum.neg]
  · simp [round, JsNum.neg]
  · have h1 : -q < 0 := by linarith
    unfold round
    rw [if_neg h1.ne, if_neg (not_lt.2 h1.le), if_neg h.ne', if_pos h, neg_neg]
    split_ifs <;> simp [JsNum.neg]

theorem abs_round (q : ℚ) : JsNum.abs (round q) = round |q| := by
  rcases lt_trichotomy q 0 with h | rfl | h
  · have h1 : 0 < -q := by linarith
    rw [abs_of_neg h]
    unfold round
    rw [if_neg h.ne, if_neg (not_lt.2 h.le), if_neg h1.ne', if_pos h1]
    split_ifs
    · rfl
    · simp only [JsNum.abs, abs_neg, abs_of_nonneg (nearest_nonneg h1)]
  · simp [round, JsNum.abs]
  · rw [abs_of_pos h]
    unfold round
    rw [if_neg h.ne', if_pos h]
    split_ifs
    · rfl
    · simp only [JsNum.abs, abs_of_nonneg (nearest_nonneg h)]

theorem round_ne_nan (q : ℚ) : round q ≠ JsNum.nan := by
  unfold round
  split_ifs <;> simp

/-- The rounding of a non-negative result is a non-negative number or
`Infinity`. -/
theorem round_of_nonneg {q : ℚ} (hq : 0 ≤ q) :
    round q = JsNum.posInf ∨ ∃ y : ℚ, 0 ≤ y ∧ round q = JsNum.fin y := by
  rcases hq.lt_or_eq with h | h
  · unfold round
    rw [if_neg h.ne', if_pos h]
    split_ifs
    · exact Or.inl rfl
    · exact Or.inr ⟨_, nearest_nonneg h, rfl⟩
  · subst h
    exact Or.inr ⟨0, le_rfl, by simp [round]⟩

end Binary64

/-! ## Theorems: exact cases of double arithmetic -/

namespace Binary64

theorem abs_rnd (x : JsNum) : JsNum.abs (rnd x) = rnd (JsNum.abs x) := by
  cases x with
  | fin q => exact abs_round q
  | posInf => rfl
  | negInf => rfl
  | nan => rfl

theorem infOf_abs (b : Bool) : JsNum.abs (JsNum.infOf b) = JsNum.posInf := by
  cases b <;> rfl

theorem abs_infOf_or_nan (c : Prop) [Decidable c] (b : Bool) :
    JsNum.abs (if c then JsNum.nan else JsNum.infOf b)
      = if c then JsNum.nan else JsNum.posInf := by
  split_ifs
  · rfl
  · exact infOf_abs b

theorem abs_mul_exact (x y : JsNum) : JsNum.abs (x * y) = JsNum.abs x * JsNum.abs y := by
  show JsNum.abs (JsNum.mul x y) = JsNum.mul (JsNum.abs x) (JsNum.abs y)
  cases x with
  | fin a =>
    cases y with
    | fin b => simp only [JsNum.mul, JsNum.abs, abs_mul]
    | posInf =>
      simp only [JsNum.mul]
      rw [abs_infOf_or_nan]
      show _ = (if |a| = 0 then JsNum.nan else JsNum.infOf (decide (0 < |a|)))
      by_cases h : a = 0 <;> simp [h, JsNum.infOf]
    | negInf =>
      simp only [JsNum.mul]
      rw [abs_infOf_or_nan]
      show _ = (if |a| = 0 then JsNum.nan else JsNum.infOf (decide (0 < |a|)))
      by_cases h : a = 0 <;> simp [h, JsNum.infOf]
    | nan => rfl
  | posInf =>
    cases y with
    | fin b =>
      simp only [JsNum.mul]
      rw [abs_infOf_or_nan]
      show _ = (if |b| = 0 then JsNum.nan else JsNum.infOf (decide (0 < |b|)))
      by_cases h : b = 0 <;> simp [h, JsNum.infOf]
    | posInf => rfl
    | negInf => rfl
    | nan => rfl
  | negInf =>
    cases y with
    | fin b =>
      simp only [JsNum.mul]
      rw [abs_infOf_or_nan]
      show _ = (if |b| = 0 then JsNum.nan else JsNum.infOf (decide (0 < |b|)))
      by_cases h : b = 0 <;> simp [h, JsNum.infOf]
    | posInf => rfl
    | negInf => rfl
    | nan => rfl
  | nan => cases y <;> rfl

theorem abs_div_exact (x y : JsNum) : JsNum.abs (x / y) = JsNum.abs x / JsNum.abs y := by
  show JsNum.abs (JsNum.div x y) = JsNum.div (JsNum.abs x) (JsNum.abs y)
  cases x with
  | fin a =>
    cases y with
    | fin b =>
      show JsNum.abs (if b = 0 then (if a = 0 then JsNum.nan else JsNum.infOf (decide (0 < a)))
          else JsNum.fin (a / b))
        = (if |b| = 0 then (if |a| = 0 then JsNum.nan else JsNum.infOf (decide (0 < |a|)))
          else JsNum.fin (|a| / |b|))
      by_cases hb : b = 0
      · rw [if_pos hb, if_pos (abs_eq_zero.2 hb), abs_infOf_or_nan]
        by_cases ha : a = 0
        · rw [if_pos ha, if_pos (abs_eq_zero.2 ha)]
        · rw [if_neg ha, if_neg (fun h => ha (abs_eq_zero.1 h))]
          simp [JsNum.infOf, abs_pos.2 ha]
      · rw [if_neg hb, if_neg (fun h => hb (abs_eq_zero.1 h))]
        simp only [JsNum.abs, abs_div]
    | posInf => rfl
    | negInf => rfl
    | nan => rfl
  | posInf =>
    cases y with
    | fin b =>
      show JsNum.abs (JsNum.infOf (decide (0 ≤ b))) = JsNum.infOf (decide (0 ≤ |b|))
      rw [infOf_abs]
      simp [JsNum.infOf, abs_nonneg]
    | posInf => rfl
    | negInf => rfl
    | nan => rfl
  | negInf =>
    cases y with
    | fin b =>
      show JsNum.abs (JsNum.infOf (decide (b < 0))) = JsNum.infOf (decide (0 ≤ |b|))
      rw [infOf_abs]
      simp [JsNum.infOf, abs_nonneg]
    | posInf => rfl
    | negInf => rfl
    | nan => rfl
  | nan => cases y <;> rfl

theorem abs_mul_double (x y : JsNum) : JsNum.abs (mul x y) = mul (JsNum.abs x) (JsNum.abs y) := by
  unfold mul
  rw [abs_rnd, abs_mul_exact]

theorem abs_div_double (x y : JsNum) : JsNum.abs (div x y) = div (JsNum.abs x) (JsNum.abs y) := by
  unfold div
  rw [abs_rnd, abs_div_exact]

theorem abs_idem (x : JsNum) : JsNum.abs (JsNum.abs x) = JsNum.abs x := by
  cases x <;> simp [JsNum.abs]

/-- The rendering of an absolute value is not negative. -/
theorem toFixed_abs_not_neg (d : ℕ) (x : JsNum) :
    JsNum.lt (JsNum.toFixed d (JsNum.abs x)) (JsNum.fin 0) = false := by
  cases x with
  | fin q =>
    simp only [JsNum.abs, JsNum.toFixed, if_neg (not_lt.2 (abs_nonneg q)), JsNum.lt,
      decide_eq_false_iff_not, not_lt, JsNum.roundHalfUp]
    have : (0 : ℤ) ≤ ⌊|q| * 10 ^ d + 1 / 2⌋ := Int.floor_nonneg.2 (by positivity)
    have h2 : (0 : ℚ) ≤ ((⌊|q| * 10 ^ d + 1 / 2⌋ : ℤ) : ℚ) := by exact_mod_cast this
    positivity
  | posInf => rfl
  | negInf => rfl
  | nan => rfl

end Binary64

namespace Binary64

theorem round_zero : round 0 = JsNum.fin 0 := by
  unfold round
  rw [if_pos rfl]

theorem add_fin (a b : ℚ) : add (JsNum.fin a) (JsNum.fin b) = round (a + b) := rfl

theorem sub_fin (a b : ℚ) : sub (JsNum.fin a) (JsNum.fin b) = round (a - b) := by
  show rnd (JsNum.fin a - JsNum.fin b) = _
  rw [JsNum.fin_sub_fin]
  rfl

theorem mul_fin (a b : ℚ) : mul (JsNum.fin a) (JsNum.fin b) = round (a * b) := rfl

theorem div_fin (a b : ℚ) (hb : b ≠ 0) : div (JsNum.fin a) (JsNum.fin b) = round (a / b) := by
  show rnd (JsNum.fin a / JsNum.fin b) = _
  rw [JsNum.fin_div_fin _ _ hb]
  rfl

theorem num_int (z : ℤ) (hz : |z| < 2 ^ 53) : num (z : ℚ) = JsNum.fin (z : ℚ) := round_int z hz

/-- The running sum of a series constant at a whole number is exact as long
as it stays below `2^53`. -/
theorem sumOf_const_from (c : ℤ) (l : List ℚ) (hl : ∀ v ∈ l, v = (c : ℚ)) (j : ℕ)
    (hb : ((j + l.length : ℕ) : ℤ) * |c| < 2 ^ 53) :
    l.foldl (fun (sum : JsNum) (val : ℚ) => add sum (num val)) (JsNum.fin ((j : ℚ) * c))
      = JsNum.fin (((j + l.length : ℕ) : ℚ) * c) := by
  induction l generalizing j with
  | nil => simp
  | cons v vs ih =>
    have hv : v = (c : ℚ) := hl v (List.mem_cons_self _ _)
    have hlen : (v :: vs).length = vs.length + 1 := rfl
    rw [hlen] at hb
    have hc0 : (0 : ℤ) ≤ |c| := abs_nonneg c
    have hc : |c| < 2 ^ 53 := by
      have h1 : (1 : ℤ) ≤ ((j + (vs.length + 1) : ℕ) : ℤ) := by
        have : 1 ≤ j + (vs.length + 1) := by omega
        exact_mod_cast this
      nlinarith
    have hj1 : |((j + 1 : ℕ) : ℤ) * c| < 2 ^ 53 := by
      rw [abs_mul, abs_of_nonneg (by positivity : (0 : ℤ) ≤ ((j + 1 : ℕ) : ℤ))]
      have h1 : ((j + 1 : ℕ) : ℤ) ≤ ((j + (vs.length + 1) : ℕ) : ℤ) := by
        have : j + 1 ≤ j + (vs.length + 1) := by omega
        exact_mod_cast this
      nlinarith
    have hstep : add (JsNum.fin ((j : ℚ) * c)) (num v) = JsNum.fin (((j + 1 : ℕ) : ℚ) * c) := by
      rw [hv, num_int c hc, add_fin]
      have e : (j : ℚ) * c + c = ((((j + 1 : ℕ) : ℤ) * c : ℤ) : ℚ) := by push_cast; ring
      rw [e, round_int _ hj1]
      push_cast
      ring_nf
    rw [List.foldl_cons, hstep, ih (fun w hw => hl w (List.mem_cons_of_mem _ hw)) (j + 1)
      (by rw [show j + 1 + vs.length = j + (vs.length + 1) by omega]; exact hb)]
    rw [hlen, show j + 1 + vs.length = j + (vs.length + 1) by omega]

theorem sumOf_const (c : ℤ) (l : List ℚ) (hl : ∀ v ∈ l, v = (c : ℚ))
    (hb : (l.length : ℤ) * |c| < 2 ^ 53) :
    sumOf l = JsNum.fin ((l.length : ℚ) * c) := by
  have := sumOf_const_from c l hl 0 (by simpa using hb)
  simpa [sumOf] using this

theorem foldl_fixed {α : Type} (f : JsNum → α → JsNum) (x : JsNum) (l : List α)
    (h : ∀ a ∈ l, f x a = x) : l.foldl f x = x := by
  induction l with
  | nil => rfl
  | cons a as ih =>
    rw [List.foldl_cons, h a (List.mem_cons_self _ _)]
    exact ih fun b hb => h b (List.mem_cons_of_mem _ hb)

theorem getD_of_const (c : ℚ) (l : List ℚ) (hl : ∀ v ∈ l, v = c) (i : ℕ) (hi : i < l.length) :
    l.getD i 0 = c := by
  rw [List.getD_eq_getElem _ _ hi]
  exact hl _ (List.getElem_mem _)

theorem sqrt_zero : sqrt (JsNum.fin 0) = JsNum.fin 0 := by
  decide!

/-- On a series constant at a whole number `c`, with `n * |c| < 2^53`, the
mean computed is `c` and the standard deviation computed is 0. -/
theorem calculateStats_const (c : ℤ) (l : List ℚ) (hl : ∀ v ∈ l, v = (c : ℚ))
    (hn : l.length ≠ 0) (hb : (l.length : ℤ) * |c| < 2 ^ 53) :
    (calculateStats l).mean = JsNum.fin c ∧ (calculateStats l).stdDev = JsNum.fin 0 := by
  have hn0 : (l.length : ℚ) ≠ 0 := by exact_mod_cast hn
  have hc : |c| < 2 ^ 53 := by
    have h1 : (1 : ℤ) ≤ (l.length : ℤ) := by
      have : 1 ≤ l.length := by omega
      exact_mod_cast this
    have hc0 : (0 : ℤ) ≤ |c| := abs_nonneg c
    nlinarith
  have hmean : div (sumOf l) (JsNum.fin l.length) = JsNum.fin c := by
    rw [sumOf_const c l hl hb, div_fin _ _ hn0, mul_div_cancel_left₀ _ hn0, round_int c hc]
  have hfold : (List.range l.length).foldl
      (fun (acc : JsNum) (i : Nat) => add acc (sq (sub (num (l.getD i 0)) (JsNum.fin c))))
      (JsNum.fin 0) = JsNum.fin 0 := by
    apply foldl_fixed
    intro i hi
    rw [getD_of_const c l hl i (List.mem_range.1 hi), num_int c hc, sub_fin, sub_self, round_zero]
    show add (JsNum.fin 0) (mul (JsNum.fin 0) (JsNum.fin 0)) = _
    rw [mul_fin, mul_zero, round_zero, add_fin, add_zero, round_zero]
  constructor
  · simp only [calculateStats, hmean]
  · simp only [calculateStats, hmean, hfold]
    rw [div_fin _ _ hn0, zero_div, round_zero, sqrt_zero]

end Binary64

namespace Binary64

theorem nearest_def_int (q : ℚ) : ∃ R : ℤ, nearest q = (R : ℚ) * ulp q :=
  ⟨roundHalfEven (q / ulp q), rfl⟩

/-- A rounded value above `2^e` is a multiple of `2^(e - 52)`. -/
theorem nearest_grid {q : ℚ} (hq : 0 < q) (e : ℤ) (he : -1022 ≤ e) (hp : pow2 e < nearest q) :
    ∃ K : ℤ, nearest q = (K : ℚ) * pow2 (e - 52) := by
  rcases lt_or_le q (pow2 e) with hlt | hge
  · exfalso
    have hex := exponent_lt hq hlt
    have hm : max (exponent q) (-1022) ≤ e := max_le hex.le he
    have hd : 0 ≤ e - (max (exponent q) (-1022) - 52) := by omega
    have hmul : pow2 e = ((2 ^ (e - (max (exponent q) (-1022) - 52)).toNat : ℤ) : ℚ) * ulp q := by
      unfold ulp
      rw [← pow2_nonneg_int _ hd, ← pow2_add]
      congr 1
      ring
    have := nearest_le_of_multiple (hmul ▸ hlt.le)
    rw [← hmul] at this
    linarith
  · have hex := exponent_ge hge
    have hm : max (exponent q) (-1022) = exponent q := max_eq_left (by omega)
    obtain ⟨R, hR⟩ := nearest_def_int q
    have hd : 0 ≤ exponent q - e := by omega
    refine ⟨R * 2 ^ (exponent q - e).toNat, ?_⟩
    rw [hR]
    unfold ulp
    rw [hm]
    push_cast
    rw [mul_assoc]
    congr 1
    have := pow2_nonneg_int _ hd
    push_cast at this
    rw [← this, ← pow2_add]
    congr 1
    ring

/-- A double above `2^e` in magnitude is a multiple of `2^(e - 52)`. -/
theorem round_grid {q p : ℚ} (h : round q = JsNum.fin p) (e : ℤ) (he : -1022 ≤ e)
    (hp : pow2 e < |p|) : ∃ K : ℤ, p = (K : ℚ) * pow2 (e - 52) := by
  unfold round at h
  split_ifs at h with h0 hpos hov hov
  · simp only [JsNum.fin.injEq] at h
    rw [← h, abs_zero] at hp
    exact absurd (pow2_pos e) (not_lt.2 hp.le)
  · simp only [JsNum.fin.injEq] at h
    rw [← h, abs_of_nonneg (nearest_nonneg hpos)] at hp
    rw [← h]
    exact nearest_grid hpos e he hp
  · simp only [JsNum.fin.injEq] at h
    have hneg : 0 < -q := by
      rcases lt_trichotomy q 0 with h1 | h1 | h1
      · linarith
      · exact absurd h1 h0
      · exact absurd h1 hpos
    rw [← h, abs_neg, abs_of_nonneg (nearest_nonneg hneg)] at hp
    obtain ⟨K, hK⟩ := nearest_grid hneg e he hp
    refine ⟨-K, ?_⟩
    rw [← h, hK]
    push_cast
    ring

theorem not_lt_cases {x : JsNum} {c : ℚ} (hx : x ≠ JsNum.nan)
    (h : JsNum.lt x (JsNum.fin c) = false) :
    x = JsNum.posInf ∨ ∃ y : ℚ, c ≤ y ∧ x = JsNum.fin y := by
  cases x with
  | fin a =>
    simp only [JsNum.lt, decide_eq_false_iff_not, not_lt] at h
    exact Or.inr ⟨a, h, rfl⟩
  | posInf => exact Or.inl rfl
  | negInf => simp [JsNum.lt] at h
  | nan => exact absurd rfl hx

/-- A result at or above 512 is rounded to a number above any smaller
threshold. -/
theorem round_gt_of_ge_512 {q c : ℚ} (hq : 512 ≤ q) (hc : c < 512) :
    JsNum.gt (round q) (JsNum.fin c) = true := by
  have h9 : pow2 9 = 512 := by decide!
  have h := round_ge 1 9 (by norm_num) (by norm_num) (by norm_num) (q := q)
    (by rw [h9]; simpa using hq)
  rw [h9] at h
  rcases not_lt_cases (round_ne_nan q) h with hx | ⟨y, hy, hx⟩
  · rw [hx]; rfl
  · rw [hx]
    simp only [JsNum.gt, JsNum.lt, decide_eq_true_eq]
    have : (512 : ℚ) ≤ y := by simpa using hy
    linarith

/-- The difference of two doubles between 300 and 1100 is computed exactly
when it is below 512 in magnitude. -/
theorem sub_exact_in_range {q1 q3 p1 p3 : ℚ} (h1 : round q1 = JsNum.fin p1)
    (h3 : round q3 = JsNum.fin p3) (l1 : 300 ≤ p1) (l3 : 300 ≤ p3) (hd : |p1 - p3| < 512) :
    round (p1 - p3) = JsNum.fin (p1 - p3) := by
  have h8 : pow2 8 = 256 := by decide!
  obtain ⟨K1, e1⟩ := round_grid h1 8 (by norm_num)
    (by rw [h8, abs_of_pos (by linarith)]; linarith)
  obtain ⟨K3, e3⟩ := round_grid h3 8 (by norm_num)
    (by rw [h8, abs_of_pos (by linarith)]; linarith)
  have h44 : pow2 (8 - 52) = 1 / 2 ^ 44 := by decide!
  have e : p1 - p3 = ((K1 - K3 : ℤ) : ℚ) * pow2 (-44) := by
    rw [e1, e3]
    push_cast
    ring
  rw [e]
  apply round_dyadic _ _ _ (by norm_num) (by norm_num)
  have hq : |(((K1 - K3 : ℤ) : ℚ))| < 2 ^ 53 := by
    rw [e, abs_mul, abs_of_pos (pow2_pos _)] at hd
    have h44b : pow2 (-44) = 1 / 2 ^ 44 := h44
    rw [h44b] at hd
    have h2 : (0 : ℚ) < 2 ^ 44 := by positivity
    rw [mul_one_div, div_lt_iff₀ h2] at hd
    calc |(((K1 - K3 : ℤ) : ℚ))| < 512 * 2 ^ 44 := hd
      _ = 2 ^ 53 := by norm_num
  exact_mod_cast hq

/-- On doubles between 300 and 1100 the computed test `|p1 - p3| > 6` and the
computed sign of the difference are those of the exact difference. -/
theorem pressure_test_exact {q1 q3 p1 p3 : ℚ} (h1 : round q1 = JsNum.fin p1)
    (h3 : round q3 = JsNum.fin p3) (l1 : 300 ≤ p1) (l3 : 300 ≤ p3) :
    (JsNum.gt (JsNum.abs (sub (JsNum.fin p1) (JsNum.fin p3))) (JsNum.fin 6) = true
      ↔ 6 < |p1 - p3|) ∧
    (JsNum.gt (sub (JsNum.fin p1) (JsNum.fin p3)) (JsNum.fin 0) = true ↔ p3 < p1) := by
  rw [sub_fin, abs_round]
  rcases lt_or_le |p1 - p3| 512 with hd | hd
  · have hex := sub_exact_in_range h1 h3 l1 l3 hd
    have hex2 : round |p1 - p3| = JsNum.fin |p1 - p3| := by
      rw [← abs_round, hex]
      rfl
    rw [hex, hex2]
    simp only [JsNum.gt, JsNum.lt, decide_eq_true_eq, sub_pos]
    exact ⟨trivial, trivial⟩
  · constructor
    · constructor
      · intro _
        linarith
      · intro _
        exact round_gt_of_ge_512 hd (by norm_num)
    · rcases le_abs'.1 hd with hneg | hpos
      · have hn : 512 ≤ -(p1 - p3) := by linarith
        have hr : round (p1 - p3) = JsNum.neg (round (-(p1 - p3))) := by
          rw [← round_neg, neg_neg]
        have h9 : pow2 9 = 512 := by decide!
        have h := round_ge 1 9 (by norm_num) (by norm_num) (by norm_num) (q := -(p1 - p3))
          (by rw [h9]; simpa using hn)
        rw [h9] at h
        constructor
        · intro hgt
          exfalso
          rw [hr] at hgt
          rcases not_lt_cases (round_ne_nan _) h with hx | ⟨y, hy, hx⟩
          · rw [hx] at hgt
            simp [JsNum.gt, JsNum.lt, JsNum.neg] at hgt
          · rw [hx] at hgt
            simp only [JsNum.gt, JsNum.lt, JsNum.neg, decide_eq_true_eq] at hgt
            have : (512 : ℚ) ≤ y := by simpa using hy
            linarith
        · intro hlt
          linarith
      · exact ⟨fun _ => by linarith, fun _ => round_gt_of_ge_512 hpos (by norm_num)⟩

end Binary64

namespace Binary64

theorem round_of_int {q : ℚ} (z : ℤ) (h : q = (z : ℚ)) (hz : |z| < 2 ^ 53) :
    round q = JsNum.fin q := by
  rw [h]
  exact round_int z hz

theorem abs_sum_range_le (g : ℕ → ℤ) (m : ℕ) (G : ℤ) (h : ∀ i < m, |g i| ≤ G) :
    |∑ i ∈ Finset.range m, g i| ≤ (m : ℤ) * G := by
  calc |∑ i ∈ Finset.range m, g i| ≤ ∑ i ∈ Finset.range m, |g i| := Finset.abs_sum_le_sum_abs _ _
    _ ≤ ∑ _i ∈ Finset.range m, G := Finset.sum_le_sum fun i hi => h i (Finset.mem_range.1 hi)
    _ = (m : ℤ) * G := by simp

/-- The bounds on the sums of the regression loop over a series of whole
numbers of magnitude at most `B`, for the first `m ≤ n` points. -/
theorem regression_bounds (f : ℕ → ℤ) (n : ℕ) (B : ℤ) (hB0 : 0 ≤ B)
    (hfB : ∀ i < n, |f i| ≤ B) (m : ℕ) (hm : m ≤ n) :
    |∑ i ∈ Finset.range m, (i : ℤ)| ≤ (n : ℤ) * n ∧
    |∑ i ∈ Finset.range m, f i| ≤ (n : ℤ) * B ∧
    |∑ i ∈ Finset.range m, (i : ℤ) * f i| ≤ (n : ℤ) * (n * B) ∧
    |∑ i ∈ Finset.range m, (i : ℤ) * i| ≤ (n : ℤ) * (n * n) := by
  have hmn : (m : ℤ) ≤ n := by exact_mod_cast hm
  have hn0 : (0 : ℤ) ≤ n := by positivity
  have hi : ∀ i < m, |((i : ℕ) : ℤ)| ≤ n := by
    intro i him
    rw [abs_of_nonneg (by positivity)]
    have : i ≤ n := by omega
    exact_mod_cast this
  refine ⟨?_, ?_, ?_, ?_⟩
  · exact le_trans (abs_sum_range_le _ m n hi) (mul_le_mul_of_nonneg_right hmn hn0)
  · exact le_trans (abs_sum_range_le _ m B fun i him => hfB i (by omega))
      (mul_le_mul_of_nonneg_right hmn hB0)
  · refine le_trans (abs_sum_range_le _ m (n * B) fun i him => ?_)
      (mul_le_mul_of_nonneg_right hmn (mul_nonneg hn0 hB0))
    rw [abs_mul]
    exact mul_le_mul (hi i him) (hfB i (by omega)) (abs_nonneg _) hn0
  · refine le_trans (abs_sum_range_le _ m (n * n) fun i him => ?_)
      (mul_le_mul_of_nonneg_right hmn (mul_nonneg hn0 hn0))
    rw [abs_mul]
    exact mul_le_mul (hi i him) (hi i him) (abs_nonneg _) hn0

end Binary64

namespace Binary64

theorem small_products (n B : ℤ) (hn : 1 ≤ n) (hnB : n ≤ B) (hb : n ^ 3 * B < 2 ^ 52) :
    B < 2 ^ 53 ∧ n * n < 2 ^ 53 ∧ n * B < 2 ^ 53 ∧ n * (n * B) < 2 ^ 53 ∧
    n * (n * n) < 2 ^ 53 ∧ n * (n * (n * B)) < 2 ^ 52 ∧ n * (n * (n * n)) < 2 ^ 52 := by
  have hB : 1 ≤ B := le_trans hn hnB
  have e : n * (n * (n * B)) = n ^ 3 * B := by ring
  have h3 : n * (n * (n * B)) < 2 ^ 52 := by rw [e]; exact hb
  have hnn : 1 ≤ n * n := by nlinarith
  have h4 : n * (n * (n * n)) ≤ n * (n * (n * B)) := by
    have : n * n ≤ n * B := mul_le_mul_of_nonneg_left hnB (by linarith)
    have : n * (n * n) ≤ n * (n * B) := mul_le_mul_of_nonneg_left this (by linarith)
    exact mul_le_mul_of_nonneg_left this (by linarith)
  have h2 : n * (n * B) ≤ n * (n * (n * B)) := by
    have h0 : 0 ≤ n * (n * B) := by positivity
    nlinarith
  have h1 : n * B ≤ n * (n * B) := by
    have h0 : 0 ≤ n * B := by positivity
    nlinarith
  have h0 : B ≤ n * B := by nlinarith
  have h5 : n * (n * n) ≤ n * (n * (n * n)) := by
    have h0 : 0 ≤ n * (n * n) := by positivity
    nlinarith
  have h6 : n * n ≤ n * (n * n) := by
    have h0 : 0 ≤ n * n := by positivity
    nlinarith
  refine ⟨?_, ?_, ?_, ?_, ?_, h3, ?_⟩ <;> linarith

/-- On a series of whole numbers of magnitude at most `B`, with `n ≤ B` and
`n^3 * B < 2^52`, the four sums of the regression loop are computed
exactly. -/
theorem regressionSums_exact_fold (values : List ℚ) (f : ℕ → ℤ) (B : ℤ)
    (hf : ∀ i < values.length, values.getD i 0 = (f i : ℚ))
    (hfB : ∀ i < values.length, |f i| ≤ B) (hnB : (values.length : ℤ) ≤ B)
    (hb : (values.length : ℤ) ^ 3 * B < 2 ^ 52) (m : ℕ) (hm : m ≤ values.length) :
    (List.range m).foldl
      (fun (s : Sums) (i : Nat) =>
        { sumX := add s.sumX (JsNum.fin i)
          sumY := add s.sumY (num (values.getD i 0))
          sumXY := add s.sumXY (mul (JsNum.fin i) (num (values.getD i 0)))
          sumX2 := add s.sumX2 (mul (JsNum.fin i) (JsNum.fin i)) })
      { sumX := JsNum.fin 0, sumY := JsNum.fin 0, sumXY := JsNum.fin 0, sumX2 := JsNum.fin 0 }
    = { sumX := JsNum.fin ((∑ i ∈ Finset.range m, (i : ℤ) : ℤ) : ℚ)
        sumY := JsNum.fin ((∑ i ∈ Finset.range m, f i : ℤ) : ℚ)
        sumXY := JsNum.fin ((∑ i ∈ Finset.range m, (i : ℤ) * f i : ℤ) : ℚ)
        sumX2 := JsNum.fin ((∑ i ∈ Finset.range m, (i : ℤ) * i : ℤ) : ℚ) } := by
  induction m with
  | zero => simp
  | succ m ih =>
    have hmn : m < values.length := by omega
    have hn1 : (1 : ℤ) ≤ (values.length : ℤ) := by
      have : 1 ≤ values.length := by omega
      exact_mod_cast this
    have hB0 : 0 ≤ B := by linarith
    obtain ⟨s0, s1, s2, s3, s4, -, -⟩ := small_products _ B hn1 hnB hb
    obtain ⟨b1, b2, b3, b4⟩ := regression_bounds f values.length B hB0 hfB (m + 1) hm
    have hfm : |f m| < 2 ^ 53 := lt_of_le_of_lt (hfB m hmn) s0
    have hmf : |(m : ℤ) * f m| < 2 ^ 53 := by
      rw [abs_mul, abs_of_nonneg (by positivity : (0 : ℤ) ≤ (m : ℤ))]
      have h1 : (m : ℤ) ≤ values.length := by exact_mod_cast hmn.le
      have h2 := hfB m hmn
      have : (m : ℤ) * |f m| ≤ (values.length : ℤ) * B :=
        mul_le_mul h1 h2 (abs_nonneg _) (by linarith)
      linarith
    have hmm : |(m : ℤ) * m| < 2 ^ 53 := by
      rw [abs_of_nonneg (by positivity)]
      have h1 : (m : ℤ) ≤ values.length := by exact_mod_cast hmn.le
      have : (m : ℤ) * m ≤ (values.length : ℤ) * values.length :=
        mul_le_mul h1 h1 (by positivity) (by linarith)
      linarith
    rw [List.range_succ, List.foldl_append, ih hmn.le]
    simp only [List.foldl_cons, List.foldl_nil]
    rw [hf m hmn, num_int (f m) hfm]
    have eX : add (JsNum.fin ((∑ i ∈ Finset.range m, (i : ℤ) : ℤ) : ℚ)) (JsNum.fin (m : ℚ))
        = JsNum.fin ((∑ i ∈ Finset.range (m + 1), (i : ℤ) : ℤ) : ℚ) := by
      rw [add_fin, round_of_int (∑ i ∈ Finset.range (m + 1), (i : ℤ))
        (by rw [Finset.sum_range_succ]; push_cast; rfl) (lt_of_le_of_lt b1 s1)]
      rw [Finset.sum_range_succ]
      push_cast
      rfl
    have eY : add (JsNum.fin ((∑ i ∈ Finset.range m, f i : ℤ) : ℚ)) (JsNum.fin (f m : ℚ))
        = JsNum.fin ((∑ i ∈ Finset.range (m + 1), f i : ℤ) : ℚ) := by
      rw [add_fin, round_of_int (∑ i ∈ Finset.range (m + 1), f i)
        (by rw [Finset.sum_range_succ]; push_cast; rfl) (lt_of_le_of_lt b2 s2)]
      rw [Finset.sum_range_succ]
      push_cast
      rfl
    have eXY : add (JsNum.fin ((∑ i ∈ Finset.range m, (i : ℤ) * f i : ℤ) : ℚ))
          (mul (JsNum.fin (m : ℚ)) (JsNum.fin (f m : ℚ)))
        = JsNum.fin ((∑ i ∈ Finset.range (m + 1), (i : ℤ) * f i : ℤ) : ℚ) := by
      rw [mul_fin, round_of_int ((m : ℤ) * f m) (by push_cast; rfl) hmf, add_fin,
        round_of_int (∑ i ∈ Finset.range (m + 1), (i : ℤ) * f i)
        (by rw [Finset.sum_range_succ]; push_cast; rfl) (lt_of_le_of_lt b3 s3)]
      rw [Finset.sum_range_succ]
      push_cast
      rfl
    have eX2 : add (JsNum.fin ((∑ i ∈ Finset.range m, (i : ℤ) * i : ℤ) : ℚ))
          (mul (JsNum.fin (m : ℚ)) (JsNum.fin (m : ℚ)))
        = JsNum.fin ((∑ i ∈ Finset.range (m + 1), (i : ℤ) * i : ℤ) : ℚ) := by
      rw [mul_fin, round_of_int ((m : ℤ) * m) (by push_cast; rfl) hmm, add_fin,
        round_of_int (∑ i ∈ Finset.range (m + 1), (i : ℤ) * i)
        (by rw [Finset.sum_range_succ]; push_cast; rfl) (lt_of_le_of_lt b4 s4)]
      rw [Finset.sum_range_succ]
      push_cast
      rfl
    rw [eX, eY, eXY, eX2]

end Binary64

namespace Binary64

/-- On a series of at least 2 whole numbers of magnitude at most `B`, with
`n ≤ B` and `n^3 * B < 2^52`, the slope computed is the least-squares slope
rounded once to a double. -/
theorem regressionSlope_exact (values : List ℚ) (f : ℕ → ℤ) (B : ℤ)
    (hf : ∀ i < values.length, values.getD i 0 = (f i : ℚ))
    (hfB : ∀ i < values.length, |f i| ≤ B) (hnB : (values.length : ℤ) ≤ B)
    (hb : (values.length : ℤ) ^ 3 * B < 2 ^ 52) (hn : 2 ≤ values.length) :
    regressionSlope values.length (regressionSums values) = round (olsSlope values) := by
  have hn1 : (1 : ℤ) ≤ (values.length : ℤ) := by
    have : 1 ≤ values.length := by omega
    exact_mod_cast this
  have hn0 : (0 : ℤ) ≤ (values.length : ℤ) := by linarith
  have hB0 : 0 ≤ B := by linarith
  obtain ⟨-, -, -, -, -, s5, s6⟩ := small_products _ B hn1 hnB hb
  obtain ⟨b1, b2, b3, b4⟩ := regression_bounds f values.length B hB0 hfB values.length le_rfl
  have hsums := regressionSums_exact_fold values f B hf hfB hnB hb values.length le_rfl
  -- the four sums, as whole numbers
  set SX : ℤ := ∑ i ∈ Finset.range values.length, (i : ℤ) with hSX
  set SY : ℤ := ∑ i ∈ Finset.range values.length, f i with hSY
  set SXY : ℤ := ∑ i ∈ Finset.range values.length, (i : ℤ) * f i with hSXY
  set SX2 : ℤ := ∑ i ∈ Finset.range values.length, (i : ℤ) * i with hSX2
  have c1 : |(values.length : ℤ) * SXY| < 2 ^ 52 := by
    rw [abs_mul, abs_of_nonneg hn0]
    exact lt_of_le_of_lt (mul_le_mul_of_nonneg_left b3 hn0) s5
  have c2 : |SX * SY| < 2 ^ 52 := by
    rw [abs_mul]
    have : |SX| * |SY| ≤ ((values.length : ℤ) * values.length) * ((values.length : ℤ) * B) :=
      mul_le_mul b1 b2 (abs_nonneg _) (by positivity)
    have e : ((values.length : ℤ) * values.length) * ((values.length : ℤ) * B)
        = (values.length : ℤ) * ((values.length : ℤ) * ((values.length : ℤ) * B)) := by ring
    linarith
  have c3 : |(values.length : ℤ) * SX2| < 2 ^ 52 := by
    rw [abs_mul, abs_of_nonneg hn0]
    exact lt_of_le_of_lt (mul_le_mul_of_nonneg_left b4 hn0) s6
  have c4 : |SX * SX| < 2 ^ 52 := by
    rw [abs_mul]
    have : |SX| * |SX| ≤ ((values.length : ℤ) * values.length) * ((values.length : ℤ) * values.length) :=
      mul_le_mul b1 b1 (abs_nonneg _) (by positivity)
    have e : ((values.length : ℤ) * values.length) * ((values.length : ℤ) * values.length)
        = (values.length : ℤ) * ((values.length : ℤ) * ((values.length : ℤ) * values.length)) := by
      ring
    linarith
  have c5 : |(values.length : ℤ) * SXY - SX * SY| < 2 ^ 53 := by
    have := abs_sub ((values.length : ℤ) * SXY) (SX * SY)
    linarith
  have c6 : |(values.length : ℤ) * SX2 - SX * SX| < 2 ^ 53 := by
    have := abs_sub ((values.length : ℤ) * SX2) (SX * SX)
    linarith
  have eN : (((values.length : ℤ) * SXY - SX * SY : ℤ) : ℚ)
      = slopeNum (seriesOf values) values.length := by
    simp only [slopeNum, seriesOf, hSX, hSY, hSXY]
    push_cast
    have e1 : ∑ i ∈ Finset.range values.length, (i : ℚ) * (f i : ℚ)
        = ∑ i ∈ Finset.range values.length, (i : ℚ) * values.getD i 0 :=
      Finset.sum_congr rfl fun i hi => by rw [hf i (Finset.mem_range.1 hi)]
    have e2 : ∑ i ∈ Finset.range values.length, (f i : ℚ)
        = ∑ i ∈ Finset.range values.length, values.getD i 0 :=
      Finset.sum_congr rfl fun i hi => by rw [hf i (Finset.mem_range.1 hi)]
    rw [e1, e2]
  have eD : (((values.length : ℤ) * SX2 - SX * SX : ℤ) : ℚ) = slopeDen values.length := by
    simp only [slopeDen, hSX, hSX2]
    push_cast
    rfl
  have hD : (((values.length : ℤ) * SX2 - SX * SX : ℤ) : ℚ) ≠ 0 := by
    rw [eD]
    exact (slopeDen_pos _ hn).ne'
  unfold regressionSums
  rw [hsums]
  simp only [regressionSlope]
  rw [mul_fin, round_of_int ((values.length : ℤ) * SXY) (by push_cast; rfl) (by linarith),
    mul_fin, round_of_int (SX * SY) (by push_cast; rfl) (by linarith),
    sub_fin, round_of_int ((values.length : ℤ) * SXY - SX * SY) (by push_cast; rfl) c5,
    mul_fin, round_of_int ((values.length : ℤ) * SX2) (by push_cast; rfl) (by linarith),
    mul_fin, round_of_int (SX * SX) (by push_cast; rfl) (by linarith),
    sub_fin, round_of_int ((values.length : ℤ) * SX2 - SX * SX) (by push_cast; rfl) c6]
  have hD2 : ((values.length : ℚ) * (SX2 : ℚ) - (SX : ℚ) * (SX : ℚ)) ≠ 0 := by
    have := hD
    push_cast at this
    exact this
  rw [div_fin _ _ hD2, olsSlope_eq values hn, ← eN, ← eD]
  push_cast
  rfl

end Binary64

namespace Binary64

/-- Rounding does not cross a double from below: a result at or below the
double `K * 2^j` is rounded to a number at or below it. -/
theorem round_le (K j : ℤ) (hK0 : 0 < K) (hK : K < 2 ^ 53) (hj : -1074 ≤ j) (hj2 : j ≤ 971)
    {q : ℚ} (h : q ≤ (K : ℚ) * pow2 j) :
    JsNum.gt (round q) (JsNum.fin ((K : ℚ) * pow2 j)) = false := by
  set x := (K : ℚ) * pow2 j with hxdef
  have hx : (0 : ℚ) < x := mul_pos (by exact_mod_cast hK0) (pow2_pos j)
  rcases lt_trichotomy q 0 with hq | hq | hq
  · have h1 : 0 < -q := by linarith
    unfold round
    rw [if_neg hq.ne, if_neg (not_lt.2 hq.le)]
    split_ifs
    · rfl
    · simp only [JsNum.gt, JsNum.lt, decide_eq_false_iff_not, not_lt]
      have := nearest_nonneg h1
      linarith
  · rw [hq, round_zero]
    simp only [JsNum.gt, JsNum.lt, decide_eq_false_iff_not, not_lt]
    exact hx.le
  · obtain ⟨K1, h1⟩ := dyadic_multiple_of_ulp K j hK0 hK hj
    rw [← hxdef] at h1
    have hmono := exponent_mono hq h
    have hd : 0 ≤ max (exponent x) (-1022) - max (exponent q) (-1022) := by
      have := max_le_max hmono (le_refl (-1022 : ℤ))
      omega
    have hux : ulp x = ((2 ^ (max (exponent x) (-1022) - max (exponent q) (-1022)).toNat : ℤ) : ℚ)
        * ulp q := by
      unfold ulp
      rw [← pow2_nonneg_int _ hd, ← pow2_add]
      congr 1
      ring
    have hmul : x = ((K1 * 2 ^ (max (exponent x) (-1022) - max (exponent q) (-1022)).toNat : ℤ) : ℚ)
        * ulp q := by
      have h2 := h1
      rw [hux] at h2
      rw [Int.cast_mul, mul_assoc]
      exact h2
    have hle : nearest q ≤ x := by
      have := nearest_le_of_multiple (hmul ▸ h)
      rwa [← hmul] at this
    have hlt : x < pow2 1024 := by
      have h53 : pow2 53 = (2 : ℚ) ^ 53 := by rw [pow2_eq]; norm_cast
      have h2 : x < pow2 (53 + j) := by
        rw [pow2_add, h53]
        have : (K : ℚ) < (2 : ℚ) ^ 53 := by exact_mod_cast hK
        exact mul_lt_mul_of_pos_right this (pow2_pos j)
      have : pow2 (53 + j) ≤ pow2 1024 := pow2_le (by omega)
      linarith
    unfold round
    rw [if_neg hq.ne', if_pos hq, if_neg (by linarith)]
    simp only [JsNum.gt, JsNum.lt, decide_eq_false_iff_not, not_lt]
    exact hle

/-- The test `> 15` on the rounded quotient of a whole number by a count of
at most `2^49` is the test on the exact quotient. -/
theorem round_quotient_gt (T : ℤ) (m : ℕ) (hm : 0 < m) (hm2 : (m : ℤ) ≤ 2 ^ 49) :
    JsNum.gt (round ((T : ℚ) / m)) (JsNum.fin 15) = true ↔ 15 < (T : ℚ) / m := by
  have hmq : (0 : ℚ) < m := by exact_mod_cast hm
  have h0 : pow2 0 = 1 := by decide!
  have h49 : pow2 (-49) = 1 / 2 ^ 49 := by decide!
  constructor
  · intro hgt
    by_contra hle
    have := round_le 15 0 (by norm_num) (by norm_num) (by norm_num) (by norm_num)
      (q := (T : ℚ) / m) (by rw [h0]; push_cast; linarith [not_lt.1 hle])
    rw [h0] at this
    have e : ((15 : ℤ) : ℚ) * 1 = 15 := by norm_num
    rw [e] at this
    rw [this] at hgt
    exact absurd hgt (by decide)
  · intro hlt
    rw [lt_div_iff₀ hmq] at hlt
    have hT : 15 * (m : ℤ) + 1 ≤ T := by
      have : (15 : ℤ) * m < T := by exact_mod_cast hlt
      omega
    have hq : (15 : ℚ) + 1 / 2 ^ 49 ≤ (T : ℚ) / m := by
      rw [le_div_iff₀ hmq]
      have hTq : (15 : ℚ) * m + 1 ≤ T := by exact_mod_cast hT
      have hm49 : (m : ℚ) ≤ 2 ^ 49 := by exact_mod_cast hm2
      have : (1 : ℚ) / 2 ^ 49 * m ≤ 1 := by
        rw [div_mul_eq_mul_div, one_mul, div_le_one (by positivity)]
        exact hm49
      linarith
    have hx : ((15 * 2 ^ 49 + 1 : ℤ) : ℚ) * pow2 (-49) = 15 + 1 / 2 ^ 49 := by
      rw [h49]
      push_cast
      ring
    have := round_ge (15 * 2 ^ 49 + 1) (-49) (by norm_num) (by norm_num) (by norm_num)
      (q := (T : ℚ) / m) (by rw [hx]; exact hq)
    rw [hx] at this
    rcases not_lt_cases (round_ne_nan _) this with hr | ⟨y, hy, hr⟩
    · rw [hr]
      rfl
    · rw [hr]
      simp only [JsNum.gt, JsNum.lt, decide_eq_true_eq]
      have : (0 : ℚ) < 1 / 2 ^ 49 := by positivity
      linarith

end Binary64

namespace Binary64

/-- The rounded absolute difference of two whole numbers of magnitude at most
`B`, with `2 * B < 2^53`, is exact. -/
theorem abs_sub_whole (u v B : ℤ) (hu : |u| ≤ B) (hv : |v| ≤ B) (hB : 2 * B < 2 ^ 53) :
    JsNum.abs (sub (num (u : ℚ)) (num (v : ℚ))) = JsNum.fin ((|u - v| : ℤ) : ℚ) := by
  have hu53 : |u| < 2 ^ 53 := by have := abs_nonneg v; linarith
  have hv53 : |v| < 2 ^ 53 := by have := abs_nonneg u; linarith
  have hd : |u - v| < 2 ^ 53 := by
    have := abs_sub u v
    linarith
  rw [num_int u hu53, num_int v hv53, sub_fin, round_of_int (u - v) (by push_cast; rfl) hd]
  simp only [JsNum.abs]
  push_cast
  rfl

theorem abs_sub_le_two (u v B : ℤ) (hu : |u| ≤ B) (hv : |v| ≤ B) : |u - v| ≤ 2 * B := by
  have := abs_sub u v
  linarith

/-- On a series of whole numbers of magnitude at most `B`, with
`n * (2 * B) < 2^53`, the sum of the absolute steps is computed exactly. -/
theorem fluctuation_exact_fold (values : List ℚ) (f : ℕ → ℤ) (B : ℤ)
    (hf : ∀ i < values.length, values.getD i 0 = (f i : ℚ))
    (hfB : ∀ i < values.length, |f i| ≤ B)
    (hb : (values.length : ℤ) * (2 * B) < 2 ^ 53) (k : ℕ) (hk : k + 1 ≤ values.length) :
    (List.range' 1 k).foldl
      (fun (acc : JsNum) (i : Nat) =>
        add acc (JsNum.abs (sub (num (values.getD i 0)) (num (values.getD (i - 1) 0)))))
      (JsNum.fin 0)
    = JsNum.fin ((∑ i ∈ Finset.range k, |f (i + 1) - f i| : ℤ) : ℚ) := by
  induction k with
  | zero => simp
  | succ k ih =>
    have hB0 : 0 ≤ B := le_trans (abs_nonneg _) (hfB 0 (by omega))
    have hn1 : (1 : ℤ) ≤ (values.length : ℤ) := by
      have : 1 ≤ values.length := by omega
      exact_mod_cast this
    have h2B : 2 * B < 2 ^ 53 := by nlinarith
    have hsum : abs (∑ i ∈ Finset.range (k + 1), |f (i + 1) - f i|) < 2 ^ 53 := by
      have h1 := abs_sum_range_le (fun i => |f (i + 1) - f i|) (k + 1) (2 * B) (by
        intro i hi
        rw [abs_abs]
        exact abs_sub_le_two _ _ B (hfB (i + 1) (by omega)) (hfB i (by omega)))
      have h2 : ((k + 1 : ℕ) : ℤ) * (2 * B) ≤ (values.length : ℤ) * (2 * B) := by
        have : ((k + 1 : ℕ) : ℤ) ≤ (values.length : ℤ) := by
          have : k + 1 ≤ values.length := by omega
          exact_mod_cast this
        exact mul_le_mul_of_nonneg_right this (by linarith)
      linarith
    rw [List.range'_1_concat, List.foldl_append, ih (by omega)]
    simp only [List.foldl_cons, List.foldl_nil]
    rw [show 1 + k - 1 = k by omega, hf (1 + k) (by omega), hf k (by omega),
      abs_sub_whole _ _ B (hfB (1 + k) (by omega)) (hfB k (by omega)) h2B, add_fin,
      round_of_int (∑ i ∈ Finset.range (k + 1), |f (i + 1) - f i|)
        (by rw [Finset.sum_range_succ, Nat.add_comm 1 k]; push_cast; rfl) hsum]
    rw [Finset.sum_range_succ, Nat.add_comm 1 k]
    push_cast
    rfl

/-- On a series of at least 2 whole numbers of magnitude at most `B`, with
`n * (2 * B) < 2^53`, the fluctuation computed is the mean absolute step
rounded once to a double. -/
theorem calculateFluctuation_whole (values : List ℚ) (f : ℕ → ℤ) (B : ℤ)
    (hf : ∀ i < values.length, values.getD i 0 = (f i : ℚ))
    (hfB : ∀ i < values.length, |f i| ≤ B)
    (hb : (values.length : ℤ) * (2 * B) < 2 ^ 53) (hn : 2 ≤ values.length) :
    calculateFluctuation values = round (meanAbsStep values) ∧
    meanAbsStep values
      = ((∑ i ∈ Finset.range (values.length - 1), |f (i + 1) - f i| : ℤ) : ℚ)
          / ((values.length - 1 : ℕ) : ℚ) := by
  have hg : ¬ values.length < 2 := by omega
  have hcast : ((values.length - 1 : ℕ) : ℚ) = (values.length : ℚ) - 1 := by
    rw [Nat.cast_sub (by omega)]
    simp
  have h0 : ((values.length : ℚ) - 1) ≠ 0 := by
    have : (2 : ℚ) ≤ values.length := by exact_mod_cast hn
    linarith
  have hmean : meanAbsStep values
      = ((∑ i ∈ Finset.range (values.length - 1), |f (i + 1) - f i| : ℤ) : ℚ)
          / ((values.length - 1 : ℕ) : ℚ) := by
    rw [hcast]
    simp only [meanAbsStep]
    congr 1
    push_cast
    refine Finset.sum_congr rfl fun i hi => ?_
    have hi2 := Finset.mem_range.1 hi
    rw [hf (i + 1) (by omega), hf i (by omega)]
  refine ⟨?_, hmean⟩
  simp only [calculateFluctuation, if_neg hg]
  rw [fluctuation_exact_fold values f B hf hfB hb (values.length - 1) (by omega),
    div_fin _ _ h0, hmean, hcast]

/-- On two series of `n` whole numbers of magnitude at most `B`, with
`n * (2 * B) < 2^53`, the sum of the absolute differences is computed
exactly. -/
theorem difference_exact_fold (a b : List ℚ) (f g : ℕ → ℤ) (B : ℤ)
    (hf : ∀ i < a.length, a.getD i 0 = (f i : ℚ)) (hg : ∀ i < a.length, b.getD i 0 = (g i : ℚ))
    (hfB : ∀ i < a.length, |f i| ≤ B) (hgB : ∀ i < a.length, |g i| ≤ B)
    (hb : (a.length : ℤ) * (2 * B) < 2 ^ 53) (k : ℕ) (hk : k ≤ a.length) :
    (List.range k).foldl
      (fun (acc : JsNum) (i : Nat) =>
        add acc (JsNum.abs (sub (num (a.getD i 0)) (num (b.getD i 0)))))
      (JsNum.fin 0)
    = JsNum.fin ((∑ i ∈ Finset.range k, |f i - g i| : ℤ) : ℚ) := by
  induction k with
  | zero => simp
  | succ k ih =>
    have hB0 : 0 ≤ B := le_trans (abs_nonneg _) (hfB 0 (by omega))
    have hn1 : (1 : ℤ) ≤ (a.length : ℤ) := by
      have : 1 ≤ a.length := by omega
      exact_mod_cast this
    have h2B : 2 * B < 2 ^ 53 := by nlinarith
    have hsum : abs (∑ i ∈ Finset.range (k + 1), |f i - g i|) < 2 ^ 53 := by
      have h1 := abs_sum_range_le (fun i => |f i - g i|) (k + 1) (2 * B) (by
        intro i hi
        rw [abs_abs]
        exact abs_sub_le_two _ _ B (hfB i (by omega)) (hgB i (by omega)))
      have h2 : ((k + 1 : ℕ) : ℤ) * (2 * B) ≤ (a.length : ℤ) * (2 * B) := by
        have : ((k + 1 : ℕ) : ℤ) ≤ (a.length : ℤ) := by exact_mod_cast hk
        exact mul_le_mul_of_nonneg_right this (by linarith)
      linarith
    rw [List.range_succ, List.foldl_append, ih (by omega)]
    simp only [List.foldl_cons, List.foldl_nil]
    rw [hf k (by omega), hg k (by omega),
      abs_sub_whole _ _ B (hfB k (by omega)) (hgB k (by omega)) h2B, add_fin,
      round_of_int (∑ i ∈ Finset.range (k + 1), |f i - g i|)
        (by rw [Finset.sum_range_succ]; push_cast; rfl) hsum]
    rw [Finset.sum_range_succ]
    push_cast
    rfl

/-- On two series of `n ≥ 1` whole numbers of magnitude at most `B`, with
`n * (2 * B) < 2^53`, the average difference computed is the mean absolute
difference rounded once to a double. -/
theorem calculateAverageDifference_whole (a b : List ℚ) (f g : ℕ → ℤ) (B : ℤ)
    (hab : a.length = b.length)
    (hf : ∀ i < a.length, a.getD i 0 = (f i : ℚ)) (hg : ∀ i < a.length, b.getD i 0 = (g i : ℚ))
    (hfB : ∀ i < a.length, |f i| ≤ B) (hgB : ∀ i < a.length, |g i| ≤ B)
    (hb : (a.length : ℤ) * (2 * B) < 2 ^ 53) (hn : a.length ≠ 0) :
    calculateAverageDifference a b = .ok (round (meanAbsDiff a b)) := by
  have h0 : (a.length : ℚ) ≠ 0 := by exact_mod_cast hn
  have hmean : meanAbsDiff a b
      = ((∑ i ∈ Finset.range a.length, |f i - g i| : ℤ) : ℚ) / (a.length : ℚ) := by
    simp only [meanAbsDiff]
    congr 1
    push_cast
    refine Finset.sum_congr rfl fun i hi => ?_
    have hi2 := Finset.mem_range.1 hi
    rw [hf i hi2, hg i hi2]
  simp only [calculateAverageDifference, if_neg (not_not.2 hab)]
  rw [difference_exact_fold a b f g B hf hg hfB hgB hb a.length le_rfl, div_fin _ _ h0, hmean]

end Binary64

/-! ## Theorems: where double arithmetic departs from exact arithmetic -/

/-- C12, where the code departs from the claim: on the constant series 20.1
(7 times) and 15.3 (7 times) the computed means are not the values
themselves, the sums of squares `denom1` and `denom2` are not 0, the guard
`denom1 === 0 || denom2 === 0` does not fire and `calculateCorrelation`
returns 1, not 0; on 0.1, 0.1, 0.1 against 1, 2, 4 it returns a number that
is not 0. -/
theorem constant_series_correlation_nonzero :
    IsConstant (List.replicate 7 (201 / 10)) ∧ IsConstant (List.replicate 7 (153 / 10)) ∧
    (Binary64.correlationSums (List.replicate 7 (201 / 10)) (List.replicate 7 (153 / 10))).denom1
      ≠ JsNum.fin 0 ∧
    (Binary64.correlationSums (List.replicate 7 (201 / 10)) (List.replicate 7 (153 / 10))).denom2
      ≠ JsNum.fin 0 ∧
    Binary64.calculateCorrelation (List.replicate 7 (201 / 10)) (List.replicate 7 (153 / 10))
      = .ok (JsNum.fin 1) ∧
    Binary64.calculateCorrelation [1 / 10, 1 / 10, 1 / 10] [1, 2, 4]
      = .ok (JsNum.fin (2407275258974741 / 20282409603651670423947251286016)) ∧
    calculateCorrelation (List.replicate 7 (201 / 10)) (List.replicate 7 (153 / 10))
      = .ok (JsSurd.ofRat 0) := by
  refine ⟨?_, ?_, by decide!, by decide!, by decide!, by decide!, by decide!⟩
  · intro x hx y hy
    rw [List.eq_of_mem_replicate hx, List.eq_of_mem_replicate hy]
  · intro x hx y hy
    rw [List.eq_of_mem_replicate hx, List.eq_of_mem_replicate hy]

/-- C26, where the code departs from the claim: on the 5 temperatures 15,
15, 15, 15, 16 the latest reading lies exactly 2 standard deviations from
the mean (mean 15.2, variance 0.16), but the computed difference
`|16 - mean|` is 0.8000000000000007 and the computed `stdDev * 2` is 0.8, so
`detectAnomalies` reports a temperature anomaly, with confidence 50. -/
theorem five_readings_anomaly :
    fiveReadings.length = 5 ∧
    (latestOf (fiveReadings.map fun d => d.temperature)
        - meanOf (fiveReadings.map fun d => d.temperature)) ^ 2
      = 4 * variance (fiveReadings.map fun d => d.temperature) ∧
    (Binary64.calculateStats (fiveReadings.map fun d => d.temperature)).mean
      = Binary64.num (152 / 10) ∧
    JsNum.abs (Binary64.sub (JsNum.fin 16)
        (Binary64.calculateStats (fiveReadings.map fun d => d.temperature)).mean)
      = JsNum.fin (225179981368525 / 281474976710656) ∧
    Binary64.mul (Binary64.calculateStats (fiveReadings.map fun d => d.temperature)).stdDev
        (JsNum.fin 2)
      = Binary64.num (8 / 10) ∧
    Binary64.num (8 / 10) = JsNum.fin (3602879701896397 / 4503599627370496) ∧
    (3602879701896397 / 4503599627370496 : ℚ) < 225179981368525 / 281474976710656 ∧
    Binary64.detectAnomalies (some fiveReadings)
      = [{ type := "temperature", description := .unusualTemperature (JsNum.fin 16),
           confidence := JsNum.fin 50 }] := by
  refine ⟨by decide, by decide!, by decide!, by decide!, by decide!, by decide!, by norm_num,
    by decide!⟩

/-- C27, where the code departs from the claim: `calculateCorrelation` on
0.1, 0.2, 0.5 and 1.5, 2, 3.5 returns 1.0000000000000002, a number above
1. -/
theorem correlation_above_one :
    [(1 : ℚ) / 10, 2 / 10, 5 / 10].length = [(15 : ℚ) / 10, 2, 35 / 10].length ∧
    Binary64.calculateCorrelation [1 / 10, 2 / 10, 5 / 10] [15 / 10, 2, 35 / 10]
      = .ok (JsNum.fin (4503599627370497 / 4503599627370496)) ∧
    JsNum.gt (JsNum.fin (4503599627370497 / 4503599627370496)) (JsNum.fin 1) = true := by
  refine ⟨rfl, by decide!, by decide!⟩

/-- Counterexample to C7 as stated: on the doubles 0.1 and 0.2 the
least-squares slope is their difference, the double 0.1, which is above
1/10, while the slope `analyzeTempTrend` and `analyzeTrend` compute is
0.09999999999999998 and the direction `analyzeTempTrend` reports is
`stable`. -/
theorem slope_differs_from_least_squares :
    olsSlope [Binary64.value (1 / 10), Binary64.value (2 / 10)]
      = 3602879701896397 / 36028797018963968 ∧
    (1 / 10 : ℚ) < olsSlope [Binary64.value (1 / 10), Binary64.value (2 / 10)] ∧
    (Binary64.analyzeTempTrend (some [atTemperature (1 / 10), atTemperature (2 / 10)])).slope
      = some (JsNum.fin (900719925474099 / 9007199254740992)) ∧
    (Binary64.analyzeTempTrend (some [atTemperature (1 / 10), atTemperature (2 / 10)])).trend
      = "stable" ∧
    (Binary64.analyzeTrend [1 / 10, 2 / 10]).slope
      = JsNum.fin (900719925474099 / 9007199254740992) ∧
    (900719925474099 / 9007199254740992 : ℚ) ≠ 3602879701896397 / 36028797018963968 := by
  refine ⟨by decide!, by decide!, by decide!, by decide!, by decide!, by norm_num⟩

/-- Counterexample to C8 as stated: the temperatures 20 and 20.05 increase
and are reported `stable` (the slope computed is 0.05000000000000426), and
the temperatures 20.05 and 20 decrease and are reported `stable`. -/
theorem increasing_doubles_reported_stable :
    Binary64.value 20 < Binary64.value (401 / 20) ∧
    (Binary64.analyzeTempTrend (some [atTemperature 20, atTemperature (401 / 20)])).slope
      = some (JsNum.fin (7036874417767 / 140737488355328)) ∧
    (Binary64.analyzeTempTrend (some [atTemperature 20, atTemperature (401 / 20)])).trend
      = "stable" ∧
    (Binary64.analyzeTempTrend (some [atTemperature (401 / 20), atTemperature 20])).trend
      = "stable" := by
  refine ⟨by decide!, by decide!, by decide!, by decide!⟩

/-- Counterexample to C13 as stated: on the temperatures 20, 20, 20, 20, 22
the latest reading lies exactly 2 standard deviations from the mean (mean
20.4, variance 0.64), so `|latest - mean| > 2 * stddev` does not hold, yet
the difference computed is 1.6000000000000014 against 1.6 and a temperature
anomaly is reported; on the temperatures 0, 0, 0, 0, 0, 6 the value
`min((|latest - mean| / stdDev) * 25, 95)` computed is 55.90169943749474,
and the confidence reported is 56. -/
theorem anomaly_confidence_is_rounded :
    (latestOf [20, 20, 20, 20, 22] - meanOf [20, 20, 20, 20, 22]) ^ 2
      = 4 * variance [20, 20, 20, 20, 22] ∧
    Binary64.detectAnomalies
        (some [atTemperature 20, atTemperature 20, atTemperature 20, atTemperature 20,
          atTemperature 22])
      = [{ type := "temperature", description := .unusualTemperature (JsNum.fin 22),
           confidence := JsNum.fin 50 }] ∧
    JsNum.min
        (Binary64.mul
          (Binary64.div
            (JsNum.abs (Binary64.sub (JsNum.fin 6)
              (Binary64.calculateStats
                ((anomalySample true false false).map fun d => d.temperature)).mean))
            (Binary64.calculateStats
              ((anomalySample true false false).map fun d => d.temperature)).stdDev)
          (JsNum.fin 25))
        (JsNum.fin 95)
      = JsNum.fin (3933732386813731 / 70368744177664) ∧
    Binary64.detectAnomalies (some (anomalySample true false false))
      = [{ type := "temperature", description := .unusualTemperature (JsNum.fin 6),
           confidence := JsNum.fin 56 }] ∧
    (3933732386813731 / 70368744177664 : ℚ) ≠ 56 := by
  refine ⟨by decide!, by decide!, by decide!, by decide!, by norm_num⟩

/-- Counterexample to C16 as stated: the pressures 1019.4 (4 times) and
1025.4 differ by exactly 6, not more, but the doubles read differ by
6.000000000000114 and a pressure increase is reported, with confidence
30.00000000000057; and with the pressures `0.5 - 2^-54` and 6.5 two readings
apart the difference is `6 + 2^-54`, above 6, but it is rounded to 6 and no
pressure anomaly is reported. -/
theorem pressure_step_rounded_away :
    ¬ (6 : ℚ) < |10254 / 10 - 10194 / 10| ∧
    Binary64.detectAnomalies
        (some [atPressure (10194 / 10), atPressure (10194 / 10), atPressure (10194 / 10),
          atPressure (10194 / 10), atPressure (10254 / 10)])
      = [{ type := "pressure", description := .rapidPressure "increase" (JsNum.fin 6),
           confidence := JsNum.fin (263882790666245 / 8796093022208) }] ∧
    (263882790666245 / 8796093022208 : ℚ) ≠ 30 ∧
    Binary64.num (9007199254740991 / 18014398509481984)
      = JsNum.fin (9007199254740991 / 18014398509481984) ∧
    (6 : ℚ) < |13 / 2 - 9007199254740991 / 18014398509481984| ∧
    Binary64.detectAnomalies
        (some [atPressure 1, atPressure 1, atPressure (9007199254740991 / 18014398509481984),
          atPressure 1, atPressure (13 / 2)])
      = [] := by
  refine ⟨by norm_num, by decide!, by norm_num, by decide!, by norm_num [abs_of_pos],
    by decide!⟩

/-- Counterexample to C17 as stated: on the humidities 10.6 and 25.6 the
mean absolute step is exactly 15, not above, but the step computed is
15.000000000000002 and the suffix is appended; on the humidities 15.4 and
0.4 the mean absolute step of the two doubles is above 15, the step computed
is 15, and no suffix is appended. -/
theorem fluctuation_step_rounded_away :
    meanAbsStep [106 / 10, 256 / 10] = 15 ∧
    Binary64.calculateFluctuation [106 / 10, 256 / 10]
      = JsNum.fin (8444249301319681 / 562949953421312) ∧
    (Binary64.analyzeHumidity (some [atHumidity (106 / 10), atHumidity (256 / 10)])).pattern
      = "increasing humidity with significant fluctuations" ∧
    (15 : ℚ) < meanAbsStep [Binary64.value (154 / 10), Binary64.value (4 / 10)] ∧
    Binary64.calculateFluctuation [154 / 10, 4 / 10] = JsNum.fin 15 ∧
    (Binary64.analyzeHumidity (some [atHumidity (154 / 10), atHumidity (4 / 10)])).pattern
      = "decreasing humidity" := by
  refine ⟨by decide!, by decide!, by decide!, by decide!, by decide!, by decide!⟩

/-- Counterexample to C18 as stated: on the sample the coefficient computed
for the temperatures 20, 21, 23 and 20, 22, 23 is 0.9285714285714288 and the
mean difference 0.3333333333333333, while 0.93 and 0.3 are reported. -/
theorem correlation_report_is_rounded_double :
    Binary64.calculateCorrelation [20, 21, 23] [20, 22, 23]
      = .ok (JsNum.fin (522739242462647 / 562949953421312)) ∧
    Binary64.calculateAverageDifference [20, 21, 23] [20, 22, 23]
      = .ok (JsNum.fin (6004799503160661 / 18014398509481984)) ∧
    (Binary64.analyzeCorrelation (some senseSample) (some externalSample)).toOption.map
        (fun r => (r.temperature.correlation, r.temperature.difference))
      = some (JsNum.fin (93 / 100), some (JsNum.fin (3 / 10))) ∧
    (522739242462647 / 562949953421312 : ℚ) ≠ 93 / 100 ∧
    (6004799503160661 / 18014398509481984 : ℚ) ≠ 3 / 10 := by
  refine ⟨by decide!, by decide!, by decide!, by norm_num, by norm_num⟩

/-- Counterexample to C19 as stated: from 125 to 125.1875 the value
`|last - first| / |first| * 100` is 0.15, which `toFixed(1)` renders 0.2,
while the value computed is 0.15 rounded down to a double and the magnitude
reported is 0.1; from -40 to -45.9 the value is 14.75, rendered 14.8, while
the value computed is 14.749999999999996 and the magnitude reported is
14.7. -/
theorem magnitude_of_rounded_quotient :
    |(1251875 / 10000 : ℚ) - 125| / |(125 : ℚ)| * 100 = 15 / 100 ∧
    JsNum.toFixed 1 (JsNum.fin (15 / 100)) = JsNum.fin (2 / 10) ∧
    Binary64.num 125 = JsNum.fin 125 ∧
    Binary64.num (1251875 / 10000) = JsNum.fin (1251875 / 10000) ∧
    (Binary64.analyzeTempTrend (some [atTemperature 125, atTemperature (1251875 / 10000)])).magnitude
      = JsNum.fin (1 / 10) ∧
    |(-459 / 10 : ℚ) - -40| / |(-40 : ℚ)| * 100 = 1475 / 100 ∧
    JsNum.toFixed 1 (JsNum.fin (1475 / 100)) = JsNum.fin (148 / 10) ∧
    (Binary64.analyzeTempTrend (some [atTemperature (-40), atTemperature (-459 / 10)])).magnitude
      = JsNum.fin (147 / 10) := by
  refine ⟨by norm_num [abs_of_pos], by decide!, by decide!, by decide!, by decide!,
    by norm_num [abs_of_neg], by decide!, by decide!⟩

/-- Counterexample to C28 as stated: on the temperatures 18.2, 18.4, 18.6
the ratio of the explained to the total variation computed is
1.0000000000000178, above 1, and the cap at 100 changes the confidence
before rounding. -/
theorem variation_ratio_above_one :
    ¬ IsConstant [Binary64.value (182 / 10), Binary64.value (184 / 10), Binary64.value (186 / 10)] ∧
    Binary64.div
        (Binary64.variations [182 / 10, 184 / 10, 186 / 10]
          (Binary64.regressionSums [182 / 10, 184 / 10, 186 / 10])
          (Binary64.regressionSlope 3 (Binary64.regressionSums [182 / 10, 184 / 10, 186 / 10]))
          (Binary64.div (Binary64.regressionSums [182 / 10, 184 / 10, 186 / 10]).sumY
            (JsNum.fin 3))).2
        (Binary64.variations [182 / 10, 184 / 10, 186 / 10]
          (Binary64.regressionSums [182 / 10, 184 / 10, 186 / 10])
          (Binary64.regressionSlope 3 (Binary64.regressionSums [182 / 10, 184 / 10, 186 / 10]))
          (Binary64.div (Binary64.regressionSums [182 / 10, 184 / 10, 186 / 10]).sumY
            (JsNum.fin 3))).1
      = JsNum.fin (281474976710661 / 281474976710656) ∧
    (1 : ℚ) < 281474976710661 / 281474976710656 ∧
    JsNum.min (JsNum.abs (Binary64.mul (JsNum.fin (281474976710661 / 281474976710656))
        (JsNum.fin 100))) (JsNum.fin 100) = JsNum.fin 100 ∧
    Binary64.mul (JsNum.fin (281474976710661 / 281474976710656)) (JsNum.fin 100)
      ≠ JsNum.fin 100 := by
  refine ⟨?_, by decide!, by norm_num, by decide!, by decide!⟩
  intro h
  have := h (Binary64.value (182 / 10)) (by simp) (Binary64.value (184 / 10)) (by simp)
  revert this
  decide!

/-! ## Theorems: trend in double arithmetic -/

namespace Binary64

theorem num_tenth : num (1 / 10) = JsNum.fin (3602879701896397 / 36028797018963968) := by
  decide!

theorem num_twentieth : num (1 / 20) = JsNum.fin (3602879701896397 / 72057594037927936) := by
  decide!

theorem direction_cases (x : JsNum) (c : ℚ) (hc : 0 < c) (t : String)
    (ht : t = if JsNum.gt x (JsNum.fin c) = true then "rising"
      else if JsNum.lt x (JsNum.neg (JsNum.fin c)) = true then "falling" else "stable") :
    (t = "rising" ↔ JsNum.gt x (JsNum.fin c) = true) ∧
    (t = "falling" ↔ JsNum.lt x (JsNum.neg (JsNum.fin c)) = true) ∧
    (t = "stable" ↔ JsNum.gt x (JsNum.fin c) = false ∧
      JsNum.lt x (JsNum.neg (JsNum.fin c)) = false) := by
  have hboth : ¬ (JsNum.gt x (JsNum.fin c) = true ∧ JsNum.lt x (JsNum.neg (JsNum.fin c)) = true) := by
    rintro ⟨h1, h2⟩
    cases x with
    | fin a =>
      simp only [JsNum.gt, JsNum.lt, JsNum.neg, decide_eq_true_eq] at h1 h2
      linarith
    | posInf => simp [JsNum.lt, JsNum.neg] at h2
    | negInf => simp [JsNum.gt, JsNum.lt] at h1
    | nan => simp [JsNum.gt, JsNum.lt] at h1
  subst ht
  cases h1 : JsNum.gt x (JsNum.fin c) <;> cases h2 : JsNum.lt x (JsNum.neg (JsNum.fin c))
  · simp
  · simp
  · simp
  · exact absurd ⟨h1, h2⟩ hboth

/-- A double at or above 1/2 is above the doubles 0.1 and 0.05. -/
theorem gt_of_half_le {x : JsNum} (hx : x ≠ JsNum.nan)
    (h : JsNum.lt x (JsNum.fin (1 / 2)) = false) (c : ℚ) (hc : c < 1 / 2) :
    JsNum.gt x (JsNum.fin c) = true := by
  rcases not_lt_cases hx h with rfl | ⟨y, hy, rfl⟩
  · rfl
  · simp only [JsNum.gt, JsNum.lt, decide_eq_true_eq]
    linarith

theorem round_half_le {q : ℚ} (h : 1 / 2 ≤ q) : JsNum.lt (round q) (JsNum.fin (1 / 2)) = false := by
  have h1 : pow2 (-1) = 1 / 2 := by decide!
  have := round_ge 1 (-1) (by norm_num) (by norm_num) (by norm_num) (q := q)
    (by rw [h1]; simpa using h)
  rwa [h1, Int.cast_one, one_mul] at this

/-- A slope above 1/2 is rounded to a double above `c < 1/2`. -/
theorem round_gt_of_half_lt {q : ℚ} (h : 1 / 2 < q) (c : ℚ) (hc : c < 1 / 2) :
    JsNum.gt (round q) (JsNum.fin c) = true :=
  gt_of_half_le (round_ne_nan q) (round_half_le h.le) c hc

/-- A slope below -1/2 is rounded to a double below `-c`, for `0 < c < 1/2`. -/
theorem round_lt_of_lt_neg_half {q : ℚ} (h : q < -(1 / 2)) (c : ℚ) (hc : c < 1 / 2) :
    JsNum.lt (round q) (JsNum.neg (JsNum.fin c)) = true := by
  have hq : round q = JsNum.neg (round (-q)) := by rw [← round_neg, neg_neg]
  have h2 : (1 : ℚ) / 2 ≤ -q := by linarith
  rw [hq]
  rcases not_lt_cases (round_ne_nan (-q)) (round_half_le h2) with hx | ⟨y, hy, hx⟩
  · rw [hx]
    rfl
  · rw [hx]
    simp only [JsNum.lt, JsNum.neg, decide_eq_true_eq]
    linarith

/-- A series of whole numbers as a function of the index. -/
theorem whole_series (values : List ℚ) (B : ℤ)
    (hw : ∀ v ∈ values, ∃ z : ℤ, v = (z : ℚ) ∧ |z| ≤ B) :
    ∃ f : ℕ → ℤ, (∀ i < values.length, values.getD i 0 = (f i : ℚ)) ∧
      ∀ i < values.length, |f i| ≤ B := by
  have hmem : ∀ i < values.length, values.getD i 0 ∈ values := by
    intro i hi
    rw [List.getD_eq_getElem _ _ hi]
    exact List.getElem_mem _
  refine ⟨fun i => ⌊values.getD i 0⌋, fun i hi => ?_, fun i hi => ?_⟩
  · obtain ⟨z, hz, -⟩ := hw _ (hmem i hi)
    show values.getD i 0 = ((⌊values.getD i 0⌋ : ℤ) : ℚ)
    rw [hz]
    simp
  · obtain ⟨z, hz, hzB⟩ := hw _ (hmem i hi)
    show |⌊values.getD i 0⌋| ≤ B
    rw [hz]
    simpa using hzB

/-- On a series of at least 2 whole numbers of magnitude at most `B`, with
`n ≤ B` and `n^3 * B < 2^52`, the slope computed is the least-squares slope
rounded once to a double. -/
theorem slope_of_whole_series (values : List ℚ) (B : ℤ) (hn : 2 ≤ values.length)
    (hw : ∀ v ∈ values, ∃ z : ℤ, v = (z : ℚ) ∧ |z| ≤ B) (hnB : (values.length : ℤ) ≤ B)
    (hb : (values.length : ℤ) ^ 3 * B < 2 ^ 52) :
    regressionSlope values.length (regressionSums values) = round (olsSlope values) := by
  obtain ⟨f, hf, hfB⟩ := whole_series values B hw
  exact regressionSlope_exact values f B hf hfB hnB hb hn

theorem analyzeTempTrend_slope_trend (data : List DataPoint) (hn : 2 ≤ data.length) :
    (analyzeTempTrend (some data)).slope
      = some (regressionSlope (data.map fun d => d.temperature).length
          (regressionSums (data.map fun d => d.temperature))) ∧
    (analyzeTempTrend (some data)).trend
      = if JsNum.gt (regressionSlope (data.map fun d => d.temperature).length
            (regressionSums (data.map fun d => d.temperature))) (num (1 / 10)) = true
        then "rising"
        else if JsNum.lt (regressionSlope (data.map fun d => d.temperature).length
            (regressionSums (data.map fun d => d.temperature))) (JsNum.neg (num (1 / 10))) = true
        then "falling" else "stable" := by
  have h : ¬ data.length < 2 := by omega
  constructor <;> simp only [analyzeTempTrend, if_neg h, List.length_map]

end Binary64

namespace Binary64

/-- Consecutive whole numbers in increasing order differ by more than 1/2. -/
theorem whole_steps_up (ys : List ℚ) (hw : ∀ v ∈ ys, ∃ z : ℤ, v = (z : ℚ))
    (h : ys.Chain' (fun a b => a < b)) : ys.Chain' (fun a b => a + 1 / 2 < b) := by
  rw [List.chain'_iff_get] at h ⊢
  intro i hi
  have hlt := h i hi
  obtain ⟨z1, h1⟩ := hw _ (List.get_mem ys i (by omega))
  obtain ⟨z2, h2⟩ := hw _ (List.get_mem ys (i + 1) (by omega))
  rw [h1, h2] at hlt ⊢
  have hz : z1 < z2 := by exact_mod_cast hlt
  have hz1 : ((z1 + 1 : ℤ) : ℚ) ≤ (z2 : ℚ) := by exact_mod_cast (show z1 + 1 ≤ z2 by omega)
  push_cast at hz1
  linarith

/-- Consecutive whole numbers in decreasing order differ by more than 1/2. -/
theorem whole_steps_down (ys : List ℚ) (hw : ∀ v ∈ ys, ∃ z : ℤ, v = (z : ℚ))
    (h : ys.Chain' (fun a b => a > b)) : ys.Chain' (fun a b => b + 1 / 2 < a) := by
  rw [List.chain'_iff_get] at h ⊢
  intro i hi
  have hlt := h i hi
  obtain ⟨z1, h1⟩ := hw _ (List.get_mem ys i (by omega))
  obtain ⟨z2, h2⟩ := hw _ (List.get_mem ys (i + 1) (by omega))
  rw [h1, h2] at hlt ⊢
  have hz : z2 < z1 := by exact_mod_cast hlt
  have hz1 : ((z2 + 1 : ℤ) : ℚ) ≤ (z1 : ℚ) := by exact_mod_cast (show z2 + 1 ≤ z1 by omega)
  push_cast at hz1
  linarith

end Binary64

/-- C7, as amended: for a series of at least 2 values the slope returned by
`analyzeTempTrend` (on the temperatures) and by `analyzeTrend` is the double
`(n * sumXY - sumX * sumY) / (n * sumX2 - sumX * sumX)` computed from the
four sums of the loop, every addition, product, difference and the quotient
rounded to a double; on a series of whole numbers of magnitude at most `B`,
with `n ≤ B` and `n^3 * B < 2^52`, nothing is rounded before the quotient
and the slope is the least-squares slope rounded once to a double.
`analyzeTempTrend` reports `rising` iff the slope computed is above the
double 0.1, `falling` iff it is below the double -0.1 and `stable` otherwise,
and `analyzeTrend` does so with the doubles 0.05 and -0.05. -/
theorem slope_is_rounded_least_squares (data : List DataPoint) (values : List ℚ)
    (hd : 2 ≤ data.length) (hv : 2 ≤ values.length) :
    ((Binary64.analyzeTempTrend (some data)).slope
        = some (Binary64.regressionSlope (data.map fun d => d.temperature).length
            (Binary64.regressionSums (data.map fun d => d.temperature))) ∧
      (∀ B : ℤ, (∀ v ∈ data.map (fun d => d.temperature), ∃ z : ℤ, v = (z : ℚ) ∧ |z| ≤ B) →
        (data.length : ℤ) ≤ B → (data.length : ℤ) ^ 3 * B < 2 ^ 52 →
        (Binary64.analyzeTempTrend (some data)).slope
          = some (Binary64.round (olsSlope (data.map fun d => d.temperature)))) ∧
      ((Binary64.analyzeTempTrend (some data)).trend = "rising"
        ↔ JsNum.gt (Binary64.regressionSlope (data.map fun d => d.temperature).length
            (Binary64.regressionSums (data.map fun d => d.temperature)))
            (Binary64.num (1 / 10)) = true) ∧
      ((Binary64.analyzeTempTrend (some data)).trend = "falling"
        ↔ JsNum.lt (Binary64.regressionSlope (data.map fun d => d.temperature).length
            (Binary64.regressionSums (data.map fun d => d.temperature)))
            (JsNum.neg (Binary64.num (1 / 10))) = true) ∧
      ((Binary64.analyzeTempTrend (some data)).trend = "stable"
        ↔ JsNum.gt (Binary64.regressionSlope (data.map fun d => d.temperature).length
            (Binary64.regressionSums (data.map fun d => d.temperature)))
            (Binary64.num (1 / 10)) = false ∧
          JsNum.lt (Binary64.regressionSlope (data.map fun d => d.temperature).length
            (Binary64.regressionSums (data.map fun d => d.temperature)))
            (JsNum.neg (Binary64.num (1 / 10))) = false)) ∧
    ((Binary64.analyzeTrend values).slope
        = Binary64.regressionSlope values.length (Binary64.regressionSums values) ∧
      (∀ B : ℤ, (∀ v ∈ values, ∃ z : ℤ, v = (z : ℚ) ∧ |z| ≤ B) →
        (values.length : ℤ) ≤ B → (values.length : ℤ) ^ 3 * B < 2 ^ 52 →
        (Binary64.analyzeTrend values).slope = Binary64.round (olsSlope values)) ∧
      ((Binary64.analyzeTrend values).trend = "rising"
        ↔ JsNum.gt (Binary64.analyzeTrend values).slope (Binary64.num (1 / 20)) = true) ∧
      ((Binary64.analyzeTrend values).trend = "falling"
        ↔ JsNum.lt (Binary64.analyzeTrend values).slope (JsNum.neg (Binary64.num (1 / 20)))
          = true) ∧
      ((Binary64.analyzeTrend values).trend = "stable"
        ↔ JsNum.gt (Binary64.analyzeTrend values).slope (Binary64.num (1 / 20)) = false ∧
          JsNum.lt (Binary64.analyzeTrend values).slope (JsNum.neg (Binary64.num (1 / 20)))
            = false)) ∧
    (∀ (n : Nat) (s : Binary64.Sums),
      Binary64.regressionSlope n s
        = Binary64.div
            (Binary64.sub (Binary64.mul (JsNum.fin n) s.sumXY) (Binary64.mul s.sumX s.sumY))
            (Binary64.sub (Binary64.mul (JsNum.fin n) s.sumX2) (Binary64.mul s.sumX s.sumX))) := by
  obtain ⟨hslope, htrend⟩ := Binary64.analyzeTempTrend_slope_trend data hd
  have hlen : (data.map fun d => d.temperature).length = data.length := List.length_map _ _
  refine ⟨⟨hslope, ?_, ?_⟩, ⟨rfl, ?_, ?_⟩, fun _ _ => rfl⟩
  · intro B hw hnB hb
    rw [hslope, Binary64.slope_of_whole_series _ B (by rw [hlen]; exact hd) hw
      (by rw [hlen]; exact hnB) (by rw [hlen]; exact hb)]
  · rw [Binary64.num_tenth] at htrend ⊢
    exact Binary64.direction_cases _ _ (by norm_num) _ htrend
  · intro B hw hnB hb
    exact Binary64.slope_of_whole_series values B hv hw hnB hb
  · have ht : (Binary64.analyzeTrend values).trend
        = if JsNum.gt (Binary64.analyzeTrend values).slope (Binary64.num (1 / 20)) = true
          then "rising"
          else if JsNum.lt (Binary64.analyzeTrend values).slope
              (JsNum.neg (Binary64.num (1 / 20))) = true
          then "falling" else "stable" := rfl
    rw [Binary64.num_twentieth] at ht ⊢
    exact Binary64.direction_cases _ _ (by norm_num) _ ht

/-- Witness of C7 as amended: temperatures 20, 21, 23 have slope 3/2 and are
`rising`; the pressures 1025, ..., 1021 have slope -1 and are `falling`. -/
theorem slope_is_rounded_least_squares_witness :
    2 ≤ [atTemperature 20, atTemperature 21, atTemperature 23].length ∧
    2 ≤ fallingPressures.length ∧
    (Binary64.analyzeTempTrend (some [atTemperature 20, atTemperature 21, atTemperature 23])).slope
      = some (Binary64.round (olsSlope
          ([atTemperature 20, atTemperature 21, atTemperature 23].map fun d => d.temperature))) ∧
    (Binary64.analyzeTrend fallingPressures).slope = Binary64.round (olsSlope fallingPressures) ∧
    (Binary64.analyzeTempTrend (some [atTemperature 20, atTemperature 21, atTemperature 23])).slope
      = some (JsNum.fin (3 / 2)) ∧
    (Binary64.analyzeTempTrend (some [atTemperature 20, atTemperature 21, atTemperature 23])).trend
      = "rising" ∧
    (Binary64.analyzeTrend fallingPressures).slope = JsNum.fin (-1) ∧
    (Binary64.analyzeTrend fallingPressures).trend = "falling" :=
  ⟨by decide, by decide,
   (slope_is_rounded_least_squares [atTemperature 20, atTemperature 21, atTemperature 23]
     fallingPressures (by decide) (by decide)).1.2.1 1024
     (by
       intro v hv
       simp only [List.map_cons, List.map_nil, atTemperature, List.mem_cons, List.mem_singleton,
         List.not_mem_nil, or_false] at hv
       rcases hv with rfl | rfl | rfl
       · exact ⟨20, by norm_num, by decide⟩
       · exact ⟨21, by norm_num, by decide⟩
       · exact ⟨23, by norm_num, by decide⟩)
     (by decide) (by decide),
   (slope_is_rounded_least_squares [atTemperature 20, atTemperature 21, atTemperature 23]
     fallingPressures (by decide) (by decide)).2.1.2.1 2048
     (by
       intro v hv
       simp only [fallingPressures, List.mem_cons, List.mem_singleton, List.not_mem_nil,
         or_false] at hv
       rcases hv with rfl | rfl | rfl | rfl | rfl
       · exact ⟨1025, by norm_num, by decide⟩
       · exact ⟨1024, by norm_num, by decide⟩
       · exact ⟨1023, by norm_num, by decide⟩
       · exact ⟨1022, by norm_num, by decide⟩
       · exact ⟨1021, by norm_num, by decide⟩)
     (by decide) (by decide),
   by decide!, by decide!, by decide!, by decide!⟩

/-- C8, as amended: `analyzeTempTrend` decides the direction on the slope it
computes in double arithmetic, `rising` iff that slope is above the double
0.1 and `falling` iff it is below the double -0.1, so a series that
increases by small steps is reported `stable`. For a series of at least 2
whole numbers of magnitude at most `B`, with `n ≤ B` and `n^3 * B < 2^52`,
where the slope computed is the least-squares slope rounded once: a
strictly increasing series is reported `rising` and a strictly decreasing
series `falling`. -/
theorem monotone_whole_series_trend (data : List DataPoint) (hn : 2 ≤ data.length) :
    ((Binary64.analyzeTempTrend (some data)).trend = "rising"
      ↔ JsNum.gt (Binary64.regressionSlope (data.map fun d => d.temperature).length
          (Binary64.regressionSums (data.map fun d => d.temperature)))
          (Binary64.num (1 / 10)) = true) ∧
    ((Binary64.analyzeTempTrend (some data)).trend = "falling"
      ↔ JsNum.lt (Binary64.regressionSlope (data.map fun d => d.temperature).length
          (Binary64.regressionSums (data.map fun d => d.temperature)))
          (JsNum.neg (Binary64.num (1 / 10))) = true) ∧
    (∀ B : ℤ, (∀ v ∈ data.map (fun d => d.temperature), ∃ z : ℤ, v = (z : ℚ) ∧ |z| ≤ B) →
      (data.length : ℤ) ≤ B → (data.length : ℤ) ^ 3 * B < 2 ^ 52 →
      ((data.map (fun d => d.temperature)).Sorted (· < ·) →
        (Binary64.analyzeTempTrend (some data)).trend = "rising") ∧
      ((data.map (fun d => d.temperature)).Sorted (· > ·) →
        (Binary64.analyzeTempTrend (some data)).trend = "falling")) := by
  obtain ⟨hslope, htrend⟩ := Binary64.analyzeTempTrend_slope_trend data hn
  have hlen : (data.map fun d => d.temperature).length = data.length := List.length_map _ _
  have hl : 2 ≤ (data.map fun d => d.temperature).length := by rw [hlen]; exact hn
  have htrend2 := htrend
  rw [Binary64.num_tenth] at htrend2
  obtain ⟨hr, hf, -⟩ := Binary64.direction_cases _ _ (by norm_num) _ htrend2
  rw [← Binary64.num_tenth] at hr hf
  refine ⟨hr, hf, ?_⟩
  intro B hw hnB hb
  have hex := Binary64.slope_of_whole_series _ B hl hw (by rw [hlen]; exact hnB)
    (by rw [hlen]; exact hb)
  have hw2 : ∀ v ∈ data.map (fun d => d.temperature), ∃ z : ℤ, v = (z : ℚ) := by
    intro v hv
    obtain ⟨z, hz, -⟩ := hw v hv
    exact ⟨z, hz⟩
  constructor
  · intro hs
    have hols := olsSlope_gt_of_steps _ (1 / 2) hl
      (Binary64.whole_steps_up _ hw2 (List.Pairwise.chain' hs))
    rw [hr, hex, Binary64.num_tenth]
    exact Binary64.round_gt_of_half_lt hols _ (by norm_num)
  · intro hs
    have hols := olsSlope_lt_of_steps _ (1 / 2) hl
      (Binary64.whole_steps_down _ hw2 (List.Pairwise.chain' hs))
    rw [hf, hex, Binary64.num_tenth]
    exact Binary64.round_lt_of_lt_neg_half hols _ (by norm_num)

/-- Witness of C8 as amended: the whole numbers 20, 21, 23 are `rising` and
23, 21, 20 are `falling`. -/
theorem monotone_whole_series_trend_witness :
    2 ≤ [atTemperature 20, atTemperature 21, atTemperature 23].length ∧
    2 ≤ [atTemperature 23, atTemperature 21, atTemperature 20].length ∧
    ([atTemperature 20, atTemperature 21, atTemperature 23].map
      (fun d => d.temperature)).Sorted (· < ·) ∧
    ([atTemperature 23, atTemperature 21, atTemperature 20].map
      (fun d => d.temperature)).Sorted (· > ·) ∧
    (Binary64.analyzeTempTrend (some [atTemperature 20, atTemperature 21, atTemperature 23])).trend
      = "rising" ∧
    (Binary64.analyzeTempTrend (some [atTemperature 23, atTemperature 21, atTemperature 20])).trend
      = "falling" :=
  ⟨by decide, by decide, by decide!, by decide!,
   ((monotone_whole_series_trend [atTemperature 20, atTemperature 21, atTemperature 23]
     (by decide)).2.2 1024
     (by
       intro v hv
       simp only [List.map_cons, List.map_nil, atTemperature, List.mem_cons, List.mem_singleton,
         List.not_mem_nil, or_false] at hv
       rcases hv with rfl | rfl | rfl
       · exact ⟨20, by norm_num, by decide⟩
       · exact ⟨21, by norm_num, by decide⟩
       · exact ⟨23, by norm_num, by decide⟩)
     (by decide) (by decide)).1 (by decide!),
   ((monotone_whole_series_trend [atTemperature 23, atTemperature 21, atTemperature 20]
     (by decide)).2.2 1024
     (by
       intro v hv
       simp only [List.map_cons, List.map_nil, atTemperature, List.mem_cons, List.mem_singleton,
         List.not_mem_nil, or_false] at hv
       rcases hv with rfl | rfl | rfl
       · exact ⟨23, by norm_num, by decide⟩
       · exact ⟨21, by norm_num, by decide⟩
       · exact ⟨20, by norm_num, by decide⟩)
     (by decide) (by decide)).2 (by decide!)⟩

namespace Binary64

theorem min_eq_cap {x : JsNum} {c : ℚ} (hx : x ≠ JsNum.nan)
    (h : JsNum.lt x (JsNum.fin c) = false) : JsNum.min x (JsNum.fin c) = JsNum.fin c := by
  cases x with
  | fin a =>
    simp only [JsNum.lt, decide_eq_false_iff_not, not_lt] at h
    simp only [JsNum.min, JsNum.lt]
    split_ifs with h1
    · rfl
    · simp only [decide_eq_true_eq, not_lt] at h1
      rw [le_antisymm h1 h]
  | posInf => rfl
  | negInf => simp [JsNum.lt] at h
  | nan => exact absurd rfl hx

theorem round_hundred_ge {q : ℚ} (h : 100 ≤ q) :
    JsNum.lt (round q) (JsNum.fin 100) = false := by
  have := round_ge 100 0 (by norm_num) (by norm_num) (by norm_num) (q := q)
    (by rw [show pow2 0 = 1 by decide!]; simpa using h)
  rwa [show pow2 0 = 1 by decide!, mul_one] at this

/-- The two chains of caps give the same number: `min(|r * 100|, 100)` of
`analyzeTempTrend` and `min(min(|r|, 1) * 100, 100)` of `analyzeTrend`. -/
theorem caps_agree (r : JsNum) :
    JsNum.min (JsNum.abs (mul r (JsNum.fin 100))) (JsNum.fin 100)
      = JsNum.min (mul (JsNum.min (JsNum.abs r) (JsNum.fin 1)) (JsNum.fin 100)) (JsNum.fin 100) := by
  cases r with
  | fin q =>
    have hl : JsNum.abs (mul (JsNum.fin q) (JsNum.fin 100)) = round (|q| * 100) := by
      show JsNum.abs (rnd (JsNum.fin q * JsNum.fin 100)) = _
      rw [JsNum.fin_mul_fin]
      show JsNum.abs (round (q * 100)) = _
      rw [abs_round, abs_mul, abs_of_pos (by norm_num : (0 : ℚ) < 100)]
    have hr : mul (JsNum.min (JsNum.abs (JsNum.fin q)) (JsNum.fin 1)) (JsNum.fin 100)
        = round (min |q| 1 * 100) := by
      rw [JsNum.abs, min_fin_fin]
      show rnd (JsNum.fin _ * JsNum.fin 100) = _
      rw [JsNum.fin_mul_fin]
      rfl
    rw [hl, hr]
    rcases le_or_lt |q| 1 with h | h
    · rw [min_eq_left h]
    · rw [min_eq_right h.le, one_mul, min_eq_cap (round_ne_nan _) (round_hundred_ge (by linarith))]
      decide!
  | posInf => decide!
  | negInf => decide!
  | nan => decide!

/-- The capped confidence, rendered with no decimals, is NaN or a whole
number from 0 to 100. -/
theorem capped_percent (r : JsNum) :
    IsPercent (JsNum.toFixed 0 (JsNum.min (JsNum.abs (mul r (JsNum.fin 100))) (JsNum.fin 100))) := by
  cases r with
  | fin q =>
    have hl : JsNum.abs (mul (JsNum.fin q) (JsNum.fin 100)) = round (|q| * 100) := by
      show JsNum.abs (rnd (JsNum.fin q * JsNum.fin 100)) = _
      rw [JsNum.fin_mul_fin]
      show JsNum.abs (round (q * 100)) = _
      rw [abs_round, abs_mul, abs_of_pos (by norm_num : (0 : ℚ) < 100)]
    rw [hl]
    rcases round_of_nonneg (by positivity : (0 : ℚ) ≤ |q| * 100) with h | ⟨y, hy, h⟩
    · rw [h]
      exact Or.inr ⟨100, le_rfl, by decide!⟩
    · rw [h, min_fin_fin]
      exact toFixed_zero_range _ (le_min hy (by norm_num)) (min_le_right _ _)
  | posInf => exact Or.inr ⟨100, le_rfl, by decide!⟩
  | negInf => exact Or.inr ⟨100, le_rfl, by decide!⟩
  | nan => exact Or.inl rfl

end Binary64

/-- C28, as amended: on at least 2 readings with temperatures `values`, the
ratio `r` of the explained to the total variation is computed in double
arithmetic and may exceed 1 by rounding, so the caps do act; all the same
`min(|r * 100|, 100)` of `analyzeTempTrend` and `min(min(|r|, 1) * 100, 100)`
of `analyzeTrend` are the same number, and the two functions return the same
slope and the same confidence, which is NaN or a whole number from 0 to 100;
their directions are decided on that slope with the thresholds 0.1 and
0.05. -/
theorem trend_confidence_agree_double (data : List DataPoint) (values : List ℚ)
    (hv : values = data.map fun d => d.temperature) (hn : 2 ≤ data.length) :
    (Binary64.analyzeTempTrend (some data)).slope = some (Binary64.analyzeTrend values).slope ∧
    (Binary64.analyzeTrend values).slope
      = Binary64.regressionSlope values.length (Binary64.regressionSums values) ∧
    (∀ r : JsNum,
      JsNum.min (JsNum.abs (Binary64.mul r (JsNum.fin 100))) (JsNum.fin 100)
        = JsNum.min (Binary64.mul (JsNum.min (JsNum.abs r) (JsNum.fin 1)) (JsNum.fin 100))
            (JsNum.fin 100)) ∧
    (Binary64.analyzeTempTrend (some data)).confidence = (Binary64.analyzeTrend values).confidence ∧
    IsPercent (Binary64.analyzeTrend values).confidence ∧
    ((Binary64.analyzeTempTrend (some data)).trend
      = if JsNum.gt (Binary64.analyzeTrend values).slope (Binary64.num (1 / 10)) then "rising"
        else if JsNum.lt (Binary64.analyzeTrend values).slope (JsNum.neg (Binary64.num (1 / 10)))
        then "falling" else "stable") ∧
    ((Binary64.analyzeTrend values).trend
      = if JsNum.gt (Binary64.analyzeTrend values).slope (Binary64.num (1 / 20)) then "rising"
        else if JsNum.lt (Binary64.analyzeTrend values).slope (JsNum.neg (Binary64.num (1 / 20)))
        then "falling" else "stable") := by
  have h : ¬ data.length < 2 := by omega
  subst hv
  have hT : (Binary64.analyzeTempTrend (some data)).confidence
      = (Binary64.analyzeTrend (data.map fun d => d.temperature)).confidence := by
    simp only [Binary64.analyzeTempTrend, if_neg h, Binary64.analyzeTrend, List.length_map,
      Binary64.caps_agree]
  refine ⟨?_, rfl, Binary64.caps_agree, hT, ?_, ?_, rfl⟩
  · simp only [Binary64.analyzeTempTrend, if_neg h, Binary64.analyzeTrend, List.length_map]
  · rw [← hT]
    simp only [Binary64.analyzeTempTrend, if_neg h]
    exact Binary64.capped_percent _
  · simp only [Binary64.analyzeTempTrend, if_neg h, Binary64.analyzeTrend, List.length_map]

/-- Witness of C28 as amended: on the temperatures 18.2, 18.4, 18.6 both
functions return the slope 0.20000000000000284 and the confidence 100. -/
theorem trend_confidence_agree_double_witness :
    [(182 : ℚ) / 10, 184 / 10, 186 / 10]
      = [atTemperature (182 / 10), atTemperature (184 / 10), atTemperature (186 / 10)].map
          (fun d => d.temperature) ∧
    2 ≤ [atTemperature (182 / 10), atTemperature (184 / 10), atTemperature (186 / 10)].length ∧
    (Binary64.analyzeTempTrend
        (some [atTemperature (182 / 10), atTemperature (184 / 10), atTemperature (186 / 10)])).confidence
      = (Binary64.analyzeTrend [182 / 10, 184 / 10, 186 / 10]).confidence ∧
    (Binary64.analyzeTrend [182 / 10, 184 / 10, 186 / 10]).confidence = JsNum.fin 100 ∧
    (Binary64.analyzeTrend [182 / 10, 184 / 10, 186 / 10]).slope
      = JsNum.fin (14073748835533 / 70368744177664) :=
  ⟨rfl, by decide,
   (trend_confidence_agree_double
     [atTemperature (182 / 10), atTemperature (184 / 10), atTemperature (186 / 10)]
     [182 / 10, 184 / 10, 186 / 10] rfl (by decide)).2.2.2.1,
   by decide!, by decide!⟩

/-! ## Theorems: magnitude, humidity and correlation in double arithmetic -/

namespace Binary64

/-- A double read from a rational is truthy unless it is 0. -/
theorem truthy_num (q : ℚ) : JsNum.truthy (num q) = decide (num q ≠ JsNum.fin 0) := by
  have h := round_ne_nan q
  unfold num
  cases hr : round q with
  | fin r => simp [JsNum.truthy]
  | posInf => simp [JsNum.truthy]
  | negInf => simp [JsNum.truthy]
  | nan => exact absurd hr h

theorem abs_ne_zero_double {x : JsNum} (h : x ≠ JsNum.fin 0) : JsNum.abs x ≠ JsNum.fin 0 := by
  cases x with
  | fin q =>
    have hq : q ≠ 0 := fun h0 => h (by rw [h0])
    simp only [JsNum.abs, ne_eq, JsNum.fin.injEq, abs_eq_zero]
    exact hq
  | posInf => simp [JsNum.abs]
  | negInf => simp [JsNum.abs]
  | nan => simp [JsNum.abs]

/-- The absolute value of the percent change is the percent change of the
absolute difference: rounding commutes with the sign. -/
theorem abs_percentChange (first last : JsNum) :
    JsNum.abs (mul (div (sub last first) (JsNum.abs first)) (JsNum.fin 100))
      = mul (div (JsNum.abs (sub last first)) (JsNum.abs first)) (JsNum.fin 100) := by
  rw [abs_mul_double, abs_div_double, abs_idem]
  rfl

end Binary64

/-- C19, as amended: on at least 2 points, with `first` and `last` the
doubles read from the first and the last temperature of the analysed window,
the magnitude `analyzeTempTrend` reports is the one-decimal rendering of the
double computed as `|last - first| / |first| * 100`, each of the three
operations rounded to a double, when `first` is not 0, where the divisor
`|first|` is not 0; it is 0 when `first` is 0; it is never negative. -/
theorem analyzeTempTrend_magnitude_double (data : List DataPoint) (hn : 2 ≤ data.length)
    (timeWindow : Option Int) (first last : ℚ)
    (hfirst : ((analysedWindow data timeWindow).map fun d => d.temperature).head? = some first)
    (hlast : ((analysedWindow data timeWindow).map fun d => d.temperature).getLast? = some last) :
    (Binary64.num first ≠ JsNum.fin 0 →
      JsNum.abs (Binary64.num first) ≠ JsNum.fin 0 ∧
      (Binary64.analyzeTempTrend (some data) timeWindow).magnitude
        = JsNum.toFixed 1
            (Binary64.mul
              (Binary64.div (JsNum.abs (Binary64.sub (Binary64.num last) (Binary64.num first)))
                (JsNum.abs (Binary64.num first)))
              (JsNum.fin 100))) ∧
    (Binary64.num first = JsNum.fin 0 →
      (Binary64.analyzeTempTrend (some data) timeWindow).magnitude = JsNum.fin 0) ∧
    JsNum.lt (Binary64.analyzeTempTrend (some data) timeWindow).magnitude (JsNum.fin 0) = false := by
  have hg : ¬ data.length < 2 := by omega
  have hmag : (Binary64.analyzeTempTrend (some data) timeWindow).magnitude
      = JsNum.toFixed 1 (JsNum.abs
          (if Binary64.num first ≠ JsNum.fin 0 then
            Binary64.mul
              (Binary64.div (Binary64.sub (Binary64.num last) (Binary64.num first))
                (JsNum.abs (Binary64.num first)))
              (JsNum.fin 100)
           else JsNum.fin 0)) := by
    cases timeWindow with
    | none =>
      simp only [analysedWindow] at hfirst hlast
      simp only [Binary64.analyzeTempTrend, if_neg hg, hfirst, hlast, Binary64.truthy_num,
        decide_eq_true_eq]
    | some w =>
      by_cases hw : w = 0
      · simp only [analysedWindow, if_pos hw] at hfirst hlast
        simp only [Binary64.analyzeTempTrend, if_neg hg, if_pos hw, hfirst, hlast,
          Binary64.truthy_num, decide_eq_true_eq]
      · simp only [analysedWindow, if_neg hw] at hfirst hlast
        simp only [Binary64.analyzeTempTrend, if_neg hg, if_neg hw, hfirst, hlast,
          Binary64.truthy_num, decide_eq_true_eq]
  refine ⟨fun h => ⟨Binary64.abs_ne_zero_double h, ?_⟩, fun h => ?_, ?_⟩
  · rw [hmag, if_pos h, Binary64.abs_percentChange]
  · rw [hmag, if_neg (not_not.2 h)]
    decide!
  · rw [hmag]
    exact Binary64.toFixed_abs_not_neg 1 _

/-- Witness of C19 as amended: from 125 to 125.1875 the magnitude is 0.1;
from 0 to 5 it is 0. -/
theorem analyzeTempTrend_magnitude_double_witness :
    2 ≤ [atTemperature 125, atTemperature (1251875 / 10000)].length ∧
    Binary64.num 125 ≠ JsNum.fin 0 ∧
    (Binary64.analyzeTempTrend (some [atTemperature 125, atTemperature (1251875 / 10000)])
        none).magnitude
      = JsNum.toFixed 1
          (Binary64.mul
            (Binary64.div
              (JsNum.abs (Binary64.sub (Binary64.num (1251875 / 10000)) (Binary64.num 125)))
              (JsNum.abs (Binary64.num 125)))
            (JsNum.fin 100)) ∧
    Binary64.mul
        (Binary64.div
          (JsNum.abs (Binary64.sub (Binary64.num (1251875 / 10000)) (Binary64.num 125)))
          (JsNum.abs (Binary64.num 125)))
        (JsNum.fin 100)
      = JsNum.fin (5404319552844595 / 36028797018963968) ∧
    (Binary64.analyzeTempTrend (some [atTemperature 0, atTemperature 5]) none).magnitude
      = JsNum.fin 0 :=
  ⟨by decide, by decide!,
   ((analyzeTempTrend_magnitude_double [atTemperature 125, atTemperature (1251875 / 10000)]
     (by decide) none 125 (1251875 / 10000) rfl rfl).1 (by decide!)).2,
   by decide!,
   (analyzeTempTrend_magnitude_double [atTemperature 0, atTemperature 5] (by decide) none 0 5
     rfl rfl).2.1 (by decide!)⟩

/-- C17, as amended: on at least 2 points, with `h` the double read from the
latest humidity, `analyzeHumidity` returns comfort `dry` iff `h < 30`,
`humid` iff `h > 70` and `comfortable` otherwise (so at 30 and at 70); the
pattern is `increasing humidity`, `decreasing humidity` or `stable humidity`
as the direction of `analyzeTrend` is rising, falling or neither, followed by
` with significant fluctuations` exactly when the double
`calculateFluctuation` computes, the sum of the rounded `|h[i] - h[i-1]|`
accumulated with rounded additions and divided by `n - 1`, is above 15; on
humidities that are whole numbers of magnitude at most `B`, with
`n * 2B < 2^53` and `n ≤ 2^49`, that double is the mean of the
`|h[i] - h[i-1]|` rounded once, and it is above 15 exactly when the mean
is. -/
theorem analyzeHumidity_comfort_pattern_double (data : List DataPoint) (hn : 2 ≤ data.length)
    (h : ℚ) (hh : Binary64.num (latestOf (data.map fun d => d.humidity)) = JsNum.fin h) :
    (Binary64.analyzeHumidity (some data)).currentHumidity = some (JsNum.fin h) ∧
    ((Binary64.analyzeHumidity (some data)).comfort = "dry" ↔ h < 30) ∧
    ((Binary64.analyzeHumidity (some data)).comfort = "humid" ↔ 70 < h) ∧
    ((Binary64.analyzeHumidity (some data)).comfort = "comfortable" ↔ 30 ≤ h ∧ h ≤ 70) ∧
    (Binary64.analyzeHumidity (some data)).pattern
      = (if (Binary64.analyzeTrend (data.map fun d => d.humidity)).trend = "rising" then
            "increasing humidity"
          else if (Binary64.analyzeTrend (data.map fun d => d.humidity)).trend = "falling" then
            "decreasing humidity"
          else "stable humidity") ++
        (if JsNum.gt (Binary64.calculateFluctuation (data.map fun d => d.humidity)) (JsNum.fin 15)
          then " with significant fluctuations"
          else "") ∧
    Binary64.calculateFluctuation (data.map fun d => d.humidity)
      = Binary64.div
          ((List.range' 1 (data.length - 1)).foldl
            (fun (acc : JsNum) (i : Nat) =>
              Binary64.add acc
                (JsNum.abs (Binary64.sub (Binary64.num ((data.map fun d => d.humidity).getD i 0))
                  (Binary64.num ((data.map fun d => d.humidity).getD (i - 1) 0)))))
            (JsNum.fin 0))
          (JsNum.fin ((data.length : ℚ) - 1)) ∧
    (∀ B : ℤ, (∀ v ∈ data.map (fun d => d.humidity), ∃ z : ℤ, v = (z : ℚ) ∧ |z| ≤ B) →
      (data.length : ℤ) * (2 * B) < 2 ^ 53 → (data.length : ℤ) ≤ 2 ^ 49 →
      Binary64.calculateFluctuation (data.map fun d => d.humidity)
        = Binary64.round (meanAbsStep (data.map fun d => d.humidity)) ∧
      (JsNum.gt (Binary64.calculateFluctuation (data.map fun d => d.humidity)) (JsNum.fin 15)
          = true
        ↔ 15 < meanAbsStep (data.map fun d => d.humidity))) := by
  have hg : ¬ data.length < 2 := by omega
  have hcomfort : (Binary64.analyzeHumidity (some data)).comfort
      = if h < 30 then "dry" else if 70 < h then "humid" else "comfortable" := by
    simp only [latestOf] at hh
    simp only [Binary64.analyzeHumidity, if_neg hg, hh, JsNum.gt, JsNum.lt, decide_eq_true_eq]
  refine ⟨?_, ?_, ?_, ?_, ?_, ?_, ?_⟩
  · simp only [latestOf] at hh
    simp only [Binary64.analyzeHumidity, if_neg hg, hh]
  · rw [hcomfort]
    split_ifs with h1 h2
    · simp [h1]
    · simp [h1]
    · simp [h1]
  · rw [hcomfort]
    split_ifs with h1 h2
    · have : ¬ 70 < h := by linarith
      simp [this]
    · simp [h2]
    · simp [h2]
  · rw [hcomfort]
    split_ifs with h1 h2
    · have : ¬ 30 ≤ h := by linarith
      simp [this]
    · have : ¬ h ≤ 70 := by linarith
      simp [this]
    · simp [not_lt.1 h1, not_lt.1 h2]
  · simp only [Binary64.analyzeHumidity, if_neg hg]
    by_cases hf : JsNum.gt (Binary64.calculateFluctuation (data.map fun d => d.humidity))
        (JsNum.fin 15) = true
    · simp only [if_pos hf]
    · simp only [if_neg hf, String.append_empty]
  · simp only [Binary64.calculateFluctuation, List.length_map, if_neg hg]
  · intro B hw hb h49
    have hlen : (data.map fun d => d.humidity).length = data.length := List.length_map _ _
    obtain ⟨f, hf, hfB⟩ := Binary64.whole_series _ B hw
    obtain ⟨hfl, hmean⟩ := Binary64.calculateFluctuation_whole _ f B hf hfB
      (by rw [hlen]; exact hb) (by rw [hlen]; exact hn)
    refine ⟨hfl, ?_⟩
    rw [hfl, hmean]
    apply Binary64.round_quotient_gt
    · rw [hlen]; omega
    · rw [hlen]
      have : ((data.length - 1 : ℕ) : ℤ) ≤ (data.length : ℤ) := by
        exact_mod_cast Nat.sub_le _ _
      linarith

/-- Witness of C17 as amended: humidities 30, 70, 30 end at 30, which is
`comfortable`; the mean step computed is 40 and the trend flat, so the
pattern is `stable humidity with significant fluctuations`. -/
theorem analyzeHumidity_comfort_pattern_double_witness :
    2 ≤ humiditySample.length ∧
    Binary64.num (latestOf (humiditySample.map fun d => d.humidity)) = JsNum.fin 30 ∧
    (Binary64.analyzeHumidity (some humiditySample)).comfort = "comfortable" ∧
    Binary64.calculateFluctuation (humiditySample.map fun d => d.humidity) = JsNum.fin 40 ∧
    (15 : ℚ) < meanAbsStep (humiditySample.map fun d => d.humidity) ∧
    (Binary64.analyzeHumidity (some humiditySample)).pattern
      = "stable humidity with significant fluctuations" :=
  ⟨by decide, by decide!,
   (analyzeHumidity_comfort_pattern_double humiditySample (by decide) 30 (by decide!)).2.2.2.1.2
     ⟨by norm_num, by norm_num⟩,
   by decide!,
   ((analyzeHumidity_comfort_pattern_double humiditySample (by decide) 30
     (by decide!)).2.2.2.2.2.2 128
     (by
       intro v hv
       simp only [humiditySample, List.map_cons, List.map_nil, List.mem_cons,
         List.mem_singleton, List.not_mem_nil, or_false] at hv
       rcases hv with rfl | rfl | rfl
       · exact ⟨30, by norm_num, by decide⟩
       · exact ⟨70, by norm_num, by decide⟩
       · exact ⟨30, by norm_num, by decide⟩)
     (by decide) (by decide)).2.1 (by decide!),
   by decide!⟩

namespace Binary64

theorem label_cases (desc s1 s2 s3 s4 : String) (c1 c2 c3 : Bool)
    (d12 : s1 ≠ s2) (d13 : s1 ≠ s3) (d14 : s1 ≠ s4) (d23 : s2 ≠ s3) (d24 : s2 ≠ s4)
    (d34 : s3 ≠ s4)
    (h : desc = if c1 = true then s1 else if c2 = true then s2 else if c3 = true then s3 else s4) :
    (desc = s1 ↔ c1 = true) ∧ (desc = s2 ↔ c1 = false ∧ c2 = true) ∧
    (desc = s3 ↔ c1 = false ∧ c2 = false ∧ c3 = true) ∧
    (desc = s4 ↔ c1 = false ∧ c2 = false ∧ c3 = false) := by
  subst h
  cases c1 <;> cases c2 <;> cases c3 <;>
    simp [d12, d13, d14, d23, d24, d34, d12.symm, d13.symm, d14.symm, d23.symm, d24.symm, d34.symm]

theorem calculateCorrelation_ok (a b : List ℚ) (hab : a.length = b.length) :
    calculateCorrelation a b
      = .ok (if (correlationSums a b).denom1 = JsNum.fin 0 ∨ (correlationSums a b).denom2 = JsNum.fin 0
          then JsNum.fin 0
          else div (correlationSums a b).numerator
            (sqrt (mul (correlationSums a b).denom1 (correlationSums a b).denom2))) := by
  simp only [calculateCorrelation, if_neg (not_not.2 hab)]
  split_ifs <;> rfl

theorem calculateAverageDifference_ok (a b : List ℚ) (hab : a.length = b.length) :
    calculateAverageDifference a b
      = .ok (div
          ((List.range a.length).foldl
            (fun (acc : JsNum) (i : Nat) =>
              add acc (JsNum.abs (sub (num (a.getD i 0)) (num (b.getD i 0)))))
            (JsNum.fin 0))
          (JsNum.fin a.length)) := by
  simp only [calculateAverageDifference, if_neg (not_not.2 hab)]

theorem analyzeCorrelation_double_eq (sh : List DataPoint) (ext : List ExternalPoint)
    (hs : 2 ≤ sh.length) (he : 2 ≤ ext.length) (rT rH dT dH : JsNum)
    (hT : calculateCorrelation ((sh.zip ext).map fun d => d.1.temperature)
      ((sh.zip ext).map fun d => d.2.temperature) = .ok rT)
    (hH : calculateCorrelation ((sh.zip ext).map fun d => d.1.humidity)
      ((sh.zip ext).map fun d => d.2.humidity) = .ok rH)
    (hdT : calculateAverageDifference ((sh.zip ext).map fun d => d.1.temperature)
      ((sh.zip ext).map fun d => d.2.temperature) = .ok dT)
    (hdH : calculateAverageDifference ((sh.zip ext).map fun d => d.1.humidity)
      ((sh.zip ext).map fun d => d.2.humidity) = .ok dH) :
    analyzeCorrelation (some sh) (some ext)
      = .ok
        { temperature :=
            { correlation := JsNum.toFixed 2 (JsNum.abs rT)
              description := getCorrelationDescription rT "temperature"
              difference := some (JsNum.toFixed 1 dT) }
          humidity :=
            { correlation := JsNum.toFixed 2 (JsNum.abs rH)
              description := getCorrelationDescription rH "humidity"
              difference := some (JsNum.toFixed 1 dH) } } := by
  have hg : ¬ (sh.length < 2 ∨ ext.length < 2) := by omega
  simp only [analyzeCorrelation, if_neg hg, matchDataPoints_eq_zip, hT, hH, hdT, hdH]
  rfl

/-- On paired series of whole numbers of magnitude at most `B`, with
`n * 2B < 2^53`, the average difference returned is the mean of the
`|a[i] - b[i]|` rounded once to a double. -/
theorem averageDifference_of_whole (a b : List ℚ) (B : ℤ) (hab : a.length = b.length)
    (hn : a.length ≠ 0) (d : JsNum) (hd : calculateAverageDifference a b = .ok d)
    (ha : ∀ v ∈ a, ∃ z : ℤ, v = (z : ℚ) ∧ |z| ≤ B)
    (hb : ∀ v ∈ b, ∃ z : ℤ, v = (z : ℚ) ∧ |z| ≤ B)
    (hB : (a.length : ℤ) * (2 * B) < 2 ^ 53) : d = round (meanAbsDiff a b) := by
  obtain ⟨f, hf, hfB⟩ := whole_series a B ha
  obtain ⟨g, hg, hgB⟩ := whole_series b B hb
  rw [← hab] at hg hgB
  have h := calculateAverageDifference_whole a b f g B hab hf hg hfB hgB hB hn
  rw [hd] at h
  exact Except.ok.inj h

end Binary64

/-- C18, as amended: for sequences of at least 2 points each, with `a` and
`b` the index-paired values of a metric (the first `min` points of each
sequence), `analyzeCorrelation` reports as correlation the two-decimal
rendering of `|r|`, where `r` is the double `calculateCorrelation(a, b)`
returns (0 when a computed sum of squares is 0, else the rounded quotient of
the computed sums); the description is `closely match` iff `|r|` is above
the double 0.8, `moderate agreement` iff it is above 0.5 and not above 0.8,
`some agreement` iff it is above the double 0.3 and not above 0.5, and
`differs significantly` otherwise; the difference reported is the
one-decimal rendering of the double `calculateAverageDifference(a, b)`
returns, the rounded sum of the `|a[i] - b[i]|` divided by their number;
on paired values that are whole numbers of magnitude at most `B`, with
`n * 2B < 2^53`, that double is the mean of the `|a[i] - b[i]|` rounded
once. -/
theorem analyzeCorrelation_report_double (sh : List DataPoint) (ext : List ExternalPoint)
    (hs : 2 ≤ sh.length) (he : 2 ≤ ext.length) :
    ∃ (result : CorrelationResult) (rT rH dT dH : JsNum),
      Binary64.analyzeCorrelation (some sh) (some ext) = .ok result ∧
      (Binary64.calculateCorrelation ((sh.zip ext).map fun d => d.1.temperature)
          ((sh.zip ext).map fun d => d.2.temperature) = .ok rT ∧
        Binary64.calculateAverageDifference ((sh.zip ext).map fun d => d.1.temperature)
          ((sh.zip ext).map fun d => d.2.temperature) = .ok dT ∧
        result.temperature.correlation = JsNum.toFixed 2 (JsNum.abs rT) ∧
        (result.temperature.description
            = "SenseHat temperature readings closely match external data"
          ↔ JsNum.gt (JsNum.abs rT) (Binary64.num (4 / 5)) = true) ∧
        (result.temperature.description
            = "SenseHat temperature shows moderate agreement with external data"
          ↔ JsNum.gt (JsNum.abs rT) (Binary64.num (4 / 5)) = false ∧
            JsNum.gt (JsNum.abs rT) (Binary64.num (1 / 2)) = true) ∧
        (result.temperature.description
            = "SenseHat temperature shows some agreement with external data"
          ↔ JsNum.gt (JsNum.abs rT) (Binary64.num (4 / 5)) = false ∧
            JsNum.gt (JsNum.abs rT) (Binary64.num (1 / 2)) = false ∧
            JsNum.gt (JsNum.abs rT) (Binary64.num (3 / 10)) = true) ∧
        (result.temperature.description
            = "SenseHat temperature differs significantly from external data"
          ↔ JsNum.gt (JsNum.abs rT) (Binary64.num (4 / 5)) = false ∧
            JsNum.gt (JsNum.abs rT) (Binary64.num (1 / 2)) = false ∧
            JsNum.gt (JsNum.abs rT) (Binary64.num (3 / 10)) = false) ∧
        result.temperature.difference = some (JsNum.toFixed 1 dT) ∧
        (∀ B : ℤ,
          (∀ v ∈ (sh.zip ext).map (fun d => d.1.temperature), ∃ z : ℤ, v = (z : ℚ) ∧ |z| ≤ B) →
          (∀ v ∈ (sh.zip ext).map (fun d => d.2.temperature), ∃ z : ℤ, v = (z : ℚ) ∧ |z| ≤ B) →
          ((sh.zip ext).length : ℤ) * (2 * B) < 2 ^ 53 →
          dT = Binary64.round (meanAbsDiff ((sh.zip ext).map fun d => d.1.temperature)
            ((sh.zip ext).map fun d => d.2.temperature)))) ∧
      (Binary64.calculateCorrelation ((sh.zip ext).map fun d => d.1.humidity)
          ((sh.zip ext).map fun d => d.2.humidity) = .ok rH ∧
        Binary64.calculateAverageDifference ((sh.zip ext).map fun d => d.1.humidity)
          ((sh.zip ext).map fun d => d.2.humidity) = .ok dH ∧
        result.humidity.correlation = JsNum.toFixed 2 (JsNum.abs rH) ∧
        (result.humidity.description
            = "SenseHat humidity readings closely match external data"
          ↔ JsNum.gt (JsNum.abs rH) (Binary64.num (4 / 5)) = true) ∧
        (result.humidity.description
            = "SenseHat humidity shows moderate agreement with external data"
          ↔ JsNum.gt (JsNum.abs rH) (Binary64.num (4 / 5)) = false ∧
            JsNum.gt (JsNum.abs rH) (Binary64.num (1 / 2)) = true) ∧
        (result.humidity.description
            = "SenseHat humidity shows some agreement with external data"
          ↔ JsNum.gt (JsNum.abs rH) (Binary64.num (4 / 5)) = false ∧
            JsNum.gt (JsNum.abs rH) (Binary64.num (1 / 2)) = false ∧
            JsNum.gt (JsNum.abs rH) (Binary64.num (3 / 10)) = true) ∧
        (result.humidity.description
            = "SenseHat humidity differs significantly from external data"
          ↔ JsNum.gt (JsNum.abs rH) (Binary64.num (4 / 5)) = false ∧
            JsNum.gt (JsNum.abs rH) (Binary64.num (1 / 2)) = false ∧
            JsNum.gt (JsNum.abs rH) (Binary64.num (3 / 10)) = false) ∧
        result.humidity.difference = some (JsNum.toFixed 1 dH) ∧
        (∀ B : ℤ,
          (∀ v ∈ (sh.zip ext).map (fun d => d.1.humidity), ∃ z : ℤ, v = (z : ℚ) ∧ |z| ≤ B) →
          (∀ v ∈ (sh.zip ext).map (fun d => d.2.humidity), ∃ z : ℤ, v = (z : ℚ) ∧ |z| ≤ B) →
          ((sh.zip ext).length : ℤ) * (2 * B) < 2 ^ 53 →
          dH = Binary64.round (meanAbsDiff ((sh.zip ext).map fun d => d.1.humidity)
            ((sh.zip ext).map fun d => d.2.humidity)))) := by
  have hT := Binary64.calculateCorrelation_ok ((sh.zip ext).map fun d => d.1.temperature)
    ((sh.zip ext).map fun d => d.2.temperature) (by simp)
  have hH := Binary64.calculateCorrelation_ok ((sh.zip ext).map fun d => d.1.humidity)
    ((sh.zip ext).map fun d => d.2.humidity) (by simp)
  have hdT := Binary64.calculateAverageDifference_ok ((sh.zip ext).map fun d => d.1.temperature)
    ((sh.zip ext).map fun d => d.2.temperature) (by simp)
  have hdH := Binary64.calculateAverageDifference_ok ((sh.zip ext).map fun d => d.1.humidity)
    ((sh.zip ext).map fun d => d.2.humidity) (by simp)
  obtain ⟨i1, i2, i3, i4⟩ := Binary64.label_cases
    (Binary64.getCorrelationDescription _ "temperature") _ _ _ _ _ _ _
    (by decide) (by decide) (by decide) (by decide) (by decide) (by decide) rfl
  obtain ⟨j1, j2, j3, j4⟩ := Binary64.label_cases
    (Binary64.getCorrelationDescription _ "humidity") _ _ _ _ _ _ _
    (by decide) (by decide) (by decide) (by decide) (by decide) (by decide) rfl
  have hlen : (sh.zip ext).length ≠ 0 := by
    rw [List.length_zip]
    omega
  refine ⟨_, _, _, _, _, Binary64.analyzeCorrelation_double_eq sh ext hs he _ _ _ _ hT hH hdT hdH,
    ⟨hT, hdT, rfl, i1, i2, i3, i4, rfl, ?_⟩, ⟨hH, hdH, rfl, j1, j2, j3, j4, rfl, ?_⟩⟩
  · intro B ha hb hB
    exact Binary64.averageDifference_of_whole _ _ B (by simp) (by simpa using hlen) _ hdT ha hb
      (by simpa using hB)
  · intro B ha hb hB
    exact Binary64.averageDifference_of_whole _ _ B (by simp) (by simpa using hlen) _ hdH ha hb
      (by simpa using hB)

/-- Witness of C18 as amended: on the sample the temperature coefficient
computed, 0.9285714285714288, is reported as 0.93 and labelled `closely
match`, the mean difference 0.3333333333333333 is reported as 0.3; the
external humidity is constant at 40, the coefficient is 0 and the label
`differs significantly`. -/
theorem analyzeCorrelation_report_double_witness :
    2 ≤ senseSample.length ∧ 2 ≤ externalSample.length ∧
    (∃ result : CorrelationResult,
      Binary64.analyzeCorrelation (some senseSample) (some externalSample) = .ok result) ∧
    Binary64.analyzeCorrelation (some senseSample) (some externalSample)
      = .ok
        { temperature :=
            { correlation := JsNum.fin (93 / 100)
              description := "SenseHat temperature readings closely match external data"
              difference := some (JsNum.fin (3 / 10)) }
          humidity :=
            { correlation := JsNum.fin 0
              description := "SenseHat humidity differs significantly from external data"
              difference := some (JsNum.fin 5) } } := by
  obtain ⟨result, rT, rH, dT, dH, h, -⟩ :=
    analyzeCorrelation_report_double senseSample externalSample (by decide) (by decide)
  exact ⟨by decide, by decide, ⟨result, h⟩, by decide!⟩

/-! ## Theorems: anomalies in double arithmetic -/

namespace Binary64

/-- The list `detectAnomalies` returns on 5 readings or more: the temperature
entry, the pressure entry and the humidity entry, each present or not. -/
theorem detectAnomalies_double_eq (data : List DataPoint) (hn : 5 ≤ data.length) :
    detectAnomalies (some data) =
      (if JsNum.gt
          (JsNum.abs (sub (num (latestOf (data.map fun d => d.temperature)))
            (calculateStats (data.map fun d => d.temperature)).mean))
          (mul (calculateStats (data.map fun d => d.temperature)).stdDev (JsNum.fin 2)) then
        [{ type := "temperature"
           description := .unusualTemperature
             (JsNum.toFixed 1 (num (latestOf (data.map fun d => d.temperature))))
           confidence := calculateAnomalyConfidence
             (num (latestOf (data.map fun d => d.temperature)))
             (calculateStats (data.map fun d => d.temperature)) }]
       else []) ++
      (if JsNum.gt
          (JsNum.abs (sub (num (latestOf (data.map fun d => d.pressure)))
            (num ((data.map fun d => d.pressure).getD (data.length - 3) 0))))
          (JsNum.fin 6) then
        [{ type := "pressure"
           description := .rapidPressure
             (if JsNum.gt
                 (sub (num (latestOf (data.map fun d => d.pressure)))
                   (num ((data.map fun d => d.pressure).getD (data.length - 3) 0)))
                 (JsNum.fin 0)
              then "increase" else "decrease")
             (JsNum.toFixed 1
               (JsNum.abs (sub (num (latestOf (data.map fun d => d.pressure)))
                 (num ((data.map fun d => d.pressure).getD (data.length - 3) 0)))))
           confidence :=
             JsNum.min
               (mul
                 (JsNum.abs (sub (num (latestOf (data.map fun d => d.pressure)))
                   (num ((data.map fun d => d.pressure).getD (data.length - 3) 0))))
                 (JsNum.fin 5))
               (JsNum.fin 95) }]
       else []) ++
      (if JsNum.gt (num (latestOf (data.map fun d => d.humidity))) (JsNum.fin 95) then
        [{ type := "humidity"
           description := .text "Very high humidity, precipitation likely"
           confidence := JsNum.fin 85 }]
       else if JsNum.lt (num (latestOf (data.map fun d => d.humidity))) (JsNum.fin 20) then
        [{ type := "humidity"
           description := .text "Extremely dry conditions"
           confidence := JsNum.fin 90 }]
       else []) := by
  have h5 : ¬ data.length < 5 := by omega
  have h3 : data.length > 3 := by omega
  simp only [detectAnomalies, if_neg h5, if_pos h3, latestOf, List.length_map]

end Binary64

namespace Binary64

theorem three_entries (cT cP cH1 cH2 : Prop) [Decidable cT] [Decidable cP] [Decidable cH1]
    [Decidable cH2] (t p h1 h2 : Anomaly) (ht : t.type = "temperature")
    (hp : p.type = "pressure") (hh1 : h1.type = "humidity") (hh2 : h2.type = "humidity")
    (L : List Anomaly)
    (hL : L = (if cT then [t] else []) ++ (if cP then [p] else []) ++
      (if cH1 then [h1] else if cH2 then [h2] else [])) :
    ((∃ x ∈ L, x.type = "temperature") ↔ cT) ∧
    (∀ x ∈ L, x.type = "temperature" → x = t) ∧
    ((∃ x ∈ L, x.type = "pressure") ↔ cP) ∧
    (∀ x ∈ L, x.type = "pressure" → x = p) ∧
    (∀ x ∈ L, x.type = "humidity" → (cH1 ∧ x = h1) ∨ (¬ cH1 ∧ cH2 ∧ x = h2)) ∧
    (cH1 → h1 ∈ L) ∧ (¬ cH1 → cH2 → h2 ∈ L) := by
  have e1 : ("temperature" : String) ≠ "pressure" := by decide
  have e2 : ("temperature" : String) ≠ "humidity" := by decide
  have e3 : ("pressure" : String) ≠ "humidity" := by decide
  have mem : ∀ x, x ∈ L ↔ (cT ∧ x = t) ∨ (cP ∧ x = p) ∨ (cH1 ∧ x = h1) ∨ (¬ cH1 ∧ cH2 ∧ x = h2) := by
    intro x
    subst hL
    by_cases a : cT <;> by_cases b : cP <;> by_cases c : cH1 <;> by_cases d : cH2 <;>
      simp [a, b, c, d]
  refine ⟨⟨?_, fun h => ⟨t, (mem t).2 (Or.inl ⟨h, rfl⟩), ht⟩⟩, ?_, ⟨?_, fun h => ⟨p, (mem p).2 (Or.inr (Or.inl ⟨h, rfl⟩)), hp⟩⟩, ?_, ?_,
    fun h => (mem h1).2 (Or.inr (Or.inr (Or.inl ⟨h, rfl⟩))),
    fun h h' => (mem h2).2 (Or.inr (Or.inr (Or.inr ⟨h, h', rfl⟩)))⟩
  · rintro ⟨x, hx, hty⟩
    rcases (mem x).1 hx with ⟨h, -⟩ | ⟨-, rfl⟩ | ⟨-, rfl⟩ | ⟨-, -, rfl⟩
    · exact h
    · exact absurd (hp.symm.trans hty) e1.symm
    · exact absurd (hh1.symm.trans hty) e2.symm
    · exact absurd (hh2.symm.trans hty) e2.symm
  · intro x hx hty
    rcases (mem x).1 hx with ⟨-, h⟩ | ⟨-, rfl⟩ | ⟨-, rfl⟩ | ⟨-, -, rfl⟩
    · exact h
    · exact absurd (hp.symm.trans hty) e1.symm
    · exact absurd (hh1.symm.trans hty) e2.symm
    · exact absurd (hh2.symm.trans hty) e2.symm
  · rintro ⟨x, hx, hty⟩
    rcases (mem x).1 hx with ⟨-, rfl⟩ | ⟨h, -⟩ | ⟨-, rfl⟩ | ⟨-, -, rfl⟩
    · exact absurd (ht.symm.trans hty) e1
    · exact h
    · exact absurd (hh1.symm.trans hty) e3.symm
    · exact absurd (hh2.symm.trans hty) e3.symm
  · intro x hx hty
    rcases (mem x).1 hx with ⟨-, rfl⟩ | ⟨-, h⟩ | ⟨-, rfl⟩ | ⟨-, -, rfl⟩
    · exact absurd (ht.symm.trans hty) e1
    · exact h
    · exact absurd (hh1.symm.trans hty) e3.symm
    · exact absurd (hh2.symm.trans hty) e3.symm
  · intro x hx hty
    rcases (mem x).1 hx with ⟨-, rfl⟩ | ⟨-, rfl⟩ | h | h
    · exact absurd (ht.symm.trans hty) e2
    · exact absurd (hp.symm.trans hty) e3
    · exact Or.inl h
    · exact Or.inr h

end Binary64

/-- C13, as amended: on at least 5 readings, with `latest` the double read
from the latest temperature, `mean` the rounded sum of the temperatures
divided by their number and `stdDev` the square root of the mean of the
computed squared deviations, all in double arithmetic, `detectAnomalies`
reports a temperature anomaly iff the computed `|latest - mean|` is above
the computed `stdDev * 2`; when it does, the confidence is the rendering
with no decimals of the double `min((|latest - mean| / stdDev) * 25, 95)`;
on a series constant at a whole number `c`, with `n * |c| < 2^53`, the mean
computed is `c`, the standard deviation computed is 0 and no temperature
anomaly is reported, so the division by `stdDev` is not evaluated. -/
theorem temperature_anomaly_double (data : List DataPoint) (hn : 5 ≤ data.length) :
    (Binary64.calculateStats (data.map fun d => d.temperature)).mean
      = Binary64.div (Binary64.sumOf (data.map fun d => d.temperature)) (JsNum.fin data.length) ∧
    (Binary64.calculateStats (data.map fun d => d.temperature)).stdDev
      = Binary64.sqrt
          (Binary64.div
            ((List.range data.length).foldl
              (fun (acc : JsNum) (i : Nat) =>
                Binary64.add acc
                  (Binary64.sq
                    (Binary64.sub (Binary64.num ((data.map fun d => d.temperature).getD i 0))
                      (Binary64.calculateStats (data.map fun d => d.temperature)).mean)))
              (JsNum.fin 0))
            (JsNum.fin data.length)) ∧
    ((∃ x ∈ Binary64.detectAnomalies (some data), x.type = "temperature") ↔
      JsNum.gt
        (JsNum.abs
          (Binary64.sub (Binary64.num (latestOf (data.map fun d => d.temperature)))
            (Binary64.calculateStats (data.map fun d => d.temperature)).mean))
        (Binary64.mul (Binary64.calculateStats (data.map fun d => d.temperature)).stdDev
          (JsNum.fin 2)) = true) ∧
    (∀ x ∈ Binary64.detectAnomalies (some data), x.type = "temperature" →
      x.confidence
        = JsNum.toFixed 0
            (JsNum.min
              (Binary64.mul
                (Binary64.div
                  (JsNum.abs
                    (Binary64.sub (Binary64.num (latestOf (data.map fun d => d.temperature)))
                      (Binary64.calculateStats (data.map fun d => d.temperature)).mean))
                  (Binary64.calculateStats (data.map fun d => d.temperature)).stdDev)
                (JsNum.fin 25))
              (JsNum.fin 95))) ∧
    (∀ c : ℤ, (data.length : ℤ) * |c| < 2 ^ 53 → (∀ d ∈ data, d.temperature = (c : ℚ)) →
      (Binary64.calculateStats (data.map fun d => d.temperature)).mean = JsNum.fin c ∧
      (Binary64.calculateStats (data.map fun d => d.temperature)).stdDev = JsNum.fin 0 ∧
      ∀ x ∈ Binary64.detectAnomalies (some data), x.type ≠ "temperature") := by
  obtain ⟨hT, hTeq, -, -, -, -, -⟩ :=
    Binary64.three_entries _ _ _ _ _ _ _ _ rfl rfl rfl rfl _ (Binary64.detectAnomalies_double_eq data hn)
  refine ⟨?_, ?_, hT, ?_, ?_⟩
  · simp only [Binary64.calculateStats, List.length_map]
  · simp only [Binary64.calculateStats, List.length_map]
  · intro x hx ht
    rw [hTeq x hx ht]
    rfl
  · intro c hb hc
    have hl : ∀ v ∈ (data.map fun d => d.temperature), v = (c : ℚ) := by
      intro v hv
      obtain ⟨d, hd, rfl⟩ := List.mem_map.1 hv
      exact hc d hd
    have hlen : (data.map fun d => d.temperature).length = data.length := List.length_map _ _
    have hn0 : (data.map fun d => d.temperature).length ≠ 0 := by rw [hlen]; omega
    obtain ⟨hm, hs⟩ := Binary64.calculateStats_const c _ hl hn0 (by rw [hlen]; exact hb)
    refine ⟨hm, hs, ?_⟩
    intro x hx ht
    have hgt := hT.1 ⟨x, hx, ht⟩
    have hc53 : |c| < 2 ^ 53 := by
      have h1 : (1 : ℤ) ≤ (data.length : ℤ) := by
        have : 1 ≤ data.length := by omega
        exact_mod_cast this
      have hc0 : (0 : ℤ) ≤ |c| := abs_nonneg c
      nlinarith
    have hlatest : latestOf (data.map fun d => d.temperature) = (c : ℚ) := by
      unfold latestOf
      exact Binary64.getD_of_const _ _ hl _ (by omega)
    rw [hm, hs, hlatest, Binary64.num_int c hc53, Binary64.sub_fin, sub_self, Binary64.round_zero,
      Binary64.mul_fin, zero_mul, Binary64.round_zero] at hgt
    revert hgt
    decide!

/-- Witness of C13 as amended: on temperatures 0, 0, 0, 0, 0, 6 the anomaly
is reported, with confidence 56; on five points at 20 the mean is 20, the
standard deviation 0 and no temperature anomaly is reported. -/
theorem temperature_anomaly_double_witness :
    5 ≤ (anomalySample true false false).length ∧
    (∃ x ∈ Binary64.detectAnomalies (some (anomalySample true false false)),
      x.type = "temperature") ∧
    Binary64.detectAnomalies (some (anomalySample true false false))
      = [{ type := "temperature", description := .unusualTemperature (JsNum.fin 6),
           confidence := JsNum.fin 56 }] ∧
    5 ≤ constantPoints.length ∧
    (Binary64.calculateStats (constantPoints.map fun d => d.temperature)).mean
      = JsNum.fin ((20 : ℤ) : ℚ) ∧
    (Binary64.calculateStats (constantPoints.map fun d => d.temperature)).stdDev = JsNum.fin 0 ∧
    (∀ x ∈ Binary64.detectAnomalies (some constantPoints), x.type ≠ "temperature") :=
  ⟨by decide,
   (temperature_anomaly_double (anomalySample true false false) (by decide)).2.2.1.2 (by decide!),
   by decide!, by decide,
   ((temperature_anomaly_double constantPoints (by decide)).2.2.2.2 20 (by decide)
     (by decide!)).1,
   ((temperature_anomaly_double constantPoints (by decide)).2.2.2.2 20 (by decide)
     (by decide!)).2.1,
   ((temperature_anomaly_double constantPoints (by decide)).2.2.2.2 20 (by decide)
     (by decide!)).2.2⟩

/-- C16, as amended: on at least 5 readings, with `p1` and `p3` the doubles
read from the pressures `p[n-1]` and `p[n-3]` and `h` the double read from
the latest humidity, `detectAnomalies` reports a pressure anomaly iff the
computed `|p1 - p3|`, a rounded difference, is above 6, with confidence the
double `min(|p1 - p3| * 5, 95)` and wording `increase` when the computed
difference is positive and `decrease` otherwise; when both pressures are at
least 300, as those of every stored reading are, the test is that of the
exact difference, `|p1 - p3| > 6`, the wording is `increase` iff
`p1 > p3`, and the difference is computed exactly when it is below 512 in
magnitude. A humidity anomaly with confidence 85 is reported iff `h > 95`,
and with confidence 90 iff `h < 20`. The list returned is the temperature
entry, the pressure entry and the humidity entry, each present on its own
test only, and every subset of the three types occurs: `anomalySample t p h`
reports exactly the types switched on. -/
theorem pressure_humidity_anomalies_double (data : List DataPoint) (hn : 5 ≤ data.length)
    (p1 p3 h : ℚ)
    (hp1 : Binary64.num (latestOf (data.map fun d => d.pressure)) = JsNum.fin p1)
    (hp3 : Binary64.num ((data.map fun d => d.pressure).getD (data.length - 3) 0) = JsNum.fin p3)
    (hh : Binary64.num (latestOf (data.map fun d => d.humidity)) = JsNum.fin h) :
    ((∃ x ∈ Binary64.detectAnomalies (some data), x.type = "pressure") ↔
      JsNum.gt (JsNum.abs (Binary64.sub (JsNum.fin p1) (JsNum.fin p3))) (JsNum.fin 6) = true) ∧
    (∀ x ∈ Binary64.detectAnomalies (some data), x.type = "pressure" →
      x.confidence
        = JsNum.min
            (Binary64.mul (JsNum.abs (Binary64.sub (JsNum.fin p1) (JsNum.fin p3))) (JsNum.fin 5))
            (JsNum.fin 95) ∧
      x.description
        = .rapidPressure
            (if JsNum.gt (Binary64.sub (JsNum.fin p1) (JsNum.fin p3)) (JsNum.fin 0) then "increase"
              else "decrease")
            (JsNum.toFixed 1 (JsNum.abs (Binary64.sub (JsNum.fin p1) (JsNum.fin p3))))) ∧
    (300 ≤ p1 → 300 ≤ p3 →
      ((∃ x ∈ Binary64.detectAnomalies (some data), x.type = "pressure") ↔ 6 < |p1 - p3|) ∧
      (JsNum.gt (Binary64.sub (JsNum.fin p1) (JsNum.fin p3)) (JsNum.fin 0) = true ↔ p3 < p1) ∧
      (|p1 - p3| < 512 → Binary64.sub (JsNum.fin p1) (JsNum.fin p3) = JsNum.fin (p1 - p3))) ∧
    ((∃ x ∈ Binary64.detectAnomalies (some data),
        x.type = "humidity" ∧ x.confidence = JsNum.fin 85) ↔ 95 < h) ∧
    ((∃ x ∈ Binary64.detectAnomalies (some data),
        x.type = "humidity" ∧ x.confidence = JsNum.fin 90) ↔ h < 20) ∧
    (∃ temperaturePart pressurePart humidityPart : List Anomaly,
      Binary64.detectAnomalies (some data) = temperaturePart ++ pressurePart ++ humidityPart ∧
      (∀ x ∈ temperaturePart, x.type = "temperature") ∧
      (∀ x ∈ pressurePart, x.type = "pressure") ∧
      (∀ x ∈ humidityPart, x.type = "humidity") ∧
      temperaturePart.length ≤ 1 ∧ pressurePart.length ≤ 1 ∧ humidityPart.length ≤ 1) ∧
    (∀ t p h : Bool,
      5 ≤ (anomalySample t p h).length ∧
      (Binary64.detectAnomalies (some (anomalySample t p h))).map (fun x => x.type)
        = (if t then ["temperature"] else []) ++ (if p then ["pressure"] else []) ++
          (if h then ["humidity"] else [])) := by
  have heq := Binary64.detectAnomalies_double_eq data hn
  obtain ⟨-, -, hP, hPeq, hH, hH1, hH2⟩ :=
    Binary64.three_entries _ _ _ _ _ _ _ _ rfl rfl rfl rfl _ heq
  rw [hp1, hp3] at hP hPeq
  rw [hh] at hH hH1 hH2
  have h8590 : JsNum.fin 85 ≠ JsNum.fin 90 := by decide!
  have hgt95 : JsNum.gt (JsNum.fin h) (JsNum.fin 95) = true ↔ 95 < h := by
    simp only [JsNum.gt, JsNum.lt, decide_eq_true_eq]
  have hlt20 : JsNum.lt (JsNum.fin h) (JsNum.fin 20) = true ↔ h < 20 := by
    simp only [JsNum.lt, decide_eq_true_eq]
  refine ⟨hP, ?_, ?_, ?_, ?_, ?_, by decide!⟩
  · intro x hx ht
    rw [hPeq x hx ht]
    exact ⟨rfl, rfl⟩
  · intro l1 l3
    obtain ⟨t1, t2⟩ := Binary64.pressure_test_exact hp1 hp3 l1 l3
    exact ⟨hP.trans t1, t2, fun hd => by
      rw [Binary64.sub_fin]; exact Binary64.sub_exact_in_range hp1 hp3 l1 l3 hd⟩
  · constructor
    · rintro ⟨x, hx, ht, hc⟩
      rcases hH x hx ht with ⟨hc1, -⟩ | ⟨-, -, rfl⟩
      · exact hgt95.1 hc1
      · exact absurd hc.symm h8590
    · intro h95
      exact ⟨_, hH1 (hgt95.2 h95), rfl, rfl⟩
  · constructor
    · rintro ⟨x, hx, ht, hc⟩
      rcases hH x hx ht with ⟨-, rfl⟩ | ⟨-, hc2, -⟩
      · exact absurd hc h8590
      · exact hlt20.1 hc2
    · intro h20
      have hn95 : ¬ JsNum.gt (JsNum.fin h) (JsNum.fin 95) = true := by
        rw [hgt95]
        linarith
      exact ⟨_, hH2 hn95 (hlt20.2 h20), rfl, rfl⟩
  · refine ⟨_, _, _, heq, ?_, ?_, ?_, ?_, ?_, ?_⟩
    · intro x hx
      obtain ⟨-, rfl⟩ := mem_ite_singleton.1 hx
      rfl
    · intro x hx
      obtain ⟨-, rfl⟩ := mem_ite_singleton.1 hx
      rfl
    · intro x hx
      split_ifs at hx with c1 c2
      · rw [List.mem_singleton.1 hx]
      · rw [List.mem_singleton.1 hx]
      · exact absurd hx (List.not_mem_nil _)
    · split_ifs <;> simp
    · split_ifs <;> simp
    · split_ifs <;> simp

/-- Witness of C16 as amended: the sample with the three anomalies switched
on reports a pressure entry (a decrease of 13, confidence 65) and a humidity
entry of confidence 85; its pressures 1000 and 1013 are at least 300 and
differ by more than 6. -/
theorem pressure_humidity_anomalies_double_witness :
    5 ≤ (anomalySample true true true).length ∧
    Binary64.num (latestOf ((anomalySample true true true).map fun d => d.pressure))
      = JsNum.fin 1000 ∧
    Binary64.num (((anomalySample true true true).map fun d => d.pressure).getD
        ((anomalySample true true true).length - 3) 0) = JsNum.fin 1013 ∧
    Binary64.num (latestOf ((anomalySample true true true).map fun d => d.humidity))
      = JsNum.fin 99 ∧
    (∃ x ∈ Binary64.detectAnomalies (some (anomalySample true true true)), x.type = "pressure") ∧
    Binary64.detectAnomalies (some (anomalySample true true true))
      = [{ type := "temperature", description := .unusualTemperature (JsNum.fin 6),
           confidence := JsNum.fin 56 },
         { type := "pressure", description := .rapidPressure "decrease" (JsNum.fin 13),
           confidence := JsNum.fin 65 },
         { type := "humidity", description := .text "Very high humidity, precipitation likely",
           confidence := JsNum.fin 85 }] :=
  ⟨by decide, by decide!, by decide!, by decide!,
   ((pressure_humidity_anomalies_double (anomalySample true true true) (by decide) 1000 1013 99
     (by decide!) (by decide!) (by decide!)).2.2.1 (by norm_num) (by norm_num)).1.2
     (by norm_num [abs_of_neg]),
   by decide!⟩

end WeatherLab
